import Mathlib

/-!
The request path of rtsx, the Realtek PCI card-reader driver.

A shallow embedding of `rtsx.c`.  Machine integers are natural numbers, reduced
modulo `2^w` where the C code truncates.  DMA memory is a map from byte offsets
to bytes.  The chip, the interrupt handler and the card task are an abstract
`machine` that the driver talks to through `READ4`, `WRITE4` and `msleep`.
-/

namespace Rtsx

-- ---------------------------------------------------------------------------
-- Constants defined in rtsx.c itself
-- ---------------------------------------------------------------------------

/-- Flag bit of `rtsx_flags`: a card is present (rtsx.c line 64). -/
def RTSX_F_CARD_PRESENT : Nat := 0x0001
/-- Flag bit of `rtsx_flags`: the chip supports SDIO (rtsx.c line 65). -/
def RTSX_F_SDIO_SUPPORT : Nat := 0x0002
/-- Largest block length of the short path (rtsx.c line 232). -/
def RTSX_MAX_DATA_BLKLEN : Nat := 512
/-- Capacity of the command descriptor buffer in words (rtsx.c line 235). -/
def RTSX_HOSTCMD_MAX : Nat := 256

-- ---------------------------------------------------------------------------
-- Constants of <dev/mmc/mmcreg.h> (system header, values of the FreeBSD tree)
-- ---------------------------------------------------------------------------

/-- Modelled from the spec: `mmcreg.h` is not among the sources; response present bit. -/
def MMC_RSP_PRESENT : Nat := 1
/-- Modelled from the spec: `mmcreg.h` is not among the sources; 136-bit response bit. -/
def MMC_RSP_136 : Nat := 2
/-- Modelled from the spec: `mmcreg.h` is not among the sources; valid CRC expected bit. -/
def MMC_RSP_CRC : Nat := 4
/-- Modelled from the spec: `mmcreg.h` is not among the sources; card may send busy bit. -/
def MMC_RSP_BUSY : Nat := 8
/-- Modelled from the spec: `mmcreg.h` is not among the sources; response carries opcode bit. -/
def MMC_RSP_OPCODE : Nat := 16
/-- Modelled from the spec: `mmcreg.h` is not among the sources; mask of the response bits. -/
def MMC_RSP_MASK : Nat := 0x1f
/-- Modelled from the spec: `mmcreg.h` is not among the sources; shape "none". -/
def MMC_RSP_NONE : Nat := 0
/-- Modelled from the spec: `mmcreg.h` is not among the sources; shape R1. -/
def MMC_RSP_R1 : Nat := MMC_RSP_PRESENT ||| MMC_RSP_CRC ||| MMC_RSP_OPCODE
/-- Modelled from the spec: `mmcreg.h` is not among the sources; shape R1 with busy. -/
def MMC_RSP_R1B : Nat := MMC_RSP_PRESENT ||| MMC_RSP_CRC ||| MMC_RSP_OPCODE ||| MMC_RSP_BUSY
/-- Modelled from the spec: `mmcreg.h` is not among the sources; shape R2 (136 bits). -/
def MMC_RSP_R2 : Nat := MMC_RSP_PRESENT ||| MMC_RSP_136 ||| MMC_RSP_CRC
/-- Modelled from the spec: `mmcreg.h` is not among the sources; shape R3. -/
def MMC_RSP_R3 : Nat := MMC_RSP_PRESENT
/-- Modelled from the spec: `mmcreg.h` is not among the sources; shape R4. -/
def MMC_RSP_R4 : Nat := MMC_RSP_PRESENT
/-- Modelled from the spec: `mmcreg.h` is not among the sources; shape R5. -/
def MMC_RSP_R5 : Nat := MMC_RSP_PRESENT ||| MMC_RSP_CRC ||| MMC_RSP_OPCODE
/-- Modelled from the spec: `mmcreg.h` is not among the sources; shape R6. -/
def MMC_RSP_R6 : Nat := MMC_RSP_PRESENT ||| MMC_RSP_CRC ||| MMC_RSP_OPCODE
/-- Modelled from the spec: `mmcreg.h` is not among the sources; shape R7. -/
def MMC_RSP_R7 : Nat := MMC_RSP_PRESENT ||| MMC_RSP_CRC ||| MMC_RSP_OPCODE
/-- Modelled from the spec: `mmcreg.h` is not among the sources; data direction "read". -/
def MMC_DATA_READ : Nat := 1 <<< 9
/-- Modelled from the spec: `mmcreg.h` is not among the sources; success. -/
def MMC_ERR_NONE : Nat := 0
/-- Modelled from the spec: `mmcreg.h` is not among the sources; the spec's Timeout. -/
def MMC_ERR_TIMEOUT : Nat := 1
/-- Modelled from the spec: `mmcreg.h` is not among the sources; CRC error. -/
def MMC_ERR_BADCRC : Nat := 2
/-- Modelled from the spec: `mmcreg.h` is not among the sources; the spec's TransferFailure. -/
def MMC_ERR_FAILED : Nat := 4
/-- Modelled from the spec: `mmcreg.h` is not among the sources; the spec's InvalidArgument. -/
def MMC_ERR_INVALID : Nat := 5
/-- Modelled from the spec: `mmcreg.h` is not among the sources; the spec's resource-busy. -/
def MMC_ERR_MAX : Nat := 6
/-- Modelled from the spec: `mmcreg.h` is not among the sources; SDIO probe opcode (CMD5). -/
def IO_SEND_OP_COND : Nat := 5
/-- Modelled from the spec: `mmcreg.h` is not among the sources; multi-block read (CMD18). -/
def MMC_READ_MULTIPLE_BLOCK : Nat := 18

-- ---------------------------------------------------------------------------
-- Constants of "rtsxreg.h" (register header of the driver)
-- ---------------------------------------------------------------------------

/-- Modelled from the spec: `rtsxreg.h` is not among the sources; host command buffer address. -/
def RTSX_HCBAR : Nat := 0x00
/-- Modelled from the spec: `rtsxreg.h` is not among the sources; host command buffer control. -/
def RTSX_HCBCTLR : Nat := 0x04
/-- Modelled from the spec: `rtsxreg.h` is not among the sources; host data buffer address. -/
def RTSX_HDBAR : Nat := 0x08
/-- Modelled from the spec: `rtsxreg.h` is not among the sources; host data buffer control. -/
def RTSX_HDBCTLR : Nat := 0x0C
/-- Modelled from the spec: `rtsxreg.h` is not among the sources; host access to internal registers. -/
def RTSX_HAIMR : Nat := 0x10
/-- Modelled from the spec: `rtsxreg.h` is not among the sources; command trigger bit of HCBCTLR. -/
def RTSX_START_CMD : Nat := 1 <<< 31
/-- Modelled from the spec: `rtsxreg.h` is not among the sources; automatic response bit. -/
def RTSX_HW_AUTO_RSP : Nat := 1 <<< 30
/-- Modelled from the spec: `rtsxreg.h` is not among the sources; command engine stop bit. -/
def RTSX_STOP_CMD : Nat := 1 <<< 28
/-- Modelled from the spec: `rtsxreg.h` is not among the sources; DMA trigger bit of HDBCTLR. -/
def RTSX_TRIG_DMA : Nat := 1 <<< 31
/-- Modelled from the spec: `rtsxreg.h` is not among the sources; DMA direction bit of HDBCTLR. -/
def RTSX_DMA_READ : Nat := 1 <<< 29
/-- Modelled from the spec: `rtsxreg.h` is not among the sources; DMA engine stop bit. -/
def RTSX_STOP_DMA : Nat := 1 <<< 28
/-- Modelled from the spec: `rtsxreg.h` is not among the sources; busy bit of HAIMR. -/
def RTSX_HAIMR_BUSY : Nat := 1 <<< 31
/-- Modelled from the spec: `rtsxreg.h` is not among the sources; write bit of HAIMR. -/
def RTSX_HAIMR_WRITE : Nat := 1 <<< 30
/-- Modelled from the spec: `rtsxreg.h` is not among the sources; transfer-complete interrupt bit. -/
def RTSX_TRANS_OK_INT : Nat := 1 <<< 29
/-- Modelled from the spec: `rtsxreg.h` is not among the sources; transfer-failure interrupt bit. -/
def RTSX_TRANS_FAIL_INT : Nat := 1 <<< 28

/-- Modelled from the spec: `rtsxreg.h` is not among the sources; micro-op "read register". -/
def RTSX_READ_REG_CMD : Nat := 0
/-- Modelled from the spec: `rtsxreg.h` is not among the sources; micro-op "write register". -/
def RTSX_WRITE_REG_CMD : Nat := 1
/-- Modelled from the spec: `rtsxreg.h` is not among the sources; micro-op "check register". -/
def RTSX_CHECK_REG_CMD : Nat := 2

/-- Modelled from the spec: `rtsxreg.h` is not among the sources; second ping-pong buffer window. -/
def RTSX_PPBUF_BASE2 : Nat := 0xFA00
/-- Modelled from the spec: `rtsxreg.h` is not among the sources; card stop register. -/
def RTSX_CARD_STOP : Nat := 0xFD54
/-- Modelled from the spec: `rtsxreg.h` is not among the sources; data source select register. -/
def RTSX_CARD_DATA_SOURCE : Nat := 0xFD5B
/-- Modelled from the spec: `rtsxreg.h` is not among the sources; SD configuration register 2. -/
def RTSX_SD_CFG2 : Nat := 0xFDA1
/-- Modelled from the spec: `rtsxreg.h` is not among the sources; SD status register 1. -/
def RTSX_SD_STAT1 : Nat := 0xFDA3
/-- Modelled from the spec: `rtsxreg.h` is not among the sources; command shadow register 0. -/
def RTSX_SD_CMD0 : Nat := 0xFDA9
/-- Modelled from the spec: `rtsxreg.h` is not among the sources; command shadow register 1. -/
def RTSX_SD_CMD1 : Nat := 0xFDAA
/-- Modelled from the spec: `rtsxreg.h` is not among the sources; command shadow register 2. -/
def RTSX_SD_CMD2 : Nat := 0xFDAB
/-- Modelled from the spec: `rtsxreg.h` is not among the sources; command shadow register 3. -/
def RTSX_SD_CMD3 : Nat := 0xFDAC
/-- Modelled from the spec: `rtsxreg.h` is not among the sources; command shadow register 4. -/
def RTSX_SD_CMD4 : Nat := 0xFDAD
/-- Modelled from the spec: `rtsxreg.h` is not among the sources; byte count, low byte. -/
def RTSX_SD_BYTE_CNT_L : Nat := 0xFDAF
/-- Modelled from the spec: `rtsxreg.h` is not among the sources; byte count, high byte. -/
def RTSX_SD_BYTE_CNT_H : Nat := 0xFDB0
/-- Modelled from the spec: `rtsxreg.h` is not among the sources; block count, low byte. -/
def RTSX_SD_BLOCK_CNT_L : Nat := 0xFDB1
/-- Modelled from the spec: `rtsxreg.h` is not among the sources; block count, high byte. -/
def RTSX_SD_BLOCK_CNT_H : Nat := 0xFDB2
/-- Modelled from the spec: `rtsxreg.h` is not among the sources; SD transfer register. -/
def RTSX_SD_TRANSFER : Nat := 0xFDB3
/-- Modelled from the spec: `rtsxreg.h` is not among the sources; interrupt status register 0. -/
def RTSX_IRQSTAT0 : Nat := 0xFE21
/-- Modelled from the spec: `rtsxreg.h` is not among the sources; DMA transfer count, byte 0. -/
def RTSX_DMATC0 : Nat := 0xFE28
/-- Modelled from the spec: `rtsxreg.h` is not among the sources; DMA transfer count, byte 1. -/
def RTSX_DMATC1 : Nat := 0xFE29
/-- Modelled from the spec: `rtsxreg.h` is not among the sources; DMA transfer count, byte 2. -/
def RTSX_DMATC2 : Nat := 0xFE2A
/-- Modelled from the spec: `rtsxreg.h` is not among the sources; DMA transfer count, byte 3. -/
def RTSX_DMATC3 : Nat := 0xFE2B
/-- Modelled from the spec: `rtsxreg.h` is not among the sources; DMA control register. -/
def RTSX_DMACTL : Nat := 0xFE2C
/-- Modelled from the spec: `rtsxreg.h` is not among the sources; ring buffer control register. -/
def RTSX_RBCTL : Nat := 0xFE34

/-- Modelled from the spec: `rtsxreg.h` is not among the sources; start bit of SD_CMD0. -/
def RTSX_SD_CMD_START : Nat := 0x40
/-- Modelled from the spec: `rtsxreg.h` is not among the sources; SD_CFG2 CRC7 calculation on. -/
def RTSX_SD_CALCULATE_CRC7 : Nat := 0x00
/-- Modelled from the spec: `rtsxreg.h` is not among the sources; SD_CFG2 CRC7 calculation off. -/
def RTSX_SD_NO_CALCULATE_CRC7 : Nat := 0x80
/-- Modelled from the spec: `rtsxreg.h` is not among the sources; SD_CFG2 CRC16 check on. -/
def RTSX_SD_CHECK_CRC16 : Nat := 0x00
/-- Modelled from the spec: `rtsxreg.h` is not among the sources; SD_CFG2 do not wait busy end. -/
def RTSX_SD_NO_WAIT_BUSY_END : Nat := 0x00
/-- Modelled from the spec: `rtsxreg.h` is not among the sources; SD_CFG2 CRC7 check on. -/
def RTSX_SD_CHECK_CRC7 : Nat := 0x00
/-- Modelled from the spec: `rtsxreg.h` is not among the sources; SD_CFG2 CRC7 check off. -/
def RTSX_SD_NO_CHECK_CRC7 : Nat := 0x04
/-- Modelled from the spec: `rtsxreg.h` is not among the sources; SD_CFG2 no response. -/
def RTSX_SD_RSP_LEN_0 : Nat := 0x00
/-- Modelled from the spec: `rtsxreg.h` is not among the sources; SD_CFG2 6-byte response. -/
def RTSX_SD_RSP_LEN_6 : Nat := 0x01
/-- Modelled from the spec: `rtsxreg.h` is not among the sources; hardware code for no response. -/
def RTSX_SD_RSP_TYPE_R0 : Nat := 0x04
/-- Modelled from the spec: `rtsxreg.h` is not among the sources; hardware code for R1. -/
def RTSX_SD_RSP_TYPE_R1 : Nat := 0x01
/-- Modelled from the spec: `rtsxreg.h` is not among the sources; hardware code for R1B. -/
def RTSX_SD_RSP_TYPE_R1B : Nat := 0x09
/-- Modelled from the spec: `rtsxreg.h` is not among the sources; hardware code for R2. -/
def RTSX_SD_RSP_TYPE_R2 : Nat := 0x02
/-- Modelled from the spec: `rtsxreg.h` is not among the sources; hardware code for R3. -/
def RTSX_SD_RSP_TYPE_R3 : Nat := 0x05
/-- Modelled from the spec: `rtsxreg.h` is not among the sources; hardware code for R4. -/
def RTSX_SD_RSP_TYPE_R4 : Nat := 0x05
/-- Modelled from the spec: `rtsxreg.h` is not among the sources; hardware code for R5. -/
def RTSX_SD_RSP_TYPE_R5 : Nat := 0x01
/-- Modelled from the spec: `rtsxreg.h` is not among the sources; hardware code for R6. -/
def RTSX_SD_RSP_TYPE_R6 : Nat := 0x01
/-- Modelled from the spec: `rtsxreg.h` is not among the sources; hardware code for R7. -/
def RTSX_SD_RSP_TYPE_R7 : Nat := 0x01
/-- Modelled from the spec: `rtsxreg.h` is not among the sources; CRC error bit of SD_STAT1. -/
def RTSX_SD_CRC_ERR : Nat := 0x80
/-- Modelled from the spec: `rtsxreg.h` is not among the sources; SD_TRANSFER start bit. -/
def RTSX_SD_TRANSFER_START : Nat := 0x80
/-- Modelled from the spec: `rtsxreg.h` is not among the sources; SD_TRANSFER end bit. -/
def RTSX_SD_TRANSFER_END : Nat := 0x40
/-- Modelled from the spec: `rtsxreg.h` is not among the sources; SD_TRANSFER idle bit. -/
def RTSX_SD_STAT_IDLE : Nat := 0x20
/-- Modelled from the spec: `rtsxreg.h` is not among the sources; transfer mode auto-write 3. -/
def RTSX_TM_AUTO_WRITE3 : Nat := 0x01
/-- Modelled from the spec: `rtsxreg.h` is not among the sources; transfer mode command/response. -/
def RTSX_TM_CMD_RSP : Nat := 0x08
/-- Modelled from the spec: `rtsxreg.h` is not among the sources; transfer mode normal read. -/
def RTSX_TM_NORMAL_READ : Nat := 0x0C
/-- Modelled from the spec: `rtsxreg.h` is not among the sources; transfer mode auto-read 1. -/
def RTSX_TM_AUTO_READ1 : Nat := 0x0D
/-- Modelled from the spec: `rtsxreg.h` is not among the sources; ping-pong buffer as data source. -/
def RTSX_PINGPONG_BUFFER : Nat := 0x01
/-- Modelled from the spec: `rtsxreg.h` is not among the sources; ring buffer as data source. -/
def RTSX_RING_BUFFER : Nat := 0x00
/-- Modelled from the spec: `rtsxreg.h` is not among the sources; DMA done bit of IRQSTAT0. -/
def RTSX_DMA_DONE_INT : Nat := 0x80
/-- Modelled from the spec: `rtsxreg.h` is not among the sources; DMACTL reset bit. -/
def RTSX_DMA_RST : Nat := 0x80
/-- Modelled from the spec: `rtsxreg.h` is not among the sources; DMACTL enable bit. -/
def RTSX_DMA_EN : Nat := 0x01
/-- Modelled from the spec: `rtsxreg.h` is not among the sources; DMACTL direction bit. -/
def RTSX_DMA_DIR : Nat := 0x02
/-- Modelled from the spec: `rtsxreg.h` is not among the sources; DMACTL direction to card. -/
def RTSX_DMA_DIR_TO_CARD : Nat := 0x00
/-- Modelled from the spec: `rtsxreg.h` is not among the sources; DMACTL direction from card. -/
def RTSX_DMA_DIR_FROM_CARD : Nat := 0x02
/-- Modelled from the spec: `rtsxreg.h` is not among the sources; DMACTL 512-byte packets. -/
def RTSX_DMA_512 : Nat := 2 <<< 4
/-- Modelled from the spec: `rtsxreg.h` is not among the sources; DMACTL packet size mask. -/
def RTSX_DMA_PACK_SIZE_MASK : Nat := 0x30
/-- Modelled from the spec: `rtsxreg.h` is not among the sources; RBCTL flush bit. -/
def RTSX_RB_FLUSH : Nat := 0x80
/-- Modelled from the spec: `rtsxreg.h` is not among the sources; CARD_STOP SD stop bit. -/
def RTSX_SD_STOP : Nat := 0x04
/-- Modelled from the spec: `rtsxreg.h` is not among the sources; CARD_STOP SD clear error bit. -/
def RTSX_SD_CLR_ERR : Nat := 0x40

/-- Value of `errno.h` for a timed-out operation. -/
def ETIMEDOUT : Nat := 60
/-- Value of `errno.h` for an input/output error. -/
def EIO : Nat := 5

/-- The macro `ISSET(t, f)` of rtsx.c line 239, as a truth value. -/
def ISSET (t f : Nat) : Bool := (t &&& f) != 0

-- ---------------------------------------------------------------------------
-- Data model
-- ---------------------------------------------------------------------------

/-- The data descriptor `struct mmc_data`; `data` is the caller's buffer, byte by offset. -/
structure mmc_data where
  len : Nat
  xfer_len : Nat
  data : Nat → Nat
  flags : Nat

/-- The command `struct mmc_command`; `resp` holds the four response words. -/
structure mmc_command where
  opcode : Nat
  arg : Nat
  resp : Nat → Nat
  flags : Nat
  data : Option mmc_data
  error : Nat

/-- The request `struct mmc_request`: a command and an optional stop command. -/
structure mmc_request where
  cmd : mmc_command
  stop : Option mmc_command

/-- What the driver does to the outside, in order. `done` is the call `req->done(req)`,
with whether `sc->rtsx_req` was still set at that moment and the command's error. -/
inductive event where
  | read4 (reg val : Nat)
  | write4 (reg val : Nat)
  | msleep
  | done (outstanding : Bool) (error : Nat)
  deriving DecidableEq, Repr

/-- The fields of `struct rtsx_softc` used on the request path. `rtsx_mtx` is the
number of times the running thread holds the mutex, `rtsx_res` the mapped register
space (the state of the chip behind it), `trace` a ghost record of the events. -/
structure rtsx_softc (W : Type) where
  rtsx_mtx : Nat
  rtsx_flags : Nat
  rtsx_mmc_dev : Bool
  rtsx_intr_status : Nat
  rtsx_res : W
  rtsx_cmd_dmamem : Nat → Nat
  rtsx_cmd_buffer : Nat
  rtsx_cmd_index : Nat
  rtsx_data_dmamem : Nat → Nat
  rtsx_data_buffer : Nat
  rtsx_read_only : Nat
  rtsx_req : Option mmc_request
  trace : List event

/-- One return of `msleep` on `&sc->rtsx_intr_status`: whether it timed out
(`EWOULDBLOCK`) and what the chip (DMA into the two buffers), `rtsx_intr`
(the status bits it latched) and `rtsx_card_task` (the presence it read, when it ran)
left behind. -/
structure wakeup (W : Type) where
  ewouldblock : Bool
  hw : W
  intr_status : Nat
  card_task : Option Bool
  cmd_dmamem : Nat → Nat
  data_dmamem : Nat → Nat

/-- The platform the driver runs on. `read4` and `write4` are the bus-space accessors,
`wakeups` lists the successive returns of `msleep` a sleeper gets (it depends on the chip
state and on the two DMA buffers; once the list is used up `msleep` times out), and
`MAXPHYS` is the platform's largest transfer, the size of the bulk buffer. -/
structure machine (W : Type) where
  read4 : W → Nat → Nat × W
  write4 : W → Nat → Nat → W
  wakeups : W → (Nat → Nat) → (Nat → Nat) → List (wakeup W)
  MAXPHYS : Nat

/-- The macro `RTSX_DMA_DATA_BUFSIZE` of rtsx.c line 237. -/
def RTSX_DMA_DATA_BUFSIZE {W : Type} (M : machine W) : Nat := M.MAXPHYS

/-- The macro `READ4`: a 32-bit read of a host register, recorded in the trace. -/
def READ4 {W : Type} (M : machine W) (sc : rtsx_softc W) (reg : Nat) : rtsx_softc W × Nat :=
  let r := M.read4 sc.rtsx_res reg
  ({ sc with rtsx_res := r.2, trace := sc.trace ++ [event.read4 reg (r.1 % 2 ^ 32)] },
    r.1 % 2 ^ 32)

/-- The macro `WRITE4`: a 32-bit write of a host register, recorded in the trace. -/
def WRITE4 {W : Type} (M : machine W) (sc : rtsx_softc W) (reg val : Nat) : rtsx_softc W :=
  { sc with rtsx_res := M.write4 sc.rtsx_res reg (val % 2 ^ 32),
            trace := sc.trace ++ [event.write4 reg (val % 2 ^ 32)] }

/-- The macro `RTSX_LOCK`: one more hold of the mutex by the running thread. -/
def RTSX_LOCK {W : Type} (sc : rtsx_softc W) : rtsx_softc W :=
  { sc with rtsx_mtx := sc.rtsx_mtx + 1 }

/-- The macro `RTSX_UNLOCK`: one hold of the mutex less. -/
def RTSX_UNLOCK {W : Type} (sc : rtsx_softc W) : rtsx_softc W :=
  { sc with rtsx_mtx := sc.rtsx_mtx - 1 }

-- ---------------------------------------------------------------------------
-- Byte order and DMA memory
-- ---------------------------------------------------------------------------

/-- The conversion `htole32` of `sys/endian.h` on a little-endian host (the identity on
32-bit values). -/
def htole32 (x : Nat) : Nat := x % 2 ^ 32

/-- The conversion `be32toh` of `sys/endian.h` on a little-endian host: a byte swap. -/
def be32toh (x : Nat) : Nat :=
  ((x % 256) <<< 24) ||| (((x >>> 8) % 256) <<< 16) |||
    (((x >>> 16) % 256) <<< 8) ||| ((x >>> 24) % 256)

/-- The function `be32dec` of `sys/endian.h`: the big-endian 32-bit value of the four
bytes of `mem` from offset `p` on. -/
def be32dec (mem : Nat → Nat) (p : Nat) : Nat :=
  ((mem p % 256) <<< 24) ||| ((mem (p + 1) % 256) <<< 16) |||
    ((mem (p + 2) % 256) <<< 8) ||| (mem (p + 3) % 256)

/-- A 32-bit load `cmd_buffer[index]` from byte memory on a little-endian host. -/
def load32 (mem : Nat → Nat) (index : Nat) : Nat :=
  (mem (4 * index) % 256) ||| ((mem (4 * index + 1) % 256) <<< 8) |||
    ((mem (4 * index + 2) % 256) <<< 16) ||| ((mem (4 * index + 3) % 256) <<< 24)

/-- A 32-bit store `cmd_buffer[index] = w` into byte memory on a little-endian host. -/
def store32 (mem : Nat → Nat) (index w : Nat) : Nat → Nat :=
  fun a =>
    if a = 4 * index then w % 256
    else if a = 4 * index + 1 then (w >>> 8) % 256
    else if a = 4 * index + 2 then (w >>> 16) % 256
    else if a = 4 * index + 3 then (w >>> 24) % 256
    else mem a

/-- A one-byte store `p[off] = v` into byte memory. -/
def store8 (mem : Nat → Nat) (off v : Nat) : Nat → Nat :=
  fun a => if a = off then v % 256 else mem a

/-- The call `memcpy(dst + off, src, n)` on byte memories. -/
def memcpy (dst : Nat → Nat) (off : Nat) (src : Nat → Nat) (n : Nat) : Nat → Nat :=
  fun a => if off ≤ a ∧ a < off + n then src (a - off) % 256 else dst a

-- ---------------------------------------------------------------------------
-- Interrupt wait
-- ---------------------------------------------------------------------------

/-- The effect of one return of `msleep` on the softc: the chip's DMA results, the status
bits latched by `rtsx_intr` (line 476) and the flag update of `rtsx_card_task` (lines 562
and 579) when that task ran. -/
def msleep {W : Type} (sc : rtsx_softc W) (wk : wakeup W) : rtsx_softc W :=
  { sc with
    rtsx_res := wk.hw
    rtsx_intr_status := sc.rtsx_intr_status ||| (wk.intr_status % 2 ^ 32)
    rtsx_flags :=
      match wk.card_task with
      | none => sc.rtsx_flags
      | some true => sc.rtsx_flags ||| RTSX_F_CARD_PRESENT
      | some false => sc.rtsx_flags &&& (0xFFFF ^^^ RTSX_F_CARD_PRESENT)
    rtsx_cmd_dmamem := wk.cmd_dmamem
    rtsx_data_dmamem := wk.data_dmamem
    trace := sc.trace ++ [event.msleep] }

/-- The `while (status == 0)` loop of `rtsx_wait_intr` (lines 491-503), entered with
`status == 0`: returns the softc, the final `status` and `error`. -/
def rtsx_wait_intr_loop {W : Type} (mask : Nat) :
    List (wakeup W) → rtsx_softc W → rtsx_softc W × Nat × Nat
  | [], sc => ({ sc with trace := sc.trace ++ [event.msleep] }, 0, MMC_ERR_TIMEOUT)
  | wk :: ws, sc =>
    let sc1 := msleep sc wk
    if wk.ewouldblock then (sc1, 0, MMC_ERR_TIMEOUT)
    else if sc1.rtsx_intr_status &&& mask = 0 then rtsx_wait_intr_loop mask ws sc1
    else (sc1, sc1.rtsx_intr_status &&& mask, 0)

/-- The function `rtsx_wait_intr` (lines 482-520); the timeout length is abstracted into
the machine's list of wakeups. Returns the softc and the error. -/
def rtsx_wait_intr {W : Type} (M : machine W) (sc : rtsx_softc W) (mask : Nat) :
    rtsx_softc W × Nat :=
  let mask1 := mask ||| RTSX_TRANS_FAIL_INT
  let r :=
    if sc.rtsx_intr_status &&& mask1 = 0 then
      rtsx_wait_intr_loop mask1
        (M.wakeups sc.rtsx_res sc.rtsx_cmd_dmamem sc.rtsx_data_dmamem) sc
    else (sc, sc.rtsx_intr_status &&& mask1, 0)
  let status := r.2.1
  let sc1 := RTSX_LOCK r.1
  let sc2 := { sc1 with rtsx_intr_status := sc1.rtsx_intr_status &&& (0xFFFFFFFF ^^^ status) }
  let error1 := if ISSET sc2.rtsx_flags RTSX_F_CARD_PRESENT then r.2.2 else MMC_ERR_INVALID
  let error2 :=
    if error1 = 0 ∧ status &&& RTSX_TRANS_FAIL_INT ≠ 0 then MMC_ERR_FAILED else error1
  (RTSX_UNLOCK sc2, error2)

-- ---------------------------------------------------------------------------
-- Host register access
-- ---------------------------------------------------------------------------

/-- The poll loop `while (tries--)` of `rtsx_read` (lines 1132-1136). The first argument
is `tries` before the test; the result carries the last word read and the final value of
`tries` (the post-decrement leaves -1 when the loop runs out). -/
def rtsx_read_loop {W : Type} (M : machine W) :
    Nat → rtsx_softc W → Nat → rtsx_softc W × Nat × Int
  | 0, sc, reg => (sc, reg, -1)
  | n + 1, sc, _ =>
    let r := READ4 M sc RTSX_HAIMR
    if r.2 &&& RTSX_HAIMR_BUSY = 0 then (r.1, r.2, (n : Int))
    else rtsx_read_loop M n r.1 r.2

/-- The function `rtsx_read` (lines 1123-1140): returns the softc, `*val` and the error. -/
def rtsx_read {W : Type} (M : machine W) (sc : rtsx_softc W) (addr : Nat) :
    rtsx_softc W × Nat × Nat :=
  let sc1 := WRITE4 M sc RTSX_HAIMR (RTSX_HAIMR_BUSY ||| (((addr % 65536) &&& 0x3FFF) <<< 16))
  let r := rtsx_read_loop M 1024 sc1 0
  (r.1, r.2.1 &&& 0xff, if r.2.2 = 0 then ETIMEDOUT else 0)

/-- The poll loop of `rtsx_write` (lines 1182-1191), with `tries` before the test as
first argument: returns the softc and the error. -/
def rtsx_write_loop {W : Type} (M : machine W) (val : Nat) :
    Nat → rtsx_softc W → rtsx_softc W × Nat
  | 0, sc => (sc, ETIMEDOUT)
  | n + 1, sc =>
    let r := READ4 M sc RTSX_HAIMR
    if r.2 &&& RTSX_HAIMR_BUSY = 0 then
      if val % 256 ≠ r.2 &&& 0xff then (r.1, EIO) else (r.1, 0)
    else rtsx_write_loop M val n r.1

/-- The function `rtsx_write` (lines 1171-1192): returns the softc and the error. -/
def rtsx_write {W : Type} (M : machine W) (sc : rtsx_softc W) (addr mask val : Nat) :
    rtsx_softc W × Nat :=
  let sc1 := WRITE4 M sc RTSX_HAIMR
    (RTSX_HAIMR_BUSY ||| RTSX_HAIMR_WRITE |||
      ((((addr % 65536) &&& 0x3FFF) <<< 16) ||| ((mask % 256) <<< 8) ||| (val % 256)))
  rtsx_write_loop M val 1024 sc1

-- ---------------------------------------------------------------------------
-- Command queue
-- ---------------------------------------------------------------------------

/-- The table `rsp_types` of `rtsx_response_type` (lines 1597-1607), in source order. -/
def rsp_types : List (Nat × Nat) :=
  [ (MMC_RSP_NONE, RTSX_SD_RSP_TYPE_R0),
    (MMC_RSP_R1, RTSX_SD_RSP_TYPE_R1),
    (MMC_RSP_R1B, RTSX_SD_RSP_TYPE_R1B),
    (MMC_RSP_R2, RTSX_SD_RSP_TYPE_R2),
    (MMC_RSP_R3, RTSX_SD_RSP_TYPE_R3),
    (MMC_RSP_R4, RTSX_SD_RSP_TYPE_R4),
    (MMC_RSP_R5, RTSX_SD_RSP_TYPE_R5),
    (MMC_RSP_R6, RTSX_SD_RSP_TYPE_R6),
    (MMC_RSP_R7, RTSX_SD_RSP_TYPE_R7) ]

/-- The first-match `for` loop of `rtsx_response_type` (lines 1609-1614). -/
def rtsx_response_type_loop : List (Nat × Nat) → Nat → Nat
  | [], _ => 0
  | row :: rest, mmc_rsp =>
    if mmc_rsp = row.1 % 65536 then row.2 % 256 else rtsx_response_type_loop rest mmc_rsp

/-- The function `rtsx_response_type` (lines 1590-1615); the argument is a `uint16_t`. -/
def rtsx_response_type (mmc_rsp : Nat) : Nat :=
  rtsx_response_type_loop rsp_types (mmc_rsp % 65536)

/-- The descriptor word that `rtsx_push_cmd` stores (lines 1648-1651); `cmd`, `mask` and
`data` are `uint8_t` arguments and `reg` is a `uint16_t`. -/
def rtsx_cmd_word (cmd reg mask data : Nat) : Nat :=
  htole32 ((((cmd % 256) &&& 0x3) <<< 30) % 2 ^ 32) |||
    (((reg % 65536) &&& 0x3fff) <<< 16) ||| ((mask % 256) <<< 8) ||| (data % 256)

/-- The function `rtsx_push_cmd` (lines 1639-1652) in a kernel built with `INVARIANTS`,
where the `KASSERT` of line 1643 is compiled in: the result is `none` when the assertion
on the index fails (the store would fall outside the 256-word buffer). The function in
either build is `rtsx_push_cmd_kernel`; the two agree while the index is below 256. -/
def rtsx_push_cmd {W : Type} (sc : rtsx_softc W) (cmd reg mask data : Nat) :
    Option (rtsx_softc W) :=
  if sc.rtsx_cmd_index < RTSX_HOSTCMD_MAX then
    some { sc with
      rtsx_cmd_dmamem := store32 sc.rtsx_cmd_dmamem sc.rtsx_cmd_index
        (rtsx_cmd_word cmd reg mask data)
      rtsx_cmd_index := sc.rtsx_cmd_index + 1 }
  else none

/-- The function `rtsx_init_cmd` (lines 1620-1634). -/
def rtsx_init_cmd {W : Type} (sc : rtsx_softc W) (cmd : mmc_command) : Option (rtsx_softc W) := do
  let sc0 := { sc with rtsx_cmd_index := 0 }
  let sc1 ← rtsx_push_cmd sc0 RTSX_WRITE_REG_CMD RTSX_SD_CMD0 0xff (RTSX_SD_CMD_START ||| cmd.opcode)
  let sc2 ← rtsx_push_cmd sc1 RTSX_WRITE_REG_CMD RTSX_SD_CMD1 0xff (cmd.arg >>> 24)
  let sc3 ← rtsx_push_cmd sc2 RTSX_WRITE_REG_CMD RTSX_SD_CMD2 0xff (cmd.arg >>> 16)
  let sc4 ← rtsx_push_cmd sc3 RTSX_WRITE_REG_CMD RTSX_SD_CMD3 0xff (cmd.arg >>> 8)
  rtsx_push_cmd sc4 RTSX_WRITE_REG_CMD RTSX_SD_CMD4 0xff cmd.arg

/-- The function `rtsx_send_cmd` (lines 1657-1680): returns the softc, the command and
the error. The `bus_dmamap_sync` calls have no effect on the model's coherent memory. -/
def rtsx_send_cmd {W : Type} (M : machine W) (sc : rtsx_softc W) (cmd : mmc_command) :
    rtsx_softc W × mmc_command × Nat :=
  let sc0 := { sc with rtsx_intr_status := 0 }
  let sc1 := WRITE4 M sc0 RTSX_HCBAR sc0.rtsx_cmd_buffer
  let sc2 := WRITE4 M sc1 RTSX_HCBCTLR
    (((sc1.rtsx_cmd_index * 4) &&& 0x00ffffff) ||| RTSX_START_CMD ||| RTSX_HW_AUTO_RSP)
  let r := rtsx_wait_intr M sc2 RTSX_TRANS_OK_INT
  if r.2 ≠ 0 then (r.1, { cmd with error := r.2 }, r.2) else (r.1, cmd, r.2)

/-- The function `rtsx_send_cmd_nowait` (lines 1685-1701). -/
def rtsx_send_cmd_nowait {W : Type} (M : machine W) (sc : rtsx_softc W) : rtsx_softc W :=
  let sc0 := { sc with rtsx_intr_status := 0 }
  let sc1 := WRITE4 M sc0 RTSX_HCBAR sc0.rtsx_cmd_buffer
  WRITE4 M sc1 RTSX_HCBCTLR
    (((sc1.rtsx_cmd_index * 4) &&& 0x00ffffff) ||| RTSX_START_CMD ||| RTSX_HW_AUTO_RSP)

/-- The function `rtsx_soft_reset` (lines 1718-1736); the results of the three
`rtsx_write` calls are discarded as in the source. -/
def rtsx_soft_reset {W : Type} (M : machine W) (sc : rtsx_softc W) : rtsx_softc W :=
  let sc1 := WRITE4 M sc RTSX_HCBCTLR RTSX_STOP_CMD
  let sc2 := WRITE4 M sc1 RTSX_HDBCTLR RTSX_STOP_DMA
  let sc3 := (rtsx_write M sc2 RTSX_DMACTL RTSX_DMA_RST RTSX_DMA_RST).1
  let sc4 := (rtsx_write M sc3 RTSX_RBCTL RTSX_RB_FLUSH RTSX_RB_FLUSH).1
  (rtsx_write M sc4 RTSX_CARD_STOP (RTSX_SD_STOP ||| RTSX_SD_CLR_ERR)
    (RTSX_SD_STOP ||| RTSX_SD_CLR_ERR)).1

/-- The function `rtsx_req_done` (lines 1703-1713): returns the softc and the request
handed to the callback; `none` is the dereference of a NULL `sc->rtsx_req`. -/
def rtsx_req_done {W : Type} (M : machine W) (sc : rtsx_softc W) :
    Option (rtsx_softc W × mmc_request) :=
  match sc.rtsx_req with
  | none => none
  | some req =>
    let sc1 := if req.cmd.error ≠ MMC_ERR_NONE then rtsx_soft_reset M sc else sc
    let sc2 := { sc1 with rtsx_req := none }
    some ({ sc2 with trace := sc2.trace ++ [event.done sc2.rtsx_req.isSome req.cmd.error] }, req)

/-- The loop `for (...) rtsx_push_cmd(sc, RTSX_READ_REG_CMD, reg++, 0, 0)` run `n` times
from register `reg` (a `uint16_t`), as in lines 1777-1778, 1781-1782, 1963-1966 and
1980-1983. -/
def rtsx_push_reads {W : Type} : Nat → Nat → rtsx_softc W → Option (rtsx_softc W)
  | 0, _, sc => some sc
  | n + 1, reg, sc =>
    (rtsx_push_cmd sc RTSX_READ_REG_CMD reg 0 0).bind
      (rtsx_push_reads n ((reg + 1) % 65536))

/-- The loop `for (...) { rtsx_push_cmd(sc, RTSX_WRITE_REG_CMD, reg++, 0xff, *ptr); ptr++; }`
run `n` times (lines 2011-2015 and 2023-2027); `ptr` is an offset into the buffer `buf`. -/
def rtsx_push_writes {W : Type} (buf : Nat → Nat) :
    Nat → Nat → Nat → rtsx_softc W → Option (rtsx_softc W)
  | 0, _, _, sc => some sc
  | n + 1, reg, ptr, sc =>
    (rtsx_push_cmd sc RTSX_WRITE_REG_CMD reg 0xff (buf ptr)).bind
      (rtsx_push_writes buf n ((reg + 1) % 65536) (ptr + 1))

/-- The queueing part of `rtsx_send_req_get_resp` (lines 1757-1784). -/
def rtsx_send_req_get_resp_queue {W : Type} (sc : rtsx_softc W) (cmd : mmc_command)
    (rsp_type : Nat) : Option (rtsx_softc W) := do
  let sc0 ← rtsx_init_cmd sc cmd
  let sc1 ← rtsx_push_cmd sc0 RTSX_WRITE_REG_CMD RTSX_SD_CFG2 0xff rsp_type
  let sc2 ← rtsx_push_cmd sc1 RTSX_WRITE_REG_CMD RTSX_CARD_DATA_SOURCE 0x01 RTSX_PINGPONG_BUFFER
  let sc3 ← rtsx_push_cmd sc2 RTSX_WRITE_REG_CMD RTSX_SD_TRANSFER 0xff
    (RTSX_TM_CMD_RSP ||| RTSX_SD_TRANSFER_START)
  let sc4 ← rtsx_push_cmd sc3 RTSX_CHECK_REG_CMD RTSX_SD_TRANSFER
    (RTSX_SD_TRANSFER_END ||| RTSX_SD_STAT_IDLE) (RTSX_SD_TRANSFER_END ||| RTSX_SD_STAT_IDLE)
  let sc5 ←
    if rsp_type = RTSX_SD_RSP_TYPE_R2 then
      rtsx_push_reads (RTSX_PPBUF_BASE2 + 16 - RTSX_PPBUF_BASE2) RTSX_PPBUF_BASE2 sc4
    else if rsp_type ≠ RTSX_SD_RSP_TYPE_R0 then
      rtsx_push_reads (RTSX_SD_CMD4 + 1 - RTSX_SD_CMD0) RTSX_SD_CMD0 sc4
    else some sc4
  rtsx_push_cmd sc5 RTSX_READ_REG_CMD RTSX_SD_STAT1 0 0

/-- The response copy of `rtsx_send_req_get_resp` (lines 1794-1831). -/
def rtsx_send_req_get_resp_copy {W : Type} (sc : rtsx_softc W) (cmd : mmc_command)
    (rsp_type : Nat) : rtsx_softc W × mmc_command :=
  if ISSET cmd.flags MMC_RSP_PRESENT then
    if rsp_type = RTSX_SD_RSP_TYPE_R2 then
      let mem := store8 sc.rtsx_cmd_dmamem (1 + 16) 0x01
      ({ sc with rtsx_cmd_dmamem := mem },
        { cmd with resp := fun i => if i < 4 then be32dec mem (1 + 1 + i * 4) else cmd.resp i })
    else
      let resp0 :=
        (((be32toh (load32 sc.rtsx_cmd_dmamem 0) &&& 0x0000ffff) <<< 16) % 2 ^ 32) |||
          ((be32toh (load32 sc.rtsx_cmd_dmamem 1) &&& 0xffff0000) >>> 16)
      (sc, { cmd with resp := fun i => if i = 0 then resp0 else cmd.resp i })
  else (sc, cmd)

/-- The function `rtsx_send_req_get_resp` (lines 1738-1833): returns the softc, the
command and the error. -/
def rtsx_send_req_get_resp {W : Type} (M : machine W) (sc : rtsx_softc W) (cmd : mmc_command) :
    Option (rtsx_softc W × mmc_command × Nat) :=
  let rsp_type := rtsx_response_type (cmd.flags &&& MMC_RSP_MASK)
  if rsp_type = 0 then
    some (sc, { cmd with error := MMC_ERR_INVALID }, MMC_ERR_INVALID)
  else
    (rtsx_send_req_get_resp_queue sc cmd rsp_type).bind fun sc1 =>
      let r := rtsx_send_cmd M sc1 cmd
      if r.2.2 ≠ 0 then some r
      else
        let c := rtsx_send_req_get_resp_copy r.1 r.2.1 rsp_type
        some (c.1, c.2, r.2.2)

/-- The conversion of a `size_t` to `int` (`int remain = cmd->data->len`). -/
def int_of_size_t (n : Nat) : Int :=
  if n % 2 ^ 32 < 2 ^ 31 then ((n % 2 ^ 32 : Nat) : Int) else ((n % 2 ^ 32 : Nat) : Int) - 2 ^ 32

/-- The local variables of `rtsx_read_ppbuf` and `rtsx_write_ppbuf` after the loop over
full batches: `buf` is the caller's buffer, `ptr` an offset into it, and `error` the
error of an early return (0 when the loop ran to its end). -/
structure ppbuf_vars (W : Type) where
  sc : rtsx_softc W
  cmd : mmc_command
  buf : Nat → Nat
  reg : Nat
  ptr : Nat
  remain : Int
  error : Nat

/-- The loop over full batches of `rtsx_read_ppbuf` (lines 1961-1977); the first
argument counts the iterations left. -/
def rtsx_read_ppbuf_loop {W : Type} (M : machine W) :
    Nat → ppbuf_vars W → Option (ppbuf_vars W)
  | 0, v => some v
  | k + 1, v =>
    (rtsx_push_reads RTSX_HOSTCMD_MAX v.reg { v.sc with rtsx_cmd_index := 0 }).bind fun sc1 =>
      let r := rtsx_send_cmd M sc1 v.cmd
      if r.2.2 ≠ 0 then some { v with sc := r.1, cmd := r.2.1, error := r.2.2 }
      else
        rtsx_read_ppbuf_loop M k
          { sc := r.1, cmd := r.2.1, error := 0
            buf := memcpy v.buf v.ptr r.1.rtsx_cmd_dmamem RTSX_HOSTCMD_MAX
            reg := (v.reg + RTSX_HOSTCMD_MAX) % 65536
            ptr := v.ptr + RTSX_HOSTCMD_MAX
            remain := v.remain - RTSX_HOSTCMD_MAX }

/-- The function `rtsx_read_ppbuf` (lines 1951-1995): returns the softc, the command
(with the destination buffer filled) and the error; `none` is the dereference of a NULL
`cmd->data`. -/
def rtsx_read_ppbuf {W : Type} (M : machine W) (sc : rtsx_softc W) (cmd : mmc_command) :
    Option (rtsx_softc W × mmc_command × Nat) :=
  match cmd.data with
  | none => none
  | some d =>
    (rtsx_read_ppbuf_loop M (d.len / RTSX_HOSTCMD_MAX)
        { sc := sc, cmd := cmd, buf := d.data, reg := RTSX_PPBUF_BASE2, ptr := 0,
          remain := int_of_size_t d.len, error := 0 }).bind fun v =>
      if v.error ≠ 0 then
        some (v.sc, { v.cmd with data := some { d with data := v.buf } }, v.error)
      else if v.remain > 0 then
        (rtsx_push_reads v.remain.toNat v.reg { v.sc with rtsx_cmd_index := 0 }).bind fun sc1 =>
          let r := rtsx_send_cmd M sc1 v.cmd
          if r.2.2 ≠ 0 then
            some (r.1, { r.2.1 with data := some { d with data := v.buf } }, r.2.2)
          else
            let buf := memcpy v.buf v.ptr r.1.rtsx_cmd_dmamem v.remain.toNat
            some (r.1, { r.2.1 with data := some { d with data := buf } }, 0)
      else some (v.sc, { v.cmd with data := some { d with data := v.buf } }, 0)

/-- The loop over full batches of `rtsx_write_ppbuf` (lines 2009-2020); the first
argument counts the iterations left. -/
def rtsx_write_ppbuf_loop {W : Type} (M : machine W) :
    Nat → ppbuf_vars W → Option (ppbuf_vars W)
  | 0, v => some v
  | k + 1, v =>
    (rtsx_push_writes v.buf RTSX_HOSTCMD_MAX v.reg v.ptr
        { v.sc with rtsx_cmd_index := 0 }).bind fun sc1 =>
      let r := rtsx_send_cmd M sc1 v.cmd
      if r.2.2 ≠ 0 then some { v with sc := r.1, cmd := r.2.1, error := r.2.2 }
      else
        rtsx_write_ppbuf_loop M k
          { sc := r.1, cmd := r.2.1, error := 0, buf := v.buf
            reg := (v.reg + RTSX_HOSTCMD_MAX) % 65536
            ptr := v.ptr + RTSX_HOSTCMD_MAX
            remain := v.remain - RTSX_HOSTCMD_MAX }

/-- The function `rtsx_write_ppbuf` (lines 2000-2033): returns the softc, the command and
the error; `none` is the dereference of a NULL `cmd->data`. -/
def rtsx_write_ppbuf {W : Type} (M : machine W) (sc : rtsx_softc W) (cmd : mmc_command) :
    Option (rtsx_softc W × mmc_command × Nat) :=
  match cmd.data with
  | none => none
  | some d =>
    (rtsx_write_ppbuf_loop M (d.len / RTSX_HOSTCMD_MAX)
        { sc := sc, cmd := cmd, buf := d.data, reg := RTSX_PPBUF_BASE2, ptr := 0,
          remain := int_of_size_t d.len, error := 0 }).bind fun v =>
      if v.error ≠ 0 then some (v.sc, v.cmd, v.error)
      else if v.remain > 0 then
        (rtsx_push_writes v.buf v.remain.toNat v.reg v.ptr
            { v.sc with rtsx_cmd_index := 0 }).bind fun sc1 =>
          let r := rtsx_send_cmd M sc1 v.cmd
          if r.2.2 ≠ 0 then some r else some (r.1, r.2.1, 0)
      else some (v.sc, v.cmd, 0)

/-- The four pushes that program byte count and block count (lines 1877-1884, 1923-1930
and 2098-2105); `none` also stands for the division by a zero `xfer_len`. -/
def rtsx_push_counts {W : Type} (sc : rtsx_softc W) (d : mmc_data) : Option (rtsx_softc W) :=
  if d.xfer_len = 0 then none
  else do
    let sc1 ← rtsx_push_cmd sc RTSX_WRITE_REG_CMD RTSX_SD_BYTE_CNT_L 0xff (d.xfer_len &&& 0xff)
    let sc2 ← rtsx_push_cmd sc1 RTSX_WRITE_REG_CMD RTSX_SD_BYTE_CNT_H 0xff (d.xfer_len >>> 8)
    let sc3 ← rtsx_push_cmd sc2 RTSX_WRITE_REG_CMD RTSX_SD_BLOCK_CNT_L 0xff
      ((d.len / d.xfer_len) &&& 0xff)
    rtsx_push_cmd sc3 RTSX_WRITE_REG_CMD RTSX_SD_BLOCK_CNT_H 0xff ((d.len / d.xfer_len) >>> 8)

/-- The default of the block size (lines 1846-1848 and 2047-2049). -/
def rtsx_default_xfer_len (d : mmc_data) : mmc_data :=
  if d.xfer_len = 0 then
    { d with xfer_len := if d.len > RTSX_MAX_DATA_BLKLEN then RTSX_MAX_DATA_BLKLEN else d.len }
  else d

/-- The function `rtsx_xfer_short` (lines 1835-1946): returns the softc, the command and
the error. -/
def rtsx_xfer_short {W : Type} (M : machine W) (sc : rtsx_softc W) (cmd : mmc_command) :
    Option (rtsx_softc W × mmc_command × Nat) :=
  match cmd.data with
  | none => some (sc, { cmd with error := MMC_ERR_INVALID }, MMC_ERR_INVALID)
  | some d0 =>
    if d0.len = 0 then some (sc, { cmd with error := MMC_ERR_INVALID }, MMC_ERR_INVALID)
    else
      let d := rtsx_default_xfer_len d0
      let cmd1 := { cmd with data := some d }
      if d.len > 512 then some (sc, { cmd1 with error := MMC_ERR_INVALID }, MMC_ERR_INVALID)
      else if rtsx_response_type (cmd1.flags &&& MMC_RSP_MASK) = 0 then
        some (sc, { cmd1 with error := MMC_ERR_INVALID }, MMC_ERR_INVALID)
      else if ISSET d.flags MMC_DATA_READ then do
        let sc0 ← rtsx_init_cmd sc cmd1
        let sc1 ← rtsx_push_counts sc0 d
        let sc2 ← rtsx_push_cmd sc1 RTSX_WRITE_REG_CMD RTSX_SD_CFG2 0xff
          (RTSX_SD_CALCULATE_CRC7 ||| RTSX_SD_CHECK_CRC16 ||| RTSX_SD_NO_WAIT_BUSY_END |||
            RTSX_SD_CHECK_CRC7 ||| RTSX_SD_RSP_LEN_6)
        let sc3 ← rtsx_push_cmd sc2 RTSX_WRITE_REG_CMD RTSX_CARD_DATA_SOURCE 0x01
          RTSX_PINGPONG_BUFFER
        let sc4 ← rtsx_push_cmd sc3 RTSX_WRITE_REG_CMD RTSX_SD_TRANSFER 0xff
          (RTSX_TM_NORMAL_READ ||| RTSX_SD_TRANSFER_START)
        let sc5 ← rtsx_push_cmd sc4 RTSX_CHECK_REG_CMD RTSX_SD_TRANSFER
          RTSX_SD_TRANSFER_END RTSX_SD_TRANSFER_END
        let r := rtsx_send_cmd M sc5 cmd1
        if r.2.2 ≠ 0 then some r else rtsx_read_ppbuf M r.1 r.2.1
      else do
        let r ← rtsx_send_req_get_resp M sc cmd1
        if r.2.2 ≠ 0 then some r
        else do
          let w ← rtsx_write_ppbuf M r.1 r.2.1
          if w.2.2 ≠ 0 then some w
          else do
            let sc1 ← rtsx_push_counts { w.1 with rtsx_cmd_index := 0 } d
            let sc2 ← rtsx_push_cmd sc1 RTSX_WRITE_REG_CMD RTSX_SD_CFG2 0xff
              (RTSX_SD_CALCULATE_CRC7 ||| RTSX_SD_CHECK_CRC16 ||| RTSX_SD_NO_WAIT_BUSY_END |||
                RTSX_SD_CHECK_CRC7 ||| RTSX_SD_RSP_LEN_0)
            let sc3 ← rtsx_push_cmd sc2 RTSX_WRITE_REG_CMD RTSX_SD_TRANSFER 0xff
              (RTSX_TM_AUTO_WRITE3 ||| RTSX_SD_TRANSFER_START)
            let sc4 ← rtsx_push_cmd sc3 RTSX_CHECK_REG_CMD RTSX_SD_TRANSFER
              RTSX_SD_TRANSFER_END RTSX_SD_TRANSFER_END
            some (rtsx_send_cmd M sc4 w.2.1)

/-- The descriptor batch of `rtsx_xfer` (lines 2068-2134) for the data descriptor `d`. -/
def rtsx_xfer_queue {W : Type} (sc : rtsx_softc W) (cmd : mmc_command) (d : mmc_data) :
    Option (rtsx_softc W) := do
  let read := ISSET d.flags MMC_DATA_READ
  let cfg2a :=
    if cmd.opcode = MMC_READ_MULTIPLE_BLOCK then
      RTSX_SD_CHECK_CRC16 ||| RTSX_SD_NO_WAIT_BUSY_END ||| RTSX_SD_RSP_LEN_6
    else RTSX_SD_CHECK_CRC16 ||| RTSX_SD_NO_WAIT_BUSY_END ||| RTSX_SD_RSP_LEN_0
  let dma_dir := if read then RTSX_DMA_DIR_FROM_CARD else RTSX_DMA_DIR_TO_CARD
  let tmode := if read then RTSX_TM_AUTO_READ1 else RTSX_TM_AUTO_WRITE3
  let cfg2 :=
    if read then cfg2a ||| (RTSX_SD_CALCULATE_CRC7 ||| RTSX_SD_CHECK_CRC7)
    else cfg2a ||| (RTSX_SD_NO_CALCULATE_CRC7 ||| RTSX_SD_NO_CHECK_CRC7)
  let sc0 ← if read then rtsx_init_cmd sc cmd else some { sc with rtsx_cmd_index := 0 }
  let sc1 ← rtsx_push_counts sc0 d
  let sc2 ← rtsx_push_cmd sc1 RTSX_WRITE_REG_CMD RTSX_IRQSTAT0 RTSX_DMA_DONE_INT RTSX_DMA_DONE_INT
  let sc3 ← rtsx_push_cmd sc2 RTSX_WRITE_REG_CMD RTSX_DMATC3 0xff (d.len >>> 24)
  let sc4 ← rtsx_push_cmd sc3 RTSX_WRITE_REG_CMD RTSX_DMATC2 0xff (d.len >>> 16)
  let sc5 ← rtsx_push_cmd sc4 RTSX_WRITE_REG_CMD RTSX_DMATC1 0xff (d.len >>> 8)
  let sc6 ← rtsx_push_cmd sc5 RTSX_WRITE_REG_CMD RTSX_DMATC0 0xff d.len
  let sc7 ← rtsx_push_cmd sc6 RTSX_WRITE_REG_CMD RTSX_DMACTL
    (RTSX_DMA_EN ||| RTSX_DMA_DIR ||| RTSX_DMA_PACK_SIZE_MASK)
    (RTSX_DMA_EN ||| dma_dir ||| RTSX_DMA_512)
  let sc8 ← rtsx_push_cmd sc7 RTSX_WRITE_REG_CMD RTSX_CARD_DATA_SOURCE 0x01 RTSX_RING_BUFFER
  let sc9 ← rtsx_push_cmd sc8 RTSX_WRITE_REG_CMD RTSX_SD_CFG2 0xff cfg2
  let sc10 ← rtsx_push_cmd sc9 RTSX_WRITE_REG_CMD RTSX_SD_TRANSFER 0xff
    (tmode ||| RTSX_SD_TRANSFER_START)
  rtsx_push_cmd sc10 RTSX_CHECK_REG_CMD RTSX_SD_TRANSFER RTSX_SD_TRANSFER_END
    RTSX_SD_TRANSFER_END

/-- The end of `rtsx_xfer` after a successful wait (lines 2158-2168): the copy-out of a
read, or the stop command of a write, taken from `sc->rtsx_req->stop`. A NULL
`sc->rtsx_req` or a NULL stop command is a NULL dereference, `none`. -/
def rtsx_xfer_finish {W : Type} (M : machine W) (sc : rtsx_softc W) (cmd : mmc_command)
    (d : mmc_data) : Option (rtsx_softc W × mmc_command × Nat) :=
  if ISSET d.flags MMC_DATA_READ then
    let buf := memcpy d.data 0 sc.rtsx_data_dmamem d.len
    some (sc, { cmd with data := some { d with data := buf } }, 0)
  else
    match sc.rtsx_req with
    | none => none
    | some req =>
      match req.stop with
      | none => none
      | some stop =>
        (rtsx_send_req_get_resp M sc stop).bind fun r =>
          some ({ r.1 with rtsx_req := some { req with stop := some r.2.1 } }, cmd, r.2.2)

/-- The start of the bulk DMA in `rtsx_xfer` (lines 2136-2151): the batch is run without
waiting, a write's data is copied into the bulk buffer, and the DMA is triggered. -/
def rtsx_xfer_start {W : Type} (M : machine W) (sc : rtsx_softc W) (d : mmc_data) :
    rtsx_softc W :=
  let read := ISSET d.flags MMC_DATA_READ
  let sc2 := rtsx_send_cmd_nowait M sc
  let sc3 := { sc2 with rtsx_intr_status := 0 }
  let sc4 :=
    if read then sc3
    else { sc3 with rtsx_data_dmamem := memcpy sc3.rtsx_data_dmamem 0 d.data d.len }
  let sc5 := WRITE4 M sc4 RTSX_HDBAR sc4.rtsx_data_buffer
  WRITE4 M sc5 RTSX_HDBCTLR
    (RTSX_TRIG_DMA ||| (if read then RTSX_DMA_READ else 0) ||| (d.len &&& 0x00ffffff))

/-- The function `rtsx_xfer` (lines 2038-2169): returns the softc, the command and the
error; `none` is a NULL dereference (of `cmd->data`, or see `rtsx_xfer_finish`), a
division by zero or a failed assertion. -/
def rtsx_xfer {W : Type} (M : machine W) (sc : rtsx_softc W) (cmd : mmc_command) :
    Option (rtsx_softc W × mmc_command × Nat) :=
  match cmd.data with
  | none => none
  | some d0 =>
    let read := ISSET d0.flags MMC_DATA_READ
    let d := rtsx_default_xfer_len d0
    let cmd1 := { cmd with data := some d }
    if d.len > RTSX_DMA_DATA_BUFSIZE M then
      some (sc, { cmd1 with error := MMC_ERR_INVALID }, MMC_ERR_INVALID)
    else
      (if read then some (sc, cmd1, 0) else rtsx_send_req_get_resp M sc cmd1).bind fun r =>
        if r.2.2 ≠ 0 then some r
        else
          (rtsx_xfer_queue r.1 r.2.1 d).bind fun sc1 =>
            let w := rtsx_wait_intr M (rtsx_xfer_start M sc1 d) RTSX_TRANS_OK_INT
            if w.2 ≠ 0 then some (w.1, { r.2.1 with error := w.2 }, w.2)
            else rtsx_xfer_finish M w.1 r.2.1 d

/-- The local `cmd` of `rtsx_mmcbr_request` is the pointer `req->cmd` (line 2494), and
`req` is `sc->rtsx_req`: what was stored through `cmd` is what `sc->rtsx_req->cmd` holds. -/
def rtsx_req_cmd_alias {W : Type} (sc : rtsx_softc W) (cmd : mmc_command) : rtsx_softc W :=
  { sc with rtsx_req := sc.rtsx_req.map fun req => { req with cmd := cmd } }

/-- The check of `RTSX_SD_STAT1` after a failed transfer in `rtsx_mmcbr_request`
(lines 2523-2530 and 2532-2539). -/
def rtsx_mmcbr_request_crc {W : Type} (M : machine W)
    (r : rtsx_softc W × mmc_command × Nat) : rtsx_softc W × mmc_command × Nat :=
  if r.2.2 ≠ 0 then
    let s := rtsx_read M r.1 RTSX_SD_STAT1
    if s.2.2 = 0 ∧ s.2.1 &&& RTSX_SD_CRC_ERR ≠ 0 then
      (s.1, { r.2.1 with error := MMC_ERR_BADCRC }, r.2.2)
    else (s.1, r.2.1, r.2.2)
  else r

/-- The body of `rtsx_mmcbr_request` between the acceptance of the request and the label
`done` (lines 2503-2540). -/
def rtsx_mmcbr_request_body {W : Type} (M : machine W) (sc : rtsx_softc W) (cmd : mmc_command) :
    Option (rtsx_softc W × mmc_command × Nat) :=
  if !ISSET sc.rtsx_flags RTSX_F_CARD_PRESENT then
    some (sc, { cmd with error := MMC_ERR_INVALID }, MMC_ERR_INVALID)
  else if cmd.opcode = IO_SEND_OP_COND ∧ !ISSET sc.rtsx_flags RTSX_F_SDIO_SUPPORT then
    some (sc, { cmd with error := MMC_ERR_INVALID }, MMC_ERR_INVALID)
  else
    match cmd.data with
    | none => rtsx_send_req_get_resp M sc cmd
    | some d =>
      if d.len ≤ 512 then (rtsx_xfer_short M sc cmd).map (rtsx_mmcbr_request_crc M)
      else (rtsx_xfer M sc cmd).map (rtsx_mmcbr_request_crc M)

/-- The function `rtsx_mmcbr_request` (lines 2478-2546): returns the softc, the request
as the caller finds it afterwards, and the return value. -/
def rtsx_mmcbr_request {W : Type} (M : machine W) (sc : rtsx_softc W) (req : mmc_request) :
    Option (rtsx_softc W × mmc_request × Nat) :=
  let sc0 := RTSX_LOCK sc
  if sc0.rtsx_req.isSome then some (RTSX_UNLOCK sc0, req, MMC_ERR_MAX)
  else
    let cmd := { req.cmd with error := MMC_ERR_NONE }
    let sc1 := { sc0 with rtsx_req := some { req with cmd := cmd }, rtsx_intr_status := 0 }
    (rtsx_mmcbr_request_body M sc1 cmd).bind fun r =>
      (rtsx_req_done M (rtsx_req_cmd_alias r.1 r.2.1)).bind fun dn =>
        some (RTSX_UNLOCK dn.1, dn.2, r.2.2)

-- ---------------------------------------------------------------------------
-- Concrete inputs used to exercise the theorems
-- ---------------------------------------------------------------------------

/-- A machine whose registers read as zero, whose chip never raises an interrupt, and
whose bulk buffer holds 128 KiB. -/
def silent_machine : machine Unit where
  read4 := fun w _ => (0, w)
  write4 := fun w _ _ => w
  wakeups := fun _ _ _ => []
  MAXPHYS := 131072

/-- A command without data: opcode, argument and response flags given, the rest zero. -/
def plain_cmd (opcode arg flags : Nat) : mmc_command where
  opcode := opcode
  arg := arg
  resp := fun _ => 0
  flags := flags
  data := none
  error := 0

/-- A command carrying a data descriptor of the given length, block size and flags over a
zeroed buffer. -/
def data_cmd (opcode flags len xfer_len dflags : Nat) : mmc_command where
  opcode := opcode
  arg := 0
  resp := fun _ => 0
  flags := flags
  data := some { len := len, xfer_len := xfer_len, data := fun _ => 0, flags := dflags }
  error := 0

/-- An attached controller with a card present, nothing in flight and zeroed buffers. -/
def idle_softc {W : Type} (w : W) : rtsx_softc W where
  rtsx_mtx := 0
  rtsx_flags := RTSX_F_CARD_PRESENT
  rtsx_mmc_dev := true
  rtsx_intr_status := 0
  rtsx_res := w
  rtsx_cmd_dmamem := fun _ => 0
  rtsx_cmd_buffer := 0x10000
  rtsx_cmd_index := 0
  rtsx_data_dmamem := fun _ => 0
  rtsx_data_buffer := 0x20000
  rtsx_read_only := 0
  rtsx_req := none
  trace := []

/-- The controller of `idle_softc` with a request (CMD13, R1) in flight. -/
def busy_softc {W : Type} (w : W) : rtsx_softc W :=
  { idle_softc w with
    rtsx_req := some { cmd := plain_cmd 13 0 MMC_RSP_R1, stop := none }
    rtsx_intr_status := 1 <<< 29
    rtsx_cmd_index := 7 }

-- ---------------------------------------------------------------------------
-- Predicates used in the statements
-- ---------------------------------------------------------------------------

/-- Whether an event is a call of the completion callback. -/
def is_done : event → Bool
  | event.done _ _ => true
  | _ => false

/-- Whether the request in flight carries a stop command. -/
def stop_set {W : Type} (sc : rtsx_softc W) : Bool :=
  match sc.rtsx_req with
  | some req => req.stop.isSome
  | none => false

/-- The state `sc1` is reached from `sc` without completing the request: the trace has
grown by events that are no callback, and the request slot is set (and carries a stop
command) exactly if it was. -/
def runs {W : Type} (sc sc1 : rtsx_softc W) : Prop :=
  (∃ t, sc1.trace = sc.trace ++ t ∧ ∀ e ∈ t, is_done e = false) ∧
  sc1.rtsx_req.isSome = sc.rtsx_req.isSome ∧ stop_set sc1 = stop_set sc

/-- The state `sc1` differs from `sc` at most in the descriptor buffer and the descriptor
index: nothing else of the controller, the chip or the event trace has changed. -/
def same_but_queue {W : Type} (sc sc1 : rtsx_softc W) : Prop :=
  sc1 = { sc with rtsx_cmd_dmamem := sc1.rtsx_cmd_dmamem, rtsx_cmd_index := sc1.rtsx_cmd_index }

/-- The state `sc1` is `sc` after `n` more descriptors: the index has grown by `n`, the
bytes of the descriptors already queued are as they were, and nothing outside the
descriptor buffer has changed. -/
def pushed {W : Type} (n : Nat) (sc sc1 : rtsx_softc W) : Prop :=
  sc1 = { sc with rtsx_cmd_dmamem := sc1.rtsx_cmd_dmamem,
                  rtsx_cmd_index := sc.rtsx_cmd_index + n } ∧
  ∀ a, a < 4 * sc.rtsx_cmd_index → sc1.rtsx_cmd_dmamem a = sc.rtsx_cmd_dmamem a

/-- A machine whose chip answers every batch at the first `msleep` with transfer-complete
and leaves the given bytes in the command buffer. -/
def echo_machine (raw : Nat → Nat) : machine Unit where
  read4 := fun w _ => (0, w)
  write4 := fun w _ _ => w
  wakeups := fun _ _ data =>
    [{ ewouldblock := false, hw := (), intr_status := RTSX_TRANS_OK_INT, card_task := none,
       cmd_dmamem := raw, data_dmamem := data }]
  MAXPHYS := 131072

-- ---------------------------------------------------------------------------
-- A chip model for the ping-pong buffer round trip
-- ---------------------------------------------------------------------------

/-- The chip of the round-trip property: its internal registers by 14-bit address (the
ping-pong buffer among them) and the number of descriptors of the batch it was last
told to run. -/
structure ppbuf_chip where
  regs : Nat → Nat
  batch : Nat

/-- The chip while it runs a batch: its registers, the command buffer that receives the
result bytes, and the offset of the next result byte. -/
structure chip_run where
  regs : Nat → Nat
  out : Nat → Nat
  pos : Nat

/-- One micro-op of the chip: a write-register op stores its data byte (under the mask) at
the addressed register; a read-register op (and likewise a check-register op) returns the
byte of the addressed register into the command buffer at the next result offset. -/
def chip_exec_op (word : Nat) (s : chip_run) : chip_run :=
  let op := word >>> 30
  let reg := (word >>> 16) &&& 0x3fff
  let mask := (word >>> 8) &&& 0xff
  let data := word &&& 0xff
  if op = RTSX_WRITE_REG_CMD then
    { s with regs := fun a =>
        if a = reg then (s.regs reg &&& (0xff ^^^ mask)) ||| (data &&& mask) else s.regs a }
  else if op = RTSX_READ_REG_CMD ∨ op = RTSX_CHECK_REG_CMD then
    { s with out := store8 s.out s.pos (s.regs reg), pos := s.pos + 1 }
  else s

/-- The chip runs `n` descriptors of the batch in `mem`, from descriptor `k` on. -/
def chip_exec (mem : Nat → Nat) : Nat → Nat → chip_run → chip_run
  | 0, _, s => s
  | n + 1, k, s => chip_exec mem n (k + 1) (chip_exec_op (load32 mem k) s)

/-- The machine built on this chip: a write to `RTSX_HCBCTLR` with the start bit latches
the batch length, and the sleeper is woken once, with transfer-complete, after the chip
has run the batch found in the command buffer and stored the result bytes there. -/
def ppbuf_machine : machine ppbuf_chip where
  read4 := fun w _ => (0, w)
  write4 := fun w reg val =>
    if reg = RTSX_HCBCTLR ∧ val &&& RTSX_START_CMD ≠ 0 then
      { w with batch := (val &&& 0x00ffffff) / 4 }
    else w
  wakeups := fun w cmd data =>
    [{ ewouldblock := false
       hw := { regs := (chip_exec cmd w.batch 0 { regs := w.regs, out := cmd, pos := 0 }).regs,
               batch := 0 }
       intr_status := RTSX_TRANS_OK_INT
       card_task := none
       cmd_dmamem := (chip_exec cmd w.batch 0 { regs := w.regs, out := cmd, pos := 0 }).out
       data_dmamem := data }]
  MAXPHYS := 131072

/-- A write command carrying the payload `buf` of `len` bytes. -/
def write_cmd (len : Nat) (buf : Nat → Nat) : mmc_command where
  opcode := 24
  arg := 0
  resp := fun _ => 0
  flags := MMC_RSP_R1
  data := some { len := len, xfer_len := 0, data := buf, flags := 0 }
  error := 0

/-- A read command with the destination `buf` of `len` bytes. -/
def read_cmd (len : Nat) (buf : Nat → Nat) : mmc_command where
  opcode := 17
  arg := 0
  resp := fun _ => 0
  flags := MMC_RSP_R1
  data := some { len := len, xfer_len := 0, data := buf, flags := MMC_DATA_READ }
  error := 0

/-- A chip with all registers zero and no batch latched. -/
def ppbuf_chip0 : ppbuf_chip where
  regs := fun _ => 0
  batch := 0

/-- A payload of distinct-looking bytes for the round trip. -/
def ppbuf_payload : Nat → Nat := fun i => (i * 7 + 3) % 256

/-- A destination buffer of 0xEE bytes. -/
def ppbuf_blank : Nat → Nat := fun _ => 0xEE

/-- The packing of a descriptor word as the specification words it: a 2-bit operation
code, a 14-bit register address, an 8-bit mask and an 8-bit data byte. -/
def packed_word (op reg mask data : Nat) : Nat :=
  ((op &&& 0x3) <<< 30) ||| ((reg &&& 0x3FFF) <<< 16) ||| (mask <<< 8) ||| data

/-- The words that `n` successive 32-bit reads of the host register `reg` return, from the
chip state `w` on. -/
def polls {W : Type} (M : machine W) (reg : Nat) : Nat → W → List Nat
  | 0, _ => []
  | n + 1, w => ((M.read4 w reg).1 % 2 ^ 32) :: polls M reg n (M.read4 w reg).2

/-- A chip whose host access register always reads busy, with 0xA5 in the low byte. -/
def stuck_machine : machine Unit where
  read4 := fun w _ => (0x800000A5, w)
  write4 := fun w _ _ => w
  wakeups := fun _ _ _ => []
  MAXPHYS := 131072

/-- A chip that counts the reads of its registers: the first 1023 reads show busy, the
reads from the 1024th on show idle with 0x5A in the low byte; a write restarts the count. -/
def late_machine : machine Nat where
  read4 := fun w _ => (if w < 1023 then 0x80000000 else 0x5A, w + 1)
  write4 := fun _ _ _ => 0
  wakeups := fun _ _ _ => []
  MAXPHYS := 131072

-- ---------------------------------------------------------------------------
-- Register access macros, PHY and configuration space
-- ---------------------------------------------------------------------------

/-- Modelled from the spec: `rtsxreg.h` is not among the sources; configuration address byte 0. -/
def RTSX_CFGADDR0 : Nat := 0xFE20
/-- Modelled from the spec: `rtsxreg.h` is not among the sources; configuration address byte 1. -/
def RTSX_CFGADDR1 : Nat := 0xFE21
/-- Modelled from the spec: `rtsxreg.h` is not among the sources; configuration data byte 0. -/
def RTSX_CFGDATA0 : Nat := 0xFE22
/-- Modelled from the spec: `rtsxreg.h` is not among the sources; configuration data byte 1. -/
def RTSX_CFGDATA1 : Nat := 0xFE23
/-- Modelled from the spec: `rtsxreg.h` is not among the sources; configuration data byte 2. -/
def RTSX_CFGDATA2 : Nat := 0xFE24
/-- Modelled from the spec: `rtsxreg.h` is not among the sources; configuration data byte 3. -/
def RTSX_CFGDATA3 : Nat := 0xFE25
/-- Modelled from the spec: `rtsxreg.h` is not among the sources; configuration access control. -/
def RTSX_CFGRWCTL : Nat := 0xFE26
/-- Modelled from the spec: `rtsxreg.h` is not among the sources; busy bit of CFGRWCTL. -/
def RTSX_CFG_BUSY : Nat := 0x80
/-- Modelled from the spec: `rtsxreg.h` is not among the sources; PHY access control. -/
def RTSX_PHY_RWCTL : Nat := 0xFE3C
/-- Modelled from the spec: `rtsxreg.h` is not among the sources; PHY data byte 0. -/
def RTSX_PHY_DATA0 : Nat := 0xFE3D
/-- Modelled from the spec: `rtsxreg.h` is not among the sources; PHY data byte 1. -/
def RTSX_PHY_DATA1 : Nat := 0xFE3E
/-- Modelled from the spec: `rtsxreg.h` is not among the sources; PHY register address. -/
def RTSX_PHY_ADDR : Nat := 0xFE3F
/-- Modelled from the spec: `rtsxreg.h` is not among the sources; PHY read direction. -/
def RTSX_PHY_READ : Nat := 0x00
/-- Modelled from the spec: `rtsxreg.h` is not among the sources; PHY write direction. -/
def RTSX_PHY_WRITE : Nat := 0x01
/-- Modelled from the spec: `rtsxreg.h` is not among the sources; busy bit of PHY_RWCTL. -/
def RTSX_PHY_BUSY : Nat := 0x80

/-- The macro `RTSX_READ` (lines 246-251) in front of the rest `k` of the enclosing
function: when `rtsx_read` fails the enclosing function returns that error (`ret`),
otherwise it goes on with the byte read. -/
def RTSX_READ {W β : Type} (M : machine W) (sc : rtsx_softc W) (reg : Nat)
    (ret : rtsx_softc W → Nat → β) (k : rtsx_softc W → Nat → β) : β :=
  let r := rtsx_read M sc reg
  if r.2.2 ≠ 0 then ret r.1 r.2.2 else k r.1 r.2.1

/-- The macro `RTSX_BITOP` (lines 273-278) in front of the rest `k` of the enclosing
function: when `rtsx_write` fails the enclosing function returns that error (`ret`). -/
def RTSX_BITOP {W β : Type} (M : machine W) (sc : rtsx_softc W) (reg mask bits : Nat)
    (ret : rtsx_softc W → Nat → β) (k : rtsx_softc W → β) : β :=
  let r := rtsx_write M sc reg mask bits
  if r.2 ≠ 0 then ret r.1 r.2 else k r.1

/-- The macro `RTSX_WRITE` (lines 253-258): a write under the mask 0xff. -/
def RTSX_WRITE {W β : Type} (M : machine W) (sc : rtsx_softc W) (reg val : Nat)
    (ret : rtsx_softc W → Nat → β) (k : rtsx_softc W → β) : β :=
  let r := rtsx_write M sc reg 0xff val
  if r.2 ≠ 0 then ret r.1 r.2 else k r.1

/-- The macro `RTSX_CLR` (lines 259-264): a write of 0 under the mask `bits`. -/
def RTSX_CLR {W β : Type} (M : machine W) (sc : rtsx_softc W) (reg bits : Nat)
    (ret : rtsx_softc W → Nat → β) (k : rtsx_softc W → β) : β :=
  let r := rtsx_write M sc reg bits 0
  if r.2 ≠ 0 then ret r.1 r.2 else k r.1

/-- The macro `RTSX_SET` (lines 266-271): a write of 0xff under the mask `bits`. -/
def RTSX_SET {W β : Type} (M : machine W) (sc : rtsx_softc W) (reg bits : Nat)
    (ret : rtsx_softc W → Nat → β) (k : rtsx_softc W → β) : β :=
  let r := rtsx_write M sc reg bits 0xff
  if r.2 ≠ 0 then ret r.1 r.2 else k r.1

/-- The poll loop `while (tries--)` of `rtsx_read_cfg` (lines 1152-1156), `rtsx_read_phy`
(lines 1203-1207) and `rtsx_write_phy` (lines 1229-1233): the register `reg` is read
through `RTSX_READ` until the bit `busy` is clear. The first argument is `tries` before the
test; the result is the softc, the final value of `tries` (the post-decrement leaves -1
when the loop runs out) and the error of an `rtsx_read` that made the enclosing function
return (0 when none did). -/
def rtsx_poll_loop {W : Type} (M : machine W) (reg busy : Nat) :
    Nat → rtsx_softc W → rtsx_softc W × Int × Nat
  | 0, sc => (sc, -1, 0)
  | n + 1, sc =>
    let r := rtsx_read M sc reg
    if r.2.2 ≠ 0 then (r.1, (n : Int), r.2.2)
    else if r.2.1 &&& busy = 0 then (r.1, (n : Int), 0)
    else rtsx_poll_loop M reg busy n r.1

/-- The function `rtsx_read_cfg` (lines 1142-1169): returns the softc, the value stored
through `val` (`none` when the function returns without storing one) and the error. The C
expression `func & 0x03 << 4` parses as `func & (0x03 << 4)`. -/
def rtsx_read_cfg {W : Type} (M : machine W) (sc : rtsx_softc W) (func addr : Nat) :
    rtsx_softc W × Option Nat × Nat :=
  RTSX_WRITE M sc RTSX_CFGADDR0 (addr % 65536) (fun s e => (s, none, e)) fun sc1 =>
  RTSX_WRITE M sc1 RTSX_CFGADDR1 ((addr % 65536) >>> 8) (fun s e => (s, none, e)) fun sc2 =>
  RTSX_WRITE M sc2 RTSX_CFGRWCTL (RTSX_CFG_BUSY ||| ((func % 256) &&& (0x03 <<< 4)))
    (fun s e => (s, none, e)) fun sc3 =>
  let l := rtsx_poll_loop M RTSX_CFGRWCTL RTSX_CFG_BUSY 1024 sc3
  if l.2.2 ≠ 0 then (l.1, none, l.2.2)
  else if l.2.1 = 0 then (l.1, none, ETIMEDOUT)
  else
    RTSX_READ M l.1 RTSX_CFGDATA0 (fun s e => (s, none, e)) fun sc4 data0 =>
    RTSX_READ M sc4 RTSX_CFGDATA1 (fun s e => (s, none, e)) fun sc5 data1 =>
    RTSX_READ M sc5 RTSX_CFGDATA2 (fun s e => (s, none, e)) fun sc6 data2 =>
    RTSX_READ M sc6 RTSX_CFGDATA3 (fun s e => (s, none, e)) fun sc7 data3 =>
    (sc7, some (((data3 <<< 24) ||| (data2 <<< 16) ||| (data1 <<< 8) ||| data0) % 2 ^ 32), 0)

/-- The function `rtsx_read_phy` (lines 1194-1214): returns the softc, the value stored
through `val` (`none` when the function returns without storing one) and the error. -/
def rtsx_read_phy {W : Type} (M : machine W) (sc : rtsx_softc W) (addr : Nat) :
    rtsx_softc W × Option Nat × Nat :=
  RTSX_WRITE M sc RTSX_PHY_ADDR (addr % 256) (fun s e => (s, none, e)) fun sc1 =>
  RTSX_WRITE M sc1 RTSX_PHY_RWCTL (RTSX_PHY_BUSY ||| RTSX_PHY_READ)
    (fun s e => (s, none, e)) fun sc2 =>
  let l := rtsx_poll_loop M RTSX_PHY_RWCTL RTSX_PHY_BUSY 100000 sc2
  if l.2.2 ≠ 0 then (l.1, none, l.2.2)
  else if l.2.1 = 0 then (l.1, none, ETIMEDOUT)
  else
    RTSX_READ M l.1 RTSX_PHY_DATA0 (fun s e => (s, none, e)) fun sc3 data0 =>
    RTSX_READ M sc3 RTSX_PHY_DATA1 (fun s e => (s, none, e)) fun sc4 data1 =>
    (sc4, some (((data1 <<< 8) ||| data0) % 65536), 0)

/-- The function `rtsx_write_phy` (lines 1216-1236): returns the softc and the error. -/
def rtsx_write_phy {W : Type} (M : machine W) (sc : rtsx_softc W) (addr val : Nat) :
    rtsx_softc W × Nat :=
  RTSX_WRITE M sc RTSX_PHY_DATA0 (val % 65536) Prod.mk fun sc1 =>
  RTSX_WRITE M sc1 RTSX_PHY_DATA1 ((val % 65536) >>> 8) Prod.mk fun sc2 =>
  RTSX_WRITE M sc2 RTSX_PHY_ADDR (addr % 256) Prod.mk fun sc3 =>
  RTSX_WRITE M sc3 RTSX_PHY_RWCTL (RTSX_PHY_BUSY ||| RTSX_PHY_WRITE) Prod.mk fun sc4 =>
  let l := rtsx_poll_loop M RTSX_PHY_RWCTL RTSX_PHY_BUSY 100000 sc4
  if l.2.2 ≠ 0 then (l.1, l.2.2)
  else (l.1, if l.2.1 = 0 then ETIMEDOUT else 0)

/-- A chip that completes every host access at the first poll: a write request is
answered with the byte written, a read request of any internal register with 0x80 (the
busy bit of the PHY and of the configuration access control registers). -/
def busy_flag_machine : machine Nat where
  read4 := fun w reg =>
    if reg = RTSX_HAIMR then (if w &&& RTSX_HAIMR_WRITE = 0 then 0x80 else w &&& 0xff, w)
    else (0, w)
  write4 := fun w reg val => if reg = RTSX_HAIMR then val else w
  wakeups := fun _ _ _ => []
  MAXPHYS := 131072

-- ---------------------------------------------------------------------------
-- SD clock
-- ---------------------------------------------------------------------------

/-- The clock request that stops the clock (rtsx.c line 224). -/
def RTSX_SDCLK_OFF : Nat := 0
/-- The lowest clock the driver announces as `f_min` (rtsx.c lines 225 and 615). -/
def RTSX_SDCLK_250KHZ : Nat := 250000
/-- The identification clock (rtsx.c line 226). -/
def RTSX_SDCLK_400KHZ : Nat := 400000
/-- The default-speed clock (rtsx.c line 227). -/
def RTSX_SDCLK_25MHZ : Nat := 25000000
/-- The high-speed clock (rtsx.c line 228). -/
def RTSX_SDCLK_50MHZ : Nat := 50000000
/-- The highest clock the driver announces as `f_max` (rtsx.c lines 230 and 616). -/
def RTSX_SDCLK_208MHZ : Nat := 208000000
/-- Value of `errno.h` for an invalid argument. -/
def EINVAL : Nat := 22

/-- Modelled from the spec: `rtsxreg.h` is not among the sources; clock control register. -/
def RTSX_CLK_CTL : Nat := 0xFC02
/-- Modelled from the spec: `rtsxreg.h` is not among the sources; clock divider register. -/
def RTSX_CLK_DIV : Nat := 0xFC03
/-- Modelled from the spec: `rtsxreg.h` is not among the sources; N-value register of the SSC. -/
def RTSX_SSC_DIV_N_0 : Nat := 0xFC0F
/-- Modelled from the spec: `rtsxreg.h` is not among the sources; SSC control register 1. -/
def RTSX_SSC_CTL1 : Nat := 0xFC11
/-- Modelled from the spec: `rtsxreg.h` is not among the sources; SSC control register 2. -/
def RTSX_SSC_CTL2 : Nat := 0xFC12
/-- Modelled from the spec: `rtsxreg.h` is not among the sources; card clock source register. -/
def RTSX_CARD_CLK_SOURCE : Nat := 0xFC2E
/-- Modelled from the spec: `rtsxreg.h` is not among the sources; card clock enable register. -/
def RTSX_CARD_CLK_EN : Nat := 0xFD69
/-- Modelled from the spec: `rtsxreg.h` is not among the sources; SD configuration register 1. -/
def RTSX_SD_CFG1 : Nat := 0xFDA0
/-- Modelled from the spec: `rtsxreg.h` is not among the sources; SD bus status register. -/
def RTSX_SD_BUS_STAT : Nat := 0xFDA5
/-- Modelled from the spec: `rtsxreg.h` is not among the sources; SD sample point register. -/
def RTSX_SD_SAMPLE_POINT_CTL : Nat := 0xFDA7
/-- Modelled from the spec: `rtsxreg.h` is not among the sources; SD push point register. -/
def RTSX_SD_PUSH_POINT_CTL : Nat := 0xFDA8
/-- Modelled from the spec: `rtsxreg.h` is not among the sources; low-frequency bit of CLK_CTL. -/
def RTSX_CLK_LOW_FREQ : Nat := 0x01
/-- Modelled from the spec: `rtsxreg.h` is not among the sources; divider code for 2. -/
def RTSX_CLK_DIV_2 : Nat := 0x02
/-- Modelled from the spec: `rtsxreg.h` is not among the sources; divider code for 4. -/
def RTSX_CLK_DIV_4 : Nat := 0x03
/-- Modelled from the spec: `rtsxreg.h` is not among the sources; divider code for 8. -/
def RTSX_CLK_DIV_8 : Nat := 0x04
/-- Modelled from the spec: `rtsxreg.h` is not among the sources; reset bit of SSC_CTL1. -/
def RTSX_RSTB : Nat := 0x80
/-- Modelled from the spec: `rtsxreg.h` is not among the sources; depth field of SSC_CTL2. -/
def RTSX_SSC_DEPTH_MASK : Nat := 0x07
/-- Modelled from the spec: `rtsxreg.h` is not among the sources; fixed CRC clock. -/
def RTSX_CRC_FIX_CLK : Nat := 0x00 <<< 0
/-- Modelled from the spec: `rtsxreg.h` is not among the sources; variable SD30 clock 0. -/
def RTSX_SD30_VAR_CLK0 : Nat := 0x01 <<< 2
/-- Modelled from the spec: `rtsxreg.h` is not among the sources; variable sample clock 1. -/
def RTSX_SAMPLE_VAR_CLK1 : Nat := 0x02 <<< 4
/-- Modelled from the spec: `rtsxreg.h` is not among the sources; all card clock enable bits. -/
def RTSX_CARD_CLK_EN_ALL : Nat := 0x1E
/-- Modelled from the spec: `rtsxreg.h` is not among the sources; mode field of SD_CFG1. -/
def RTSX_SD_MODE_MASK : Nat := 0x0C
/-- Modelled from the spec: `rtsxreg.h` is not among the sources; divide field of SD_CFG1. -/
def RTSX_CLK_DIVIDE_MASK : Nat := 0xC0
/-- Modelled from the spec: `rtsxreg.h` is not among the sources; clock force stop bit. -/
def RTSX_SD_CLK_FORCE_STOP : Nat := 0x40
/-- Modelled from the spec: `rtsxreg.h` is not among the sources; receive select field. -/
def RTSX_SD20_RX_SEL_MASK : Nat := 0x08
/-- Modelled from the spec: `rtsxreg.h` is not among the sources; transmit on negative edge. -/
def RTSX_SD20_TX_NEG_EDGE : Nat := 0x00

/-- The function `rtsx_stop_sd_clock` (lines 1334-1340): returns the softc and the error. -/
def rtsx_stop_sd_clock {W : Type} (M : machine W) (sc : rtsx_softc W) : rtsx_softc W × Nat :=
  RTSX_CLR M sc RTSX_CARD_CLK_EN RTSX_CARD_CLK_EN_ALL Prod.mk fun sc1 =>
  RTSX_SET M sc1 RTSX_SD_BUS_STAT RTSX_SD_CLK_FORCE_STOP Prod.mk fun sc2 =>
  (sc2, 0)

/-- The function `rtsx_switch_sd_clock` (lines 1342-1364), `n` a `uint8_t`: returns the
softc and the error. `DELAY(200)` has no effect on the model. -/
def rtsx_switch_sd_clock {W : Type} (M : machine W) (sc : rtsx_softc W) (n div mcu : Nat) :
    rtsx_softc W × Nat :=
  RTSX_CLR M sc RTSX_SD_CFG1 RTSX_SD_MODE_MASK Prod.mk fun sc1 =>
  RTSX_SET M sc1 RTSX_CLK_CTL RTSX_CLK_LOW_FREQ Prod.mk fun sc2 =>
  RTSX_WRITE M sc2 RTSX_CARD_CLK_SOURCE
    (RTSX_CRC_FIX_CLK ||| RTSX_SD30_VAR_CLK0 ||| RTSX_SAMPLE_VAR_CLK1) Prod.mk fun sc3 =>
  RTSX_CLR M sc3 RTSX_SD_SAMPLE_POINT_CTL RTSX_SD20_RX_SEL_MASK Prod.mk fun sc4 =>
  RTSX_WRITE M sc4 RTSX_SD_PUSH_POINT_CTL RTSX_SD20_TX_NEG_EDGE Prod.mk fun sc5 =>
  RTSX_WRITE M sc5 RTSX_CLK_DIV ((div <<< 4) ||| mcu) Prod.mk fun sc6 =>
  RTSX_CLR M sc6 RTSX_SSC_CTL1 RTSX_RSTB Prod.mk fun sc7 =>
  RTSX_CLR M sc7 RTSX_SSC_CTL2 RTSX_SSC_DEPTH_MASK Prod.mk fun sc8 =>
  RTSX_WRITE M sc8 RTSX_SSC_DIV_N_0 (n % 256) Prod.mk fun sc9 =>
  RTSX_SET M sc9 RTSX_SSC_CTL1 RTSX_RSTB Prod.mk fun sc10 =>
  RTSX_CLR M sc10 RTSX_CLK_CTL RTSX_CLK_LOW_FREQ Prod.mk fun sc11 =>
  (sc11, 0)

/-- The rounding of the requested frequency to a supported one in `rtsx_set_sd_clock`
(lines 1290-1296). -/
def rtsx_sd_clock_round (freq : Nat) : Nat :=
  if freq ≥ RTSX_SDCLK_50MHZ then RTSX_SDCLK_50MHZ
  else if freq ≥ RTSX_SDCLK_25MHZ then RTSX_SDCLK_25MHZ
  else RTSX_SDCLK_400KHZ

/-- The function `rtsx_set_sd_clock` (lines 1274-1332), `freq` a `uint32_t`: returns the
softc and the error. -/
def rtsx_set_sd_clock {W : Type} (M : machine W) (sc : rtsx_softc W) (freq : Nat) :
    rtsx_softc W × Nat :=
  if freq = RTSX_SDCLK_OFF then rtsx_stop_sd_clock M sc
  else
    let freq1 := rtsx_sd_clock_round freq
    if freq1 = RTSX_SDCLK_400KHZ then
      RTSX_CLR M sc RTSX_SD_CFG1 RTSX_CLK_DIVIDE_MASK Prod.mk fun sc1 =>
      rtsx_switch_sd_clock M sc1 80 RTSX_CLK_DIV_8 7
    else if freq1 = RTSX_SDCLK_25MHZ then
      RTSX_CLR M sc RTSX_SD_CFG1 RTSX_CLK_DIVIDE_MASK Prod.mk fun sc1 =>
      rtsx_switch_sd_clock M sc1 100 RTSX_CLK_DIV_4 7
    else if freq1 = RTSX_SDCLK_50MHZ then
      RTSX_CLR M sc RTSX_SD_CFG1 RTSX_CLK_DIVIDE_MASK Prod.mk fun sc1 =>
      rtsx_switch_sd_clock M sc1 100 RTSX_CLK_DIV_2 7
    else (sc, EINVAL)

/-- The internal-register write an event makes, if any: for a write request put into
`RTSX_HAIMR`, the 14-bit register address, the mask byte and the value byte. -/
def reg_write_of : event → Option (Nat × Nat × Nat)
  | event.write4 reg val =>
    if reg = RTSX_HAIMR ∧ val &&& RTSX_HAIMR_WRITE ≠ 0 then
      some ((val >>> 16) &&& 0x3FFF, (val >>> 8) &&& 0xFF, val &&& 0xFF)
    else none
  | event.read4 _ _ => none
  | event.msleep => none
  | event.done _ _ => none

/-- The internal-register writes of a trace, in order. -/
def reg_writes (t : List event) : List (Nat × Nat × Nat) :=
  t.filterMap reg_write_of

/-- The state `sc1` is reached from `sc` by events whose internal-register writes are
`l`. -/
def wrote {W : Type} (sc sc1 : rtsx_softc W) (l : List (Nat × Nat × Nat)) : Prop :=
  ∃ t, sc1.trace = sc.trace ++ t ∧ reg_writes t = l

/-- The register writes (14-bit address, mask, value) the specification's clock switch
makes for the N value `n`, the divider code `div` and the MCU count `mcu`: SD 2.0 mode,
low-frequency on, clock source, sample and push point, divider, SSC reset, SSC depth,
N value, SSC release, low-frequency off. -/
def clock_switch_writes (n div mcu : Nat) : List (Nat × Nat × Nat) :=
  [ (RTSX_SD_CFG1 &&& 0x3FFF, RTSX_SD_MODE_MASK, 0),
    (RTSX_CLK_CTL &&& 0x3FFF, RTSX_CLK_LOW_FREQ, 0xFF),
    (RTSX_CARD_CLK_SOURCE &&& 0x3FFF, 0xFF,
      RTSX_CRC_FIX_CLK ||| RTSX_SD30_VAR_CLK0 ||| RTSX_SAMPLE_VAR_CLK1),
    (RTSX_SD_SAMPLE_POINT_CTL &&& 0x3FFF, RTSX_SD20_RX_SEL_MASK, 0),
    (RTSX_SD_PUSH_POINT_CTL &&& 0x3FFF, 0xFF, RTSX_SD20_TX_NEG_EDGE),
    (RTSX_CLK_DIV &&& 0x3FFF, 0xFF, (div <<< 4) ||| mcu),
    (RTSX_SSC_CTL1 &&& 0x3FFF, RTSX_RSTB, 0),
    (RTSX_SSC_CTL2 &&& 0x3FFF, RTSX_SSC_DEPTH_MASK, 0),
    (RTSX_SSC_DIV_N_0 &&& 0x3FFF, 0xFF, n),
    (RTSX_SSC_CTL1 &&& 0x3FFF, RTSX_RSTB, 0xFF),
    (RTSX_CLK_CTL &&& 0x3FFF, RTSX_CLK_LOW_FREQ, 0) ]

/-- The first part of `rtsx_wait_intr` (lines 487-503), up to the end of the `while` loop:
the softc at wake, the local `status` (the bits about to be consumed) and the local
`error` (`MMC_ERR_TIMEOUT` when `msleep` returned `EWOULDBLOCK`, else 0). -/
def rtsx_wait_intr_wake {W : Type} (M : machine W) (sc : rtsx_softc W) (mask : Nat) :
    rtsx_softc W × Nat × Nat :=
  let mask1 := mask ||| RTSX_TRANS_FAIL_INT
  if sc.rtsx_intr_status &&& mask1 = 0 then
    rtsx_wait_intr_loop mask1
      (M.wakeups sc.rtsx_res sc.rtsx_cmd_dmamem sc.rtsx_data_dmamem) sc
  else (sc, sc.rtsx_intr_status &&& mask1, 0)

/-- A machine on which the first `msleep` returns `EWOULDBLOCK` while the interrupt
handler has latched the transfer-complete bit. -/
def race_machine : machine Unit where
  read4 := fun w _ => (0, w)
  write4 := fun w _ _ => w
  wakeups := fun _ cmd data =>
    [{ ewouldblock := true, hw := (), intr_status := RTSX_TRANS_OK_INT, card_task := none,
       cmd_dmamem := cmd, data_dmamem := data }]
  MAXPHYS := 131072

/-- A chip that counts the batches it is told to run (writes of `RTSX_HCBCTLR`): the
first two batches are answered at the first `msleep` with transfer-complete, from the
third batch on no interrupt comes and `msleep` times out. Every register reads as zero. -/
def stop_timeout_machine : machine Nat where
  read4 := fun w _ => (0, w)
  write4 := fun w reg _ => if reg = RTSX_HCBCTLR then w + 1 else w
  wakeups := fun w cmd data =>
    if w ≤ 2 then
      [{ ewouldblock := false, hw := w, intr_status := RTSX_TRANS_OK_INT, card_task := none,
         cmd_dmamem := cmd, data_dmamem := data }]
    else []
  MAXPHYS := 131072

/-- A write request of 1024 bytes (CMD25) with its stop command (CMD12). -/
def long_write_req : mmc_request where
  cmd := data_cmd 25 MMC_RSP_R1 1024 512 0
  stop := some (plain_cmd 12 0 MMC_RSP_R1B)

/-- A chip that completes every host access at the first poll: a write request is
answered with the byte written, a read request of any internal register with zero. -/
def ready_machine : machine Nat where
  read4 := fun w reg =>
    if reg = RTSX_HAIMR then (if w &&& RTSX_HAIMR_WRITE = 0 then 0 else w &&& 0xff, w)
    else (0, w)
  write4 := fun w reg val => if reg = RTSX_HAIMR then val else w
  wakeups := fun _ _ _ => []
  MAXPHYS := 131072

-- ---------------------------------------------------------------------------
-- Interrupt handler and card presence
-- ---------------------------------------------------------------------------

/-- Modelled from the spec: `rtsxreg.h` is not among the sources; bus interrupt pending register. -/
def RTSX_BIPR : Nat := 0x14
/-- Modelled from the spec: `rtsxreg.h` is not among the sources; bus interrupt enable register. -/
def RTSX_BIER : Nat := 0x18
/-- Modelled from the spec: `rtsxreg.h` is not among the sources; card-change interrupt bit. -/
def RTSX_SD_INT : Nat := 1 <<< 25
/-- Modelled from the spec: `rtsxreg.h` is not among the sources; write-protect status bit. -/
def RTSX_SD_WRITE_PROTECT : Nat := 1 <<< 19
/-- Modelled from the spec: `rtsxreg.h` is not among the sources; card-exists status bit. -/
def RTSX_SD_EXIST : Nat := 1 <<< 16

/-- The calls that the interrupt handler and the card task make into the kernel: the mutex
operations of `RTSX_LOCK` and `RTSX_UNLOCK`, `wakeup` on `&sc->rtsx_intr_status`,
`taskqueue_enqueue_timeout` of the delayed card task, `taskqueue_enqueue` of the card
task, and the four device calls on the child `mmc` bus. -/
inductive kcall where
  | mtx_lock
  | mtx_unlock
  | wakeup
  | taskqueue_enqueue_timeout
  | taskqueue_enqueue
  | device_add_child
  | device_set_ivars
  | device_probe_and_attach
  | device_delete_child
  deriving DecidableEq, Repr

/-- The function `rtsx_is_card_present` (lines 594-605, `RTSX_INVERSION` not defined):
returns the softc after the register read and the presence. -/
def rtsx_is_card_present {W : Type} (M : machine W) (sc : rtsx_softc W) : rtsx_softc W × Bool :=
  let r := READ4 M sc RTSX_BIPR
  (r.1, r.2 &&& RTSX_SD_EXIST != 0)

/-- The function `rtsx_handle_card_present` (lines 525-549): returns the softc and the
calls made, in order. -/
def rtsx_handle_card_present {W : Type} (M : machine W) (sc : rtsx_softc W) :
    rtsx_softc W × List kcall :=
  let was_present := sc.rtsx_mmc_dev
  let r := rtsx_is_card_present M sc
  let is_present := r.2
  if !was_present && is_present then (r.1, [kcall.taskqueue_enqueue_timeout])
  else if was_present && !is_present then (r.1, [kcall.taskqueue_enqueue])
  else (r.1, [])

/-- The function `rtsx_card_task` (lines 554-592): returns the softc and the calls made, in
order. `add_ok` tells whether `device_add_child` returns a device; the requests that the
child issues while `device_probe_and_attach` runs are calls of `rtsx_mmcbr_request` of
their own, and the result of `device_delete_child` only decides a message. -/
def rtsx_card_task {W : Type} (M : machine W) (add_ok : Bool) (sc : rtsx_softc W) :
    rtsx_softc W × List kcall :=
  let sc0 := RTSX_LOCK sc
  let r := rtsx_is_card_present M sc0
  if r.2 then
    let sc1 := { r.1 with rtsx_flags := r.1.rtsx_flags ||| RTSX_F_CARD_PRESENT }
    if sc1.rtsx_mmc_dev = false then
      let sc2 := { sc1 with rtsx_mmc_dev := add_ok }
      let sc3 := RTSX_UNLOCK sc2
      if sc3.rtsx_mmc_dev = false then
        (sc3, [kcall.mtx_lock, kcall.device_add_child, kcall.mtx_unlock])
      else
        (sc3, [kcall.mtx_lock, kcall.device_add_child, kcall.mtx_unlock,
          kcall.device_set_ivars, kcall.device_probe_and_attach])
    else (RTSX_UNLOCK sc1, [kcall.mtx_lock, kcall.mtx_unlock])
  else
    let sc1 := { r.1 with rtsx_flags := r.1.rtsx_flags &&& (0xFFFF ^^^ RTSX_F_CARD_PRESENT) }
    if sc1.rtsx_mmc_dev = true then
      let sc2 := RTSX_UNLOCK sc1
      ({ sc2 with rtsx_mmc_dev := false },
        [kcall.mtx_lock, kcall.mtx_unlock, kcall.device_delete_child])
    else (RTSX_UNLOCK sc1, [kcall.mtx_lock, kcall.mtx_unlock])

/-- The locals `enabled` and `status` of `rtsx_intr`: the values of the two register reads
at lines 446 and 447. -/
def rtsx_intr_regs {W : Type} (M : machine W) (sc : rtsx_softc W) : Nat × Nat :=
  let e := READ4 M (RTSX_LOCK sc) RTSX_BIER
  (e.2, (READ4 M e.1 RTSX_BIPR).2)

/-- The end of `rtsx_intr` (lines 471-479) on the softc and the calls `h` that the
card-change step leaves: without a request in flight nothing is done; otherwise a
transfer-complete or transfer-failure bit in `status` is added to the accumulated status
and the sleeper is woken. -/
def rtsx_intr_finish {W : Type} (h : rtsx_softc W × List kcall) (status : Nat) :
    rtsx_softc W × List kcall :=
  if h.1.rtsx_req.isNone then (RTSX_UNLOCK h.1, h.2 ++ [kcall.mtx_unlock])
  else if status &&& (RTSX_TRANS_OK_INT ||| RTSX_TRANS_FAIL_INT) ≠ 0 then
    (RTSX_UNLOCK { h.1 with rtsx_intr_status := h.1.rtsx_intr_status ||| status },
      h.2 ++ [kcall.wakeup, kcall.mtx_unlock])
  else (RTSX_UNLOCK h.1, h.2 ++ [kcall.mtx_unlock])

/-- The decisions of `rtsx_intr` after the acknowledge (lines 455-479), on the state
`sc1` with the locals `enabled` and `status`: the spurious test, the read-only flag, the
card-change step, then `rtsx_intr_finish`. Returns the softc and the calls made, in
order. -/
def rtsx_intr_body {W : Type} (M : machine W) (sc1 : rtsx_softc W) (enabled status : Nat) :
    rtsx_softc W × List kcall :=
  if enabled &&& status = 0 ∨ status = 0xffffffff then (RTSX_UNLOCK sc1, [kcall.mtx_unlock])
  else
    let sc2 :=
      { sc1 with rtsx_read_only := if status &&& RTSX_SD_WRITE_PROTECT ≠ 0 then 1 else 0 }
    rtsx_intr_finish
      (if status &&& RTSX_SD_INT ≠ 0 then rtsx_handle_card_present M sc2 else (sc2, [])) status

/-- The function `rtsx_intr` (lines 439-480): the lock, the two register reads and the
acknowledge (lines 445-453), then `rtsx_intr_body`. Returns the softc and the calls made,
in order. -/
def rtsx_intr {W : Type} (M : machine W) (sc : rtsx_softc W) : rtsx_softc W × List kcall :=
  let sc0 := RTSX_LOCK sc
  let e := READ4 M sc0 RTSX_BIER
  let s := READ4 M e.1 RTSX_BIPR
  let enabled := e.2
  let status := s.2
  let sc1 := WRITE4 M s.1 RTSX_BIPR status
  let b := rtsx_intr_body M sc1 enabled status
  (b.1, kcall.mtx_lock :: b.2)

/-- A chip on a shared interrupt line with a write-protected card: the enable register
shows the three interrupts that `rtsx_init` enables (line 765), the pending register shows
the write-protect and card-exists status bits and no interrupt bit. -/
def shared_irq_machine : machine Unit where
  read4 := fun w reg =>
    if reg = RTSX_BIER then (RTSX_TRANS_OK_INT ||| RTSX_TRANS_FAIL_INT ||| RTSX_SD_INT, w)
    else if reg = RTSX_BIPR then (RTSX_SD_WRITE_PROTECT ||| RTSX_SD_EXIST, w)
    else (0, w)
  write4 := fun w _ _ => w
  wakeups := fun _ _ _ => []
  MAXPHYS := 131072

/-- A chip that raises transfer-complete for a write-protected card: the pending register
shows transfer-complete with the write-protect and card-exists status bits. -/
def trans_ok_machine : machine Unit where
  read4 := fun w reg =>
    if reg = RTSX_BIER then (RTSX_TRANS_OK_INT ||| RTSX_TRANS_FAIL_INT ||| RTSX_SD_INT, w)
    else if reg = RTSX_BIPR then
      (RTSX_TRANS_OK_INT ||| RTSX_SD_WRITE_PROTECT ||| RTSX_SD_EXIST, w)
    else (0, w)
  write4 := fun w _ _ => w
  wakeups := fun _ _ _ => []
  MAXPHYS := 131072

/-- A card that is pulled out right after it was pushed in: the chip counts the reads of
the pending register; the first read shows the card-change interrupt with the card-exists
bit, every later read shows the card-change interrupt without it. -/
def bounce_machine : machine Nat where
  read4 := fun w reg =>
    if reg = RTSX_BIPR then
      (if w = 0 then RTSX_SD_INT ||| RTSX_SD_EXIST else RTSX_SD_INT, w + 1)
    else (0, w)
  write4 := fun w _ _ => w
  wakeups := fun _ _ _ => []
  MAXPHYS := 131072

/-- The state `sc1` is reached from `sc` with the chip identity kept and the descriptor
queue in range: the flags agree outside the card-present bit, and the descriptor index is
at most 256 if it was. -/
def steady {W : Type} (sc sc1 : rtsx_softc W) : Prop :=
  sc1.rtsx_flags &&& 0xFFFE = sc.rtsx_flags &&& 0xFFFE ∧
  (sc.rtsx_cmd_index ≤ 256 → sc1.rtsx_cmd_index ≤ 256)


-- ---------------------------------------------------------------------------
-- Chip identity: probe, SDIO detection and the first part of rtsx_init
-- ---------------------------------------------------------------------------

/-- Flag bit of `rtsx_flags`: the chip is an RTS5209 (rtsx.c line 66). -/
def RTSX_F_5209 : Nat := 0x0004
/-- Flag bit of `rtsx_flags`: the chip is an RTS5227 (rtsx.c line 67). -/
def RTSX_F_5227 : Nat := 0x0008
/-- Flag bit of `rtsx_flags`: the chip is an RTS5229 (rtsx.c line 68). -/
def RTSX_F_5229 : Nat := 0x0010
/-- Flag bit of `rtsx_flags`: the RTS5229 is of type C (rtsx.c line 69). -/
def RTSX_F_5229_TYPE_C : Nat := 0x0020
/-- Flag bit of `rtsx_flags`: the chip is an RTS522A (rtsx.c line 70). -/
def RTSX_F_522A : Nat := 0x0040
/-- Flag bit of `rtsx_flags`: the RTS522A is of type A (rtsx.c line 71). -/
def RTSX_F_522A_TYPE_A : Nat := 0x0080
/-- Flag bit of `rtsx_flags`: the chip is an RTS525A (rtsx.c line 72). -/
def RTSX_F_525A : Nat := 0x0100
/-- Flag bit of `rtsx_flags`: the RTS525A is of type A (rtsx.c line 73). -/
def RTSX_F_525A_TYPE_A : Nat := 0x0200
/-- Flag bit of `rtsx_flags`: the chip is an RTS5249 (rtsx.c line 74). -/
def RTSX_F_5249 : Nat := 0x0400
/-- Flag bit of `rtsx_flags`: the chip is an RTL8402 (rtsx.c line 75). -/
def RTSX_F_8402 : Nat := 0x0800
/-- Flag bit of `rtsx_flags`: the chip is an RTL8411 (rtsx.c line 76). -/
def RTSX_F_8411 : Nat := 0x1000
/-- Flag bit of `rtsx_flags`: the chip is an RTL8411B (rtsx.c line 77). -/
def RTSX_F_8411B : Nat := 0x2000
/-- Flag bit of `rtsx_flags`: the RTL8411B comes in the QFN48 package (rtsx.c line 78). -/
def RTSX_F_8411B_QFN48 : Nat := 0x4000
/-- Flag bit of `rtsx_flags`: the socket is reversed (rtsx.c line 79). -/
def RTSX_REVERSE_SOCKET : Nat := 0x8000

/-- Value of `errno.h` for a device that is not configured. -/
def ENXIO : Nat := 6
/-- Value of `sys/bus.h`: the probe priority of a base operating system driver. -/
def BUS_PROBE_DEFAULT : Int := -20

/-- Modelled from the spec: `rtsxreg.h` is not among the sources; register holding the IC version. -/
def RTSX_DUMMY_REG : Nat := 0xFE90
/-- Modelled from the spec: `rtsxreg.h` is not among the sources; IC version A. -/
def RTSX_IC_VERSION_A : Nat := 0x00
/-- Modelled from the spec: `rtsxreg.h` is not among the sources; IC version C. -/
def RTSX_IC_VERSION_C : Nat := 0x02
/-- Modelled from the spec: `rtsxreg.h` is not among the sources; package register of the RTL8411B. -/
def RTSX_RTL8411B_PACKAGE : Nat := 0xFD51
/-- Modelled from the spec: `rtsxreg.h` is not among the sources; QFN48 bit of the package register. -/
def RTSX_RTL8411B_QFN48 : Nat := 0x02
/-- Modelled from the spec: `rtsxreg.h` is not among the sources; vendor setting 1 in PCI configuration space. -/
def RTSX_PCR_SETTING_REG1 : Nat := 0x724
/-- Modelled from the spec: `rtsxreg.h` is not among the sources; vendor setting 2 in PCI configuration space. -/
def RTSX_PCR_SETTING_REG2 : Nat := 0x814
/-- Modelled from the spec: `rtsxreg.h` is not among the sources; SDIO configuration register. -/
def RTSX_SDIOCFG_REG : Nat := 0x724
/-- Modelled from the spec: `rtsxreg.h` is not among the sources; the chip has an SDIO function. -/
def RTSX_SDIOCFG_HAVE_SDIO : Nat := 0x04
/-- Modelled from the spec: `rtsxreg.h` is not among the sources; the chip is SDIO only. -/
def RTSX_SDIOCFG_SDIO_ONLY : Nat := 0x80

/-- The table `rtsx_devices` (lines 134-143, `RTSX_INVERSION` not defined) without the
description strings: vendor, device and flags of each row; the last row is the end
marker. -/
def rtsx_devices : List (Nat × Nat × Nat) :=
  [ (0x10ec, 0x5209, RTSX_F_5209),
    (0x10ec, 0x5227, RTSX_F_5227),
    (0x10ec, 0x5229, RTSX_F_5229),
    (0x10ec, 0x522a, RTSX_F_522A),
    (0x10ec, 0x525a, RTSX_F_525A),
    (0x10ec, 0x5249, RTSX_F_5249),
    (0x10ec, 0x5286, RTSX_F_8402),
    (0x10ec, 0x5289, RTSX_F_8411),
    (0x10ec, 0x5287, RTSX_F_8411B),
    (0, 0, 0) ]

/-- The `for` loop of `rtsx_probe` (lines 2619-2628) over the rows from the current one
on: returns the softc and `result`. The loop ends at the row whose vendor is zero; the
table has such a row, so the end of the list is not reached. -/
def rtsx_probe_loop {W : Type} (vendor device : Nat) :
    List (Nat × Nat × Nat) → rtsx_softc W → rtsx_softc W × Int
  | [], sc => (sc, ( ENXIO : Int))
  | row :: rest, sc =>
    if row.1 = 0 then (sc, ( ENXIO : Int))
    else if row.1 = vendor ∧ row.2.1 = device then
      ({ sc with rtsx_flags := row.2.2 % 65536 }, BUS_PROBE_DEFAULT)
    else rtsx_probe_loop vendor device rest sc

/-- The function `rtsx_probe` (lines 2607-2631) for the vendor and device identifiers that
`pci_get_vendor` and `pci_get_device` return (16 bits each): returns the softc and the
probe result. -/
def rtsx_probe {W : Type} (vendor device : Nat) (sc : rtsx_softc W) : rtsx_softc W × Int :=
  rtsx_probe_loop (vendor % 65536) (device % 65536) rtsx_devices sc

/-- The SDIO detection of `rtsx_attach` (lines 2699-2703). A call of `rtsx_read_cfg` that
returns 0 has stored a value. -/
def rtsx_attach_sdio {W : Type} (M : machine W) (sc : rtsx_softc W) : rtsx_softc W :=
  let r := rtsx_read_cfg M sc 0 RTSX_SDIOCFG_REG
  if r.2.2 = 0 then
    match r.2.1 with
    | some sdio_cfg =>
      if sdio_cfg &&& RTSX_SDIOCFG_SDIO_ONLY ≠ 0 ∨ sdio_cfg &&& RTSX_SDIOCFG_HAVE_SDIO ≠ 0 then
        { r.1 with rtsx_flags := r.1.rtsx_flags ||| RTSX_F_SDIO_SUPPORT }
      else r.1
    | none => r.1
  else r.1

/-- The check of the IC version in `rtsx_init` (lines 625-645): returns the softc and the
error with which `RTSX_READ` makes `rtsx_init` return (0 when it goes on). -/
def rtsx_init_version {W : Type} (M : machine W) (sc : rtsx_softc W) : rtsx_softc W × Nat :=
  if sc.rtsx_flags &&& RTSX_F_5229 ≠ 0 then
    RTSX_READ M sc RTSX_DUMMY_REG Prod.mk fun sc1 version =>
      (if version &&& 0x0F = RTSX_IC_VERSION_C then
        { sc1 with rtsx_flags := sc1.rtsx_flags ||| RTSX_F_5229_TYPE_C } else sc1, 0)
  else if sc.rtsx_flags &&& RTSX_F_522A ≠ 0 then
    RTSX_READ M sc RTSX_DUMMY_REG Prod.mk fun sc1 version =>
      (if version &&& 0x0F = RTSX_IC_VERSION_A then
        { sc1 with rtsx_flags := sc1.rtsx_flags ||| RTSX_F_522A_TYPE_A } else sc1, 0)
  else if sc.rtsx_flags &&& RTSX_F_525A ≠ 0 then
    RTSX_READ M sc RTSX_DUMMY_REG Prod.mk fun sc1 version =>
      (if version &&& 0x0F = RTSX_IC_VERSION_A then
        { sc1 with rtsx_flags := sc1.rtsx_flags ||| RTSX_F_525A_TYPE_A } else sc1, 0)
  else if sc.rtsx_flags &&& RTSX_F_8411B ≠ 0 then
    RTSX_READ M sc RTSX_RTL8411B_PACKAGE Prod.mk fun sc1 version =>
      (if version &&& RTSX_RTL8411B_QFN48 ≠ 0 then
        { sc1 with rtsx_flags := sc1.rtsx_flags ||| RTSX_F_8411B_QFN48 } else sc1, 0)
  else (sc, 0)

/-- The vendor settings of `rtsx_init` (lines 647-752) as far as they reach `rtsx_flags`;
`pci` is `pci_read_config` of the device for 4-byte reads, by offset. The branches for the
other chips, and the other assignments of these branches, set the drive-select fields
`rtsx_card_drive_sel` and `rtsx_sd30_drive_sel_3v3` only, which this model of the softc
does not carry. -/
def rtsx_init_vendor {W : Type} (pci : Nat → Nat) (sc : rtsx_softc W) : rtsx_softc W :=
  if sc.rtsx_flags &&& RTSX_F_5209 ≠ 0 then sc
  else if sc.rtsx_flags &&& (RTSX_F_5227 ||| RTSX_F_522A) ≠ 0 then
    if (pci RTSX_PCR_SETTING_REG1 % 2 ^ 32) &&& 0x1000000 = 0 then
      if (pci RTSX_PCR_SETTING_REG2 % 2 ^ 32) &&& 0x4000 ≠ 0 then
        { sc with rtsx_flags := sc.rtsx_flags ||| RTSX_REVERSE_SOCKET }
      else sc
    else sc
  else if sc.rtsx_flags &&& RTSX_F_5229 ≠ 0 then sc
  else if sc.rtsx_flags &&& (RTSX_F_525A ||| RTSX_F_5249) ≠ 0 then
    if (pci RTSX_PCR_SETTING_REG1 % 2 ^ 32) &&& 0x1000000 ≠ 0 then
      if (pci RTSX_PCR_SETTING_REG2 % 2 ^ 32) &&& 0x4000 ≠ 0 then
        { sc with rtsx_flags := sc.rtsx_flags ||| RTSX_REVERSE_SOCKET }
      else sc
    else sc
  else sc

/-- The part of `rtsx_init` that writes `rtsx_flags` (lines 625-752): the check of the IC
version, then the vendor settings. Returns the softc and the error of an early return (0
when `rtsx_init` goes on to program the chip, which does not assign `rtsx_flags`). -/
def rtsx_init_flags {W : Type} (M : machine W) (pci : Nat → Nat) (sc : rtsx_softc W) :
    rtsx_softc W × Nat :=
  let r := rtsx_init_version M sc
  if r.2 ≠ 0 then r else (rtsx_init_vendor pci r.1, 0)

/-- The controller states reachable after a successful probe: the state `rtsx_probe`
leaves when it matches, and from there, in any order and any number of times, the SDIO
detection of attach, the flag part of `rtsx_init` for any configuration space, the card
task with either outcome of `device_add_child`, interrupts, requests that return, and any
other step of the driver. The other code assigns no `rtsx_flags` (the assignments are at
lines 562, 579, 630, 635, 640, 644, 675, 711, 2624 and 2702, all embedded above), so a
step of it is any change of the state that keeps `rtsx_flags`. -/
inductive reachable {W : Type} (M : machine W) : rtsx_softc W → Prop where
  | probe (sc : rtsx_softc W) (vendor device : Nat) :
      (rtsx_probe vendor device sc).2 = BUS_PROBE_DEFAULT →
      reachable M (rtsx_probe vendor device sc).1
  | sdio (sc : rtsx_softc W) : reachable M sc → reachable M (rtsx_attach_sdio M sc)
  | init (sc : rtsx_softc W) (pci : Nat → Nat) :
      reachable M sc → reachable M (rtsx_init_flags M pci sc).1
  | card_task (sc : rtsx_softc W) (add_ok : Bool) :
      reachable M sc → reachable M (rtsx_card_task M add_ok sc).1
  | intr (sc : rtsx_softc W) : reachable M sc → reachable M (rtsx_intr M sc).1
  | request (sc : rtsx_softc W) (req : mmc_request) (r : rtsx_softc W × mmc_request × Nat) :
      reachable M sc → rtsx_mmcbr_request M sc req = some r → reachable M r.1
  | other (sc sc1 : rtsx_softc W) :
      reachable M sc → sc1.rtsx_flags = sc.rtsx_flags → reachable M sc1

/-- The nine chip-variant bits of `rtsx_flags`. -/
def chip_variants : List Nat :=
  [RTSX_F_5209, RTSX_F_5227, RTSX_F_5229, RTSX_F_522A, RTSX_F_525A, RTSX_F_5249, RTSX_F_8402,
   RTSX_F_8411, RTSX_F_8411B]

/-- The number of chip-variant bits set in a flag word. -/
def variant_count (flags : Nat) : Nat :=
  (chip_variants.filter fun b => flags &&& b != 0).length

/-- Each revision or package sub-flag is set only together with the bit of its own chip
variant. -/
def sub_flags_own (flags : Nat) : Prop :=
  (flags &&& RTSX_F_5229_TYPE_C ≠ 0 → flags &&& RTSX_F_5229 ≠ 0) ∧
  (flags &&& RTSX_F_522A_TYPE_A ≠ 0 → flags &&& RTSX_F_522A ≠ 0) ∧
  (flags &&& RTSX_F_525A_TYPE_A ≠ 0 → flags &&& RTSX_F_525A ≠ 0) ∧
  (flags &&& RTSX_F_8411B_QFN48 ≠ 0 → flags &&& RTSX_F_8411B ≠ 0)

/-- The values the chip-variant and sub-flag bits (mask 0x7FFC) of `rtsx_flags` can take:
one variant bit, alone or with the sub-flag of that variant. -/
def chip_ids : List Nat :=
  [0x0004, 0x0008, 0x0010, 0x0030, 0x0040, 0x00C0, 0x0100, 0x0300, 0x0400, 0x0800, 0x1000,
   0x2000, 0x6000]

-- ---------------------------------------------------------------------------
-- A chip that records the batches it runs
-- ---------------------------------------------------------------------------

/-- The chip of the batch record: the number of descriptors of the batch it was last told
to run, and the batches it has run so far, each the list of its descriptor words. -/
structure batch_log where
  batch : Nat
  log : List (List Nat)

/-- The machine built on this chip: a write to `RTSX_HCBCTLR` with the start bit latches
the batch length, and the sleeper is woken once, with transfer-complete, after the chip
has appended the descriptor words of the batch found in the command buffer to its log. -/
def batch_recorder : machine batch_log where
  read4 := fun w _ => (0, w)
  write4 := fun w reg val =>
    if reg = RTSX_HCBCTLR ∧ val &&& RTSX_START_CMD ≠ 0 then
      { w with batch := (val &&& 0x00ffffff) / 4 }
    else w
  wakeups := fun w cmd data =>
    [{ ewouldblock := false
       hw := { batch := 0, log := w.log ++ [(List.range w.batch).map (load32 cmd)] }
       intr_status := RTSX_TRANS_OK_INT
       card_task := none
       cmd_dmamem := cmd
       data_dmamem := data }]
  MAXPHYS := 131072

/-- The read micro-ops for the ping-pong buffer bytes `0 .. L - 1`, in increasing order of
address: the words of `rtsx_push_cmd(sc, RTSX_READ_REG_CMD, RTSX_PPBUF_BASE2 + k, 0, 0)`. -/
def ppbuf_read_ops (L : Nat) : List Nat :=
  (List.range L).map fun k => rtsx_cmd_word RTSX_READ_REG_CMD (RTSX_PPBUF_BASE2 + k) 0 0

/-- The write micro-ops for the ping-pong buffer bytes `0 .. L - 1`, in increasing order of
address: the words of
`rtsx_push_cmd(sc, RTSX_WRITE_REG_CMD, RTSX_PPBUF_BASE2 + k, 0xff, buf[k])`. -/
def ppbuf_write_ops (buf : Nat → Nat) (L : Nat) : List Nat :=
  (List.range L).map fun k =>
    rtsx_cmd_word RTSX_WRITE_REG_CMD (RTSX_PPBUF_BASE2 + k) 0xff (buf k)

/-- A chip that has run no batch. -/
def batch_log0 : batch_log where
  batch := 0
  log := []

-- ---------------------------------------------------------------------------
-- The descriptor push in both kernel builds
-- ---------------------------------------------------------------------------

/-- The function `rtsx_push_cmd` (lines 1639-1652) in either kernel build. `KASSERT` is the
assertion macro of the kernel: it is compiled only into a kernel built with the option
`INVARIANTS`, where a failed assertion stops the kernel (`none`); in a kernel built
without the option it expands to nothing, and the store and the increment of lines
1646-1651 are made whatever the index is, from index 256 on beyond the 256 words of the
command buffer. -/
def rtsx_push_cmd_kernel {W : Type} (invariants : Bool) (sc : rtsx_softc W)
    (cmd reg mask data : Nat) : Option (rtsx_softc W) :=
  if invariants = true ∧ ¬ sc.rtsx_cmd_index < RTSX_HOSTCMD_MAX then none
  else
    some { sc with
      rtsx_cmd_dmamem := store32 sc.rtsx_cmd_dmamem sc.rtsx_cmd_index
        (rtsx_cmd_word cmd reg mask data)
      rtsx_cmd_index := sc.rtsx_cmd_index + 1 }

-- ---------------------------------------------------------------------------
-- The result of a wait and the accesses of a rejected request, as the claims word them
-- ---------------------------------------------------------------------------

/-- The result of `rtsx_wait_intr` as the claim orders it, for a wait that ended in the
state `w`, `timed_out` telling whether `msleep` timed out: `MMC_ERR_INVALID` when the
card-present flag is clear, else `MMC_ERR_TIMEOUT` after a timeout, else `MMC_ERR_FAILED`
when the transfer-failure bit is among the consumed bits, the accumulated bits of
(mask | transfer-failure), else 0. -/
def wait_result {W : Type} (mask : Nat) (w : rtsx_softc W) (timed_out : Bool) : Nat :=
  if ISSET w.rtsx_flags RTSX_F_CARD_PRESENT = false then MMC_ERR_INVALID
  else if timed_out = true then MMC_ERR_TIMEOUT
  else if (w.rtsx_intr_status &&& (mask ||| RTSX_TRANS_FAIL_INT)) &&&
      RTSX_TRANS_FAIL_INT ≠ 0 then MMC_ERR_FAILED
  else 0

/-- The returns `pre` of `msleep` end no wait for the bits `mask`: none of them is a
timeout, and after them the accumulated status holds no bit of `mask` (hence after each
of them, as the accumulated status only gains bits while the thread sleeps). -/
def sleeps_through {W : Type} (mask : Nat) (sc : rtsx_softc W) (pre : List (wakeup W)) : Prop :=
  (∀ p ∈ pre, p.ewouldblock = false) ∧ (pre.foldl msleep sc).rtsx_intr_status &&& mask = 0

/-- A machine on which the first `msleep` returns with the transfer-failure bit latched,
after an interrupt that was not a timeout. -/
def fail_machine : machine Unit where
  read4 := fun w _ => (0, w)
  write4 := fun w _ _ => w
  wakeups := fun _ cmd data =>
    [{ ewouldblock := false, hw := (), intr_status := RTSX_TRANS_FAIL_INT, card_task := none,
       cmd_dmamem := cmd, data_dmamem := data }]
  MAXPHYS := 131072

/-- The events `t` are one access through the host access register: the write of the
request `word` to `RTSX_HAIMR`, followed by polls of `RTSX_HAIMR`, at least one and at most
1024. -/
def haimr_access (word : Nat) (t : List event) : Prop :=
  ∃ p, t = event.write4 RTSX_HAIMR word :: p ∧ 1 ≤ p.length ∧ p.length ≤ 1024 ∧
    ∀ e ∈ p, ∃ v, e = event.read4 RTSX_HAIMR v

/-- The events `t` are those of a soft reset: the write of `RTSX_STOP_CMD` to
`RTSX_HCBCTLR`, the write of `RTSX_STOP_DMA` to `RTSX_HDBCTLR`, and three write accesses
through `RTSX_HAIMR` (request word: busy and write bits, 14-bit register address, mask
byte, value byte), for the DMA reset, the ring buffer flush and the stop and error clear
of the card. -/
def soft_reset_events (t : List event) : Prop :=
  ∃ a1 a2 a3,
    t = [event.write4 RTSX_HCBCTLR RTSX_STOP_CMD, event.write4 RTSX_HDBCTLR RTSX_STOP_DMA] ++
      a1 ++ a2 ++ a3 ∧
    haimr_access (rtsx_cmd_word 3 RTSX_DMACTL RTSX_DMA_RST RTSX_DMA_RST) a1 ∧
    haimr_access (rtsx_cmd_word 3 RTSX_RBCTL RTSX_RB_FLUSH RTSX_RB_FLUSH) a2 ∧
    haimr_access (rtsx_cmd_word 3 RTSX_CARD_STOP (RTSX_SD_STOP ||| RTSX_SD_CLR_ERR)
      (RTSX_SD_STOP ||| RTSX_SD_CLR_ERR)) a3

-- ===========================================================================
-- Theorems
-- ===========================================================================

-- ---------------------------------------------------------------------------
-- C1: a request submitted while one is outstanding
-- ---------------------------------------------------------------------------

/-- C1: when a request is already outstanding, `rtsx_mmcbr_request` returns
`MMC_ERR_MAX` and the whole controller state (outstanding request, accumulated interrupt
status, descriptor index, flags, chip state and event trace, hence no register access and
no callback) as well as the new request (its error field included) are unchanged. -/
theorem rtsx_mmcbr_request_busy {W : Type} (M : machine W) (sc : rtsx_softc W)
    (req : mmc_request) (h : sc.rtsx_req ≠ none) :
    rtsx_mmcbr_request M sc req = some (sc, req, MMC_ERR_MAX) := by
  have hs : sc.rtsx_req.isSome = true := by
    cases hr : sc.rtsx_req with
    | none => exact absurd hr h
    | some r => rfl
  simp [rtsx_mmcbr_request, RTSX_LOCK, RTSX_UNLOCK, hs]

/-- Witness of C1 on a controller with CMD13 in flight and a new CMD17 submitted. -/
theorem rtsx_mmcbr_request_busy_witness :
    rtsx_mmcbr_request silent_machine (busy_softc ())
        { cmd := plain_cmd 17 0 MMC_RSP_R1, stop := none } =
      some (busy_softc (), { cmd := plain_cmd 17 0 MMC_RSP_R1, stop := none }, MMC_ERR_MAX) :=
  rtsx_mmcbr_request_busy silent_machine (busy_softc ())
    { cmd := plain_cmd 17 0 MMC_RSP_R1, stop := none } (by simp [busy_softc])

-- ---------------------------------------------------------------------------
-- C4, C6: length validation of the two transfer paths
-- ---------------------------------------------------------------------------

/-- C4: `rtsx_xfer_short` rejects every data length above 512 and `rtsx_xfer` every data
length above `RTSX_DMA_DATA_BUFSIZE`; each returns `MMC_ERR_INVALID`, sets the command's
error to `MMC_ERR_INVALID` and returns the controller state as it was (descriptor buffer,
descriptor index, chip state and event trace included, so nothing was pushed and no
register accessed). -/
theorem rtsx_xfer_rejects_oversize {W : Type} (M : machine W) (sc : rtsx_softc W)
    (cmd : mmc_command) (d : mmc_data) (hd : cmd.data = some d) :
    (512 < d.len →
      ∃ cmd1, rtsx_xfer_short M sc cmd = some (sc, cmd1, MMC_ERR_INVALID) ∧
        cmd1.error = MMC_ERR_INVALID) ∧
    (RTSX_DMA_DATA_BUFSIZE M < d.len →
      ∃ cmd1, rtsx_xfer M sc cmd = some (sc, cmd1, MMC_ERR_INVALID) ∧
        cmd1.error = MMC_ERR_INVALID) := by
  have hlen : (rtsx_default_xfer_len d).len = d.len := by
    unfold rtsx_default_xfer_len
    split <;> rfl
  constructor
  · intro h
    have h0 : d.len ≠ 0 := by omega
    refine ⟨{ cmd with data := some (rtsx_default_xfer_len d), error := MMC_ERR_INVALID }, ?_, rfl⟩
    simp [rtsx_xfer_short, hd, h0, hlen, h]
  · intro h
    refine ⟨{ cmd with data := some (rtsx_default_xfer_len d), error := MMC_ERR_INVALID }, ?_, rfl⟩
    simp [rtsx_xfer, hd, hlen, h]

/-- Witness of C4: 513 bytes on the short path, capacity + 1 bytes on the long path. -/
theorem rtsx_xfer_rejects_oversize_witness :
    (∃ cmd1, rtsx_xfer_short silent_machine (idle_softc ())
        (data_cmd 17 MMC_RSP_R1 513 512 MMC_DATA_READ) =
        some (idle_softc (), cmd1, MMC_ERR_INVALID) ∧ cmd1.error = MMC_ERR_INVALID) ∧
    (∃ cmd1, rtsx_xfer silent_machine (idle_softc ())
        (data_cmd 18 MMC_RSP_R1 131073 512 MMC_DATA_READ) =
        some (idle_softc (), cmd1, MMC_ERR_INVALID) ∧ cmd1.error = MMC_ERR_INVALID) :=
  ⟨(rtsx_xfer_rejects_oversize silent_machine (idle_softc ())
      (data_cmd 17 MMC_RSP_R1 513 512 MMC_DATA_READ)
      { len := 513, xfer_len := 512, data := fun _ => 0, flags := MMC_DATA_READ } rfl).1
      (by decide),
    (rtsx_xfer_rejects_oversize silent_machine (idle_softc ())
      (data_cmd 18 MMC_RSP_R1 131073 512 MMC_DATA_READ)
      { len := 131073, xfer_len := 512, data := fun _ => 0, flags := MMC_DATA_READ } rfl).2
      (by decide)⟩

/-- C6 refuted: a 513-byte request whose block size is unset (0) is rejected by
`rtsx_xfer_short` with `MMC_ERR_INVALID`, and its block size `xfer_len` is 512
afterwards: the data descriptor is not identical before and after the call. -/
theorem rtsx_xfer_short_reject_sets_xfer_len :
    (data_cmd 17 MMC_RSP_R1 513 0 MMC_DATA_READ).data.map mmc_data.xfer_len = some 0 ∧
    (rtsx_xfer_short silent_machine (idle_softc ())
        (data_cmd 17 MMC_RSP_R1 513 0 MMC_DATA_READ)).map
      (fun r => (r.2.2, r.2.1.data.map mmc_data.xfer_len)) = some (MMC_ERR_INVALID, some 512) := by
  constructor
  · rfl
  · rfl

/-- The block-size default of lines 1846-1848 and 2047-2049 as a record update. -/
theorem rtsx_default_xfer_len_eq (d : mmc_data) :
    rtsx_default_xfer_len d =
      { d with xfer_len := if d.xfer_len = 0 then min d.len 512 else d.xfer_len } := by
  unfold rtsx_default_xfer_len
  by_cases hx : d.xfer_len = 0
  · by_cases hl : d.len > 512
    · have : min d.len 512 = 512 := by omega
      simp [hx, RTSX_MAX_DATA_BLKLEN, hl, this]
    · have : min d.len 512 = d.len := by omega
      simp [hx, RTSX_MAX_DATA_BLKLEN, hl, this]
  · simp [hx]

/-- A request longer than the bulk buffer is rejected by `rtsx_xfer` after the block-size
default. -/
theorem rtsx_xfer_reject_bulk {W : Type} (M : machine W) (sc : rtsx_softc W)
    (cmd : mmc_command) (d : mmc_data) (hd : cmd.data = some d)
    (h : RTSX_DMA_DATA_BUFSIZE M < d.len) :
    rtsx_xfer M sc cmd =
      some (sc, { cmd with
        data := some { d with xfer_len := if d.xfer_len = 0 then min d.len 512 else d.xfer_len }
        error := MMC_ERR_INVALID }, MMC_ERR_INVALID) := by
  simp [rtsx_xfer, hd, rtsx_default_xfer_len_eq, h]

/-- C6 amended: when `rtsx_xfer_short` (length above 512) or `rtsx_xfer` (length above
`RTSX_DMA_DATA_BUFSIZE`) rejects a request, the controller state is returned as it was and
the command differs only in its error field and in the block size of its data descriptor:
`xfer_len` is min(length, 512) when it was unset (0) and is kept when it was set; length,
direction flags and buffer are kept. For a zero length `rtsx_xfer_short` changes the error
field only. -/
theorem rtsx_xfer_reject_frame {W : Type} (M : machine W) (sc : rtsx_softc W)
    (cmd : mmc_command) (d : mmc_data) (hd : cmd.data = some d) :
    (512 < d.len →
      rtsx_xfer_short M sc cmd =
        some (sc, { cmd with
          data := some { d with xfer_len := if d.xfer_len = 0 then min d.len 512 else d.xfer_len }
          error := MMC_ERR_INVALID }, MMC_ERR_INVALID)) ∧
    (d.len = 0 →
      rtsx_xfer_short M sc cmd = some (sc, { cmd with error := MMC_ERR_INVALID }, MMC_ERR_INVALID)) ∧
    (RTSX_DMA_DATA_BUFSIZE M < d.len →
      rtsx_xfer M sc cmd =
        some (sc, { cmd with
          data := some { d with xfer_len := if d.xfer_len = 0 then min d.len 512 else d.xfer_len }
          error := MMC_ERR_INVALID }, MMC_ERR_INVALID)) := by
  have hdef := rtsx_default_xfer_len_eq d
  refine ⟨?_, ?_, ?_⟩
  · intro h
    have h0 : d.len ≠ 0 := by omega
    simp [rtsx_xfer_short, hd, h0, hdef, h]
  · intro h
    simp [rtsx_xfer_short, hd, h]
  · intro h
    exact rtsx_xfer_reject_bulk M sc cmd d hd h

/-- Witness of C6 amended: 513 bytes with unset block size and 0 bytes on the short path,
capacity + 1 bytes with unset block size on the long path. -/
theorem rtsx_xfer_reject_frame_witness :
    rtsx_xfer_short silent_machine (idle_softc ()) (data_cmd 17 MMC_RSP_R1 513 0 MMC_DATA_READ) =
        some (idle_softc (), { data_cmd 17 MMC_RSP_R1 513 0 MMC_DATA_READ with
          data := some { len := 513, xfer_len := if 0 = 0 then min 513 512 else 0,
                         data := fun _ => 0, flags := MMC_DATA_READ }
          error := MMC_ERR_INVALID }, MMC_ERR_INVALID) ∧
    rtsx_xfer_short silent_machine (idle_softc ()) (data_cmd 17 MMC_RSP_R1 0 0 MMC_DATA_READ) =
        some (idle_softc (), { data_cmd 17 MMC_RSP_R1 0 0 MMC_DATA_READ with
          error := MMC_ERR_INVALID }, MMC_ERR_INVALID) ∧
    rtsx_xfer silent_machine (idle_softc ()) (data_cmd 18 MMC_RSP_R1 131073 0 MMC_DATA_READ) =
        some (idle_softc (), { data_cmd 18 MMC_RSP_R1 131073 0 MMC_DATA_READ with
          data := some { len := 131073, xfer_len := if 0 = 0 then min 131073 512 else 0,
                         data := fun _ => 0, flags := MMC_DATA_READ }
          error := MMC_ERR_INVALID }, MMC_ERR_INVALID) :=
  ⟨(rtsx_xfer_reject_frame silent_machine (idle_softc ())
      (data_cmd 17 MMC_RSP_R1 513 0 MMC_DATA_READ)
      { len := 513, xfer_len := 0, data := fun _ => 0, flags := MMC_DATA_READ } rfl).1
      (by decide),
    (rtsx_xfer_reject_frame silent_machine (idle_softc ())
      (data_cmd 17 MMC_RSP_R1 0 0 MMC_DATA_READ)
      { len := 0, xfer_len := 0, data := fun _ => 0, flags := MMC_DATA_READ } rfl).2.1 rfl,
    (rtsx_xfer_reject_frame silent_machine (idle_softc ())
      (data_cmd 18 MMC_RSP_R1 131073 0 MMC_DATA_READ)
      { len := 131073, xfer_len := 0, data := fun _ => 0, flags := MMC_DATA_READ } rfl).2.2
      (by decide)⟩

-- ---------------------------------------------------------------------------
-- C7, C10: the response-type table
-- ---------------------------------------------------------------------------

/-- The masked response flags are below 32. -/
theorem rsp_mask_lt (flags : Nat) : flags &&& MMC_RSP_MASK < 32 :=
  Nat.lt_of_le_of_lt Nat.and_le_right (by decide)

/-- A 5-bit value that is the key of no row of `rsp_types` is mapped to 0. -/
theorem rtsx_response_type_unknown :
    ∀ x < 32, (∀ row ∈ rsp_types, x ≠ row.1) → rtsx_response_type x = 0 := by
  decide

/-- A 5-bit value that is the key of a row of `rsp_types` is mapped to the code of that
row, which is not 0. -/
theorem rtsx_response_type_known :
    ∀ row ∈ rsp_types, rtsx_response_type row.1 = row.2 ∧ row.2 ≠ 0 ∧ row.2 < 256 := by
  decide

/-- A command whose response flags `rtsx_response_type` maps to 0 is rejected by
`rtsx_send_req_get_resp` before anything is queued. -/
theorem rtsx_send_req_get_resp_reject {W : Type} (M : machine W) (sc : rtsx_softc W)
    (cmd : mmc_command) (h0 : rtsx_response_type (cmd.flags &&& MMC_RSP_MASK) = 0) :
    rtsx_send_req_get_resp M sc cmd =
      some (sc, { cmd with error := MMC_ERR_INVALID }, MMC_ERR_INVALID) := by
  simp [rtsx_send_req_get_resp, h0]

/-- C10: a command whose masked response flags are the key of no row of the table makes
`rtsx_send_req_get_resp` return `MMC_ERR_INVALID` with the command's error set to
`MMC_ERR_INVALID`; the controller state is returned as it was (descriptor buffer,
descriptor index, chip state and event trace, so no register was accessed). -/
theorem rtsx_send_req_get_resp_unknown_shape {W : Type} (M : machine W) (sc : rtsx_softc W)
    (cmd : mmc_command) (h : ∀ row ∈ rsp_types, cmd.flags &&& MMC_RSP_MASK ≠ row.1) :
    rtsx_send_req_get_resp M sc cmd =
      some (sc, { cmd with error := MMC_ERR_INVALID }, MMC_ERR_INVALID) := by
  exact rtsx_send_req_get_resp_reject M sc cmd
    (rtsx_response_type_unknown _ (rsp_mask_lt cmd.flags) h)

/-- Witness of C10: response flags 0x03 (present and 136-bit, without CRC) are no known
shape. -/
theorem rtsx_send_req_get_resp_unknown_shape_witness :
    rtsx_send_req_get_resp silent_machine (idle_softc ()) (plain_cmd 2 0 0x03) =
      some (idle_softc (), { plain_cmd 2 0 0x03 with error := MMC_ERR_INVALID },
        MMC_ERR_INVALID) :=
  rtsx_send_req_get_resp_unknown_shape silent_machine (idle_softc ()) (plain_cmd 2 0 0x03)
    (by decide)

-- ---------------------------------------------------------------------------
-- Bit arithmetic, descriptor words and DMA memory
-- ---------------------------------------------------------------------------

/-- A bitwise OR of a multiple of `2^k` with a value below `2^k` is their sum. -/
theorem lor_eq_add (k x y : Nat) (hx : x % 2 ^ k = 0) (hy : y < 2 ^ k) : x ||| y = x + y := by
  have h : x = 2 ^ k * (x / 2 ^ k) := by
    have := Nat.div_add_mod x (2 ^ k)
    omega
  rw [h]
  exact (Nat.mul_add_lt_is_or hy _).symm

/-- A right shift distributes over a bitwise AND. -/
theorem shiftRight_land (x m k : Nat) : (x &&& m) >>> k = (x >>> k) &&& (m >>> k) := by
  apply Nat.eq_of_testBit_eq
  intro i
  simp [Nat.testBit_shiftRight, Nat.testBit_and]

theorem land_3 (x : Nat) : x &&& 0x3 = x % 4 := Nat.and_pow_two_sub_one_eq_mod x 2
theorem land_ff (x : Nat) : x &&& 0xff = x % 256 := Nat.and_pow_two_sub_one_eq_mod x 8
theorem land_3fff (x : Nat) : x &&& 0x3fff = x % 16384 := Nat.and_pow_two_sub_one_eq_mod x 14
theorem land_ffff (x : Nat) : x &&& 0xffff = x % 65536 := Nat.and_pow_two_sub_one_eq_mod x 16

/-- Four bytes packed big-endian with shifts and ORs, in arithmetic form. -/
theorem pack_be (a b c d : Nat) (hb : b < 256) (hc : c < 256) (hd : d < 256) :
    a <<< 24 ||| b <<< 16 ||| c <<< 8 ||| d = a * 16777216 + b * 65536 + c * 256 + d := by
  simp only [Nat.shiftLeft_eq]
  rw [lor_eq_add 24 (a * 2 ^ 24) (b * 2 ^ 16) (by omega) (by omega),
    lor_eq_add 16 (a * 2 ^ 24 + b * 2 ^ 16) _ (by omega) (by omega),
    lor_eq_add 8 _ _ (by omega) (by omega)]

/-- Four bytes packed little-endian with shifts and ORs, in arithmetic form. -/
theorem pack_le (a b c d : Nat) (ha : a < 256) (hb : b < 256) (hc : c < 256) :
    a ||| b <<< 8 ||| c <<< 16 ||| d <<< 24 = a + b * 256 + c * 65536 + d * 16777216 := by
  simp only [Nat.shiftLeft_eq]
  rw [Nat.lor_comm a, lor_eq_add 8 (b * 2 ^ 8) a (by omega) (by omega),
    Nat.lor_comm _ (c * 2 ^ 16), lor_eq_add 16 (c * 2 ^ 16) _ (by omega) (by omega),
    Nat.lor_comm _ (d * 2 ^ 24), lor_eq_add 24 (d * 2 ^ 24) _ (by omega) (by omega)]
  omega

/-- The value of `be32dec` in arithmetic form. -/
theorem be32dec_eq (mem : Nat → Nat) (p : Nat) :
    be32dec mem p = mem p % 256 * 16777216 + mem (p + 1) % 256 * 65536 +
      mem (p + 2) % 256 * 256 + mem (p + 3) % 256 := by
  unfold be32dec
  exact pack_be _ _ _ _ (Nat.mod_lt _ (by decide)) (Nat.mod_lt _ (by decide))
    (Nat.mod_lt _ (by decide))

/-- The value of `load32` in arithmetic form. -/
theorem load32_eq (mem : Nat → Nat) (i : Nat) :
    load32 mem i = mem (4 * i) % 256 + mem (4 * i + 1) % 256 * 256 +
      mem (4 * i + 2) % 256 * 65536 + mem (4 * i + 3) % 256 * 16777216 := by
  unfold load32
  exact pack_le _ _ _ _ (Nat.mod_lt _ (by decide)) (Nat.mod_lt _ (by decide))
    (Nat.mod_lt _ (by decide))

/-- The value of `be32toh` in arithmetic form. -/
theorem be32toh_eq (x : Nat) :
    be32toh x = x % 256 * 16777216 + x / 256 % 256 * 65536 + x / 65536 % 256 * 256 +
      x / 16777216 % 256 := by
  unfold be32toh
  simp only [Nat.shiftRight_eq_div_pow]
  exact pack_be _ _ _ _ (Nat.mod_lt _ (by decide)) (Nat.mod_lt _ (by decide))
    (Nat.mod_lt _ (by decide))

/-- The descriptor word in arithmetic form: 2-bit operation, 14-bit register address,
8-bit mask and 8-bit data. -/
theorem rtsx_cmd_word_eq (cmd reg mask data : Nat) :
    rtsx_cmd_word cmd reg mask data =
      cmd % 4 * 1073741824 + reg % 16384 * 65536 + mask % 256 * 256 + data % 256 := by
  unfold rtsx_cmd_word htole32
  rw [land_3, land_3fff]
  simp only [Nat.shiftLeft_eq]
  have h1 : cmd % 256 % 4 * 2 ^ 30 % 2 ^ 32 % 2 ^ 32 = cmd % 4 * 2 ^ 30 := by omega
  have h2 : reg % 65536 % 16384 = reg % 16384 := by omega
  rw [h1, h2, lor_eq_add 30 (cmd % 4 * 2 ^ 30) (reg % 16384 * 2 ^ 16) (by omega) (by omega),
    lor_eq_add 16 (cmd % 4 * 2 ^ 30 + reg % 16384 * 2 ^ 16) (mask % 256 * 2 ^ 8)
      (by omega) (by omega),
    lor_eq_add 8 _ _ (by omega) (by omega)]
  omega

/-- A store of a word leaves the bytes below it alone. -/
theorem store32_below (mem : Nat → Nat) (i w a : Nat) (h : a < 4 * i) :
    store32 mem i w a = mem a := by
  unfold store32
  rw [if_neg (by omega), if_neg (by omega), if_neg (by omega), if_neg (by omega)]

/-- A store of a word leaves the bytes above it alone. -/
theorem store32_above (mem : Nat → Nat) (i w a : Nat) (h : 4 * i + 4 ≤ a) :
    store32 mem i w a = mem a := by
  unfold store32
  rw [if_neg (by omega), if_neg (by omega), if_neg (by omega), if_neg (by omega)]

/-- The four bytes written by a store of a word. -/
theorem store32_at (mem : Nat → Nat) (i w : Nat) :
    store32 mem i w (4 * i) = w % 256 ∧ store32 mem i w (4 * i + 1) = w / 256 % 256 ∧
    store32 mem i w (4 * i + 2) = w / 65536 % 256 ∧
    store32 mem i w (4 * i + 3) = w / 16777216 % 256 := by
  unfold store32
  simp [Nat.shiftRight_eq_div_pow]

/-- A word stored and loaded at the same index is read back. -/
theorem load32_store32 (mem : Nat → Nat) (i w : Nat) (hw : w < 2 ^ 32) :
    load32 (store32 mem i w) i = w := by
  rw [load32_eq]
  obtain ⟨h0, h1, h2, h3⟩ := store32_at mem i w
  rw [h0, h1, h2, h3]
  omega

/-- A store of a word does not change the word loaded at another index. -/
theorem load32_store32_ne (mem : Nat → Nat) (i j w : Nat) (h : j ≠ i) :
    load32 (store32 mem i w) j = load32 mem j := by
  unfold load32
  rcases Nat.lt_or_gt_of_ne h with hlt | hgt
  · rw [store32_below _ _ _ _ (by omega), store32_below _ _ _ _ (by omega),
      store32_below _ _ _ _ (by omega), store32_below _ _ _ _ (by omega)]
  · rw [store32_above _ _ _ _ (by omega), store32_above _ _ _ _ (by omega),
      store32_above _ _ _ _ (by omega), store32_above _ _ _ _ (by omega)]

-- ---------------------------------------------------------------------------
-- Pushing descriptors
-- ---------------------------------------------------------------------------

/-- The descriptor word depends on the register address modulo `2^14` only. -/
theorem rtsx_cmd_word_congr (cmd r1 r2 mask data : Nat) (h : r1 % 16384 = r2 % 16384) :
    rtsx_cmd_word cmd r1 mask data = rtsx_cmd_word cmd r2 mask data := by
  rw [rtsx_cmd_word_eq, rtsx_cmd_word_eq, h]

/-- The descriptor word fits 32 bits. -/
theorem rtsx_cmd_word_lt (cmd reg mask data : Nat) : rtsx_cmd_word cmd reg mask data < 2 ^ 32 := by
  rw [rtsx_cmd_word_eq]
  omega

theorem pushed_index {W : Type} {n : Nat} {sc sc1 : rtsx_softc W} (h : pushed n sc sc1) :
    sc1.rtsx_cmd_index = sc.rtsx_cmd_index + n := by
  rw [h.1]

theorem pushed_refl {W : Type} (sc : rtsx_softc W) : pushed 0 sc sc :=
  ⟨rfl, fun _ _ => rfl⟩

theorem pushed_trans {W : Type} {n m : Nat} {a b c : rtsx_softc W} (h1 : pushed n a b)
    (h2 : pushed m b c) : pushed (n + m) a c := by
  have hb := pushed_index h1
  refine ⟨?_, ?_⟩
  · rw [h2.1, hb, h1.1]
    simp [Nat.add_assoc]
  · intro x hx
    rw [h2.2 x (by omega), h1.2 x hx]

theorem pushed_load32 {W : Type} {n : Nat} {sc sc1 : rtsx_softc W} (h : pushed n sc sc1)
    (j : Nat) (hj : j < sc.rtsx_cmd_index) :
    load32 sc1.rtsx_cmd_dmamem j = load32 sc.rtsx_cmd_dmamem j := by
  unfold load32
  rw [h.2 _ (by omega), h.2 _ (by omega), h.2 _ (by omega), h.2 _ (by omega)]

theorem pushed_same {W : Type} {n : Nat} {sc sc1 : rtsx_softc W} (h : pushed n sc sc1) :
    same_but_queue sc sc1 := by
  unfold same_but_queue
  have hi := pushed_index h
  rw [hi]
  exact h.1

theorem same_but_queue_flags {W : Type} {a b : rtsx_softc W} (h : same_but_queue a b) :
    b.rtsx_flags = a.rtsx_flags := by
  rw [h]

theorem same_but_queue_req {W : Type} {a b : rtsx_softc W} (h : same_but_queue a b) :
    b.rtsx_req = a.rtsx_req := by
  rw [h]

theorem same_but_queue_trace {W : Type} {a b : rtsx_softc W} (h : same_but_queue a b) :
    b.trace = a.trace := by
  rw [h]

theorem same_but_queue_res {W : Type} {a b : rtsx_softc W} (h : same_but_queue a b) :
    b.rtsx_res = a.rtsx_res := by
  rw [h]

theorem same_but_queue_trans {W : Type} {a b c : rtsx_softc W} (h1 : same_but_queue a b)
    (h2 : same_but_queue b c) : same_but_queue a c := by
  unfold same_but_queue at *
  rw [h2, h1]

/-- A push below the capacity stores the descriptor word at the index and advances the
index by one. -/
theorem rtsx_push_cmd_spec {W : Type} (sc : rtsx_softc W) (cmd reg mask data : Nat)
    (h : sc.rtsx_cmd_index < 256) :
    ∃ sc1, rtsx_push_cmd sc cmd reg mask data = some sc1 ∧ pushed 1 sc sc1 ∧
      load32 sc1.rtsx_cmd_dmamem sc.rtsx_cmd_index = rtsx_cmd_word cmd reg mask data := by
  refine ⟨_, by simp [rtsx_push_cmd, RTSX_HOSTCMD_MAX, h]; rfl, ⟨rfl, ?_⟩, ?_⟩
  · intro a ha
    exact store32_below _ _ _ _ ha
  · exact load32_store32 _ _ _ (rtsx_cmd_word_lt _ _ _ _)

/-- The read loop queues `n` read micro-ops for the registers `reg`, `reg + 1`, ... -/
theorem rtsx_push_reads_spec {W : Type} (n : Nat) :
    ∀ (reg : Nat) (sc : rtsx_softc W), sc.rtsx_cmd_index + n ≤ 256 →
      ∃ sc1, rtsx_push_reads n reg sc = some sc1 ∧ pushed n sc sc1 ∧
        ∀ k, k < n → load32 sc1.rtsx_cmd_dmamem (sc.rtsx_cmd_index + k) =
          rtsx_cmd_word RTSX_READ_REG_CMD (reg + k) 0 0 := by
  induction n with
  | zero =>
    intro reg sc _
    exact ⟨sc, rfl, pushed_refl sc, fun k hk => absurd hk (Nat.not_lt_zero k)⟩
  | succ n ih =>
    intro reg sc h
    obtain ⟨s1, hs1, hp1, hw1⟩ := rtsx_push_cmd_spec sc RTSX_READ_REG_CMD reg 0 0 (by omega)
    have hi1 := pushed_index hp1
    obtain ⟨s2, hs2, hp2, hw2⟩ := ih ((reg + 1) % 65536) s1 (by omega)
    refine ⟨s2, by simp [rtsx_push_reads, hs1, hs2], ?_, ?_⟩
    · have := pushed_trans hp1 hp2
      rwa [Nat.add_comm 1 n] at this
    · intro k hk
      cases k with
      | zero =>
        rw [Nat.add_zero, pushed_load32 hp2 _ (by omega), hw1]
        rfl
      | succ k =>
        have := hw2 k (by omega)
        rw [hi1] at this
        rw [show sc.rtsx_cmd_index + (k + 1) = sc.rtsx_cmd_index + 1 + k by omega, this]
        exact rtsx_cmd_word_congr _ _ _ _ _ (by omega)

/-- The write loop queues `n` write micro-ops with full mask for the registers `reg`,
`reg + 1`, ..., carrying the bytes of `buf` from `ptr` on. -/
theorem rtsx_push_writes_spec {W : Type} (buf : Nat → Nat) (n : Nat) :
    ∀ (reg ptr : Nat) (sc : rtsx_softc W), sc.rtsx_cmd_index + n ≤ 256 →
      ∃ sc1, rtsx_push_writes buf n reg ptr sc = some sc1 ∧ pushed n sc sc1 ∧
        ∀ k, k < n → load32 sc1.rtsx_cmd_dmamem (sc.rtsx_cmd_index + k) =
          rtsx_cmd_word RTSX_WRITE_REG_CMD (reg + k) 0xff (buf (ptr + k)) := by
  induction n with
  | zero =>
    intro reg ptr sc _
    exact ⟨sc, rfl, pushed_refl sc, fun k hk => absurd hk (Nat.not_lt_zero k)⟩
  | succ n ih =>
    intro reg ptr sc h
    obtain ⟨s1, hs1, hp1, hw1⟩ :=
      rtsx_push_cmd_spec sc RTSX_WRITE_REG_CMD reg 0xff (buf ptr) (by omega)
    have hi1 := pushed_index hp1
    obtain ⟨s2, hs2, hp2, hw2⟩ := ih ((reg + 1) % 65536) (ptr + 1) s1 (by omega)
    refine ⟨s2, by simp [rtsx_push_writes, hs1, hs2], ?_, ?_⟩
    · have := pushed_trans hp1 hp2
      rwa [Nat.add_comm 1 n] at this
    · intro k hk
      cases k with
      | zero =>
        rw [Nat.add_zero, pushed_load32 hp2 _ (by omega), hw1]
        rfl
      | succ k =>
        have := hw2 k (by omega)
        rw [hi1] at this
        rw [show sc.rtsx_cmd_index + (k + 1) = sc.rtsx_cmd_index + 1 + k by omega, this,
          show ptr + 1 + k = ptr + (k + 1) by omega]
        exact rtsx_cmd_word_congr _ _ _ _ _ (by omega)

/-- After `rtsx_init_cmd` the index is 5 and the words 0..4 are the writes of the start
bit with the opcode and of the four argument bytes; nothing but the queue has changed. -/
theorem rtsx_init_cmd_spec {W : Type} (sc : rtsx_softc W) (cmd : mmc_command) :
    ∃ s5, rtsx_init_cmd sc cmd = some s5 ∧ same_but_queue sc s5 ∧ s5.rtsx_cmd_index = 5 ∧
      load32 s5.rtsx_cmd_dmamem 0 =
        rtsx_cmd_word RTSX_WRITE_REG_CMD RTSX_SD_CMD0 0xff (RTSX_SD_CMD_START ||| cmd.opcode) ∧
      load32 s5.rtsx_cmd_dmamem 1 =
        rtsx_cmd_word RTSX_WRITE_REG_CMD RTSX_SD_CMD1 0xff (cmd.arg >>> 24) ∧
      load32 s5.rtsx_cmd_dmamem 2 =
        rtsx_cmd_word RTSX_WRITE_REG_CMD RTSX_SD_CMD2 0xff (cmd.arg >>> 16) ∧
      load32 s5.rtsx_cmd_dmamem 3 =
        rtsx_cmd_word RTSX_WRITE_REG_CMD RTSX_SD_CMD3 0xff (cmd.arg >>> 8) ∧
      load32 s5.rtsx_cmd_dmamem 4 =
        rtsx_cmd_word RTSX_WRITE_REG_CMD RTSX_SD_CMD4 0xff cmd.arg := by
  have h0 : ({ sc with rtsx_cmd_index := 0 } : rtsx_softc W).rtsx_cmd_index = 0 := rfl
  obtain ⟨s1, e1, p1, w1⟩ := rtsx_push_cmd_spec { sc with rtsx_cmd_index := 0 }
    RTSX_WRITE_REG_CMD RTSX_SD_CMD0 0xff (RTSX_SD_CMD_START ||| cmd.opcode) (by simp)
  have i1 := pushed_index p1
  obtain ⟨s2, e2, p2, w2⟩ := rtsx_push_cmd_spec s1
    RTSX_WRITE_REG_CMD RTSX_SD_CMD1 0xff (cmd.arg >>> 24) (by omega)
  have i2 := pushed_index p2
  obtain ⟨s3, e3, p3, w3⟩ := rtsx_push_cmd_spec s2
    RTSX_WRITE_REG_CMD RTSX_SD_CMD2 0xff (cmd.arg >>> 16) (by omega)
  have i3 := pushed_index p3
  obtain ⟨s4, e4, p4, w4⟩ := rtsx_push_cmd_spec s3
    RTSX_WRITE_REG_CMD RTSX_SD_CMD3 0xff (cmd.arg >>> 8) (by omega)
  have i4 := pushed_index p4
  obtain ⟨s5, e5, p5, w5⟩ := rtsx_push_cmd_spec s4
    RTSX_WRITE_REG_CMD RTSX_SD_CMD4 0xff cmd.arg (by omega)
  have i5 := pushed_index p5
  rw [h0] at i1 w1
  rw [i1] at i2 w2
  rw [i2] at i3 w3
  rw [i3] at i4 w4
  rw [i4] at i5 w5
  have q : same_but_queue sc s5 := by
    have h := pushed_same (pushed_trans (pushed_trans (pushed_trans (pushed_trans p1 p2) p3) p4) p5)
    unfold same_but_queue at *
    rw [h]
  refine ⟨s5, by simp [rtsx_init_cmd, e1, e2, e3, e4, e5], q, by omega, ?_, ?_, ?_, ?_, ?_⟩
  · rw [pushed_load32 p5 _ (by omega), pushed_load32 p4 _ (by omega),
      pushed_load32 p3 _ (by omega), pushed_load32 p2 _ (by omega)]
    exact w1
  · rw [pushed_load32 p5 _ (by omega), pushed_load32 p4 _ (by omega),
      pushed_load32 p3 _ (by omega)]
    exact w2
  · rw [pushed_load32 p5 _ (by omega), pushed_load32 p4 _ (by omega)]
    exact w3
  · rw [pushed_load32 p5 _ (by omega)]
    exact w4
  · exact w5

/-- The batch queued by `rtsx_send_req_get_resp` for a response-type code: it always
fits, its descriptor 5 is the write of the code to `RTSX_SD_CFG2`, and it holds 26, 15 or
10 descriptors for R2, the other responses, and no response. -/
theorem rtsx_send_req_get_resp_queue_spec {W : Type} (sc : rtsx_softc W) (cmd : mmc_command)
    (rsp_type : Nat) :
    ∃ sc1, rtsx_send_req_get_resp_queue sc cmd rsp_type = some sc1 ∧ same_but_queue sc sc1 ∧
      load32 sc1.rtsx_cmd_dmamem 5 =
        rtsx_cmd_word RTSX_WRITE_REG_CMD RTSX_SD_CFG2 0xff rsp_type ∧
      sc1.rtsx_cmd_index =
        if rsp_type = RTSX_SD_RSP_TYPE_R2 then 26
        else if rsp_type ≠ RTSX_SD_RSP_TYPE_R0 then 15 else 10 := by
  obtain ⟨s5, e5, q5, i5, -⟩ := rtsx_init_cmd_spec sc cmd
  obtain ⟨s6, e6, p6, w6⟩ := rtsx_push_cmd_spec s5
    RTSX_WRITE_REG_CMD RTSX_SD_CFG2 0xff rsp_type (by omega)
  have i6 := pushed_index p6
  obtain ⟨s7, e7, p7, -⟩ := rtsx_push_cmd_spec s6
    RTSX_WRITE_REG_CMD RTSX_CARD_DATA_SOURCE 0x01 RTSX_PINGPONG_BUFFER (by omega)
  have i7 := pushed_index p7
  obtain ⟨s8, e8, p8, -⟩ := rtsx_push_cmd_spec s7
    RTSX_WRITE_REG_CMD RTSX_SD_TRANSFER 0xff (RTSX_TM_CMD_RSP ||| RTSX_SD_TRANSFER_START)
    (by omega)
  have i8 := pushed_index p8
  obtain ⟨s9, e9, p9, -⟩ := rtsx_push_cmd_spec s8
    RTSX_CHECK_REG_CMD RTSX_SD_TRANSFER (RTSX_SD_TRANSFER_END ||| RTSX_SD_STAT_IDLE)
    (RTSX_SD_TRANSFER_END ||| RTSX_SD_STAT_IDLE) (by omega)
  have i9 := pushed_index p9
  have p69 := pushed_trans (pushed_trans p7 p8) p9
  rw [i5] at w6
  by_cases hR2 : rsp_type = RTSX_SD_RSP_TYPE_R2
  · subst hR2
    obtain ⟨s10, e10, p10, -⟩ := rtsx_push_reads_spec
      (RTSX_PPBUF_BASE2 + 16 - RTSX_PPBUF_BASE2) RTSX_PPBUF_BASE2 s9
      (by simp only [RTSX_PPBUF_BASE2]; omega)
    have i10 := pushed_index p10
    simp only [RTSX_PPBUF_BASE2] at i10
    have e10b : rtsx_push_reads 16 RTSX_PPBUF_BASE2 s9 = some s10 := e10
    obtain ⟨s11, e11, p11, -⟩ := rtsx_push_cmd_spec s10
      RTSX_READ_REG_CMD RTSX_SD_STAT1 0 0 (by omega)
    have i11 := pushed_index p11
    have pall := pushed_trans (pushed_trans p69 p10) p11
    refine ⟨s11, by simp [rtsx_send_req_get_resp_queue, e5, e6, e7, e8, e9, e10, e10b, e11],
      same_but_queue_trans q5 (same_but_queue_trans (pushed_same p6) (pushed_same pall)), ?_, ?_⟩
    · rw [pushed_load32 pall _ (by omega)]
      exact w6
    · rw [if_pos rfl]
      omega
  · by_cases hR0 : rsp_type = RTSX_SD_RSP_TYPE_R0
    · subst hR0
      obtain ⟨s11, e11, p11, -⟩ := rtsx_push_cmd_spec s9
        RTSX_READ_REG_CMD RTSX_SD_STAT1 0 0 (by omega)
      have i11 := pushed_index p11
      have pall := pushed_trans p69 p11
      refine ⟨s11, by simp [rtsx_send_req_get_resp_queue, e5, e6, e7, e8, e9, hR2, e11],
        same_but_queue_trans q5 (same_but_queue_trans (pushed_same p6) (pushed_same pall)),
        ?_, ?_⟩
      · rw [pushed_load32 pall _ (by omega)]
        exact w6
      · rw [if_neg hR2, if_neg (by simp)]
        omega
    · obtain ⟨s10, e10, p10, -⟩ := rtsx_push_reads_spec
        (RTSX_SD_CMD4 + 1 - RTSX_SD_CMD0) RTSX_SD_CMD0 s9
        (by simp only [RTSX_SD_CMD4, RTSX_SD_CMD0]; omega)
      have i10 := pushed_index p10
      simp only [RTSX_SD_CMD4, RTSX_SD_CMD0] at i10
      have e10b : rtsx_push_reads 5 RTSX_SD_CMD0 s9 = some s10 := e10
      obtain ⟨s11, e11, p11, -⟩ := rtsx_push_cmd_spec s10
        RTSX_READ_REG_CMD RTSX_SD_STAT1 0 0 (by omega)
      have i11 := pushed_index p11
      have pall := pushed_trans (pushed_trans p69 p10) p11
      refine ⟨s11,
        by simp [rtsx_send_req_get_resp_queue, e5, e6, e7, e8, e9, hR2, hR0, e10, e10b, e11],
        same_but_queue_trans q5 (same_but_queue_trans (pushed_same p6) (pushed_same pall)),
        ?_, ?_⟩
      · rw [pushed_load32 pall _ (by omega)]
        exact w6
      · rw [if_neg hR2, if_pos hR0]
        omega

/-- C7: for each row of the table of nine shapes, `rtsx_response_type` maps the row's flag
value to the row's hardware code (so the first-match lookup returns no other code for a
flag value shared with an earlier row), the code is not 0, and for a command with that
flag value the batch queued by `rtsx_send_req_get_resp` has as descriptor 5 the write
(operation 1, mask 0xFF) to `RTSX_SD_CFG2` whose data byte is that code;
`rtsx_send_req_get_resp` sends this batch. -/
theorem rtsx_response_type_table {W : Type} (M : machine W) (sc : rtsx_softc W)
    (cmd : mmc_command) (row : Nat × Nat) (hrow : row ∈ rsp_types)
    (hflags : cmd.flags &&& MMC_RSP_MASK = row.1) :
    rtsx_response_type (cmd.flags &&& MMC_RSP_MASK) = row.2 ∧ row.2 ≠ 0 ∧
    ∃ sc1, rtsx_send_req_get_resp_queue sc cmd row.2 = some sc1 ∧
      load32 sc1.rtsx_cmd_dmamem 5 =
        1 * 1073741824 + RTSX_SD_CFG2 % 16384 * 65536 + 0xff * 256 + row.2 ∧
      sc1.rtsx_cmd_dmamem (4 * 5) % 256 = row.2 ∧
      rtsx_send_req_get_resp M sc cmd =
        (let r := rtsx_send_cmd M sc1 cmd
         if r.2.2 ≠ 0 then some r
         else some ((rtsx_send_req_get_resp_copy r.1 r.2.1 row.2).1,
                    (rtsx_send_req_get_resp_copy r.1 r.2.1 row.2).2, r.2.2)) := by
  obtain ⟨h1, h2, h3⟩ := rtsx_response_type_known row hrow
  obtain ⟨sc1, e1, -, w, -⟩ := rtsx_send_req_get_resp_queue_spec sc cmd row.2
  rw [hflags]
  refine ⟨h1, h2, sc1, e1, ?_, ?_, ?_⟩
  · rw [w, rtsx_cmd_word_eq]
    simp only [RTSX_WRITE_REG_CMD]
    omega
  · have hw := w
    rw [load32_eq, rtsx_cmd_word_eq] at hw
    omega
  · simp [rtsx_send_req_get_resp, hflags, h1, h2, e1]

/-- Witness of C7 on an R1B command (flags 0x1D, code 0x09). -/
theorem rtsx_response_type_table_witness :
    rtsx_response_type ((plain_cmd 7 0 MMC_RSP_R1B).flags &&& MMC_RSP_MASK) = RTSX_SD_RSP_TYPE_R1B ∧
    RTSX_SD_RSP_TYPE_R1B ≠ 0 ∧
    ∃ sc1, rtsx_send_req_get_resp_queue (idle_softc ()) (plain_cmd 7 0 MMC_RSP_R1B)
        RTSX_SD_RSP_TYPE_R1B = some sc1 ∧
      load32 sc1.rtsx_cmd_dmamem 5 =
        1 * 1073741824 + RTSX_SD_CFG2 % 16384 * 65536 + 0xff * 256 + RTSX_SD_RSP_TYPE_R1B ∧
      sc1.rtsx_cmd_dmamem (4 * 5) % 256 = RTSX_SD_RSP_TYPE_R1B ∧
      rtsx_send_req_get_resp silent_machine (idle_softc ()) (plain_cmd 7 0 MMC_RSP_R1B) =
        (let r := rtsx_send_cmd silent_machine sc1 (plain_cmd 7 0 MMC_RSP_R1B)
         if r.2.2 ≠ 0 then some r
         else some ((rtsx_send_req_get_resp_copy r.1 r.2.1 RTSX_SD_RSP_TYPE_R1B).1,
                    (rtsx_send_req_get_resp_copy r.1 r.2.1 RTSX_SD_RSP_TYPE_R1B).2, r.2.2)) :=
  rtsx_response_type_table silent_machine (idle_softc ()) (plain_cmd 7 0 MMC_RSP_R1B)
    (MMC_RSP_R1B, RTSX_SD_RSP_TYPE_R1B) (by decide) (by decide)

-- ---------------------------------------------------------------------------
-- Sending a batch
-- ---------------------------------------------------------------------------

/-- A wait entered with no accumulated status and a card present, whose first wakeup is a
plain transfer-complete interrupt, succeeds: the chip's buffers are taken over and the
accumulated status is consumed. -/
theorem rtsx_wait_intr_ok {W : Type} (M : machine W) (sc : rtsx_softc W)
    (wk : wakeup W) (ws : List (wakeup W))
    (h0 : sc.rtsx_intr_status = 0)
    (hcard : ISSET sc.rtsx_flags RTSX_F_CARD_PRESENT = true)
    (hw : M.wakeups sc.rtsx_res sc.rtsx_cmd_dmamem sc.rtsx_data_dmamem = wk :: ws)
    (hwk : wk.ewouldblock = false) (hst : wk.intr_status = RTSX_TRANS_OK_INT)
    (hct : wk.card_task = none) :
    rtsx_wait_intr M sc RTSX_TRANS_OK_INT =
      ({ sc with
          rtsx_res := wk.hw
          rtsx_cmd_dmamem := wk.cmd_dmamem
          rtsx_data_dmamem := wk.data_dmamem
          trace := sc.trace ++ [event.msleep] }, 0) := by
  have hm : (0 ||| RTSX_TRANS_OK_INT % 2 ^ 32) &&& (RTSX_TRANS_OK_INT ||| RTSX_TRANS_FAIL_INT)
      = RTSX_TRANS_OK_INT := by decide
  have hz : (0 : Nat) &&& (RTSX_TRANS_OK_INT ||| RTSX_TRANS_FAIL_INT) = 0 := by decide
  have hc : (0 ||| RTSX_TRANS_OK_INT % 2 ^ 32) &&& (0xFFFFFFFF ^^^ RTSX_TRANS_OK_INT) = 0 := by
    decide
  have hf : RTSX_TRANS_OK_INT &&& RTSX_TRANS_FAIL_INT = 0 := by decide
  have hn : RTSX_TRANS_OK_INT ≠ 0 := by decide
  have hl : rtsx_wait_intr_loop (RTSX_TRANS_OK_INT ||| RTSX_TRANS_FAIL_INT) (wk :: ws) sc =
      (msleep sc wk, RTSX_TRANS_OK_INT, 0) := by
    have hs : (msleep sc wk).rtsx_intr_status = 0 ||| RTSX_TRANS_OK_INT % 2 ^ 32 := by
      simp only [msleep, h0, hst]
    simp only [rtsx_wait_intr_loop, hwk, hs, hm]
    simp [hn]
  have hfl : (msleep sc wk).rtsx_flags = sc.rtsx_flags := by
    simp only [msleep, hct]
  have hs : (msleep sc wk).rtsx_intr_status = 0 ||| RTSX_TRANS_OK_INT % 2 ^ 32 := by
    simp only [msleep, h0, hst]
  unfold rtsx_wait_intr
  simp only [h0, hz, hw, hl, if_true, RTSX_LOCK, RTSX_UNLOCK, hs, hc, hfl, hcard, hf]
  simp [msleep, h0.symm]

/-- A batch sent with a card present, whose first wakeup is a plain transfer-complete
interrupt, succeeds: the state is the one left by the two trigger writes (as in
`rtsx_send_cmd_nowait`) with the chip's buffers taken over. -/
theorem rtsx_send_cmd_ok {W : Type} (M : machine W) (sc : rtsx_softc W) (cmd : mmc_command)
    (wk : wakeup W) (ws : List (wakeup W))
    (hcard : ISSET sc.rtsx_flags RTSX_F_CARD_PRESENT = true)
    (hw : M.wakeups (rtsx_send_cmd_nowait M sc).rtsx_res sc.rtsx_cmd_dmamem
        sc.rtsx_data_dmamem = wk :: ws)
    (hwk : wk.ewouldblock = false) (hst : wk.intr_status = RTSX_TRANS_OK_INT)
    (hct : wk.card_task = none) :
    rtsx_send_cmd M sc cmd =
      ({ rtsx_send_cmd_nowait M sc with
          rtsx_res := wk.hw
          rtsx_cmd_dmamem := wk.cmd_dmamem
          rtsx_data_dmamem := wk.data_dmamem
          trace := (rtsx_send_cmd_nowait M sc).trace ++ [event.msleep] }, cmd, 0) := by
  have e : rtsx_send_cmd M sc cmd =
      (let r := rtsx_wait_intr M (rtsx_send_cmd_nowait M sc) RTSX_TRANS_OK_INT
       if r.2 ≠ 0 then (r.1, { cmd with error := r.2 }, r.2) else (r.1, cmd, r.2)) := rfl
  rw [e, rtsx_wait_intr_ok M (rtsx_send_cmd_nowait M sc) wk ws rfl hcard hw hwk hst hct]
  simp

-- ---------------------------------------------------------------------------
-- C8, C9: decoding the response
-- ---------------------------------------------------------------------------

/-- The response-present bit of the flags is the one of the masked flags. -/
theorem rsp_present_of_mask (flags : Nat) :
    flags &&& MMC_RSP_PRESENT = (flags &&& MMC_RSP_MASK) &&& MMC_RSP_PRESENT := by
  rw [Nat.land_assoc]
  rfl

/-- On a little-endian host `be32toh` of a loaded word is the big-endian value of its four
bytes in memory. -/
theorem be32toh_load32 (mem : Nat → Nat) (i : Nat) :
    be32toh (load32 mem i) = mem (4 * i) % 256 * 16777216 + mem (4 * i + 1) % 256 * 65536 +
      mem (4 * i + 2) % 256 * 256 + mem (4 * i + 3) % 256 := by
  rw [be32toh_eq, load32_eq]
  have h0 := Nat.mod_lt (mem (4 * i)) (show 0 < 256 by decide)
  have h1 := Nat.mod_lt (mem (4 * i + 1)) (show 0 < 256 by decide)
  have h2 := Nat.mod_lt (mem (4 * i + 2)) (show 0 < 256 by decide)
  have h3 := Nat.mod_lt (mem (4 * i + 3)) (show 0 < 256 by decide)
  generalize mem (4 * i) % 256 = b0 at *
  generalize mem (4 * i + 1) % 256 = b1 at *
  generalize mem (4 * i + 2) % 256 = b2 at *
  generalize mem (4 * i + 3) % 256 = b3 at *
  omega

/-- The word that the non-R2 branch of the response copy assembles (lines 1822-1824) is
the big-endian value of the raw bytes 2, 3, 4 and 5. -/
theorem resp0_eq (mem : Nat → Nat) :
    (((be32toh (load32 mem 0) &&& 0x0000ffff) <<< 16) % 2 ^ 32) |||
        ((be32toh (load32 mem 1) &&& 0xffff0000) >>> 16) =
      mem 2 % 256 * 16777216 + mem 3 % 256 * 65536 + mem 4 % 256 * 256 + mem 5 % 256 := by
  have hA := be32toh_load32 mem 0
  have hB := be32toh_load32 mem 1
  simp only [Nat.mul_zero, Nat.mul_one, Nat.zero_add] at hA hB
  rw [shiftRight_land, show (0xffff0000 : Nat) >>> 16 = 0xffff from rfl, land_ffff, land_ffff,
    Nat.shiftLeft_eq, Nat.shiftRight_eq_div_pow, hA, hB]
  have h0 := Nat.mod_lt (mem 0) (show 0 < 256 by decide)
  have h1 := Nat.mod_lt (mem 1) (show 0 < 256 by decide)
  have h2 := Nat.mod_lt (mem 2) (show 0 < 256 by decide)
  have h3 := Nat.mod_lt (mem 3) (show 0 < 256 by decide)
  have h4 := Nat.mod_lt (mem 4) (show 0 < 256 by decide)
  have h5 := Nat.mod_lt (mem 5) (show 0 < 256 by decide)
  have h6 := Nat.mod_lt (mem 6) (show 0 < 256 by decide)
  have h7 := Nat.mod_lt (mem 7) (show 0 < 256 by decide)
  generalize mem 0 % 256 = b0 at *
  generalize mem 1 % 256 = b1 at *
  generalize mem 2 % 256 = b2 at *
  generalize mem 3 % 256 = b3 at *
  generalize mem 4 % 256 = b4 at *
  generalize mem 5 % 256 = b5 at *
  generalize mem 6 % 256 = b6 at *
  generalize mem 7 % 256 = b7 at *
  have e1 : (b0 * 16777216 + b1 * 65536 + b2 * 256 + b3) % 65536 * 2 ^ 16 % 2 ^ 32 =
      (b2 * 256 + b3) * 65536 := by omega
  have e2 : (b4 * 16777216 + b5 * 65536 + b6 * 256 + b7) / 2 ^ 16 % 65536 = b4 * 256 + b5 := by
    omega
  rw [e1, e2, lor_eq_add 16 _ _ (by omega) (by omega)]
  omega

/-- C8: for a command of shape R2 whose batch is sent without error, whatever bytes `raw`
the chip left in the command buffer, `rtsx_send_req_get_resp` succeeds and sets `resp[i]`,
i = 0..3, to the big-endian value of the raw bytes 2+4i .. 5+4i, where byte 17 has first
been overwritten by 0x01 (bytes 0 and 1 are skipped); so the low byte of `resp[3]` is 0x01,
and byte 17 of the command buffer is 0x01 afterwards. -/
theorem rtsx_send_req_get_resp_r2 {W : Type} (M : machine W) (sc sc1 : rtsx_softc W)
    (cmd : mmc_command) (hflags : cmd.flags &&& MMC_RSP_MASK = MMC_RSP_R2)
    (hq : rtsx_send_req_get_resp_queue sc cmd RTSX_SD_RSP_TYPE_R2 = some sc1)
    (hsend : (rtsx_send_cmd M sc1 cmd).2.2 = 0) :
    ∃ sc2 cmd2, rtsx_send_req_get_resp M sc cmd = some (sc2, cmd2, 0) ∧
      (∀ i, i < 3 → cmd2.resp i =
        (rtsx_send_cmd M sc1 cmd).1.rtsx_cmd_dmamem (2 + 4 * i) % 256 * 16777216 +
        (rtsx_send_cmd M sc1 cmd).1.rtsx_cmd_dmamem (3 + 4 * i) % 256 * 65536 +
        (rtsx_send_cmd M sc1 cmd).1.rtsx_cmd_dmamem (4 + 4 * i) % 256 * 256 +
        (rtsx_send_cmd M sc1 cmd).1.rtsx_cmd_dmamem (5 + 4 * i) % 256) ∧
      cmd2.resp 3 =
        (rtsx_send_cmd M sc1 cmd).1.rtsx_cmd_dmamem 14 % 256 * 16777216 +
        (rtsx_send_cmd M sc1 cmd).1.rtsx_cmd_dmamem 15 % 256 * 65536 +
        (rtsx_send_cmd M sc1 cmd).1.rtsx_cmd_dmamem 16 % 256 * 256 + 0x01 ∧
      cmd2.resp 3 % 256 = 0x01 ∧
      sc2.rtsx_cmd_dmamem 17 = 0x01 := by
  have hty : rtsx_response_type (cmd.flags &&& MMC_RSP_MASK) = RTSX_SD_RSP_TYPE_R2 := by
    rw [hflags]
    rfl
  have hpres : ISSET (rtsx_send_cmd M sc1 cmd).2.1.flags MMC_RSP_PRESENT = true := by
    have hf : (rtsx_send_cmd M sc1 cmd).2.1.flags = cmd.flags := by
      unfold rtsx_send_cmd
      simp only
      split <;> rfl
    unfold ISSET
    rw [hf, rsp_present_of_mask, hflags]
    rfl
  have hcopy : rtsx_send_req_get_resp M sc cmd =
      some ((rtsx_send_req_get_resp_copy (rtsx_send_cmd M sc1 cmd).1
              (rtsx_send_cmd M sc1 cmd).2.1 RTSX_SD_RSP_TYPE_R2).1,
            (rtsx_send_req_get_resp_copy (rtsx_send_cmd M sc1 cmd).1
              (rtsx_send_cmd M sc1 cmd).2.1 RTSX_SD_RSP_TYPE_R2).2, 0) := by
    have hne : RTSX_SD_RSP_TYPE_R2 ≠ 0 := by decide
    simp [rtsx_send_req_get_resp, hty, hq, hsend, hne]
  refine ⟨_, _, hcopy, ?_, ?_, ?_, ?_⟩
  · intro i hi
    simp only [rtsx_send_req_get_resp_copy, hpres, if_true]
    rw [if_pos (by omega), be32dec_eq]
    unfold store8
    rw [if_neg (by omega), if_neg (by omega), if_neg (by omega), if_neg (by omega)]
    rw [show 1 + 1 + i * 4 = 2 + 4 * i by omega, show 2 + 4 * i + 1 = 3 + 4 * i by omega,
      show 2 + 4 * i + 2 = 4 + 4 * i by omega, show 2 + 4 * i + 3 = 5 + 4 * i by omega]
  · simp only [rtsx_send_req_get_resp_copy, hpres, if_true]
    rw [if_pos (by omega), be32dec_eq]
    unfold store8
    simp
  · simp only [rtsx_send_req_get_resp_copy, hpres, if_true]
    rw [if_pos (by omega), be32dec_eq]
    unfold store8
    simp
    omega
  · simp only [rtsx_send_req_get_resp_copy, hpres, if_true]
    unfold store8
    simp

/-- On the echo machine a batch sent with a card present succeeds and the command buffer
holds the machine's bytes afterwards. -/
theorem echo_machine_send (raw : Nat → Nat) (sc : rtsx_softc Unit) (cmd : mmc_command)
    (hcard : ISSET sc.rtsx_flags RTSX_F_CARD_PRESENT = true) :
    (rtsx_send_cmd (echo_machine raw) sc cmd).2.2 = 0 ∧
    (rtsx_send_cmd (echo_machine raw) sc cmd).1.rtsx_cmd_dmamem = raw := by
  rw [rtsx_send_cmd_ok (echo_machine raw) sc cmd _ [] hcard rfl rfl rfl rfl]
  exact ⟨rfl, rfl⟩

/-- Witness of C8: CMD2 (shape R2) on a chip that leaves the bytes 0xA0 + offset in the
command buffer. -/
theorem rtsx_send_req_get_resp_r2_witness :
    ∃ sc2 cmd2, rtsx_send_req_get_resp (echo_machine fun a => 0xA0 + a) (idle_softc ())
        (plain_cmd 2 0 MMC_RSP_R2) = some (sc2, cmd2, 0) ∧
      cmd2.resp 0 = 0xA2A3A4A5 ∧ cmd2.resp 1 = 0xA6A7A8A9 ∧ cmd2.resp 2 = 0xAAABACAD ∧
      cmd2.resp 3 = 0xAEAFB001 ∧ cmd2.resp 3 % 256 = 0x01 ∧ sc2.rtsx_cmd_dmamem 17 = 0x01 := by
  obtain ⟨sc1, hq, hs, -⟩ := rtsx_send_req_get_resp_queue_spec (idle_softc ())
    (plain_cmd 2 0 MMC_RSP_R2) RTSX_SD_RSP_TYPE_R2
  obtain ⟨hok, hraw⟩ := echo_machine_send (fun a => 0xA0 + a) sc1 (plain_cmd 2 0 MMC_RSP_R2)
    (by rw [same_but_queue_flags hs]; decide)
  obtain ⟨sc2, cmd2, h, h012, h3, h3b, h4⟩ :=
    rtsx_send_req_get_resp_r2 (echo_machine fun a => 0xA0 + a) (idle_softc ()) sc1
      (plain_cmd 2 0 MMC_RSP_R2) (by decide) hq hok
  rw [hraw] at h012 h3
  exact ⟨sc2, cmd2, h, h012 0 (by decide), h012 1 (by decide), h012 2 (by decide), h3, h3b, h4⟩

/-- The rows of the table other than "none" and R2 have the response-present bit, and a
hardware code that is neither the one of R2 nor 0. -/
theorem rsp_types_short :
    ∀ row ∈ rsp_types, row.1 ≠ MMC_RSP_NONE → row.1 ≠ MMC_RSP_R2 →
      row.2 ≠ RTSX_SD_RSP_TYPE_R2 ∧ row.1 &&& MMC_RSP_PRESENT ≠ 0 := by
  decide

/-- The command returned by `rtsx_send_cmd` differs from the one passed at most in its
error field. -/
theorem rtsx_send_cmd_cmd {W : Type} (M : machine W) (sc : rtsx_softc W) (cmd : mmc_command) :
    (rtsx_send_cmd M sc cmd).2.1 = { cmd with error := (rtsx_send_cmd M sc cmd).2.1.error } := by
  unfold rtsx_send_cmd
  simp only
  split <;> rfl

/-- C9: for a command whose shape is a row of the table other than "none" and R2 and whose
batch is sent without error, whatever bytes `raw` the chip left in the command buffer,
`rtsx_send_req_get_resp` succeeds, sets `resp[0]` to the big-endian value of the raw bytes
2, 3, 4 and 5 (bytes 0 and 1 are discarded) and leaves the other response words as they
were; for the shape "none" it changes no response word, whether the send succeeds or not. -/
theorem rtsx_send_req_get_resp_short {W : Type} (M : machine W) (sc sc1 : rtsx_softc W)
    (cmd : mmc_command) (row : Nat × Nat) (hrow : row ∈ rsp_types)
    (hflags : cmd.flags &&& MMC_RSP_MASK = row.1)
    (hq : rtsx_send_req_get_resp_queue sc cmd row.2 = some sc1) :
    (row.1 ≠ MMC_RSP_NONE → row.1 ≠ MMC_RSP_R2 → (rtsx_send_cmd M sc1 cmd).2.2 = 0 →
      ∃ sc2 cmd2, rtsx_send_req_get_resp M sc cmd = some (sc2, cmd2, 0) ∧
        cmd2.resp 0 =
          (rtsx_send_cmd M sc1 cmd).1.rtsx_cmd_dmamem 2 % 256 * 16777216 +
          (rtsx_send_cmd M sc1 cmd).1.rtsx_cmd_dmamem 3 % 256 * 65536 +
          (rtsx_send_cmd M sc1 cmd).1.rtsx_cmd_dmamem 4 % 256 * 256 +
          (rtsx_send_cmd M sc1 cmd).1.rtsx_cmd_dmamem 5 % 256 ∧
        ∀ i, i ≠ 0 → cmd2.resp i = cmd.resp i) ∧
    (row.1 = MMC_RSP_NONE →
      ∃ r, rtsx_send_req_get_resp M sc cmd = some r ∧ r.2.1.resp = cmd.resp) := by
  obtain ⟨h1, h2, -⟩ := rtsx_response_type_known row hrow
  have hty : rtsx_response_type (cmd.flags &&& MMC_RSP_MASK) = row.2 := by rw [hflags, h1]
  have hc := rtsx_send_cmd_cmd M sc1 cmd
  have hfl : (rtsx_send_cmd M sc1 cmd).2.1.flags = cmd.flags := by rw [hc]
  have hrs : (rtsx_send_cmd M sc1 cmd).2.1.resp = cmd.resp := by rw [hc]
  constructor
  · intro hn hr hsend
    obtain ⟨hne2, hp⟩ := rsp_types_short row hrow hn hr
    have hpres : ISSET (rtsx_send_cmd M sc1 cmd).2.1.flags MMC_RSP_PRESENT = true := by
      unfold ISSET
      rw [hfl, rsp_present_of_mask, hflags]
      simpa using hp
    have hcopy : rtsx_send_req_get_resp M sc cmd =
        some ((rtsx_send_req_get_resp_copy (rtsx_send_cmd M sc1 cmd).1
                (rtsx_send_cmd M sc1 cmd).2.1 row.2).1,
              (rtsx_send_req_get_resp_copy (rtsx_send_cmd M sc1 cmd).1
                (rtsx_send_cmd M sc1 cmd).2.1 row.2).2, 0) := by
      simp [rtsx_send_req_get_resp, hty, hq, hsend, h2]
    refine ⟨_, _, hcopy, ?_, ?_⟩
    · simp only [rtsx_send_req_get_resp_copy, hpres, if_true, if_neg hne2]
      exact resp0_eq _
    · intro i hi
      simp only [rtsx_send_req_get_resp_copy, hpres, if_true, if_neg hne2, if_neg hi]
      rw [hrs]
  · intro hn
    have hf0 : cmd.flags &&& MMC_RSP_MASK = 0 := by rw [hflags, hn]; rfl
    have hpres : ISSET (rtsx_send_cmd M sc1 cmd).2.1.flags MMC_RSP_PRESENT = false := by
      unfold ISSET
      rw [hfl, rsp_present_of_mask, hf0]
      rfl
    by_cases hsend : (rtsx_send_cmd M sc1 cmd).2.2 = 0
    · refine ⟨((rtsx_send_cmd M sc1 cmd).1, (rtsx_send_cmd M sc1 cmd).2.1, 0), ?_, hrs⟩
      simp [rtsx_send_req_get_resp, hty, hq, hsend, h2, rtsx_send_req_get_resp_copy, hpres]
    · exact ⟨rtsx_send_cmd M sc1 cmd, by simp [rtsx_send_req_get_resp, hty, hq, hsend, h2], hrs⟩

/-- Witness of C9: CMD13 (shape R1) on a chip that leaves the bytes 0xA0 + offset in the
command buffer, and CMD0 (shape "none") on the same chip. -/
theorem rtsx_send_req_get_resp_short_witness :
    (∃ sc2 cmd2, rtsx_send_req_get_resp (echo_machine fun a => 0xA0 + a) (idle_softc ())
        (plain_cmd 13 0 MMC_RSP_R1) = some (sc2, cmd2, 0) ∧
      cmd2.resp 0 = 0xA2A3A4A5 ∧ ∀ i, i ≠ 0 → cmd2.resp i = 0) ∧
    (∃ r, rtsx_send_req_get_resp (echo_machine fun a => 0xA0 + a) (idle_softc ())
        (plain_cmd 0 0 MMC_RSP_NONE) = some r ∧ r.2.1.resp = fun _ => 0) := by
  obtain ⟨sc1, hq, hs, -⟩ := rtsx_send_req_get_resp_queue_spec (idle_softc ())
    (plain_cmd 13 0 MMC_RSP_R1) RTSX_SD_RSP_TYPE_R1
  obtain ⟨hok, hraw⟩ := echo_machine_send (fun a => 0xA0 + a) sc1 (plain_cmd 13 0 MMC_RSP_R1)
    (by rw [same_but_queue_flags hs]; decide)
  obtain ⟨sc0, hq0, -⟩ := rtsx_send_req_get_resp_queue_spec (idle_softc ())
    (plain_cmd 0 0 MMC_RSP_NONE) RTSX_SD_RSP_TYPE_R0
  obtain ⟨sc2, cmd2, h, h0, hi⟩ :=
    (rtsx_send_req_get_resp_short (echo_machine fun a => 0xA0 + a) (idle_softc ()) sc1
      (plain_cmd 13 0 MMC_RSP_R1) (MMC_RSP_R1, RTSX_SD_RSP_TYPE_R1) (by decide) (by decide) hq).1
      (by decide) (by decide) hok
  rw [hraw] at h0
  exact ⟨⟨sc2, cmd2, h, h0, hi⟩,
    (rtsx_send_req_get_resp_short (echo_machine fun a => 0xA0 + a) (idle_softc ()) sc0
      (plain_cmd 0 0 MMC_RSP_NONE) (MMC_RSP_NONE, RTSX_SD_RSP_TYPE_R0) (by decide) (by decide)
      hq0).2 rfl⟩

-- ---------------------------------------------------------------------------
-- Progress of the request path: no fault, no callback before the end
-- ---------------------------------------------------------------------------

theorem runs_refl {W : Type} (sc : rtsx_softc W) : runs sc sc :=
  ⟨⟨[], by simp, by simp⟩, rfl, rfl⟩

theorem runs_trans {W : Type} {a b c : rtsx_softc W} (h1 : runs a b) (h2 : runs b c) :
    runs a c := by
  obtain ⟨⟨t1, e1, n1⟩, r1, s1⟩ := h1
  obtain ⟨⟨t2, e2, n2⟩, r2, s2⟩ := h2
  refine ⟨⟨t1 ++ t2, by rw [e2, e1, List.append_assoc], ?_⟩, r2.trans r1, s2.trans s1⟩
  intro e he
  rcases List.mem_append.mp he with h | h
  · exact n1 e h
  · exact n2 e h

/-- A step that adds events that are no callback and keeps the request slot runs. -/
theorem runs_of_trace {W : Type} (sc sc1 : rtsx_softc W) (t : List event)
    (ht : sc1.trace = sc.trace ++ t) (hn : ∀ e ∈ t, is_done e = false)
    (hr : sc1.rtsx_req = sc.rtsx_req) : runs sc sc1 :=
  ⟨⟨t, ht, hn⟩, by rw [hr], by unfold stop_set; rw [hr]⟩

theorem runs_of_same {W : Type} {sc sc1 : rtsx_softc W} (h : same_but_queue sc sc1) :
    runs sc sc1 :=
  runs_of_trace sc sc1 [] (by rw [same_but_queue_trace h]; simp) (by simp)
    (same_but_queue_req h)

theorem runs_READ4 {W : Type} (M : machine W) (sc : rtsx_softc W) (reg : Nat) :
    runs sc (READ4 M sc reg).1 :=
  runs_of_trace _ _ [event.read4 reg ((M.read4 sc.rtsx_res reg).1 % 2 ^ 32)] rfl
    (by simp [is_done]) rfl

theorem runs_WRITE4 {W : Type} (M : machine W) (sc : rtsx_softc W) (reg val : Nat) :
    runs sc (WRITE4 M sc reg val) :=
  runs_of_trace _ _ [event.write4 reg (val % 2 ^ 32)] rfl (by simp [is_done]) rfl

theorem runs_rtsx_read_loop {W : Type} (M : machine W) (n : Nat) :
    ∀ (sc : rtsx_softc W) (reg : Nat), runs sc (rtsx_read_loop M n sc reg).1 := by
  induction n with
  | zero => intro sc reg; exact runs_refl sc
  | succ n ih =>
    intro sc reg
    unfold rtsx_read_loop
    simp only
    split
    · exact runs_READ4 M sc RTSX_HAIMR
    · exact runs_trans (runs_READ4 M sc RTSX_HAIMR) (ih _ _)

theorem runs_rtsx_read {W : Type} (M : machine W) (sc : rtsx_softc W) (addr : Nat) :
    runs sc (rtsx_read M sc addr).1 :=
  runs_trans (runs_WRITE4 M sc _ _) (runs_rtsx_read_loop M 1024 _ _)

theorem runs_rtsx_write_loop {W : Type} (M : machine W) (val n : Nat) :
    ∀ (sc : rtsx_softc W), runs sc (rtsx_write_loop M val n sc).1 := by
  induction n with
  | zero => intro sc; exact runs_refl sc
  | succ n ih =>
    intro sc
    unfold rtsx_write_loop
    simp only
    split
    · split
      · exact runs_READ4 M sc RTSX_HAIMR
      · exact runs_READ4 M sc RTSX_HAIMR
    · exact runs_trans (runs_READ4 M sc RTSX_HAIMR) (ih _)

theorem runs_rtsx_write {W : Type} (M : machine W) (sc : rtsx_softc W) (addr mask val : Nat) :
    runs sc (rtsx_write M sc addr mask val).1 :=
  runs_trans (runs_WRITE4 M sc _ _) (runs_rtsx_write_loop M val 1024 _)

theorem runs_rtsx_soft_reset {W : Type} (M : machine W) (sc : rtsx_softc W) :
    runs sc (rtsx_soft_reset M sc) :=
  runs_trans (runs_WRITE4 M sc _ _) (runs_trans (runs_WRITE4 M _ _ _)
    (runs_trans (runs_rtsx_write M _ _ _ _) (runs_trans (runs_rtsx_write M _ _ _ _)
      (runs_rtsx_write M _ _ _ _))))

theorem runs_msleep {W : Type} (sc : rtsx_softc W) (wk : wakeup W) : runs sc (msleep sc wk) :=
  runs_of_trace _ _ [event.msleep] rfl (by simp [is_done]) rfl

theorem runs_rtsx_wait_intr_loop {W : Type} (mask : Nat) (ws : List (wakeup W)) :
    ∀ (sc : rtsx_softc W), runs sc (rtsx_wait_intr_loop mask ws sc).1 := by
  induction ws with
  | nil =>
    intro sc
    exact runs_of_trace _ _ [event.msleep] rfl (by simp [is_done]) rfl
  | cons wk ws ih =>
    intro sc
    unfold rtsx_wait_intr_loop
    simp only
    split
    · exact runs_msleep sc wk
    · split
      · exact runs_trans (runs_msleep sc wk) (ih _)
      · exact runs_msleep sc wk

theorem runs_rtsx_wait_intr {W : Type} (M : machine W) (sc : rtsx_softc W) (mask : Nat) :
    runs sc (rtsx_wait_intr M sc mask).1 := by
  unfold rtsx_wait_intr
  simp only
  refine runs_trans (b := (if sc.rtsx_intr_status &&& (mask ||| RTSX_TRANS_FAIL_INT) = 0 then
      rtsx_wait_intr_loop (mask ||| RTSX_TRANS_FAIL_INT)
        (M.wakeups sc.rtsx_res sc.rtsx_cmd_dmamem sc.rtsx_data_dmamem) sc
      else (sc, sc.rtsx_intr_status &&& (mask ||| RTSX_TRANS_FAIL_INT), 0)).1) ?_ ?_
  · split
    · exact runs_rtsx_wait_intr_loop _ _ sc
    · exact runs_refl sc
  · exact runs_of_trace _ _ [] (by simp [RTSX_UNLOCK, RTSX_LOCK]) (by simp) rfl

theorem runs_rtsx_send_cmd_nowait {W : Type} (M : machine W) (sc : rtsx_softc W) :
    runs sc (rtsx_send_cmd_nowait M sc) :=
  runs_trans (b := { sc with rtsx_intr_status := 0 })
    (runs_of_trace _ _ [] (by simp) (by simp) rfl)
    (runs_trans (runs_WRITE4 M _ _ _) (runs_WRITE4 M _ _ _))

theorem runs_rtsx_send_cmd {W : Type} (M : machine W) (sc : rtsx_softc W) (cmd : mmc_command) :
    runs sc (rtsx_send_cmd M sc cmd).1 := by
  have h : (rtsx_send_cmd M sc cmd).1 =
      (rtsx_wait_intr M (rtsx_send_cmd_nowait M sc) RTSX_TRANS_OK_INT).1 := by
    unfold rtsx_send_cmd
    simp only
    split <;> rfl
  rw [h]
  exact runs_trans (runs_rtsx_send_cmd_nowait M sc) (runs_rtsx_wait_intr M _ _)

theorem runs_reset_index {W : Type} (sc : rtsx_softc W) :
    runs sc { sc with rtsx_cmd_index := 0 } :=
  runs_of_trace _ _ [] (by simp) (by simp) rfl

theorem rtsx_send_req_get_resp_copy_runs {W : Type} (sc : rtsx_softc W) (cmd : mmc_command)
    (rsp_type : Nat) :
    runs sc (rtsx_send_req_get_resp_copy sc cmd rsp_type).1 ∧
    (rtsx_send_req_get_resp_copy sc cmd rsp_type).2.data = cmd.data := by
  unfold rtsx_send_req_get_resp_copy
  split
  · split
    · exact ⟨runs_of_trace _ _ [] (by simp) (by simp) rfl, rfl⟩
    · exact ⟨runs_refl sc, rfl⟩
  · exact ⟨runs_refl sc, rfl⟩

theorem rtsx_send_cmd_data {W : Type} (M : machine W) (sc : rtsx_softc W) (cmd : mmc_command) :
    (rtsx_send_cmd M sc cmd).2.1.data = cmd.data := by
  rw [rtsx_send_cmd_cmd]

/-- The function `rtsx_send_req_get_resp` never faults, calls no callback and keeps the
command's data descriptor. -/
theorem rtsx_send_req_get_resp_runs {W : Type} (M : machine W) (sc : rtsx_softc W)
    (cmd : mmc_command) :
    ∃ r, rtsx_send_req_get_resp M sc cmd = some r ∧ runs sc r.1 ∧ r.2.1.data = cmd.data := by
  by_cases h0 : rtsx_response_type (cmd.flags &&& MMC_RSP_MASK) = 0
  · exact ⟨(sc, { cmd with error := MMC_ERR_INVALID }, MMC_ERR_INVALID),
      by simp [rtsx_send_req_get_resp, h0], runs_refl sc, rfl⟩
  · obtain ⟨sc1, e1, q1, -⟩ := rtsx_send_req_get_resp_queue_spec sc cmd
      (rtsx_response_type (cmd.flags &&& MMC_RSP_MASK))
    have hs := runs_trans (runs_of_same q1) (runs_rtsx_send_cmd M sc1 cmd)
    by_cases he : (rtsx_send_cmd M sc1 cmd).2.2 = 0
    · obtain ⟨hc1, hc2⟩ := rtsx_send_req_get_resp_copy_runs (rtsx_send_cmd M sc1 cmd).1
        (rtsx_send_cmd M sc1 cmd).2.1 (rtsx_response_type (cmd.flags &&& MMC_RSP_MASK))
      exact ⟨((rtsx_send_req_get_resp_copy (rtsx_send_cmd M sc1 cmd).1
            (rtsx_send_cmd M sc1 cmd).2.1 (rtsx_response_type (cmd.flags &&& MMC_RSP_MASK))).1,
          (rtsx_send_req_get_resp_copy (rtsx_send_cmd M sc1 cmd).1
            (rtsx_send_cmd M sc1 cmd).2.1 (rtsx_response_type (cmd.flags &&& MMC_RSP_MASK))).2,
          0),
        by simp [rtsx_send_req_get_resp, h0, e1, he], runs_trans hs hc1,
        hc2.trans (rtsx_send_cmd_data M sc1 cmd)⟩
    · exact ⟨rtsx_send_cmd M sc1 cmd, by simp [rtsx_send_req_get_resp, h0, e1, he], hs,
        rtsx_send_cmd_data M sc1 cmd⟩

/-- The loop over full batches of `rtsx_read_ppbuf` never faults and calls no callback;
when it ends without error it has taken 256 off `remain` per iteration. -/
theorem rtsx_read_ppbuf_loop_runs {W : Type} (M : machine W) (k : Nat) :
    ∀ v : ppbuf_vars W, ∃ v1, rtsx_read_ppbuf_loop M k v = some v1 ∧ runs v.sc v1.sc ∧
      (v.error = 0 → v1.error = 0 → v1.remain = v.remain - 256 * (k : Int)) := by
  induction k with
  | zero =>
    intro v
    exact ⟨v, rfl, runs_refl _, fun _ _ => by simp⟩
  | succ k ih =>
    intro v
    obtain ⟨s1, e1, p1, -⟩ := rtsx_push_reads_spec RTSX_HOSTCMD_MAX v.reg
      { v.sc with rtsx_cmd_index := 0 } (by simp [RTSX_HOSTCMD_MAX])
    have hr := runs_trans (runs_reset_index v.sc)
      (runs_trans (runs_of_same (pushed_same p1)) (runs_rtsx_send_cmd M s1 v.cmd))
    by_cases he : (rtsx_send_cmd M s1 v.cmd).2.2 = 0
    · obtain ⟨v1, ev, rv, hv⟩ := ih
        { sc := (rtsx_send_cmd M s1 v.cmd).1, cmd := (rtsx_send_cmd M s1 v.cmd).2.1, error := 0
          buf := memcpy v.buf v.ptr (rtsx_send_cmd M s1 v.cmd).1.rtsx_cmd_dmamem RTSX_HOSTCMD_MAX
          reg := (v.reg + RTSX_HOSTCMD_MAX) % 65536
          ptr := v.ptr + RTSX_HOSTCMD_MAX
          remain := v.remain - RTSX_HOSTCMD_MAX }
      refine ⟨v1, by simp [rtsx_read_ppbuf_loop, e1, he, ev], runs_trans hr rv, ?_⟩
      intro _ h1
      have := hv rfl h1
      simp only [RTSX_HOSTCMD_MAX] at this
      rw [this]
      push_cast
      omega
    · refine ⟨{ v with sc := (rtsx_send_cmd M s1 v.cmd).1, cmd := (rtsx_send_cmd M s1 v.cmd).2.1,
                       error := (rtsx_send_cmd M s1 v.cmd).2.2 },
        by simp [rtsx_read_ppbuf_loop, e1, he], hr, ?_⟩
      intro _ h1
      exact absurd h1 he

/-- The loop over full batches of `rtsx_write_ppbuf` never faults and calls no callback;
when it ends without error it has taken 256 off `remain` per iteration. -/
theorem rtsx_write_ppbuf_loop_runs {W : Type} (M : machine W) (k : Nat) :
    ∀ v : ppbuf_vars W, ∃ v1, rtsx_write_ppbuf_loop M k v = some v1 ∧ runs v.sc v1.sc ∧
      v1.buf = v.buf ∧
      (v.error = 0 → v1.error = 0 → v1.remain = v.remain - 256 * (k : Int)) := by
  induction k with
  | zero =>
    intro v
    exact ⟨v, rfl, runs_refl _, rfl, fun _ _ => by simp⟩
  | succ k ih =>
    intro v
    obtain ⟨s1, e1, p1, -⟩ := rtsx_push_writes_spec v.buf RTSX_HOSTCMD_MAX v.reg v.ptr
      { v.sc with rtsx_cmd_index := 0 } (by simp [RTSX_HOSTCMD_MAX])
    have hr := runs_trans (runs_reset_index v.sc)
      (runs_trans (runs_of_same (pushed_same p1)) (runs_rtsx_send_cmd M s1 v.cmd))
    by_cases he : (rtsx_send_cmd M s1 v.cmd).2.2 = 0
    · obtain ⟨v1, ev, rv, hb, hv⟩ := ih
        { sc := (rtsx_send_cmd M s1 v.cmd).1, cmd := (rtsx_send_cmd M s1 v.cmd).2.1, error := 0
          buf := v.buf
          reg := (v.reg + RTSX_HOSTCMD_MAX) % 65536
          ptr := v.ptr + RTSX_HOSTCMD_MAX
          remain := v.remain - RTSX_HOSTCMD_MAX }
      refine ⟨v1, by simp [rtsx_write_ppbuf_loop, e1, he, ev], runs_trans hr rv, hb, ?_⟩
      intro _ h1
      have := hv rfl h1
      simp only [RTSX_HOSTCMD_MAX] at this
      rw [this]
      push_cast
      omega
    · refine ⟨{ v with sc := (rtsx_send_cmd M s1 v.cmd).1, cmd := (rtsx_send_cmd M s1 v.cmd).2.1,
                       error := (rtsx_send_cmd M s1 v.cmd).2.2 },
        by simp [rtsx_write_ppbuf_loop, e1, he], hr, rfl, ?_⟩
      intro _ h1
      exact absurd h1 he

/-- For a length below `2^31` the `int` copy of the length, less the full batches, is
the length modulo 256. -/
theorem remain_after_batches (len : Nat) (h : len < 2 ^ 31) :
    int_of_size_t len - 256 * ((len / RTSX_HOSTCMD_MAX : Nat) : Int) = ((len % 256 : Nat) : Int) := by
  unfold int_of_size_t RTSX_HOSTCMD_MAX
  have h1 : len % 2 ^ 32 = len := Nat.mod_eq_of_lt (by omega)
  rw [h1, if_pos h]
  omega

/-- The function `rtsx_read_ppbuf` on a data descriptor of less than `2^31` bytes never
faults and calls no callback. -/
theorem rtsx_read_ppbuf_runs {W : Type} (M : machine W) (sc : rtsx_softc W) (cmd : mmc_command)
    (d : mmc_data) (hd : cmd.data = some d) (hlen : d.len < 2 ^ 31) :
    ∃ r, rtsx_read_ppbuf M sc cmd = some r ∧ runs sc r.1 := by
  obtain ⟨v, ev, rv, hv⟩ := rtsx_read_ppbuf_loop_runs M (d.len / RTSX_HOSTCMD_MAX)
    { sc := sc, cmd := cmd, buf := d.data, reg := RTSX_PPBUF_BASE2, ptr := 0,
      remain := int_of_size_t d.len, error := 0 }
  by_cases he : v.error = 0
  · have hrem : v.remain = ((d.len % 256 : Nat) : Int) := by
      rw [hv rfl he]
      exact remain_after_batches d.len hlen
    by_cases hp : v.remain > 0
    · obtain ⟨s1, e1, p1, -⟩ := rtsx_push_reads_spec v.remain.toNat v.reg
        { v.sc with rtsx_cmd_index := 0 } (by simp only; omega)
      have hr := runs_trans rv (runs_trans (runs_reset_index v.sc)
        (runs_trans (runs_of_same (pushed_same p1)) (runs_rtsx_send_cmd M s1 v.cmd)))
      by_cases hs : (rtsx_send_cmd M s1 v.cmd).2.2 = 0
      · generalize hb :
          memcpy v.buf v.ptr (rtsx_send_cmd M s1 v.cmd).1.rtsx_cmd_dmamem v.remain.toNat = b
        exact ⟨((rtsx_send_cmd M s1 v.cmd).1,
            { (rtsx_send_cmd M s1 v.cmd).2.1 with data := some { d with data := b } }, 0),
          by simp [rtsx_read_ppbuf, hd, ev, he, hp, e1, hs, hb], hr⟩
      · exact ⟨((rtsx_send_cmd M s1 v.cmd).1,
            { (rtsx_send_cmd M s1 v.cmd).2.1 with data := some { d with data := v.buf } },
            (rtsx_send_cmd M s1 v.cmd).2.2),
          by simp [rtsx_read_ppbuf, hd, ev, he, hp, e1, hs], hr⟩
    · exact ⟨(v.sc, { v.cmd with data := some { d with data := v.buf } }, 0),
        by simp [rtsx_read_ppbuf, hd, ev, he, hp], rv⟩
  · exact ⟨(v.sc, { v.cmd with data := some { d with data := v.buf } }, v.error),
      by simp [rtsx_read_ppbuf, hd, ev, he], rv⟩

/-- The function `rtsx_write_ppbuf` on a data descriptor of less than `2^31` bytes never
faults and calls no callback. -/
theorem rtsx_write_ppbuf_runs {W : Type} (M : machine W) (sc : rtsx_softc W) (cmd : mmc_command)
    (d : mmc_data) (hd : cmd.data = some d) (hlen : d.len < 2 ^ 31) :
    ∃ r, rtsx_write_ppbuf M sc cmd = some r ∧ runs sc r.1 := by
  obtain ⟨v, ev, rv, -, hv⟩ := rtsx_write_ppbuf_loop_runs M (d.len / RTSX_HOSTCMD_MAX)
    { sc := sc, cmd := cmd, buf := d.data, reg := RTSX_PPBUF_BASE2, ptr := 0,
      remain := int_of_size_t d.len, error := 0 }
  by_cases he : v.error = 0
  · have hrem : v.remain = ((d.len % 256 : Nat) : Int) := by
      rw [hv rfl he]
      exact remain_after_batches d.len hlen
    by_cases hp : v.remain > 0
    · obtain ⟨s1, e1, p1, -⟩ := rtsx_push_writes_spec v.buf v.remain.toNat v.reg v.ptr
        { v.sc with rtsx_cmd_index := 0 } (by simp only; omega)
      have hr := runs_trans rv (runs_trans (runs_reset_index v.sc)
        (runs_trans (runs_of_same (pushed_same p1)) (runs_rtsx_send_cmd M s1 v.cmd)))
      by_cases hs : (rtsx_send_cmd M s1 v.cmd).2.2 = 0
      · exact ⟨((rtsx_send_cmd M s1 v.cmd).1, (rtsx_send_cmd M s1 v.cmd).2.1, 0),
          by simp [rtsx_write_ppbuf, hd, ev, he, hp, e1, hs], hr⟩
      · exact ⟨rtsx_send_cmd M s1 v.cmd,
          by simp [rtsx_write_ppbuf, hd, ev, he, hp, e1, hs], hr⟩
    · exact ⟨(v.sc, v.cmd, 0), by simp [rtsx_write_ppbuf, hd, ev, he, hp], rv⟩
  · exact ⟨(v.sc, v.cmd, v.error), by simp [rtsx_write_ppbuf, hd, ev, he], rv⟩

/-- The four count pushes succeed when the block size is not zero and four slots are
free. -/
theorem rtsx_push_counts_spec {W : Type} (sc : rtsx_softc W) (d : mmc_data)
    (hx : d.xfer_len ≠ 0) (hi : sc.rtsx_cmd_index + 4 ≤ 256) :
    ∃ sc1, rtsx_push_counts sc d = some sc1 ∧ pushed 4 sc sc1 := by
  obtain ⟨s1, e1, p1, -⟩ := rtsx_push_cmd_spec sc RTSX_WRITE_REG_CMD RTSX_SD_BYTE_CNT_L 0xff
    (d.xfer_len &&& 0xff) (by omega)
  have i1 := pushed_index p1
  obtain ⟨s2, e2, p2, -⟩ := rtsx_push_cmd_spec s1 RTSX_WRITE_REG_CMD RTSX_SD_BYTE_CNT_H 0xff
    (d.xfer_len >>> 8) (by omega)
  have i2 := pushed_index p2
  obtain ⟨s3, e3, p3, -⟩ := rtsx_push_cmd_spec s2 RTSX_WRITE_REG_CMD RTSX_SD_BLOCK_CNT_L 0xff
    ((d.len / d.xfer_len) &&& 0xff) (by omega)
  have i3 := pushed_index p3
  obtain ⟨s4, e4, p4, -⟩ := rtsx_push_cmd_spec s3 RTSX_WRITE_REG_CMD RTSX_SD_BLOCK_CNT_H 0xff
    ((d.len / d.xfer_len) >>> 8) (by omega)
  exact ⟨s4, by simp [rtsx_push_counts, hx, e1, e2, e3, e4],
    pushed_trans (pushed_trans (pushed_trans p1 p2) p3) p4⟩

/-- The defaulted block size is zero only for a zero length; the other fields are kept. -/
theorem rtsx_default_xfer_len_spec (d : mmc_data) :
    (rtsx_default_xfer_len d).len = d.len ∧ (rtsx_default_xfer_len d).flags = d.flags ∧
    (rtsx_default_xfer_len d).data = d.data ∧
    (d.len ≠ 0 → (rtsx_default_xfer_len d).xfer_len ≠ 0) := by
  unfold rtsx_default_xfer_len
  split
  · refine ⟨rfl, rfl, rfl, ?_⟩
    intro h
    simp only [RTSX_MAX_DATA_BLKLEN]
    split <;> omega
  · rename_i hx
    exact ⟨rfl, rfl, rfl, fun _ => hx⟩

/-- The function `rtsx_xfer_short` never faults and calls no callback. -/
theorem rtsx_xfer_short_runs {W : Type} (M : machine W) (sc : rtsx_softc W) (cmd : mmc_command) :
    ∃ r, rtsx_xfer_short M sc cmd = some r ∧ runs sc r.1 := by
  cases hd : cmd.data with
  | none =>
    exact ⟨(sc, { cmd with error := MMC_ERR_INVALID }, MMC_ERR_INVALID),
      by simp [rtsx_xfer_short, hd], runs_refl sc⟩
  | some d0 =>
    by_cases h0 : d0.len = 0
    · exact ⟨(sc, { cmd with error := MMC_ERR_INVALID }, MMC_ERR_INVALID),
        by simp [rtsx_xfer_short, hd, h0], runs_refl sc⟩
    obtain ⟨hl, -, -, hx⟩ := rtsx_default_xfer_len_spec d0
    have hx := hx h0
    by_cases h512 : (rtsx_default_xfer_len d0).len > 512
    · exact ⟨(sc, { cmd with data := some (rtsx_default_xfer_len d0), error := MMC_ERR_INVALID },
          MMC_ERR_INVALID),
        by simp [rtsx_xfer_short, hd, h0, h512], runs_refl sc⟩
    by_cases hty : rtsx_response_type (cmd.flags &&& MMC_RSP_MASK) = 0
    · exact ⟨(sc, { cmd with data := some (rtsx_default_xfer_len d0), error := MMC_ERR_INVALID },
          MMC_ERR_INVALID),
        by simp [rtsx_xfer_short, hd, h0, h512, hty], runs_refl sc⟩
    generalize hd1 : rtsx_default_xfer_len d0 = d at hl hx h512
    generalize hc1 : ({ cmd with data := some d } : mmc_command) = cmd1
    have hcd : cmd1.data = some d := by rw [← hc1]
    have hcf : cmd1.flags = cmd.flags := by rw [← hc1]
    have hlt : d.len < 2 ^ 31 := by omega
    by_cases hread : ISSET d.flags MMC_DATA_READ = true
    · obtain ⟨s0, e0, q0, i0, -⟩ := rtsx_init_cmd_spec sc cmd1
      obtain ⟨s1, e1, p1⟩ := rtsx_push_counts_spec s0 d hx (by omega)
      have i1 := pushed_index p1
      obtain ⟨s2, e2, p2, -⟩ := rtsx_push_cmd_spec s1 RTSX_WRITE_REG_CMD RTSX_SD_CFG2 0xff
        (RTSX_SD_CALCULATE_CRC7 ||| RTSX_SD_CHECK_CRC16 ||| RTSX_SD_NO_WAIT_BUSY_END |||
          RTSX_SD_CHECK_CRC7 ||| RTSX_SD_RSP_LEN_6) (by omega)
      have i2 := pushed_index p2
      obtain ⟨s3, e3, p3, -⟩ := rtsx_push_cmd_spec s2 RTSX_WRITE_REG_CMD RTSX_CARD_DATA_SOURCE
        0x01 RTSX_PINGPONG_BUFFER (by omega)
      have i3 := pushed_index p3
      obtain ⟨s4, e4, p4, -⟩ := rtsx_push_cmd_spec s3 RTSX_WRITE_REG_CMD RTSX_SD_TRANSFER 0xff
        (RTSX_TM_NORMAL_READ ||| RTSX_SD_TRANSFER_START) (by omega)
      have i4 := pushed_index p4
      obtain ⟨s5, e5, p5, -⟩ := rtsx_push_cmd_spec s4 RTSX_CHECK_REG_CMD RTSX_SD_TRANSFER
        RTSX_SD_TRANSFER_END RTSX_SD_TRANSFER_END (by omega)
      have hq := runs_trans (runs_of_same q0) (runs_of_same (pushed_same
        (pushed_trans (pushed_trans (pushed_trans (pushed_trans p1 p2) p3) p4) p5)))
      have hs := runs_trans hq (runs_rtsx_send_cmd M s5 cmd1)
      by_cases he : (rtsx_send_cmd M s5 cmd1).2.2 = 0
      · obtain ⟨r, er, rr⟩ := rtsx_read_ppbuf_runs M (rtsx_send_cmd M s5 cmd1).1
          (rtsx_send_cmd M s5 cmd1).2.1 d ((rtsx_send_cmd_data M s5 cmd1).trans hcd) hlt
        exact ⟨r, by simp [rtsx_xfer_short, hd, h0, hd1, h512, hc1, hcf, hty, hread, e0, e1, e2,
          e3, e4, e5, he, er], runs_trans hs rr⟩
      · exact ⟨rtsx_send_cmd M s5 cmd1, by simp [rtsx_xfer_short, hd, h0, hd1, h512, hc1, hcf,
          hty, hread, e0, e1, e2, e3, e4, e5, he], hs⟩
    · obtain ⟨r, er, rr, rd⟩ := rtsx_send_req_get_resp_runs M sc cmd1
      by_cases he : r.2.2 = 0
      · obtain ⟨w, ew, rw1⟩ := rtsx_write_ppbuf_runs M r.1 r.2.1 d (rd.trans hcd) hlt
        by_cases hwe : w.2.2 = 0
        · obtain ⟨s1, e1, p1⟩ := rtsx_push_counts_spec { w.1 with rtsx_cmd_index := 0 } d hx
            (by simp)
          have i1 := pushed_index p1
          simp only at i1
          obtain ⟨s2, e2, p2, -⟩ := rtsx_push_cmd_spec s1 RTSX_WRITE_REG_CMD RTSX_SD_CFG2 0xff
            (RTSX_SD_CALCULATE_CRC7 ||| RTSX_SD_CHECK_CRC16 ||| RTSX_SD_NO_WAIT_BUSY_END |||
              RTSX_SD_CHECK_CRC7 ||| RTSX_SD_RSP_LEN_0) (by omega)
          have i2 := pushed_index p2
          obtain ⟨s3, e3, p3, -⟩ := rtsx_push_cmd_spec s2 RTSX_WRITE_REG_CMD RTSX_SD_TRANSFER
            0xff (RTSX_TM_AUTO_WRITE3 ||| RTSX_SD_TRANSFER_START) (by omega)
          have i3 := pushed_index p3
          obtain ⟨s4, e4, p4, -⟩ := rtsx_push_cmd_spec s3 RTSX_CHECK_REG_CMD RTSX_SD_TRANSFER
            RTSX_SD_TRANSFER_END RTSX_SD_TRANSFER_END (by omega)
          have hq := runs_trans (runs_reset_index w.1) (runs_of_same (pushed_same
            (pushed_trans (pushed_trans (pushed_trans p1 p2) p3) p4)))
          exact ⟨rtsx_send_cmd M s4 w.2.1, by simp [rtsx_xfer_short, hd, h0, hd1, h512, hc1, hcf,
            hty, hread, er, he, ew, hwe, e1, e2, e3, e4],
            runs_trans rr (runs_trans rw1 (runs_trans hq (runs_rtsx_send_cmd M s4 w.2.1)))⟩
        · exact ⟨w, by simp [rtsx_xfer_short, hd, h0, hd1, h512, hc1, hcf, hty, hread, er, he,
            ew, hwe], runs_trans rr rw1⟩
      · exact ⟨r, by simp [rtsx_xfer_short, hd, h0, hd1, h512, hc1, hcf, hty, hread, er, he], rr⟩

/-- A push followed by a continuation that only queues, only queues. -/
theorem rtsx_push_cmd_bind {W : Type} (sc : rtsx_softc W) (cmd reg mask data : Nat)
    (f : rtsx_softc W → Option (rtsx_softc W)) (h : sc.rtsx_cmd_index < 256)
    (hf : ∀ s1, same_but_queue sc s1 → s1.rtsx_cmd_index = sc.rtsx_cmd_index + 1 →
      ∃ s2, f s1 = some s2 ∧ same_but_queue s1 s2) :
    ∃ s2, (rtsx_push_cmd sc cmd reg mask data).bind f = some s2 ∧ same_but_queue sc s2 := by
  obtain ⟨s1, e1, p1, -⟩ := rtsx_push_cmd_spec sc cmd reg mask data h
  obtain ⟨s2, e2, q2⟩ := hf s1 (pushed_same p1) (pushed_index p1)
  exact ⟨s2, by rw [e1]; exact e2, same_but_queue_trans (pushed_same p1) q2⟩

/-- The batch of `rtsx_xfer` always fits when the block size is not zero; nothing but the
queue changes. -/
theorem rtsx_xfer_queue_spec {W : Type} (sc : rtsx_softc W) (cmd : mmc_command) (d : mmc_data)
    (hx : d.xfer_len ≠ 0) :
    ∃ sc1, rtsx_xfer_queue sc cmd d = some sc1 ∧ same_but_queue sc sc1 := by
  have h0 : ∃ s0, (if ISSET d.flags MMC_DATA_READ = true then rtsx_init_cmd sc cmd
      else some { sc with rtsx_cmd_index := 0 }) = some s0 ∧ same_but_queue sc s0 ∧
      s0.rtsx_cmd_index ≤ 5 := by
    split
    · obtain ⟨s5, e5, q5, i5, -⟩ := rtsx_init_cmd_spec sc cmd
      exact ⟨s5, e5, q5, by omega⟩
    · exact ⟨_, rfl, rfl, by simp⟩
  obtain ⟨s0, e0, q0, i0⟩ := h0
  obtain ⟨s1, e1, p1⟩ := rtsx_push_counts_spec s0 d hx (by omega)
  have i1 := pushed_index p1
  have key : ∃ s2, rtsx_xfer_queue sc cmd d = some s2 ∧ same_but_queue s1 s2 := by
    unfold rtsx_xfer_queue
    have hk : ∀ k : rtsx_softc W → Option (rtsx_softc W),
        (∃ s2, k s1 = some s2 ∧ same_but_queue s1 s2) →
        ∃ s2, (if ISSET d.flags MMC_DATA_READ = true then
            (rtsx_init_cmd sc cmd).bind fun y => (rtsx_push_counts y d).bind k
          else (rtsx_push_counts { sc with rtsx_cmd_index := 0 } d).bind k) = some s2 ∧
          same_but_queue s1 s2 := by
      intro k hk
      split
      · rename_i hread
        rw [if_pos hread] at e0
        rw [e0, Option.some_bind, e1]
        exact hk
      · rename_i hread
        rw [if_neg hread] at e0
        cases e0
        rw [e1]
        exact hk
    simp only [Option.bind_eq_bind, Option.some_bind]
    apply hk
    refine rtsx_push_cmd_bind _ _ _ _ _ _ (by omega) (fun s2 _ i2 => ?_)
    refine rtsx_push_cmd_bind _ _ _ _ _ _ (by omega) (fun s3 _ i3 => ?_)
    refine rtsx_push_cmd_bind _ _ _ _ _ _ (by omega) (fun s4 _ i4 => ?_)
    refine rtsx_push_cmd_bind _ _ _ _ _ _ (by omega) (fun s5 _ i5 => ?_)
    refine rtsx_push_cmd_bind _ _ _ _ _ _ (by omega) (fun s6 _ i6 => ?_)
    refine rtsx_push_cmd_bind _ _ _ _ _ _ (by omega) (fun s7 _ i7 => ?_)
    refine rtsx_push_cmd_bind _ _ _ _ _ _ (by omega) (fun s8 _ i8 => ?_)
    refine rtsx_push_cmd_bind _ _ _ _ _ _ (by omega) (fun s9 _ i9 => ?_)
    refine rtsx_push_cmd_bind _ _ _ _ _ _ (by omega) (fun s10 _ i10 => ?_)
    obtain ⟨s11, e11, p11, -⟩ := rtsx_push_cmd_spec s10 RTSX_CHECK_REG_CMD RTSX_SD_TRANSFER
      RTSX_SD_TRANSFER_END RTSX_SD_TRANSFER_END (by omega)
    exact ⟨s11, e11, pushed_same p11⟩
  obtain ⟨s2, e2, q2⟩ := key
  exact ⟨s2, e2, same_but_queue_trans q0 (same_but_queue_trans (pushed_same p1) q2)⟩

/-- The end of `rtsx_xfer` never faults and calls no callback, provided that for a write
the request in flight carries a stop command. -/
theorem rtsx_xfer_finish_runs {W : Type} (M : machine W) (sc : rtsx_softc W) (cmd : mmc_command)
    (d : mmc_data) (hstop : ISSET d.flags MMC_DATA_READ = false → stop_set sc = true) :
    ∃ r, rtsx_xfer_finish M sc cmd d = some r ∧ runs sc r.1 := by
  by_cases hread : ISSET d.flags MMC_DATA_READ = true
  · generalize hb : memcpy d.data 0 sc.rtsx_data_dmamem d.len = b
    exact ⟨(sc, { cmd with data := some { d with data := b } }, 0),
      by simp [rtsx_xfer_finish, hread, hb], runs_refl sc⟩
  · have hs := hstop (by simpa using hread)
    unfold stop_set at hs
    cases hreq : sc.rtsx_req with
    | none => rw [hreq] at hs; exact absurd hs (by simp)
    | some req =>
      rw [hreq] at hs
      simp only at hs
      cases hst : req.stop with
      | none => rw [hst] at hs; exact absurd hs (by simp)
      | some stop =>
        obtain ⟨r, er, rr, -⟩ := rtsx_send_req_get_resp_runs M sc stop
        refine ⟨({ r.1 with rtsx_req := some { req with stop := some r.2.1 } }, cmd, r.2.2),
          by simp [rtsx_xfer_finish, hread, hreq, hst, er], ?_⟩
        obtain ⟨⟨t, et, nt⟩, rs, -⟩ := rr
        refine ⟨⟨t, et, nt⟩, ?_, ?_⟩
        · simp [hreq]
        · simp [stop_set, hreq, hst]

theorem runs_rtsx_xfer_start {W : Type} (M : machine W) (sc : rtsx_softc W) (d : mmc_data) :
    runs sc (rtsx_xfer_start M sc d) := by
  unfold rtsx_xfer_start
  simp only
  refine runs_trans (runs_rtsx_send_cmd_nowait M sc) (runs_trans ?_
    (runs_trans (runs_WRITE4 M _ _ _) (runs_WRITE4 M _ _ _)))
  split
  · exact runs_of_trace _ _ [] (by simp) (by simp) rfl
  · exact runs_of_trace _ _ [] (by simp) (by simp) rfl

/-- The function `rtsx_xfer` on a request with data of nonzero length never faults and
calls no callback, provided that for a write the request in flight carries a stop
command. -/
theorem rtsx_xfer_runs {W : Type} (M : machine W) (sc : rtsx_softc W) (cmd : mmc_command)
    (d0 : mmc_data) (hd : cmd.data = some d0) (hlen : d0.len ≠ 0)
    (hstop : ISSET d0.flags MMC_DATA_READ = false → stop_set sc = true) :
    ∃ r, rtsx_xfer M sc cmd = some r ∧ runs sc r.1 := by
  obtain ⟨hl, hf, -, hx⟩ := rtsx_default_xfer_len_spec d0
  have hx := hx hlen
  by_cases hbig : (rtsx_default_xfer_len d0).len > RTSX_DMA_DATA_BUFSIZE M
  · exact ⟨(sc, { cmd with data := some (rtsx_default_xfer_len d0), error := MMC_ERR_INVALID },
      MMC_ERR_INVALID), by simp [rtsx_xfer, hd, hbig], runs_refl sc⟩
  generalize hd1 : rtsx_default_xfer_len d0 = d at hl hf hx hbig
  have hpre : ∃ r, (if ISSET d0.flags MMC_DATA_READ = true then
      some (sc, ({ cmd with data := some d } : mmc_command), 0)
      else rtsx_send_req_get_resp M sc { cmd with data := some d }) = some r ∧ runs sc r.1 := by
    split
    · exact ⟨_, rfl, runs_refl sc⟩
    · obtain ⟨r, er, rr, -⟩ := rtsx_send_req_get_resp_runs M sc { cmd with data := some d }
      exact ⟨r, er, rr⟩
  obtain ⟨r, er, rr⟩ := hpre
  by_cases he : r.2.2 = 0
  · obtain ⟨s1, e1, q1⟩ := rtsx_xfer_queue_spec r.1 r.2.1 d hx
    have r6 : runs sc (rtsx_xfer_start M s1 d) :=
      runs_trans rr (runs_trans (runs_of_same q1) (runs_rtsx_xfer_start M s1 d))
    have rw6 := runs_trans r6 (runs_rtsx_wait_intr M (rtsx_xfer_start M s1 d) RTSX_TRANS_OK_INT)
    by_cases hw : (rtsx_wait_intr M (rtsx_xfer_start M s1 d) RTSX_TRANS_OK_INT).2 = 0
    · obtain ⟨f, ef, rf⟩ := rtsx_xfer_finish_runs M
        (rtsx_wait_intr M (rtsx_xfer_start M s1 d) RTSX_TRANS_OK_INT).1 r.2.1 d (by
          intro hrd
          rw [rw6.2.2]
          exact hstop (by rw [← hf]; exact hrd))
      refine ⟨f, ?_, runs_trans rw6 rf⟩
      simp only [rtsx_xfer, hd, hd1, hbig, if_false, er, Option.some_bind, he, ne_eq,
        not_true_eq_false, e1, hw]
      exact ef
    · refine ⟨((rtsx_wait_intr M (rtsx_xfer_start M s1 d) RTSX_TRANS_OK_INT).1,
        { r.2.1 with error := (rtsx_wait_intr M (rtsx_xfer_start M s1 d) RTSX_TRANS_OK_INT).2 },
        (rtsx_wait_intr M (rtsx_xfer_start M s1 d) RTSX_TRANS_OK_INT).2), ?_, rw6⟩
      simp only [rtsx_xfer, hd, hd1, hbig, if_false, er, Option.some_bind, he, ne_eq,
        not_true_eq_false, e1, hw, not_false_eq_true, if_true]
  · refine ⟨r, ?_, rr⟩
    simp only [rtsx_xfer, hd, hd1, hbig, if_false, er, Option.some_bind, he, ne_eq,
      not_false_eq_true, if_true]

theorem runs_rtsx_mmcbr_request_crc {W : Type} (M : machine W)
    (r : rtsx_softc W × mmc_command × Nat) : runs r.1 (rtsx_mmcbr_request_crc M r).1 := by
  unfold rtsx_mmcbr_request_crc
  split
  · simp only
    split
    · exact runs_rtsx_read M r.1 RTSX_SD_STAT1
    · exact runs_rtsx_read M r.1 RTSX_SD_STAT1
  · exact runs_refl r.1

/-- The body of `rtsx_mmcbr_request` never faults and calls no callback, provided that a
long-path write finds a stop command in the request in flight. -/
theorem rtsx_mmcbr_request_body_runs {W : Type} (M : machine W) (sc : rtsx_softc W)
    (cmd : mmc_command)
    (hstop : ∀ d, cmd.data = some d → 512 < d.len → ISSET d.flags MMC_DATA_READ = false →
      stop_set sc = true) :
    ∃ r, rtsx_mmcbr_request_body M sc cmd = some r ∧ runs sc r.1 := by
  unfold rtsx_mmcbr_request_body
  split
  · exact ⟨_, rfl, runs_refl sc⟩
  · split
    · exact ⟨_, rfl, runs_refl sc⟩
    · cases hd : cmd.data with
      | none =>
        obtain ⟨r, er, rr, -⟩ := rtsx_send_req_get_resp_runs M sc cmd
        exact ⟨r, er, rr⟩
      | some d =>
        simp only
        split
        · obtain ⟨r, er, rr⟩ := rtsx_xfer_short_runs M sc cmd
          exact ⟨rtsx_mmcbr_request_crc M r, by rw [er]; rfl,
            runs_trans rr (runs_rtsx_mmcbr_request_crc M r)⟩
        · rename_i hlen
          obtain ⟨r, er, rr⟩ := rtsx_xfer_runs M sc cmd d hd (by omega)
            (fun hw => hstop d hd (by omega) hw)
          exact ⟨rtsx_mmcbr_request_crc M r, by rw [er]; rfl,
            runs_trans rr (runs_rtsx_mmcbr_request_crc M r)⟩

-- ---------------------------------------------------------------------------
-- C2: every accepted request is completed exactly once
-- ---------------------------------------------------------------------------

/-- The completion of a request in flight: the callback is the last event, it finds
`sc->rtsx_req` cleared, and only register accesses precede it. -/
theorem rtsx_req_done_spec {W : Type} (M : machine W) (sc : rtsx_softc W) (req : mmc_request)
    (hreq : sc.rtsx_req = some req) :
    ∃ sc1 t, rtsx_req_done M sc = some (sc1, req) ∧ sc1.rtsx_req = none ∧
      sc1.trace = sc.trace ++ t ++ [event.done false req.cmd.error] ∧
      (∀ ev ∈ t, is_done ev = false) ∧
      (req.cmd.error = MMC_ERR_NONE → t = []) ∧
      (req.cmd.error ≠ MMC_ERR_NONE → sc.trace ++ t = (rtsx_soft_reset M sc).trace) := by
  by_cases he : req.cmd.error = MMC_ERR_NONE
  · exact ⟨{ sc with rtsx_req := none, trace := sc.trace ++ [event.done false req.cmd.error] },
      [], by simp [rtsx_req_done, hreq, he], rfl, by simp, by simp, fun _ => rfl,
      fun h => absurd he h⟩
  · obtain ⟨⟨t, et, nt⟩, -, -⟩ := runs_rtsx_soft_reset M sc
    refine ⟨{ rtsx_soft_reset M sc with
        rtsx_req := none
        trace := (rtsx_soft_reset M sc).trace ++ [event.done false req.cmd.error] }, t,
      by simp [rtsx_req_done, hreq, he], rfl, ?_, nt, fun h => absurd h he, fun _ => et.symm⟩
    simp [et]

/-- C2: a request submitted while none is outstanding, whose long-path write (data length
above 512, direction write) carries a stop command, is completed on every path: the call
returns (no fault), the completion callback is invoked exactly once, as the last event of
the call, with `sc->rtsx_req` already cleared, and `sc->rtsx_req` is clear on return, so
that the busy test of the next request (line 2488) fails. -/
theorem rtsx_mmcbr_request_completes {W : Type} (M : machine W) (sc : rtsx_softc W)
    (req : mmc_request) (hidle : sc.rtsx_req = none)
    (hstop : ∀ d, req.cmd.data = some d → 512 < d.len → ISSET d.flags MMC_DATA_READ = false →
      req.stop ≠ none) :
    ∃ sc1 req1 err t e, rtsx_mmcbr_request M sc req = some (sc1, req1, err) ∧
      sc1.rtsx_req = none ∧
      sc1.trace = sc.trace ++ t ++ [event.done false e] ∧
      (∀ ev ∈ t, is_done ev = false) ∧
      (RTSX_LOCK sc1).rtsx_req.isSome = false := by
  generalize hacc : ({ RTSX_LOCK sc with
      rtsx_req := some { req with cmd := { req.cmd with error := MMC_ERR_NONE } }
      rtsx_intr_status := 0 } : rtsx_softc W) = sa
  have hat : sa.trace = sc.trace := by rw [← hacc]; rfl
  have har : sa.rtsx_req = some { req with cmd := { req.cmd with error := MMC_ERR_NONE } } := by
    rw [← hacc]
  have hss : ∀ d, req.cmd.data = some d → 512 < d.len → ISSET d.flags MMC_DATA_READ = false →
      stop_set sa = true := by
    intro d h1 h2 h3
    have := hstop d h1 h2 h3
    unfold stop_set
    rw [har]
    simp only
    cases hq : req.stop with
    | none => exact absurd hq this
    | some s => rfl
  obtain ⟨r, er, ⟨⟨t1, et1, nt1⟩, rq, -⟩⟩ := rtsx_mmcbr_request_body_runs M sa
    { req.cmd with error := MMC_ERR_NONE } hss
  have hrs : ∃ rq1, r.1.rtsx_req = some rq1 := by
    rw [har] at rq
    cases h : r.1.rtsx_req with
    | none => rw [h] at rq; exact absurd rq (by simp)
    | some x => exact ⟨x, rfl⟩
  obtain ⟨rq1, hrq1⟩ := hrs
  have hal : (rtsx_req_cmd_alias r.1 r.2.1).rtsx_req = some { rq1 with cmd := r.2.1 } := by
    simp [rtsx_req_cmd_alias, hrq1]
  obtain ⟨sd, t2, ed, rd, etd, nt2, -⟩ := rtsx_req_done_spec M _ _ hal
  refine ⟨RTSX_UNLOCK sd, { rq1 with cmd := r.2.1 }, r.2.2, t1 ++ t2, r.2.1.error, ?_, ?_, ?_, ?_,
    ?_⟩
  · have hi : (RTSX_LOCK sc).rtsx_req.isSome = false := by simp [RTSX_LOCK, hidle]
    simp only [rtsx_mmcbr_request, hi, Bool.false_eq_true, if_false, hacc, er, Option.some_bind,
      ed]
  · exact rd
  · have : (rtsx_req_cmd_alias r.1 r.2.1).trace = r.1.trace := rfl
    show sd.trace = _
    rw [etd, this, et1, hat]
    simp
  · intro ev hev
    rcases List.mem_append.mp hev with h | h
    · exact nt1 ev h
    · exact nt2 ev h
  · show sd.rtsx_req.isSome = false
    rw [rd]
    rfl

/-- Witness of C2: CMD13 submitted to the idle controller on a chip that never answers;
the request times out and is completed after the soft reset. -/
theorem rtsx_mmcbr_request_completes_witness :
    ∃ sc1 req1 err t e,
      rtsx_mmcbr_request silent_machine (idle_softc ())
        { cmd := plain_cmd 13 0 MMC_RSP_R1, stop := none } = some (sc1, req1, err) ∧
      sc1.rtsx_req = none ∧
      sc1.trace = (idle_softc ()).trace ++ t ++ [event.done false e] ∧
      (∀ ev ∈ t, is_done ev = false) ∧
      (RTSX_LOCK sc1).rtsx_req.isSome = false :=
  rtsx_mmcbr_request_completes silent_machine (idle_softc ())
    { cmd := plain_cmd 13 0 MMC_RSP_R1, stop := none } rfl
    (fun d h => by simp [plain_cmd] at h)

-- ---------------------------------------------------------------------------
-- C5: what a request rejected as InvalidArgument does to the hardware
-- ---------------------------------------------------------------------------

/-- C5 refuted: CMD2 with response flags 0x03 (no known shape) and no data, submitted with
a card present, ends as `MMC_ERR_INVALID`, and the call writes the host registers
`RTSX_HCBCTLR`, `RTSX_HDBCTLR` and (three times) `RTSX_HAIMR` before the callback. -/
theorem rtsx_mmcbr_request_invalid_writes_registers :
    (rtsx_mmcbr_request silent_machine (idle_softc ())
        { cmd := plain_cmd 2 0 0x03, stop := none }).map (fun r => (r.2.2, r.1.trace)) =
      some (MMC_ERR_INVALID,
        [event.write4 RTSX_HCBCTLR 0x10000000, event.write4 RTSX_HDBCTLR 0x10000000,
         event.write4 RTSX_HAIMR 0xFE2C8080, event.read4 RTSX_HAIMR 0,
         event.write4 RTSX_HAIMR 0xFE348080, event.read4 RTSX_HAIMR 0,
         event.write4 RTSX_HAIMR 0xFD544444, event.read4 RTSX_HAIMR 0,
         event.done false MMC_ERR_INVALID]) := by
  decide

-- ---------------------------------------------------------------------------
-- C3: round trip through the ping-pong buffer
-- ---------------------------------------------------------------------------

/-- The four fields of a descriptor word are recovered by shifting and masking. -/
theorem rtsx_cmd_word_fields (cmd reg mask data : Nat) :
    rtsx_cmd_word cmd reg mask data >>> 30 = cmd % 4 ∧
    (rtsx_cmd_word cmd reg mask data >>> 16) &&& 0x3fff = reg % 16384 ∧
    (rtsx_cmd_word cmd reg mask data >>> 8) &&& 0xff = mask % 256 ∧
    rtsx_cmd_word cmd reg mask data &&& 0xff = data % 256 := by
  rw [land_3fff, land_ff, land_ff, rtsx_cmd_word_eq]
  simp only [Nat.shiftRight_eq_div_pow]
  refine ⟨?_, ?_, ?_, ?_⟩ <;> omega

/-- A write micro-op with full mask stores its data byte at the addressed register. -/
theorem chip_exec_op_write (reg data : Nat) (s : chip_run) :
    chip_exec_op (rtsx_cmd_word RTSX_WRITE_REG_CMD reg 0xff data) s =
      { s with regs := fun a => if a = reg % 16384 then data % 256 else s.regs a } := by
  obtain ⟨h1, h2, h3, h4⟩ := rtsx_cmd_word_fields RTSX_WRITE_REG_CMD reg 0xff data
  unfold chip_exec_op
  simp only [h1, h2, h3, h4]
  have hm : (data % 256) &&& (0xff % 256) = data % 256 := by
    show (data % 256) &&& 0xff = data % 256
    rw [land_ff]
    omega
  have hx : ∀ x : Nat, (x &&& (0xff ^^^ (0xff % 256))) ||| (data % 256) = data % 256 := by
    intro x
    show (x &&& 0) ||| (data % 256) = data % 256
    simp
  rw [if_pos (by decide)]
  congr 1
  funext a
  rw [hm, hx]

/-- A read micro-op returns the byte of the addressed register at the next result
offset. -/
theorem chip_exec_op_read (reg : Nat) (s : chip_run) :
    chip_exec_op (rtsx_cmd_word RTSX_READ_REG_CMD reg 0 0) s =
      { s with out := store8 s.out s.pos (s.regs (reg % 16384)), pos := s.pos + 1 } := by
  obtain ⟨h1, h2, -, -⟩ := rtsx_cmd_word_fields RTSX_READ_REG_CMD reg 0 0
  unfold chip_exec_op
  simp only [h1, h2]
  rw [if_neg (by decide), if_pos (by decide)]

/-- A batch of `n` write micro-ops with full mask for the registers `b`, `b + 1`, ...
stores the bytes of `buf` from `p` on there, and nothing else. -/
theorem chip_exec_writes (mem buf : Nat → Nat) (n : Nat) :
    ∀ (k b p : Nat) (s : chip_run), b + n ≤ 16384 →
      (∀ i, i < n → load32 mem (k + i) =
        rtsx_cmd_word RTSX_WRITE_REG_CMD (b + i) 0xff (buf (p + i))) →
      chip_exec mem n k s =
        { s with regs := fun a =>
            if b ≤ a ∧ a < b + n then buf (p + (a - b)) % 256 else s.regs a } := by
  induction n with
  | zero =>
    intro k b p s _ _
    show s = _
    have : (fun a => if b ≤ a ∧ a < b + 0 then buf (p + (a - b)) % 256 else s.regs a) = s.regs := by
      funext a
      rw [if_neg (by omega)]
    rw [this]
  | succ n ih =>
    intro k b p s hb hw
    have h0 := hw 0 (by omega)
    rw [Nat.add_zero, Nat.add_zero, Nat.add_zero] at h0
    show chip_exec mem n (k + 1) (chip_exec_op (load32 mem k) s) = _
    rw [h0, chip_exec_op_write, ih (k + 1) (b + 1) (p + 1) _ (by omega)
      (fun i hi => by
        have := hw (i + 1) (by omega)
        rw [show k + 1 + i = k + (i + 1) by omega, show b + 1 + i = b + (i + 1) by omega,
          show p + 1 + i = p + (i + 1) by omega]
        exact this)]
    congr 1
    funext a
    simp only
    by_cases h1 : b + 1 ≤ a ∧ a < b + 1 + n
    · rw [if_pos h1, if_pos (by omega)]
      congr 2
      omega
    · rw [if_neg h1]
      by_cases h2 : a = b % 16384
      · rw [if_pos h2, if_pos (by omega)]
        have : a = b := by omega
        rw [this, Nat.sub_self, Nat.add_zero]
      · rw [if_neg h2, if_neg (by omega)]

/-- A batch of `n` read micro-ops for the registers `b`, `b + 1`, ... returns their bytes
into the command buffer from the next result offset on, and changes no register. -/
theorem chip_exec_reads (mem : Nat → Nat) (n : Nat) :
    ∀ (k b : Nat) (s : chip_run), b + n ≤ 16384 →
      (∀ i, i < n → load32 mem (k + i) = rtsx_cmd_word RTSX_READ_REG_CMD (b + i) 0 0) →
      chip_exec mem n k s =
        { s with
          out := fun a =>
            if s.pos ≤ a ∧ a < s.pos + n then s.regs (b + (a - s.pos)) % 256 else s.out a
          pos := s.pos + n } := by
  induction n with
  | zero =>
    intro k b s _ _
    show s = _
    have : (fun a => if s.pos ≤ a ∧ a < s.pos + 0 then s.regs (b + (a - s.pos)) % 256
        else s.out a) = s.out := by
      funext a
      rw [if_neg (by omega)]
    rw [this]
    rfl
  | succ n ih =>
    intro k b s hb hw
    have h0 := hw 0 (by omega)
    rw [Nat.add_zero, Nat.add_zero] at h0
    show chip_exec mem n (k + 1) (chip_exec_op (load32 mem k) s) = _
    rw [h0, chip_exec_op_read, ih (k + 1) (b + 1) _ (by omega)
      (fun i hi => by
        have := hw (i + 1) (by omega)
        rw [show k + 1 + i = k + (i + 1) by omega, show b + 1 + i = b + (i + 1) by omega]
        exact this)]
    have hbm : b % 16384 = b := Nat.mod_eq_of_lt (by omega)
    simp only [hbm]
    congr 1
    · funext a
      by_cases h1 : s.pos + 1 ≤ a ∧ a < s.pos + 1 + n
      · rw [if_pos h1, if_pos (by omega)]
        congr 2
        omega
      · rw [if_neg h1]
        unfold store8
        by_cases h2 : a = s.pos
        · rw [if_pos h2, if_pos (by omega), h2, Nat.sub_self, Nat.add_zero]
        · rw [if_neg h2, if_neg (by omega)]
    · omega

/-- The trigger word written to `RTSX_HCBCTLR` for a batch of at most 256 descriptors
carries the start bit and the batch length in bytes. -/
theorem trigger_word (n : Nat) (hn : n ≤ 256) :
    (((n * 4) &&& 0x00ffffff) ||| RTSX_START_CMD ||| RTSX_HW_AUTO_RSP) % 2 ^ 32 =
      3221225472 + 4 * n ∧
    (3221225472 + 4 * n) &&& RTSX_START_CMD ≠ 0 ∧
    ((3221225472 + 4 * n) &&& 0x00ffffff) / 4 = n := by
  have h1 : (n * 4) &&& 0x00ffffff = n * 4 := by
    rw [show (0x00ffffff : Nat) = 2 ^ 24 - 1 from rfl, Nat.and_pow_two_sub_one_eq_mod]
    omega
  have h2 : (n * 4) ||| RTSX_START_CMD ||| RTSX_HW_AUTO_RSP = 3221225472 + 4 * n := by
    rw [Nat.lor_assoc, show RTSX_START_CMD ||| RTSX_HW_AUTO_RSP = 3221225472 from rfl,
      Nat.lor_comm, lor_eq_add 30 3221225472 (n * 4) (by decide) (by omega)]
    omega
  refine ⟨by rw [h1, h2]; omega, ?_, ?_⟩
  · intro h
    have ht : ((3221225472 + 4 * n) &&& RTSX_START_CMD).testBit 31 = false := by
      rw [h]
      exact Nat.zero_testBit 31
    rw [Nat.testBit_and, show RTSX_START_CMD = 2 ^ 31 from rfl, Nat.testBit_two_pow_self,
      Bool.and_true, Nat.testBit_to_div_mod] at ht
    simp only [decide_eq_false_iff_not] at ht
    omega
  · rw [show (0x00ffffff : Nat) = 2 ^ 24 - 1 from rfl, Nat.and_pow_two_sub_one_eq_mod]
    omega

/-- On the chip model a batch of at most 256 descriptors sent with a card present
succeeds: the chip runs the batch, its registers and the command buffer are as the run
leaves them, and the flags are unchanged. -/
theorem ppbuf_machine_send (sc : rtsx_softc ppbuf_chip) (cmd : mmc_command)
    (hcard : ISSET sc.rtsx_flags RTSX_F_CARD_PRESENT = true) (hidx : sc.rtsx_cmd_index ≤ 256) :
    (rtsx_send_cmd ppbuf_machine sc cmd).2.2 = 0 ∧
    (rtsx_send_cmd ppbuf_machine sc cmd).2.1 = cmd ∧
    (rtsx_send_cmd ppbuf_machine sc cmd).1.rtsx_flags = sc.rtsx_flags ∧
    (rtsx_send_cmd ppbuf_machine sc cmd).1.rtsx_res.regs =
      (chip_exec sc.rtsx_cmd_dmamem sc.rtsx_cmd_index 0
        { regs := sc.rtsx_res.regs, out := sc.rtsx_cmd_dmamem, pos := 0 }).regs ∧
    (rtsx_send_cmd ppbuf_machine sc cmd).1.rtsx_cmd_dmamem =
      (chip_exec sc.rtsx_cmd_dmamem sc.rtsx_cmd_index 0
        { regs := sc.rtsx_res.regs, out := sc.rtsx_cmd_dmamem, pos := 0 }).out := by
  obtain ⟨t1, t2, t3⟩ := trigger_word sc.rtsx_cmd_index hidx
  have hres : (rtsx_send_cmd_nowait ppbuf_machine sc).rtsx_res =
      { regs := sc.rtsx_res.regs, batch := sc.rtsx_cmd_index } := by
    have hw1 : ∀ (w : ppbuf_chip) (v : Nat), ppbuf_machine.write4 w RTSX_HCBAR v = w := by
      intro w v
      simp [ppbuf_machine, RTSX_HCBAR, RTSX_HCBCTLR]
    have hw2 : ∀ w : ppbuf_chip,
        ppbuf_machine.write4 w RTSX_HCBCTLR (3221225472 + 4 * sc.rtsx_cmd_index) =
          { w with batch := sc.rtsx_cmd_index } := by
      intro w
      simp only [ppbuf_machine]
      rw [if_pos ⟨trivial, t2⟩, t3]
    show ppbuf_machine.write4 (ppbuf_machine.write4 sc.rtsx_res RTSX_HCBAR
        (sc.rtsx_cmd_buffer % 2 ^ 32)) RTSX_HCBCTLR
        ((((sc.rtsx_cmd_index * 4) &&& 0x00ffffff) ||| RTSX_START_CMD ||| RTSX_HW_AUTO_RSP)
          % 2 ^ 32) = _
    rw [t1, hw1, hw2]
  have hfl : (rtsx_send_cmd_nowait ppbuf_machine sc).rtsx_flags = sc.rtsx_flags := rfl
  rw [rtsx_send_cmd_ok ppbuf_machine sc cmd
    { ewouldblock := false
      hw := { regs := (chip_exec sc.rtsx_cmd_dmamem sc.rtsx_cmd_index 0
                { regs := sc.rtsx_res.regs, out := sc.rtsx_cmd_dmamem, pos := 0 }).regs,
              batch := 0 }
      intr_status := RTSX_TRANS_OK_INT
      card_task := none
      cmd_dmamem := (chip_exec sc.rtsx_cmd_dmamem sc.rtsx_cmd_index 0
                { regs := sc.rtsx_res.regs, out := sc.rtsx_cmd_dmamem, pos := 0 }).out
      data_dmamem := sc.rtsx_data_dmamem } [] hcard (by rw [hres]; rfl) rfl rfl rfl]
  exact ⟨rfl, rfl, rfl, rfl, rfl⟩

theorem reset_index_flags {W : Type} (sc : rtsx_softc W) :
    same_but_queue sc { sc with rtsx_cmd_index := 0 } := rfl

/-- One batch of `rtsx_write_ppbuf` on the chip model: `n` bytes of `buf` from `ptr` on
are stored in the registers `b`, `b + 1`, ... -/
theorem ppbuf_write_batch (sc : rtsx_softc ppbuf_chip) (cmd : mmc_command) (buf : Nat → Nat)
    (n reg ptr b : Nat) (hcard : ISSET sc.rtsx_flags RTSX_F_CARD_PRESENT = true)
    (hn : n ≤ 256) (hb : reg % 16384 = b) (hbn : b + n ≤ 16384) :
    ∃ s1, rtsx_push_writes buf n reg ptr { sc with rtsx_cmd_index := 0 } = some s1 ∧
      (rtsx_send_cmd ppbuf_machine s1 cmd).2.2 = 0 ∧
      (rtsx_send_cmd ppbuf_machine s1 cmd).2.1 = cmd ∧
      (rtsx_send_cmd ppbuf_machine s1 cmd).1.rtsx_flags = sc.rtsx_flags ∧
      (rtsx_send_cmd ppbuf_machine s1 cmd).1.rtsx_res.regs =
        fun a => if b ≤ a ∧ a < b + n then buf (ptr + (a - b)) % 256 else sc.rtsx_res.regs a := by
  obtain ⟨s1, e1, p1, w1⟩ := rtsx_push_writes_spec buf n reg ptr
    { sc with rtsx_cmd_index := 0 } (by simp only; omega)
  have i1 : s1.rtsx_cmd_index = n := by rw [pushed_index p1]; simp
  have q1 := pushed_same p1
  have f1 : s1.rtsx_flags = sc.rtsx_flags := same_but_queue_flags q1
  have r1 : s1.rtsx_res = sc.rtsx_res := same_but_queue_res q1
  obtain ⟨h1, h2, h3, h4, -⟩ := ppbuf_machine_send s1 cmd (by rw [f1]; exact hcard) (by omega)
  refine ⟨s1, e1, h1, h2, h3.trans f1, ?_⟩
  rw [h4, i1, r1, chip_exec_writes s1.rtsx_cmd_dmamem buf n 0 b ptr _ hbn
    (fun i hi => by
      have := w1 i hi
      simp only at this
      rw [this]
      exact rtsx_cmd_word_congr _ _ _ _ _ (by omega))]

/-- One batch of `rtsx_read_ppbuf` on the chip model: the bytes of the registers `b`,
`b + 1`, ... are returned at the start of the command buffer; no register changes. -/
theorem ppbuf_read_batch (sc : rtsx_softc ppbuf_chip) (cmd : mmc_command)
    (n reg b : Nat) (hcard : ISSET sc.rtsx_flags RTSX_F_CARD_PRESENT = true)
    (hn : n ≤ 256) (hb : reg % 16384 = b) (hbn : b + n ≤ 16384) :
    ∃ s1, rtsx_push_reads n reg { sc with rtsx_cmd_index := 0 } = some s1 ∧
      (rtsx_send_cmd ppbuf_machine s1 cmd).2.2 = 0 ∧
      (rtsx_send_cmd ppbuf_machine s1 cmd).2.1 = cmd ∧
      (rtsx_send_cmd ppbuf_machine s1 cmd).1.rtsx_flags = sc.rtsx_flags ∧
      (rtsx_send_cmd ppbuf_machine s1 cmd).1.rtsx_res.regs = sc.rtsx_res.regs ∧
      ∀ a, a < n → (rtsx_send_cmd ppbuf_machine s1 cmd).1.rtsx_cmd_dmamem a =
        sc.rtsx_res.regs (b + a) % 256 := by
  obtain ⟨s1, e1, p1, w1⟩ := rtsx_push_reads_spec n reg
    { sc with rtsx_cmd_index := 0 } (by simp only; omega)
  have i1 : s1.rtsx_cmd_index = n := by rw [pushed_index p1]; simp
  have q1 := pushed_same p1
  have f1 : s1.rtsx_flags = sc.rtsx_flags := same_but_queue_flags q1
  have r1 : s1.rtsx_res = sc.rtsx_res := same_but_queue_res q1
  obtain ⟨h1, h2, h3, h4, h5⟩ := ppbuf_machine_send s1 cmd (by rw [f1]; exact hcard) (by omega)
  have hx := chip_exec_reads s1.rtsx_cmd_dmamem n 0 b
    { regs := sc.rtsx_res.regs, out := s1.rtsx_cmd_dmamem, pos := 0 } hbn
    (fun i hi => by
      have := w1 i hi
      simp only at this
      rw [this]
      exact rtsx_cmd_word_congr _ _ _ _ _ (by omega))
  rw [i1, r1] at h4 h5
  rw [hx] at h4 h5
  refine ⟨s1, e1, h1, h2, h3.trans f1, h4, ?_⟩
  intro a ha
  rw [h5]
  simp only
  rw [if_pos (by omega), Nat.sub_zero]

/-- One successful full batch of `rtsx_write_ppbuf` unfolds one round of its loop. -/
theorem rtsx_write_ppbuf_loop_step {W : Type} (M : machine W) (k : Nat) (v : ppbuf_vars W)
    (s1 : rtsx_softc W) (r : rtsx_softc W × mmc_command × Nat)
    (e1 : rtsx_push_writes v.buf RTSX_HOSTCMD_MAX v.reg v.ptr
      { v.sc with rtsx_cmd_index := 0 } = some s1)
    (hq : rtsx_send_cmd M s1 v.cmd = r) (h1 : r.2.2 = 0) :
    rtsx_write_ppbuf_loop M (k + 1) v =
      rtsx_write_ppbuf_loop M k
        { sc := r.1, cmd := r.2.1, error := 0, buf := v.buf
          reg := (v.reg + RTSX_HOSTCMD_MAX) % 65536
          ptr := v.ptr + RTSX_HOSTCMD_MAX
          remain := v.remain - RTSX_HOSTCMD_MAX } := by
  subst hq
  rw [rtsx_write_ppbuf_loop, e1]
  simp only [Option.some_bind, h1, ne_eq, not_true_eq_false, if_false]

/-- One successful full batch of `rtsx_read_ppbuf` unfolds one round of its loop. -/
theorem rtsx_read_ppbuf_loop_step {W : Type} (M : machine W) (k : Nat) (v : ppbuf_vars W)
    (s1 : rtsx_softc W) (r : rtsx_softc W × mmc_command × Nat)
    (e1 : rtsx_push_reads RTSX_HOSTCMD_MAX v.reg { v.sc with rtsx_cmd_index := 0 } = some s1)
    (hq : rtsx_send_cmd M s1 v.cmd = r) (h1 : r.2.2 = 0) :
    rtsx_read_ppbuf_loop M (k + 1) v =
      rtsx_read_ppbuf_loop M k
        { sc := r.1, cmd := r.2.1, error := 0
          buf := memcpy v.buf v.ptr r.1.rtsx_cmd_dmamem RTSX_HOSTCMD_MAX
          reg := (v.reg + RTSX_HOSTCMD_MAX) % 65536
          ptr := v.ptr + RTSX_HOSTCMD_MAX
          remain := v.remain - RTSX_HOSTCMD_MAX } := by
  subst hq
  rw [rtsx_read_ppbuf_loop, e1]
  simp only [Option.some_bind, h1, ne_eq, not_true_eq_false, if_false]

/-- The function `rtsx_write_ppbuf` when the full batches and the batch of the remaining
bytes succeed. -/
theorem rtsx_write_ppbuf_tail {W : Type} (M : machine W) (sc : rtsx_softc W)
    (cmd : mmc_command) (d : mmc_data) (v : ppbuf_vars W) (s1 : rtsx_softc W)
    (r : rtsx_softc W × mmc_command × Nat) (hd : cmd.data = some d)
    (hl : rtsx_write_ppbuf_loop M (d.len / RTSX_HOSTCMD_MAX)
      { sc := sc, cmd := cmd, buf := d.data, reg := RTSX_PPBUF_BASE2, ptr := 0,
        remain := int_of_size_t d.len, error := 0 } = some v)
    (hv : v.error = 0) (hrem : v.remain > 0)
    (e1 : rtsx_push_writes v.buf v.remain.toNat v.reg v.ptr
      { v.sc with rtsx_cmd_index := 0 } = some s1)
    (hq : rtsx_send_cmd M s1 v.cmd = r) (h1 : r.2.2 = 0) :
    rtsx_write_ppbuf M sc cmd = some (r.1, r.2.1, 0) := by
  subst hq
  unfold rtsx_write_ppbuf
  simp only [hd, hl, Option.some_bind, hv, ne_eq, not_true_eq_false, if_false, hrem, if_true, e1,
    h1]

/-- The function `rtsx_write_ppbuf` when the full batches succeed and no byte remains. -/
theorem rtsx_write_ppbuf_notail {W : Type} (M : machine W) (sc : rtsx_softc W)
    (cmd : mmc_command) (d : mmc_data) (v : ppbuf_vars W) (hd : cmd.data = some d)
    (hl : rtsx_write_ppbuf_loop M (d.len / RTSX_HOSTCMD_MAX)
      { sc := sc, cmd := cmd, buf := d.data, reg := RTSX_PPBUF_BASE2, ptr := 0,
        remain := int_of_size_t d.len, error := 0 } = some v)
    (hv : v.error = 0) (hrem : ¬ v.remain > 0) :
    rtsx_write_ppbuf M sc cmd = some (v.sc, v.cmd, 0) := by
  unfold rtsx_write_ppbuf
  simp only [hd, hl, Option.some_bind, hv, ne_eq, not_true_eq_false, if_false, hrem]

/-- The function `rtsx_read_ppbuf` when the full batches and the batch of the remaining
bytes succeed. -/
theorem rtsx_read_ppbuf_tail {W : Type} (M : machine W) (sc : rtsx_softc W)
    (cmd : mmc_command) (d : mmc_data) (v : ppbuf_vars W) (s1 : rtsx_softc W)
    (r : rtsx_softc W × mmc_command × Nat) (hd : cmd.data = some d)
    (hl : rtsx_read_ppbuf_loop M (d.len / RTSX_HOSTCMD_MAX)
      { sc := sc, cmd := cmd, buf := d.data, reg := RTSX_PPBUF_BASE2, ptr := 0,
        remain := int_of_size_t d.len, error := 0 } = some v)
    (hv : v.error = 0) (hrem : v.remain > 0)
    (e1 : rtsx_push_reads v.remain.toNat v.reg { v.sc with rtsx_cmd_index := 0 } = some s1)
    (hq : rtsx_send_cmd M s1 v.cmd = r) (h1 : r.2.2 = 0) :
    rtsx_read_ppbuf M sc cmd =
      some (r.1, { r.2.1 with data := some { d with
        data := memcpy v.buf v.ptr r.1.rtsx_cmd_dmamem v.remain.toNat } }, 0) := by
  subst hq
  unfold rtsx_read_ppbuf
  simp only [hd, hl, Option.some_bind, hv, ne_eq, not_true_eq_false, if_false, hrem, if_true, e1,
    h1]

/-- The function `rtsx_read_ppbuf` when the full batches succeed and no byte remains. -/
theorem rtsx_read_ppbuf_notail {W : Type} (M : machine W) (sc : rtsx_softc W)
    (cmd : mmc_command) (d : mmc_data) (v : ppbuf_vars W) (hd : cmd.data = some d)
    (hl : rtsx_read_ppbuf_loop M (d.len / RTSX_HOSTCMD_MAX)
      { sc := sc, cmd := cmd, buf := d.data, reg := RTSX_PPBUF_BASE2, ptr := 0,
        remain := int_of_size_t d.len, error := 0 } = some v)
    (hv : v.error = 0) (hrem : ¬ v.remain > 0) :
    rtsx_read_ppbuf M sc cmd =
      some (v.sc, { v.cmd with data := some { d with data := v.buf } }, 0) := by
  unfold rtsx_read_ppbuf
  simp only [hd, hl, Option.some_bind, hv, ne_eq, not_true_eq_false, if_false, hrem]

/-- One batch of `rtsx_write_ppbuf` on the chip model, with the result of the send named. -/
theorem ppbuf_write_send (sc : rtsx_softc ppbuf_chip) (cmd : mmc_command) (buf : Nat → Nat)
    (n reg ptr b : Nat) (hcard : ISSET sc.rtsx_flags RTSX_F_CARD_PRESENT = true)
    (hn : n ≤ 256) (hb : reg % 16384 = b) (hbn : b + n ≤ 16384) :
    ∃ s1 r, rtsx_push_writes buf n reg ptr { sc with rtsx_cmd_index := 0 } = some s1 ∧
      rtsx_send_cmd ppbuf_machine s1 cmd = r ∧ r.2.2 = 0 ∧ r.2.1 = cmd ∧
      r.1.rtsx_flags = sc.rtsx_flags ∧
      r.1.rtsx_res.regs =
        fun a => if b ≤ a ∧ a < b + n then buf (ptr + (a - b)) % 256 else sc.rtsx_res.regs a := by
  obtain ⟨s1, e1, h1, h2, h3, h4⟩ := ppbuf_write_batch sc cmd buf n reg ptr b hcard hn hb hbn
  exact ⟨s1, _, e1, rfl, h1, h2, h3, h4⟩

/-- One batch of `rtsx_read_ppbuf` on the chip model, with the result of the send named. -/
theorem ppbuf_read_send (sc : rtsx_softc ppbuf_chip) (cmd : mmc_command)
    (n reg b : Nat) (hcard : ISSET sc.rtsx_flags RTSX_F_CARD_PRESENT = true)
    (hn : n ≤ 256) (hb : reg % 16384 = b) (hbn : b + n ≤ 16384) :
    ∃ s1 r, rtsx_push_reads n reg { sc with rtsx_cmd_index := 0 } = some s1 ∧
      rtsx_send_cmd ppbuf_machine s1 cmd = r ∧ r.2.2 = 0 ∧ r.2.1 = cmd ∧
      r.1.rtsx_flags = sc.rtsx_flags ∧ r.1.rtsx_res.regs = sc.rtsx_res.regs ∧
      ∀ a, a < n → r.1.rtsx_cmd_dmamem a = sc.rtsx_res.regs (b + a) % 256 := by
  obtain ⟨s1, e1, h1, h2, h3, h4, h5⟩ := ppbuf_read_batch sc cmd n reg b hcard hn hb hbn
  exact ⟨s1, _, e1, rfl, h1, h2, h3, h4, h5⟩

/-- One full batch of `rtsx_write_ppbuf` on the chip model. -/
theorem ppbuf_write_step (k : Nat) (v : ppbuf_vars ppbuf_chip) (j0 : Nat)
    (hr : v.reg = RTSX_PPBUF_BASE2 + 256 * j0) (hp : v.ptr = 256 * j0) (hj : j0 + 1 ≤ 2)
    (hc : ISSET v.sc.rtsx_flags RTSX_F_CARD_PRESENT = true) :
    ∃ v1, rtsx_write_ppbuf_loop ppbuf_machine (k + 1) v =
        rtsx_write_ppbuf_loop ppbuf_machine k v1 ∧
      v1.error = 0 ∧
      v1.reg = RTSX_PPBUF_BASE2 + 256 * (j0 + 1) ∧ v1.ptr = 256 * (j0 + 1) ∧
      v1.buf = v.buf ∧ v1.cmd = v.cmd ∧ v1.remain = v.remain - 256 ∧
      ISSET v1.sc.rtsx_flags RTSX_F_CARD_PRESENT = true ∧
      v1.sc.rtsx_res.regs = fun a =>
        if 14848 + 256 * j0 ≤ a ∧ a < 14848 + 256 * j0 + 256 then v.buf (a - 14848) % 256
        else v.sc.rtsx_res.regs a := by
  obtain ⟨s1, r, e1, hq, h1, h2, h3, h4⟩ := ppbuf_write_send v.sc v.cmd v.buf RTSX_HOSTCMD_MAX
    v.reg v.ptr (14848 + 256 * j0) hc (by decide)
    (by rw [hr]; simp only [RTSX_PPBUF_BASE2]; omega)
    (by simp only [RTSX_HOSTCMD_MAX]; omega)
  refine ⟨_, rtsx_write_ppbuf_loop_step ppbuf_machine k v s1 r e1 hq h1, rfl, ?_, ?_, rfl, h2,
    ?_, ?_, ?_⟩
  · simp only [hr, RTSX_PPBUF_BASE2, RTSX_HOSTCMD_MAX]
    omega
  · simp only [hp, RTSX_HOSTCMD_MAX]
    omega
  · simp only [RTSX_HOSTCMD_MAX]
    rfl
  · simp only
    rw [h3]
    exact hc
  · simp only [h4, hp, RTSX_HOSTCMD_MAX]
    funext a
    by_cases c2 : 14848 + 256 * j0 ≤ a ∧ a < 14848 + 256 * j0 + 256
    · rw [if_pos c2, if_pos c2,
        show 256 * j0 + (a - (14848 + 256 * j0)) = a - 14848 by omega]
    · rw [if_neg c2, if_neg c2]

/-- One full batch of `rtsx_read_ppbuf` on the chip model. -/
theorem ppbuf_read_step (k : Nat) (v : ppbuf_vars ppbuf_chip) (j0 : Nat)
    (hr : v.reg = RTSX_PPBUF_BASE2 + 256 * j0) (hp : v.ptr = 256 * j0) (hj : j0 + 1 ≤ 2)
    (hc : ISSET v.sc.rtsx_flags RTSX_F_CARD_PRESENT = true) :
    ∃ v1, rtsx_read_ppbuf_loop ppbuf_machine (k + 1) v =
        rtsx_read_ppbuf_loop ppbuf_machine k v1 ∧
      v1.error = 0 ∧
      v1.reg = RTSX_PPBUF_BASE2 + 256 * (j0 + 1) ∧ v1.ptr = 256 * (j0 + 1) ∧
      v1.cmd = v.cmd ∧ v1.remain = v.remain - 256 ∧
      ISSET v1.sc.rtsx_flags RTSX_F_CARD_PRESENT = true ∧
      v1.sc.rtsx_res.regs = v.sc.rtsx_res.regs ∧
      v1.buf = fun a =>
        if 256 * j0 ≤ a ∧ a < 256 * j0 + 256 then v.sc.rtsx_res.regs (14848 + a) % 256
        else v.buf a := by
  obtain ⟨s1, r, e1, hq, h1, h2, h3, h4, h5⟩ := ppbuf_read_send v.sc v.cmd RTSX_HOSTCMD_MAX
    v.reg (14848 + 256 * j0) hc (by decide)
    (by rw [hr]; simp only [RTSX_PPBUF_BASE2]; omega)
    (by simp only [RTSX_HOSTCMD_MAX]; omega)
  refine ⟨_, rtsx_read_ppbuf_loop_step ppbuf_machine k v s1 r e1 hq h1, rfl, ?_, ?_, h2,
    ?_, ?_, h4, ?_⟩
  · simp only [hr, RTSX_PPBUF_BASE2, RTSX_HOSTCMD_MAX]
    omega
  · simp only [hp, RTSX_HOSTCMD_MAX]
    omega
  · simp only [RTSX_HOSTCMD_MAX]
    rfl
  · simp only
    rw [h3]
    exact hc
  · simp only [hp, RTSX_HOSTCMD_MAX]
    funext a
    unfold memcpy
    by_cases c2 : 256 * j0 ≤ a ∧ a < 256 * j0 + 256
    · rw [if_pos c2, if_pos c2, h5 _ (by simp only [RTSX_HOSTCMD_MAX]; omega),
        Nat.mod_mod, show 14848 + 256 * j0 + (a - 256 * j0) = 14848 + a by omega]
    · rw [if_neg c2, if_neg c2]

/-- The full batches of `rtsx_write_ppbuf` on the chip model: after `k` batches starting
at batch `j0`, the registers 0x3A00 + 256 j0 .. 0x3A00 + 256 (j0 + k) - 1 hold the bytes of
the buffer, and the loop variables have advanced by `256 k`. -/
theorem ppbuf_write_loop (k : Nat) :
    ∀ (v : ppbuf_vars ppbuf_chip) (j0 : Nat), v.reg = RTSX_PPBUF_BASE2 + 256 * j0 →
      v.ptr = 256 * j0 → j0 + k ≤ 2 →
      ISSET v.sc.rtsx_flags RTSX_F_CARD_PRESENT = true →
      ∃ v1, rtsx_write_ppbuf_loop ppbuf_machine k v = some v1 ∧
        (v.error = 0 → v1.error = 0) ∧
        v1.reg = RTSX_PPBUF_BASE2 + 256 * (j0 + k) ∧ v1.ptr = 256 * (j0 + k) ∧
        v1.buf = v.buf ∧ v1.cmd = v.cmd ∧ v1.remain = v.remain - 256 * (k : Int) ∧
        ISSET v1.sc.rtsx_flags RTSX_F_CARD_PRESENT = true ∧
        v1.sc.rtsx_res.regs = fun a =>
          if 14848 + 256 * j0 ≤ a ∧ a < 14848 + 256 * (j0 + k) then v.buf (a - 14848) % 256
          else v.sc.rtsx_res.regs a := by
  induction k with
  | zero =>
    intro v j0 hr hp _ hc
    refine ⟨v, rfl, fun h => h, hr, hp, rfl, rfl, by simp, hc, ?_⟩
    funext a
    rw [if_neg (by omega)]
  | succ k ih =>
    intro v j0 hr hp hj hc
    obtain ⟨w, es, w0, w1, w2, w3, w4, w5, w6, w7⟩ := ppbuf_write_step k v j0 hr hp (by omega) hc
    obtain ⟨v1, ev, g0, g1, g2, g3, g4, g5, g6, g7⟩ := ih w (j0 + 1) w1 w2 (by omega) w6
    refine ⟨v1, es.trans ev, fun _ => g0 w0, by rw [g1]; omega, by rw [g2]; omega,
      g3.trans w3, g4.trans w4, ?_, g6, ?_⟩
    · rw [g5, w5]
      push_cast
      omega
    · rw [g7, w7, w3]
      funext a
      beta_reduce
      by_cases c1 : 14848 + 256 * (j0 + 1) ≤ a ∧ a < 14848 + 256 * (j0 + 1 + k)
      · rw [if_pos c1, if_pos (by omega)]
      · rw [if_neg c1]
        by_cases c2 : 14848 + 256 * j0 ≤ a ∧ a < 14848 + 256 * j0 + 256
        · rw [if_pos c2, if_pos (by omega)]
        · rw [if_neg c2, if_neg (by omega)]

/-- The full batches of `rtsx_read_ppbuf` on the chip model: after `k` batches starting at
batch `j0`, the bytes 256 j0 .. 256 (j0 + k) - 1 of the destination are those of the
registers 0x3A00 + 256 j0 .. , the rest of the destination and the registers are as
before. -/
theorem ppbuf_read_loop (k : Nat) :
    ∀ (v : ppbuf_vars ppbuf_chip) (j0 : Nat), v.reg = RTSX_PPBUF_BASE2 + 256 * j0 →
      v.ptr = 256 * j0 → j0 + k ≤ 2 →
      ISSET v.sc.rtsx_flags RTSX_F_CARD_PRESENT = true →
      ∃ v1, rtsx_read_ppbuf_loop ppbuf_machine k v = some v1 ∧
        (v.error = 0 → v1.error = 0) ∧
        v1.reg = RTSX_PPBUF_BASE2 + 256 * (j0 + k) ∧ v1.ptr = 256 * (j0 + k) ∧
        v1.cmd = v.cmd ∧ v1.remain = v.remain - 256 * (k : Int) ∧
        ISSET v1.sc.rtsx_flags RTSX_F_CARD_PRESENT = true ∧
        v1.sc.rtsx_res.regs = v.sc.rtsx_res.regs ∧
        v1.buf = fun a =>
          if 256 * j0 ≤ a ∧ a < 256 * (j0 + k) then v.sc.rtsx_res.regs (14848 + a) % 256
          else v.buf a := by
  induction k with
  | zero =>
    intro v j0 hr hp _ hc
    refine ⟨v, rfl, fun h => h, hr, hp, rfl, by simp, hc, rfl, ?_⟩
    funext a
    rw [if_neg (by omega)]
  | succ k ih =>
    intro v j0 hr hp hj hc
    obtain ⟨w, es, w0, w1, w2, w4, w5, w6, w7, w8⟩ := ppbuf_read_step k v j0 hr hp (by omega) hc
    obtain ⟨v1, ev, g0, g1, g2, g4, g5, g6, g7, g8⟩ := ih w (j0 + 1) w1 w2 (by omega) w6
    refine ⟨v1, es.trans ev, fun _ => g0 w0, by rw [g1]; omega, by rw [g2]; omega,
      g4.trans w4, ?_, g6, g7.trans w7, ?_⟩
    · rw [g5, w5]
      push_cast
      omega
    · rw [g8, w8, w7]
      funext a
      beta_reduce
      by_cases c1 : 256 * (j0 + 1) ≤ a ∧ a < 256 * (j0 + 1 + k)
      · rw [if_pos c1, if_pos (by omega)]
      · rw [if_neg c1]
        by_cases c2 : 256 * j0 ≤ a ∧ a < 256 * j0 + 256
        · rw [if_pos c2, if_pos (by omega)]
        · rw [if_neg c2, if_neg (by omega)]

/-- The function `rtsx_write_ppbuf` on the chip model, for 1 to 512 bytes and a card
present: it succeeds, returns the command as it was, keeps the card present, and leaves
the bytes of the payload in the registers 0x3A00 .. 0x3A00 + len - 1. -/
theorem ppbuf_write_all (sc : rtsx_softc ppbuf_chip) (cmd : mmc_command) (d : mmc_data)
    (hd : cmd.data = some d) (h1 : 1 ≤ d.len) (h512 : d.len ≤ 512)
    (hc : ISSET sc.rtsx_flags RTSX_F_CARD_PRESENT = true) :
    ∃ sc1, rtsx_write_ppbuf ppbuf_machine sc cmd = some (sc1, cmd, 0) ∧
      ISSET sc1.rtsx_flags RTSX_F_CARD_PRESENT = true ∧
      sc1.rtsx_res.regs = fun a =>
        if 14848 ≤ a ∧ a < 14848 + d.len then d.data (a - 14848) % 256 else sc.rtsx_res.regs a := by
  have hk : d.len / RTSX_HOSTCMD_MAX ≤ 2 := by
    simp only [RTSX_HOSTCMD_MAX]
    omega
  obtain ⟨v, ev, g0, g1, g2, g3, g4, g5, g6, g7⟩ := ppbuf_write_loop (d.len / RTSX_HOSTCMD_MAX)
    { sc := sc, cmd := cmd, buf := d.data, reg := RTSX_PPBUF_BASE2, ptr := 0,
      remain := int_of_size_t d.len, error := 0 } 0 rfl rfl (by omega) hc
  have he : v.error = 0 := g0 rfl
  have hrem : v.remain = ((d.len % 256 : Nat) : Int) := by
    rw [g5]
    exact remain_after_batches d.len (by omega)
  have hdiv : 256 * (d.len / RTSX_HOSTCMD_MAX) + d.len % 256 = d.len := by
    simp only [RTSX_HOSTCMD_MAX]
    omega
  generalize hqe : d.len / RTSX_HOSTCMD_MAX = q at *
  simp only at g3 g4 g7
  by_cases hp : v.remain > 0
  · obtain ⟨s1, r, e1, hq, r1, r2, r3, r4⟩ := ppbuf_write_send v.sc v.cmd v.buf v.remain.toNat
      v.reg v.ptr (14848 + 256 * q) g6 (by rw [hrem]; simp only [Int.toNat_ofNat]; omega)
      (by rw [g1]; simp only [RTSX_PPBUF_BASE2]; omega)
      (by rw [hrem]; simp only [Int.toNat_ofNat]; omega)
    refine ⟨r.1, ?_, by rw [r3]; exact g6, ?_⟩
    · rw [rtsx_write_ppbuf_tail ppbuf_machine sc cmd d v s1 r hd (by rw [hqe]; exact ev) he hp e1 hq r1, r2, g4]
    · rw [r4, g7, g3, g2, hrem]
      simp only [Int.toNat_ofNat]
      funext a
      beta_reduce
      by_cases c1 : 14848 + 256 * q ≤ a ∧ a < 14848 + 256 * q + d.len % 256
      · rw [if_pos c1, if_pos (by omega),
          show 256 * (0 + q) + (a - (14848 + 256 * q)) = a - 14848 by omega]
      · rw [if_neg c1]
        by_cases c2 : 14848 + 256 * 0 ≤ a ∧ a < 14848 + 256 * (0 + q)
        · rw [if_pos c2, if_pos (by omega)]
        · rw [if_neg c2, if_neg (by omega)]
  · have h0 : d.len % 256 = 0 := by
      rw [hrem] at hp
      omega
    refine ⟨v.sc, ?_, g6, ?_⟩
    · rw [rtsx_write_ppbuf_notail ppbuf_machine sc cmd d v hd (by rw [hqe]; exact ev) he hp, g4]
    · rw [g7]
      funext a
      by_cases c2 : 14848 + 256 * 0 ≤ a ∧ a < 14848 + 256 * (0 + q)
      · rw [if_pos c2, if_pos (by omega)]
      · rw [if_neg c2, if_neg (by omega)]

/-- The function `rtsx_read_ppbuf` on the chip model, for 1 to 512 bytes and a card
present: it succeeds and the first `len` bytes of the destination are the bytes of the
registers 0x3A00 .. 0x3A00 + len - 1, the rest of the destination is as before. -/
theorem ppbuf_read_all (sc : rtsx_softc ppbuf_chip) (cmd : mmc_command) (d : mmc_data)
    (hd : cmd.data = some d) (h1 : 1 ≤ d.len) (h512 : d.len ≤ 512)
    (hc : ISSET sc.rtsx_flags RTSX_F_CARD_PRESENT = true) :
    ∃ sc1 buf, rtsx_read_ppbuf ppbuf_machine sc cmd =
        some (sc1, { cmd with data := some { d with data := buf } }, 0) ∧
      buf = fun a => if a < d.len then sc.rtsx_res.regs (14848 + a) % 256 else d.data a := by
  have hk : d.len / RTSX_HOSTCMD_MAX ≤ 2 := by
    simp only [RTSX_HOSTCMD_MAX]
    omega
  obtain ⟨v, ev, g0, g1, g2, g4, g5, g6, g7, g8⟩ := ppbuf_read_loop (d.len / RTSX_HOSTCMD_MAX)
    { sc := sc, cmd := cmd, buf := d.data, reg := RTSX_PPBUF_BASE2, ptr := 0,
      remain := int_of_size_t d.len, error := 0 } 0 rfl rfl (by omega) hc
  have he : v.error = 0 := g0 rfl
  have hrem : v.remain = ((d.len % 256 : Nat) : Int) := by
    rw [g5]
    exact remain_after_batches d.len (by omega)
  have hdiv : 256 * (d.len / RTSX_HOSTCMD_MAX) + d.len % 256 = d.len := by
    simp only [RTSX_HOSTCMD_MAX]
    omega
  generalize hqe : d.len / RTSX_HOSTCMD_MAX = q at *
  simp only at g4 g7 g8
  by_cases hp : v.remain > 0
  · obtain ⟨s1, r, e1, hq, r1, r2, r3, r4, r5⟩ := ppbuf_read_send v.sc v.cmd v.remain.toNat
      v.reg (14848 + 256 * q) g6 (by rw [hrem]; simp only [Int.toNat_ofNat]; omega)
      (by rw [g1]; simp only [RTSX_PPBUF_BASE2]; omega)
      (by rw [hrem]; simp only [Int.toNat_ofNat]; omega)
    refine ⟨r.1, memcpy v.buf v.ptr r.1.rtsx_cmd_dmamem v.remain.toNat, ?_, ?_⟩
    · rw [rtsx_read_ppbuf_tail ppbuf_machine sc cmd d v s1 r hd (by rw [hqe]; exact ev) he hp e1 hq r1, r2, g4]
    · rw [g8, g2, hrem]
      simp only [Int.toNat_ofNat]
      unfold memcpy
      funext a
      beta_reduce
      by_cases c1 : 256 * (0 + q) ≤ a ∧ a < 256 * (0 + q) + d.len % 256
      · rw [if_pos c1, if_pos (by omega), r5 _ (by rw [hrem]; simp only [Int.toNat_ofNat]; omega),
          Nat.mod_mod, g7,
          show 14848 + 256 * q + (a - 256 * (0 + q)) = 14848 + a by omega]
      · rw [if_neg c1]
        by_cases c2 : 256 * 0 ≤ a ∧ a < 256 * (0 + q)
        · rw [if_pos c2, if_pos (by omega)]
        · rw [if_neg c2, if_neg (by omega)]
  · have h0 : d.len % 256 = 0 := by
      rw [hrem] at hp
      omega
    refine ⟨v.sc, v.buf, ?_, ?_⟩
    · rw [rtsx_read_ppbuf_notail ppbuf_machine sc cmd d v hd (by rw [hqe]; exact ev) he hp, g4]
    · rw [g8]
      funext a
      by_cases c2 : 256 * 0 ≤ a ∧ a < 256 * (0 + q)
      · rw [if_pos c2, if_pos (by omega)]
      · rw [if_neg c2, if_neg (by omega)]

-- ---------------------------------------------------------------------------
-- C3: the ping-pong buffer round trip
-- ---------------------------------------------------------------------------

/-- C3: on the chip model (a write-register op stores its data byte at the addressed
register, a read-register op returns the byte of the addressed register into the command
buffer at its position in the batch), with a card present so that every send succeeds,
for every length `N` with `1 ≤ N ≤ 512` and every payload of `N` bytes `rtsx_write_ppbuf`
succeeds and leaves the write command as it was, the following `rtsx_read_ppbuf` of the
same length succeeds, and the first `N` bytes of its destination buffer are the payload;
the destination beyond `N` is as it was. -/
theorem rtsx_ppbuf_round_trip (sc : rtsx_softc ppbuf_chip) (cw cr : mmc_command)
    (dw dr : mmc_data) (N : Nat) (hN1 : 1 ≤ N) (hN : N ≤ 512)
    (hw : cw.data = some dw) (hr : cr.data = some dr) (hlw : dw.len = N) (hlr : dr.len = N)
    (hbytes : ∀ i, i < N → dw.data i < 256)
    (hc : ISSET sc.rtsx_flags RTSX_F_CARD_PRESENT = true) :
    ∃ sc1 sc2 buf,
      rtsx_write_ppbuf ppbuf_machine sc cw = some (sc1, cw, 0) ∧
      rtsx_read_ppbuf ppbuf_machine sc1 cr =
        some (sc2, { cr with data := some { dr with data := buf } }, 0) ∧
      (∀ i, i < N → buf i = dw.data i) ∧ (∀ i, N ≤ i → buf i = dr.data i) := by
  subst hlw
  obtain ⟨sc1, e1, f1, r1⟩ := ppbuf_write_all sc cw dw hw hN1 hN hc
  obtain ⟨sc2, buf, e2, b2⟩ := ppbuf_read_all sc1 cr dr hr (by omega) (by omega) f1
  refine ⟨sc1, sc2, buf, e1, e2, ?_, ?_⟩
  · intro i hi
    rw [b2, r1]
    beta_reduce
    rw [if_pos (by omega), if_pos (by omega), Nat.add_sub_cancel_left,
      Nat.mod_mod, Nat.mod_eq_of_lt (hbytes i hi)]
  · intro i hi
    rw [b2]
    beta_reduce
    rw [if_neg (by omega)]

/-- Witness of C3: the round trip at the lengths 1, 256, 257 and 512 (a lone remainder
batch, one full batch, one full batch and a remainder, two full batches), from the idle
controller over a chip with zeroed registers into a destination of 0xEE bytes. -/
theorem rtsx_ppbuf_round_trip_witness :
    ((1 ≤ 1 ∧ 1 ≤ 512) ∧
      ∃ sc1 sc2 buf,
        rtsx_write_ppbuf ppbuf_machine (idle_softc ppbuf_chip0) (write_cmd 1 ppbuf_payload) =
          some (sc1, write_cmd 1 ppbuf_payload, 0) ∧
        rtsx_read_ppbuf ppbuf_machine sc1 (read_cmd 1 ppbuf_blank) =
          some (sc2, read_cmd 1 buf, 0) ∧
        (∀ i, i < 1 → buf i = ppbuf_payload i) ∧ (∀ i, 1 ≤ i → buf i = ppbuf_blank i)) ∧
    ((1 ≤ 256 ∧ 256 ≤ 512) ∧
      ∃ sc1 sc2 buf,
        rtsx_write_ppbuf ppbuf_machine (idle_softc ppbuf_chip0) (write_cmd 256 ppbuf_payload) =
          some (sc1, write_cmd 256 ppbuf_payload, 0) ∧
        rtsx_read_ppbuf ppbuf_machine sc1 (read_cmd 256 ppbuf_blank) =
          some (sc2, read_cmd 256 buf, 0) ∧
        (∀ i, i < 256 → buf i = ppbuf_payload i) ∧ (∀ i, 256 ≤ i → buf i = ppbuf_blank i)) ∧
    ((1 ≤ 257 ∧ 257 ≤ 512) ∧
      ∃ sc1 sc2 buf,
        rtsx_write_ppbuf ppbuf_machine (idle_softc ppbuf_chip0) (write_cmd 257 ppbuf_payload) =
          some (sc1, write_cmd 257 ppbuf_payload, 0) ∧
        rtsx_read_ppbuf ppbuf_machine sc1 (read_cmd 257 ppbuf_blank) =
          some (sc2, read_cmd 257 buf, 0) ∧
        (∀ i, i < 257 → buf i = ppbuf_payload i) ∧ (∀ i, 257 ≤ i → buf i = ppbuf_blank i)) ∧
    ((1 ≤ 512 ∧ 512 ≤ 512) ∧
      ∃ sc1 sc2 buf,
        rtsx_write_ppbuf ppbuf_machine (idle_softc ppbuf_chip0) (write_cmd 512 ppbuf_payload) =
          some (sc1, write_cmd 512 ppbuf_payload, 0) ∧
        rtsx_read_ppbuf ppbuf_machine sc1 (read_cmd 512 ppbuf_blank) =
          some (sc2, read_cmd 512 buf, 0) ∧
        (∀ i, i < 512 → buf i = ppbuf_payload i) ∧ (∀ i, 512 ≤ i → buf i = ppbuf_blank i)) :=
  ⟨⟨by decide, rtsx_ppbuf_round_trip (idle_softc ppbuf_chip0) (write_cmd 1 ppbuf_payload)
      (read_cmd 1 ppbuf_blank) _ _ 1 (by decide) (by decide) rfl rfl rfl rfl
      (fun i _ => Nat.mod_lt _ (by decide)) (by decide)⟩,
   ⟨by decide, rtsx_ppbuf_round_trip (idle_softc ppbuf_chip0) (write_cmd 256 ppbuf_payload)
      (read_cmd 256 ppbuf_blank) _ _ 256 (by decide) (by decide) rfl rfl rfl rfl
      (fun i _ => Nat.mod_lt _ (by decide)) (by decide)⟩,
   ⟨by decide, rtsx_ppbuf_round_trip (idle_softc ppbuf_chip0) (write_cmd 257 ppbuf_payload)
      (read_cmd 257 ppbuf_blank) _ _ 257 (by decide) (by decide) rfl rfl rfl rfl
      (fun i _ => Nat.mod_lt _ (by decide)) (by decide)⟩,
   ⟨by decide, rtsx_ppbuf_round_trip (idle_softc ppbuf_chip0) (write_cmd 512 ppbuf_payload)
      (read_cmd 512 ppbuf_blank) _ _ 512 (by decide) (by decide) rfl rfl rfl rfl
      (fun i _ => Nat.mod_lt _ (by decide)) (by decide)⟩⟩

-- ---------------------------------------------------------------------------
-- C11, C12, C13: descriptor words
-- ---------------------------------------------------------------------------

/-- C11 refuted: in a kernel built without `INVARIANTS` a push at index 256 does not fail.
It stores the descriptor word at position 256, where the zeroed memory held 0, and
advances the index to 257. -/
theorem rtsx_push_cmd_overflow_stores :
    (rtsx_push_cmd_kernel false { idle_softc () with rtsx_cmd_index := 256 }
        RTSX_WRITE_REG_CMD RTSX_SD_CFG2 0xff 0x01).map
      (fun s => (s.rtsx_cmd_index, load32 s.rtsx_cmd_dmamem 256)) =
      some (257, rtsx_cmd_word RTSX_WRITE_REG_CMD RTSX_SD_CFG2 0xff 0x01) ∧
    load32 (idle_softc () : rtsx_softc Unit).rtsx_cmd_dmamem 256 = 0 ∧
    rtsx_cmd_word RTSX_WRITE_REG_CMD RTSX_SD_CFG2 0xff 0x01 ≠ 0 := by
  decide

/-- C11 amended: `rtsx_push_cmd` called with the descriptor index below 256 stores, in
either kernel build, exactly one word, at the index position, advances the index by one,
leaves every other word and every byte outside that word as it was, and changes nothing
else of the controller. Called with the index at (or above) 256 it fails fatally, with no
word written and no index advanced, in a kernel built with `INVARIANTS`; in a kernel built
without `INVARIANTS` the assertion is not compiled, and the call stores the word at the
index position, beyond the 256 words of the buffer, and advances the index by one. The
build with `INVARIANTS` is the function `rtsx_push_cmd` of the other theorems, and below
256 the two builds agree with it. -/
theorem rtsx_push_cmd_bound {W : Type} (sc : rtsx_softc W) (cmd reg mask data : Nat) :
    (sc.rtsx_cmd_index < 256 → ∀ invariants : Bool,
      rtsx_push_cmd_kernel invariants sc cmd reg mask data =
        rtsx_push_cmd sc cmd reg mask data ∧
      ∃ sc1, rtsx_push_cmd_kernel invariants sc cmd reg mask data = some sc1 ∧
        sc1.rtsx_cmd_index = sc.rtsx_cmd_index + 1 ∧
        load32 sc1.rtsx_cmd_dmamem sc.rtsx_cmd_index = rtsx_cmd_word cmd reg mask data ∧
        (∀ j, j ≠ sc.rtsx_cmd_index →
          load32 sc1.rtsx_cmd_dmamem j = load32 sc.rtsx_cmd_dmamem j) ∧
        (∀ a, a < 4 * sc.rtsx_cmd_index ∨ 4 * sc.rtsx_cmd_index + 4 ≤ a →
          sc1.rtsx_cmd_dmamem a = sc.rtsx_cmd_dmamem a) ∧
        same_but_queue sc sc1) ∧
    (256 ≤ sc.rtsx_cmd_index → rtsx_push_cmd_kernel true sc cmd reg mask data = none) ∧
    (256 ≤ sc.rtsx_cmd_index →
      ∃ sc1, rtsx_push_cmd_kernel false sc cmd reg mask data = some sc1 ∧
        sc1.rtsx_cmd_index = sc.rtsx_cmd_index + 1 ∧
        load32 sc1.rtsx_cmd_dmamem sc.rtsx_cmd_index = rtsx_cmd_word cmd reg mask data ∧
        (∀ j, j ≠ sc.rtsx_cmd_index →
          load32 sc1.rtsx_cmd_dmamem j = load32 sc.rtsx_cmd_dmamem j)) ∧
    rtsx_push_cmd_kernel true sc cmd reg mask data = rtsx_push_cmd sc cmd reg mask data := by
  have hstore : ∀ b : Bool, ¬(b = true ∧ ¬ sc.rtsx_cmd_index < RTSX_HOSTCMD_MAX) →
      rtsx_push_cmd_kernel b sc cmd reg mask data =
        some { sc with
          rtsx_cmd_dmamem := store32 sc.rtsx_cmd_dmamem sc.rtsx_cmd_index
            (rtsx_cmd_word cmd reg mask data)
          rtsx_cmd_index := sc.rtsx_cmd_index + 1 } := by
    intro b hb
    unfold rtsx_push_cmd_kernel
    rw [if_neg hb]
  refine ⟨?_, ?_, ?_, ?_⟩
  · intro h invariants
    have hlt : sc.rtsx_cmd_index < RTSX_HOSTCMD_MAX := h
    have e := hstore invariants (fun hb => hb.2 hlt)
    refine ⟨?_, _, e, rfl, ?_, ?_, ?_, by unfold same_but_queue; rfl⟩
    · rw [e]
      unfold rtsx_push_cmd
      rw [if_pos hlt]
    · exact load32_store32 _ _ _ (rtsx_cmd_word_lt cmd reg mask data)
    · intro j hj
      exact load32_store32_ne _ _ _ _ hj
    · intro a ha
      rcases ha with ha | ha
      · exact store32_below _ _ _ _ ha
      · exact store32_above _ _ _ _ ha
  · intro h
    have hn : ¬ sc.rtsx_cmd_index < RTSX_HOSTCMD_MAX := by
      simp only [RTSX_HOSTCMD_MAX]
      omega
    unfold rtsx_push_cmd_kernel
    rw [if_pos ⟨rfl, hn⟩]
  · intro _
    have e := hstore false (fun hb => absurd hb.1 (by decide))
    refine ⟨_, e, rfl, ?_, ?_⟩
    · exact load32_store32 _ _ _ (rtsx_cmd_word_lt cmd reg mask data)
    · intro j hj
      exact load32_store32_ne _ _ _ _ hj
  · unfold rtsx_push_cmd_kernel rtsx_push_cmd
    by_cases hlt : sc.rtsx_cmd_index < RTSX_HOSTCMD_MAX
    · rw [if_neg (fun hb => hb.2 hlt), if_pos hlt]
    · rw [if_pos ⟨rfl, hlt⟩, if_neg hlt]

/-- Witness of C11 amended: a push at index 0 stores one word in either build; a push at
index 256 fails with `INVARIANTS` and stores beyond the buffer without. -/
theorem rtsx_push_cmd_bound_witness :
    (∃ sc1, rtsx_push_cmd_kernel false (idle_softc ()) RTSX_WRITE_REG_CMD RTSX_SD_CFG2 0xff
        0x01 = some sc1 ∧
      sc1.rtsx_cmd_index = (idle_softc () : rtsx_softc Unit).rtsx_cmd_index + 1 ∧
      load32 sc1.rtsx_cmd_dmamem (idle_softc () : rtsx_softc Unit).rtsx_cmd_index =
        rtsx_cmd_word RTSX_WRITE_REG_CMD RTSX_SD_CFG2 0xff 0x01) ∧
    rtsx_push_cmd_kernel true { idle_softc () with rtsx_cmd_index := 256 } RTSX_WRITE_REG_CMD
      RTSX_SD_CFG2 0xff 0x01 = none ∧
    (∃ sc1, rtsx_push_cmd_kernel false { idle_softc () with rtsx_cmd_index := 256 }
        RTSX_WRITE_REG_CMD RTSX_SD_CFG2 0xff 0x01 = some sc1 ∧
      sc1.rtsx_cmd_index = 257) :=
  ⟨(((rtsx_push_cmd_bound (idle_softc ()) RTSX_WRITE_REG_CMD RTSX_SD_CFG2 0xff 0x01).1
      (by decide) false).2).imp fun _ h => ⟨h.1, h.2.1, h.2.2.1⟩,
    (rtsx_push_cmd_bound { idle_softc () with rtsx_cmd_index := 256 } RTSX_WRITE_REG_CMD
      RTSX_SD_CFG2 0xff 0x01).2.1 (by decide),
    ((rtsx_push_cmd_bound { idle_softc () with rtsx_cmd_index := 256 } RTSX_WRITE_REG_CMD
      RTSX_SD_CFG2 0xff 0x01).2.2.1 (by decide)).imp fun _ h => ⟨h.1, h.2.1⟩⟩

/-- The word stored by `rtsx_push_cmd` is the packing of the specification when the
arguments fit their C types. -/
theorem rtsx_cmd_word_packed (cmd reg mask data : Nat) (hc : cmd < 256) (hr : reg < 65536)
    (hm : mask < 256) (hd : data < 256) :
    rtsx_cmd_word cmd reg mask data = packed_word cmd reg mask data := by
  have h30 : (cmd &&& 0x3) <<< 30 < 2 ^ 32 := by
    rw [land_3, Nat.shiftLeft_eq]
    omega
  unfold rtsx_cmd_word packed_word htole32
  rw [Nat.mod_eq_of_lt hc, Nat.mod_eq_of_lt hr, Nat.mod_eq_of_lt hm, Nat.mod_eq_of_lt hd,
    Nat.mod_eq_of_lt h30, Nat.mod_eq_of_lt h30]

/-- C12: on a little-endian host the word `rtsx_push_cmd` stores for arguments of its C
types is `((op & 3) << 30) | ((reg & 0x3FFF) << 16) | (mask << 8) | data`; each field is
recovered from the word by a shift and a mask; and the packing is injective on 2-bit
operation codes, 14-bit addresses, 8-bit masks and 8-bit data bytes. -/
theorem rtsx_push_cmd_word {W : Type} (sc : rtsx_softc W) (cmd reg mask data : Nat)
    (hc : cmd < 256) (hr : reg < 65536) (hm : mask < 256) (hd : data < 256)
    (hi : sc.rtsx_cmd_index < 256) :
    (∃ sc1, rtsx_push_cmd sc cmd reg mask data = some sc1 ∧
      load32 sc1.rtsx_cmd_dmamem sc.rtsx_cmd_index = packed_word cmd reg mask data) ∧
    (packed_word cmd reg mask data >>> 30 = cmd &&& 0x3 ∧
      (packed_word cmd reg mask data >>> 16) &&& 0x3FFF = reg &&& 0x3FFF ∧
      (packed_word cmd reg mask data >>> 8) &&& 0xFF = mask ∧
      packed_word cmd reg mask data &&& 0xFF = data) ∧
    (∀ op2 reg2 mask2 data2, cmd < 4 → reg < 16384 → op2 < 4 → reg2 < 16384 → mask2 < 256 →
      data2 < 256 → packed_word cmd reg mask data = packed_word op2 reg2 mask2 data2 →
      cmd = op2 ∧ reg = reg2 ∧ mask = mask2 ∧ data = data2) := by
  have hw := rtsx_cmd_word_packed cmd reg mask data hc hr hm hd
  obtain ⟨f1, f2, f3, f4⟩ := rtsx_cmd_word_fields cmd reg mask data
  rw [hw] at f1 f2 f3 f4
  refine ⟨?_, ⟨?_, ?_, ?_, ?_⟩, ?_⟩
  · obtain ⟨sc1, e1, -, w1⟩ := rtsx_push_cmd_spec sc cmd reg mask data hi
    exact ⟨sc1, e1, w1.trans hw⟩
  · rw [f1, land_3]
  · rw [f2, land_3fff]
  · rw [f3, Nat.mod_eq_of_lt hm]
  · rw [f4, Nat.mod_eq_of_lt hd]
  · intro op2 reg2 mask2 data2 c4 r4 o4 r24 m2 d2 he
    have hw2 := rtsx_cmd_word_packed op2 reg2 mask2 data2 (by omega) (by omega) m2 d2
    obtain ⟨g1, g2, g3, g4⟩ := rtsx_cmd_word_fields op2 reg2 mask2 data2
    rw [hw2, ← he] at g1 g2 g3 g4
    rw [f1] at g1
    rw [f2] at g2
    rw [f3] at g3
    rw [f4] at g4
    omega

/-- Witness of C12: the check-register descriptor of `SD_TRANSFER` at an empty queue. -/
theorem rtsx_push_cmd_word_witness :
    (∃ sc1, rtsx_push_cmd (idle_softc ()) RTSX_CHECK_REG_CMD RTSX_SD_TRANSFER 0x60 0x60 =
        some sc1 ∧
      load32 sc1.rtsx_cmd_dmamem (idle_softc ()).rtsx_cmd_index =
        packed_word RTSX_CHECK_REG_CMD RTSX_SD_TRANSFER 0x60 0x60) ∧
    packed_word RTSX_CHECK_REG_CMD RTSX_SD_TRANSFER 0x60 0x60 >>> 30 =
      RTSX_CHECK_REG_CMD &&& 0x3 :=
  ⟨(rtsx_push_cmd_word (idle_softc ()) RTSX_CHECK_REG_CMD RTSX_SD_TRANSFER 0x60 0x60
      (by decide) (by decide) (by decide) (by decide) (by decide)).1,
    (rtsx_push_cmd_word (idle_softc ()) RTSX_CHECK_REG_CMD RTSX_SD_TRANSFER 0x60 0x60
      (by decide) (by decide) (by decide) (by decide) (by decide)).2.1.1⟩

/-- Only the low byte of the data argument of `rtsx_push_cmd` (a `uint8_t`) enters the
word. -/
theorem rtsx_cmd_word_data (cmd reg mask data : Nat) (hc : cmd < 256) (hr : reg < 65536)
    (hm : mask < 256) :
    rtsx_cmd_word cmd reg mask data = packed_word cmd reg mask (data % 256) := by
  rw [← rtsx_cmd_word_packed cmd reg mask (data % 256) hc hr hm (Nat.mod_lt _ (by decide))]
  unfold rtsx_cmd_word
  rw [Nat.mod_mod]

/-- C13: for every command and every prior descriptor index `rtsx_init_cmd` succeeds and
leaves the index at 5; words 0..4 are write-register micro-ops with mask 0xFF addressed to
`SD_CMD0` .. `SD_CMD4` whose data bytes are the low byte of (start bit | opcode) and the
argument bytes arg[31:24], arg[23:16], arg[15:8], arg[7:0]; the four argument bytes read
big-endian give back the 32-bit argument. -/
theorem rtsx_init_cmd_words {W : Type} (sc : rtsx_softc W) (cmd : mmc_command) :
    ∃ s5, rtsx_init_cmd sc cmd = some s5 ∧ s5.rtsx_cmd_index = 5 ∧
      load32 s5.rtsx_cmd_dmamem 0 =
        packed_word RTSX_WRITE_REG_CMD RTSX_SD_CMD0 0xFF
          ((RTSX_SD_CMD_START ||| cmd.opcode) % 256) ∧
      load32 s5.rtsx_cmd_dmamem 1 =
        packed_word RTSX_WRITE_REG_CMD RTSX_SD_CMD1 0xFF ((cmd.arg >>> 24) % 256) ∧
      load32 s5.rtsx_cmd_dmamem 2 =
        packed_word RTSX_WRITE_REG_CMD RTSX_SD_CMD2 0xFF ((cmd.arg >>> 16) % 256) ∧
      load32 s5.rtsx_cmd_dmamem 3 =
        packed_word RTSX_WRITE_REG_CMD RTSX_SD_CMD3 0xFF ((cmd.arg >>> 8) % 256) ∧
      load32 s5.rtsx_cmd_dmamem 4 =
        packed_word RTSX_WRITE_REG_CMD RTSX_SD_CMD4 0xFF (cmd.arg % 256) ∧
      ((cmd.arg >>> 24) % 256) <<< 24 ||| ((cmd.arg >>> 16) % 256) <<< 16 |||
        ((cmd.arg >>> 8) % 256) <<< 8 ||| (cmd.arg % 256) = cmd.arg % 2 ^ 32 := by
  obtain ⟨s5, e, -, hi, w0, w1, w2, w3, w4⟩ := rtsx_init_cmd_spec sc cmd
  refine ⟨s5, e, hi, ?_, ?_, ?_, ?_, ?_, ?_⟩
  · rw [w0]
    exact rtsx_cmd_word_data _ _ _ _ (by decide) (by decide) (by decide)
  · rw [w1]
    exact rtsx_cmd_word_data _ _ _ _ (by decide) (by decide) (by decide)
  · rw [w2]
    exact rtsx_cmd_word_data _ _ _ _ (by decide) (by decide) (by decide)
  · rw [w3]
    exact rtsx_cmd_word_data _ _ _ _ (by decide) (by decide) (by decide)
  · rw [w4]
    exact rtsx_cmd_word_data _ _ _ _ (by decide) (by decide) (by decide)
  · rw [pack_be _ _ _ _ (Nat.mod_lt _ (by decide)) (Nat.mod_lt _ (by decide))
      (Nat.mod_lt _ (by decide))]
    simp only [Nat.shiftRight_eq_div_pow]
    omega

-- ---------------------------------------------------------------------------
-- C16, C17: the poll loops of rtsx_read and rtsx_write
-- ---------------------------------------------------------------------------

/-- When every poll shows busy the loop of `rtsx_read` runs out with `tries` at -1. -/
theorem rtsx_read_loop_busy {W : Type} (M : machine W) (n : Nat) :
    ∀ (sc : rtsx_softc W) (reg : Nat),
      (∀ x ∈ polls M RTSX_HAIMR n sc.rtsx_res, x &&& RTSX_HAIMR_BUSY ≠ 0) →
      (rtsx_read_loop M n sc reg).2.2 = -1 ∧
      (rtsx_read_loop M n sc reg).2.1 = (reg :: polls M RTSX_HAIMR n sc.rtsx_res).getLast
        (List.cons_ne_nil _ _) := by
  induction n with
  | zero =>
    intro sc reg _
    exact ⟨rfl, rfl⟩
  | succ n ih =>
    intro sc reg h
    have hx := h _ (List.mem_cons_self _ _)
    have ht := ih (READ4 M sc RTSX_HAIMR).1 (READ4 M sc RTSX_HAIMR).2
      (fun x hx => h x (List.mem_cons_of_mem _ hx))
    have hb : ¬ (READ4 M sc RTSX_HAIMR).2 &&& RTSX_HAIMR_BUSY = 0 := hx
    rw [rtsx_read_loop]
    simp only [hb, if_false]
    refine ⟨ht.1, ?_⟩
    rw [ht.2]
    simp only [polls, READ4]
    rw [List.getLast_cons (List.cons_ne_nil _ _)]

/-- There are as many words as polls. -/
theorem polls_length {W : Type} (M : machine W) (reg : Nat) (n : Nat) :
    ∀ w, (polls M reg n w).length = n := by
  induction n with
  | zero => intro w; rfl
  | succ n ih => intro w; simp [polls, ih]

/-- When the first idle poll is the one after `pre`, the loop of `rtsx_read` stops there
with that word and with `tries` at the number of polls left. -/
theorem rtsx_read_loop_idle {W : Type} (M : machine W) (n : Nat) :
    ∀ (sc : rtsx_softc W) (reg : Nat) (pre : List Nat) (x : Nat) (post : List Nat),
      polls M RTSX_HAIMR n sc.rtsx_res = pre ++ x :: post →
      (∀ y ∈ pre, y &&& RTSX_HAIMR_BUSY ≠ 0) → x &&& RTSX_HAIMR_BUSY = 0 →
      (rtsx_read_loop M n sc reg).2 = (x, (post.length : Int)) := by
  induction n with
  | zero =>
    intro sc reg pre x post h
    simp [polls] at h
  | succ n ih =>
    intro sc reg pre x post h hpre hx
    rw [rtsx_read_loop]
    cases pre with
    | nil =>
      simp only [polls, List.nil_append, List.cons.injEq] at h
      have hv : (READ4 M sc RTSX_HAIMR).2 = x := h.1
      have hl : post.length = n := by
        rw [← h.2, polls_length]
      simp only [hv, hx, if_true, hl]
    | cons y pre =>
      simp only [polls, List.cons_append, List.cons.injEq] at h
      have hv : (READ4 M sc RTSX_HAIMR).2 = y := h.1
      have hb : ¬ y &&& RTSX_HAIMR_BUSY = 0 := hpre y (List.mem_cons_self _ _)
      simp only [hv, hb, if_false]
      exact ih (READ4 M sc RTSX_HAIMR).1 y pre x post h.2
        (fun z hz => hpre z (List.mem_cons_of_mem _ hz)) hx

/-- When all 1024 polls show busy `rtsx_read` returns 0, with the low byte of the last
word read. -/
theorem rtsx_read_all_busy {W : Type} (M : machine W) (sc : rtsx_softc W) (addr : Nat)
    (h : ∀ x ∈ polls M RTSX_HAIMR 1024 (WRITE4 M sc RTSX_HAIMR
      (RTSX_HAIMR_BUSY ||| (((addr % 65536) &&& 0x3FFF) <<< 16))).rtsx_res,
      x &&& RTSX_HAIMR_BUSY ≠ 0) :
    (rtsx_read M sc addr).2.2 = 0 := by
  have h1 := (rtsx_read_loop_busy M 1024 _ 0 h).1
  unfold rtsx_read
  simp only [h1]
  decide

/-- When the first idle poll of `rtsx_read` is followed by `post` more of the 1024 polls,
`rtsx_read` returns the low byte of that word, and `ETIMEDOUT` exactly if `post` is
empty. -/
theorem rtsx_read_idle_at {W : Type} (M : machine W) (sc : rtsx_softc W) (addr : Nat)
    (pre : List Nat) (x : Nat) (post : List Nat)
    (h : polls M RTSX_HAIMR 1024 (WRITE4 M sc RTSX_HAIMR
      (RTSX_HAIMR_BUSY ||| (((addr % 65536) &&& 0x3FFF) <<< 16))).rtsx_res = pre ++ x :: post)
    (hpre : ∀ y ∈ pre, y &&& RTSX_HAIMR_BUSY ≠ 0) (hx : x &&& RTSX_HAIMR_BUSY = 0) :
    (rtsx_read M sc addr).2 = (x &&& 0xff, if post.length = 0 then ETIMEDOUT else 0) := by
  have h1 := rtsx_read_loop_idle M 1024 _ 0 pre x post h hpre hx
  unfold rtsx_read
  simp only [h1, Int.natCast_eq_zero]

/-- Every poll of `stuck_machine` returns the busy word. -/
theorem polls_stuck_machine (reg n : Nat) :
    ∀ w, polls stuck_machine reg n w = List.replicate n 0x800000A5 := by
  induction n with
  | zero => intro w; rfl
  | succ n ih =>
    intro w
    rw [polls, ih, List.replicate_succ]
    rfl

/-- The polls of `late_machine` that end with read number 1024 are busy words followed by
one idle word. -/
theorem polls_late_machine (reg n : Nat) :
    ∀ w, w + n = 1023 →
      polls late_machine reg (n + 1) w = List.replicate n 0x80000000 ++ [0x5A] := by
  induction n with
  | zero =>
    intro w hw
    have : w = 1023 := by omega
    subst this
    rfl
  | succ n ih =>
    intro w hw
    have hlt : w < 1023 := by omega
    rw [polls, List.replicate_succ, List.cons_append]
    have e1 : (late_machine.read4 w reg).1 = 0x80000000 := by
      show (if w < 1023 then 0x80000000 else 0x5A) = 0x80000000
      rw [if_pos hlt]
    have e2 : (late_machine.read4 w reg).2 = w + 1 := rfl
    rw [e1, e2, ih (w + 1) (by omega)]
    rfl

/-- C16, the code at its failing inputs: over a chip whose busy bit is set in all 1024
polls `rtsx_read` returns 0 (success) with the low byte of the last word, and over a chip
whose busy bit clears at the 1024th poll it returns `ETIMEDOUT`. -/
theorem rtsx_read_timeout_off_by_one :
    (∀ x ∈ polls stuck_machine RTSX_HAIMR 1024 (), x &&& RTSX_HAIMR_BUSY ≠ 0) ∧
    (rtsx_read stuck_machine (idle_softc ()) RTSX_SD_STAT1).2.2 = 0 ∧
    polls late_machine RTSX_HAIMR 1024 0 = List.replicate 1023 0x80000000 ++ [0x5A] ∧
    (rtsx_read late_machine (idle_softc 0) RTSX_SD_STAT1).2 = (0x5A, ETIMEDOUT) := by
  have hs : ∀ x ∈ polls stuck_machine RTSX_HAIMR 1024 (), x &&& RTSX_HAIMR_BUSY ≠ 0 := by
    intro x hx
    rw [polls_stuck_machine] at hx
    rw [List.eq_of_mem_replicate hx]
    decide
  have hl := polls_late_machine RTSX_HAIMR 1023 0 rfl
  refine ⟨hs, rtsx_read_all_busy stuck_machine (idle_softc ()) RTSX_SD_STAT1 hs, hl, ?_⟩
  have := rtsx_read_idle_at late_machine (idle_softc 0) RTSX_SD_STAT1
    (List.replicate 1023 0x80000000) 0x5A [] hl
    (fun y hy => by rw [List.eq_of_mem_replicate hy]; decide) (by decide)
  rw [this]
  rfl

/-- The loop of `rtsx_write` returns `ETIMEDOUT` exactly when every poll shows busy. -/
theorem rtsx_write_loop_timeout {W : Type} (M : machine W) (val n : Nat) :
    ∀ sc : rtsx_softc W, (rtsx_write_loop M val n sc).2 = ETIMEDOUT ↔
      ∀ x ∈ polls M RTSX_HAIMR n sc.rtsx_res, x &&& RTSX_HAIMR_BUSY ≠ 0 := by
  induction n with
  | zero =>
    intro sc
    simp [rtsx_write_loop, polls]
  | succ n ih =>
    intro sc
    have hv : (READ4 M sc RTSX_HAIMR).2 = (M.read4 sc.rtsx_res RTSX_HAIMR).1 % 2 ^ 32 := rfl
    have hs : (READ4 M sc RTSX_HAIMR).1.rtsx_res = (M.read4 sc.rtsx_res RTSX_HAIMR).2 := rfl
    rw [rtsx_write_loop]
    by_cases hb : (READ4 M sc RTSX_HAIMR).2 &&& RTSX_HAIMR_BUSY = 0
    · simp only [hb, if_true]
      constructor
      · intro h
        exfalso
        split at h
        · exact absurd (show EIO = ETIMEDOUT from h) (by decide)
        · exact absurd (show 0 = ETIMEDOUT from h) (by decide)
      · intro h
        exact absurd hb (h _ (by rw [polls, ← hv]; exact List.mem_cons_self _ _))
    · simp only [hb, if_false]
      rw [ih, hs, polls, ← hv]
      constructor
      · intro h x hx
        rcases List.mem_cons.mp hx with rfl | hx
        · exact hb
        · exact h x hx
      · intro h x hx
        exact h x (List.mem_cons_of_mem _ hx)

/-- At the first idle poll the loop of `rtsx_write` compares the low byte read back with
the value written. -/
theorem rtsx_write_loop_idle {W : Type} (M : machine W) (val n : Nat) :
    ∀ (sc : rtsx_softc W) (pre : List Nat) (x : Nat) (post : List Nat),
      polls M RTSX_HAIMR n sc.rtsx_res = pre ++ x :: post →
      (∀ y ∈ pre, y &&& RTSX_HAIMR_BUSY ≠ 0) → x &&& RTSX_HAIMR_BUSY = 0 →
      (rtsx_write_loop M val n sc).2 = if val % 256 ≠ x &&& 0xff then EIO else 0 := by
  induction n with
  | zero =>
    intro sc pre x post h
    simp [polls] at h
  | succ n ih =>
    intro sc pre x post h hpre hx
    rw [rtsx_write_loop]
    cases pre with
    | nil =>
      simp only [polls, List.nil_append, List.cons.injEq] at h
      have hv : (READ4 M sc RTSX_HAIMR).2 = x := h.1
      simp only [hv, hx, if_true]
      split <;> rfl
    | cons y pre =>
      simp only [polls, List.cons_append, List.cons.injEq] at h
      have hv : (READ4 M sc RTSX_HAIMR).2 = y := h.1
      have hb : ¬ y &&& RTSX_HAIMR_BUSY = 0 := hpre y (List.mem_cons_self _ _)
      simp only [hv, hb, if_false]
      exact ih (READ4 M sc RTSX_HAIMR).1 pre x post h.2
        (fun z hz => hpre z (List.mem_cons_of_mem _ hz)) hx

/-- The loop of `rtsx_write` adds at most `n` events to the trace, all of them reads of
`RTSX_HAIMR`. -/
theorem rtsx_write_loop_trace {W : Type} (M : machine W) (val n : Nat) :
    ∀ sc : rtsx_softc W, ∃ t, (rtsx_write_loop M val n sc).1.trace = sc.trace ++ t ∧
      t.length ≤ n ∧ ∀ e ∈ t, ∃ v, e = event.read4 RTSX_HAIMR v := by
  induction n with
  | zero =>
    intro sc
    exact ⟨[], by simp [rtsx_write_loop], by simp, by simp⟩
  | succ n ih =>
    intro sc
    have ht : (READ4 M sc RTSX_HAIMR).1.trace =
        sc.trace ++ [event.read4 RTSX_HAIMR (READ4 M sc RTSX_HAIMR).2] := rfl
    rw [rtsx_write_loop]
    by_cases hb : (READ4 M sc RTSX_HAIMR).2 &&& RTSX_HAIMR_BUSY = 0
    · simp only [hb, if_true]
      refine ⟨[event.read4 RTSX_HAIMR (READ4 M sc RTSX_HAIMR).2], ?_, by simp, ?_⟩
      · split <;> exact ht
      · intro e he
        exact ⟨_, List.mem_singleton.mp he⟩
    · simp only [hb, if_false]
      obtain ⟨t, et, lt, ha⟩ := ih (READ4 M sc RTSX_HAIMR).1
      refine ⟨event.read4 RTSX_HAIMR (READ4 M sc RTSX_HAIMR).2 :: t, ?_, by simp; omega, ?_⟩
      · rw [et, ht, List.append_assoc]
        rfl
      · intro e he
        rcases List.mem_cons.mp he with rfl | he
        · exact ⟨_, rfl⟩
        · exact ha e he

/-- C17 refuted: with the partial mask 0x0F and the value 0xFF, over a chip that is idle at
the first poll and reads back 0x00, `rtsx_write` returns `EIO`: the readback is compared
with the value also when the mask is not 0xFF. -/
theorem rtsx_write_masked_eio :
    polls silent_machine RTSX_HAIMR 1 () = [0] ∧ (0 : Nat) &&& RTSX_HAIMR_BUSY = 0 ∧
    (0x0F : Nat) ≠ 0xFF ∧
    (rtsx_write silent_machine (idle_softc ()) RTSX_CARD_STOP 0x0F 0xFF).2 = EIO ∧ EIO ≠ 0 := by
  decide

/-- C17 amended: `rtsx_write` writes the request to `RTSX_HAIMR` and then polls it at most
1024 times; it returns `ETIMEDOUT` exactly when the busy bit is set in all 1024 polls;
otherwise, at the first poll that shows the busy bit clear, it returns `EIO` exactly when
the low byte read back differs from the low byte of the value, whatever the mask, and 0
when the two agree. -/
theorem rtsx_write_result {W : Type} (M : machine W) (sc : rtsx_softc W) (addr mask val : Nat) :
    (∃ t, (rtsx_write M sc addr mask val).1.trace =
        sc.trace ++ event.write4 RTSX_HAIMR ((RTSX_HAIMR_BUSY ||| RTSX_HAIMR_WRITE |||
          ((((addr % 65536) &&& 0x3FFF) <<< 16) ||| ((mask % 256) <<< 8) ||| (val % 256)))
          % 2 ^ 32) :: t ∧
      t.length ≤ 1024 ∧ ∀ e ∈ t, ∃ v, e = event.read4 RTSX_HAIMR v) ∧
    ((rtsx_write M sc addr mask val).2 = ETIMEDOUT ↔
      ∀ x ∈ polls M RTSX_HAIMR 1024 (WRITE4 M sc RTSX_HAIMR
        (RTSX_HAIMR_BUSY ||| RTSX_HAIMR_WRITE |||
          ((((addr % 65536) &&& 0x3FFF) <<< 16) ||| ((mask % 256) <<< 8) ||| (val % 256)))
        ).rtsx_res, x &&& RTSX_HAIMR_BUSY ≠ 0) ∧
    (∀ pre x post, polls M RTSX_HAIMR 1024 (WRITE4 M sc RTSX_HAIMR
        (RTSX_HAIMR_BUSY ||| RTSX_HAIMR_WRITE |||
          ((((addr % 65536) &&& 0x3FFF) <<< 16) ||| ((mask % 256) <<< 8) ||| (val % 256)))
        ).rtsx_res = pre ++ x :: post →
      (∀ y ∈ pre, y &&& RTSX_HAIMR_BUSY ≠ 0) → x &&& RTSX_HAIMR_BUSY = 0 →
      (rtsx_write M sc addr mask val).2 = if val % 256 ≠ x &&& 0xff then EIO else 0) := by
  refine ⟨?_, ?_, ?_⟩
  · obtain ⟨t, et, lt, ha⟩ := rtsx_write_loop_trace M val 1024 (WRITE4 M sc RTSX_HAIMR
      (RTSX_HAIMR_BUSY ||| RTSX_HAIMR_WRITE |||
        ((((addr % 65536) &&& 0x3FFF) <<< 16) ||| ((mask % 256) <<< 8) ||| (val % 256))))
    refine ⟨t, ?_, lt, ha⟩
    unfold rtsx_write
    rw [et]
    simp only [WRITE4, List.append_assoc, List.singleton_append]
  · exact rtsx_write_loop_timeout M val 1024 _
  · intro pre x post h hpre hx
    exact rtsx_write_loop_idle M val 1024 _ pre x post h hpre hx

/-- Witness of C17 amended: over the chip that is idle at the first poll and reads back
0x00, a write of 0x00 under the mask 0xFF succeeds. -/
theorem rtsx_write_result_witness :
    (rtsx_write silent_machine (idle_softc ()) RTSX_CARD_STOP 0xFF 0x00).2 =
      if 0x00 % 256 ≠ 0 &&& 0xff then EIO else 0 :=
  (rtsx_write_result silent_machine (idle_softc ()) RTSX_CARD_STOP 0xFF 0x00).2.2
    [] 0 (polls silent_machine RTSX_HAIMR 1023 ()) rfl (by simp) (by decide)

-- ---------------------------------------------------------------------------
-- C18: the poll loops of the PHY and configuration accesses
-- ---------------------------------------------------------------------------

/-- When every read of `reg` succeeds and shows the busy bit, the poll loop runs out with
`tries` at -1 and without error. -/
theorem rtsx_poll_loop_busy {W : Type} (M : machine W) (reg busy : Nat)
    (h : ∀ sc, (rtsx_read M sc reg).2.2 = 0 ∧ (rtsx_read M sc reg).2.1 &&& busy ≠ 0) (n : Nat) :
    ∀ sc, (rtsx_poll_loop M reg busy n sc).2 = (-1, 0) := by
  induction n with
  | zero => intro sc; rfl
  | succ n ih =>
    intro sc
    rw [rtsx_poll_loop]
    simp only [(h sc).1, (h sc).2, ne_eq, not_true_eq_false, if_false]
    exact ih _

/-- Over `busy_flag_machine` a read of an internal register succeeds at the first poll
and returns 0x80. -/
theorem busy_flag_machine_read (sc : rtsx_softc Nat) (reg : Nat)
    (hw : (RTSX_HAIMR_BUSY ||| (((reg % 65536) &&& 0x3FFF) <<< 16)) % 2 ^ 32 &&&
      RTSX_HAIMR_WRITE = 0) :
    (rtsx_read busy_flag_machine sc reg).2 = (0x80, 0) := by
  have hp : polls busy_flag_machine RTSX_HAIMR 1024 (WRITE4 busy_flag_machine sc RTSX_HAIMR
      (RTSX_HAIMR_BUSY ||| (((reg % 65536) &&& 0x3FFF) <<< 16))).rtsx_res =
      [] ++ 0x80 :: polls busy_flag_machine RTSX_HAIMR 1023
        ((RTSX_HAIMR_BUSY ||| (((reg % 65536) &&& 0x3FFF) <<< 16)) % 2 ^ 32) := by
    show polls busy_flag_machine RTSX_HAIMR (1023 + 1) (busy_flag_machine.write4 sc.rtsx_res
      RTSX_HAIMR ((RTSX_HAIMR_BUSY ||| (((reg % 65536) &&& 0x3FFF) <<< 16)) % 2 ^ 32)) = _
    rw [polls]
    simp only [busy_flag_machine, if_true, hw, List.nil_append]
    rfl
  rw [rtsx_read_idle_at busy_flag_machine sc reg [] 0x80 _ hp (by simp) (by decide),
    polls_length]
  rfl

/-- Over `busy_flag_machine` a write whose value byte is the low byte of the request
succeeds at the first poll. -/
theorem busy_flag_machine_write (sc : rtsx_softc Nat) (reg mask val : Nat)
    (hw : (RTSX_HAIMR_BUSY ||| RTSX_HAIMR_WRITE |||
      ((((reg % 65536) &&& 0x3FFF) <<< 16) ||| ((mask % 256) <<< 8) ||| (val % 256))) % 2 ^ 32 &&&
      RTSX_HAIMR_WRITE ≠ 0)
    (hb : (RTSX_HAIMR_BUSY ||| RTSX_HAIMR_WRITE |||
      ((((reg % 65536) &&& 0x3FFF) <<< 16) ||| ((mask % 256) <<< 8) ||| (val % 256))) % 2 ^ 32 &&&
      0xff = val % 256) :
    (rtsx_write busy_flag_machine sc reg mask val).2 = 0 := by
  have hp : polls busy_flag_machine RTSX_HAIMR 1024 (WRITE4 busy_flag_machine sc RTSX_HAIMR
      (RTSX_HAIMR_BUSY ||| RTSX_HAIMR_WRITE |||
      ((((reg % 65536) &&& 0x3FFF) <<< 16) ||| ((mask % 256) <<< 8) ||| (val % 256)))).rtsx_res =
      [] ++ (val % 256) :: polls busy_flag_machine RTSX_HAIMR 1023
        ((RTSX_HAIMR_BUSY ||| RTSX_HAIMR_WRITE |||
      ((((reg % 65536) &&& 0x3FFF) <<< 16) ||| ((mask % 256) <<< 8) ||| (val % 256)))
        % 2 ^ 32) := by
    show polls busy_flag_machine RTSX_HAIMR (1023 + 1) (busy_flag_machine.write4 sc.rtsx_res
      RTSX_HAIMR ((RTSX_HAIMR_BUSY ||| RTSX_HAIMR_WRITE |||
      ((((reg % 65536) &&& 0x3FFF) <<< 16) ||| ((mask % 256) <<< 8) ||| (val % 256)))
        % 2 ^ 32)) = _
    rw [polls]
    simp only [busy_flag_machine, if_true, hw, if_false, hb, List.nil_append]
    rw [Nat.mod_eq_of_lt (show val % 256 < 2 ^ 32 by omega)]
  have hi : val % 256 &&& RTSX_HAIMR_BUSY = 0 := by
    rw [show RTSX_HAIMR_BUSY = 2 ^ 31 from rfl]
    apply Nat.eq_of_testBit_eq
    intro i
    rw [Nat.testBit_and, Nat.zero_testBit, Nat.testBit_two_pow]
    by_cases h31 : 31 = i
    · subst h31
      rw [Nat.testBit_lt_two_pow (by omega)]
      rfl
    · simp [h31]
  have hl : val % 256 &&& 0xff = val % 256 := by
    rw [land_ff, Nat.mod_mod]
  unfold rtsx_write
  rw [rtsx_write_loop_idle busy_flag_machine val 1024 _ [] (val % 256) _ hp (by simp) hi, hl]
  simp

/-- C18, the code at its failing input: over a chip on which every host access succeeds
and the busy flag of the PHY and of the configuration access reads as set in every poll,
`rtsx_read_phy` returns 0 with a value, `rtsx_write_phy` returns 0 and `rtsx_read_cfg`
returns 0 with a value; none of them returns `ETIMEDOUT`. -/
theorem rtsx_phy_cfg_timeout_missed :
    (∀ sc, (rtsx_read busy_flag_machine sc RTSX_PHY_RWCTL).2 = (0x80, 0)) ∧
    (∀ sc, (rtsx_read busy_flag_machine sc RTSX_CFGRWCTL).2 = (0x80, 0)) ∧
    0x80 &&& RTSX_PHY_BUSY ≠ 0 ∧ 0x80 &&& RTSX_CFG_BUSY ≠ 0 ∧
    (rtsx_read_phy busy_flag_machine (idle_softc 0) 0x01).2 = (some 0x8080, 0) ∧
    (rtsx_write_phy busy_flag_machine (idle_softc 0) 0x01 0x1234).2 = 0 ∧
    (rtsx_read_cfg busy_flag_machine (idle_softc 0) 0 0x0102).2 = (some 0x80808080, 0) := by
  have hr : ∀ reg, (RTSX_HAIMR_BUSY ||| (((reg % 65536) &&& 0x3FFF) <<< 16)) % 2 ^ 32 &&&
      RTSX_HAIMR_WRITE = 0 → ∀ sc, (rtsx_read busy_flag_machine sc reg).2 = (0x80, 0) :=
    fun reg h sc => busy_flag_machine_read sc reg h
  have r1 := hr RTSX_PHY_RWCTL (by decide)
  have r2 := hr RTSX_CFGRWCTL (by decide)
  have r3 := hr RTSX_PHY_DATA0 (by decide)
  have r4 := hr RTSX_PHY_DATA1 (by decide)
  have r5 := hr RTSX_CFGDATA0 (by decide)
  have r6 := hr RTSX_CFGDATA1 (by decide)
  have r7 := hr RTSX_CFGDATA2 (by decide)
  have r8 := hr RTSX_CFGDATA3 (by decide)
  have l1 := rtsx_poll_loop_busy busy_flag_machine RTSX_PHY_RWCTL RTSX_PHY_BUSY
    (fun sc => by rw [r1 sc]; decide) 100000
  have l2 := rtsx_poll_loop_busy busy_flag_machine RTSX_CFGRWCTL RTSX_CFG_BUSY
    (fun sc => by rw [r2 sc]; decide) 1024
  have w1 : ∀ sc, (rtsx_write busy_flag_machine sc RTSX_PHY_ADDR 0xff (0x01 % 256)).2 = 0 :=
    fun sc => busy_flag_machine_write sc _ _ _ (by decide) (by decide)
  have w2 : ∀ sc, (rtsx_write busy_flag_machine sc RTSX_PHY_RWCTL 0xff
      (RTSX_PHY_BUSY ||| RTSX_PHY_READ)).2 = 0 :=
    fun sc => busy_flag_machine_write sc _ _ _ (by decide) (by decide)
  have w3 : ∀ sc, (rtsx_write busy_flag_machine sc RTSX_PHY_DATA0 0xff (0x1234 % 65536)).2 = 0 :=
    fun sc => busy_flag_machine_write sc _ _ _ (by decide) (by decide)
  have w4 : ∀ sc, (rtsx_write busy_flag_machine sc RTSX_PHY_DATA1 0xff
      ((0x1234 % 65536) >>> 8)).2 = 0 :=
    fun sc => busy_flag_machine_write sc _ _ _ (by decide) (by decide)
  have w5 : ∀ sc, (rtsx_write busy_flag_machine sc RTSX_PHY_RWCTL 0xff
      (RTSX_PHY_BUSY ||| RTSX_PHY_WRITE)).2 = 0 :=
    fun sc => busy_flag_machine_write sc _ _ _ (by decide) (by decide)
  have w6 : ∀ sc, (rtsx_write busy_flag_machine sc RTSX_CFGADDR0 0xff (0x0102 % 65536)).2 = 0 :=
    fun sc => busy_flag_machine_write sc _ _ _ (by decide) (by decide)
  have w7 : ∀ sc, (rtsx_write busy_flag_machine sc RTSX_CFGADDR1 0xff
      ((0x0102 % 65536) >>> 8)).2 = 0 :=
    fun sc => busy_flag_machine_write sc _ _ _ (by decide) (by decide)
  have w8 : ∀ sc, (rtsx_write busy_flag_machine sc RTSX_CFGRWCTL 0xff
      (RTSX_CFG_BUSY ||| ((0 % 256) &&& (0x03 <<< 4)))).2 = 0 :=
    fun sc => busy_flag_machine_write sc _ _ _ (by decide) (by decide)
  refine ⟨r1, r2, by decide, by decide, ?_, ?_, ?_⟩
  · simp only [rtsx_read_phy, RTSX_WRITE, RTSX_READ, w1, w2, l1, r3, r4, ne_eq,
      not_true_eq_false, if_false]
    decide
  · simp only [rtsx_write_phy, RTSX_WRITE, w3, w4, w1, w5, l1, ne_eq,
      not_true_eq_false, if_false]
    decide
  · simp only [rtsx_read_cfg, RTSX_WRITE, RTSX_READ, w6, w7, w8, l2, r5, r6, r7, r8, ne_eq,
      not_true_eq_false, if_false]
    decide

-- ---------------------------------------------------------------------------
-- C14, C15: the SD clock
-- ---------------------------------------------------------------------------

/-- The register writes of a trace made of two parts. -/
theorem reg_writes_append (t1 t2 : List event) :
    reg_writes (t1 ++ t2) = reg_writes t1 ++ reg_writes t2 :=
  List.filterMap_append _ _ _

/-- Reads of `RTSX_HAIMR` are no register writes. -/
theorem reg_writes_reads (t : List event) (h : ∀ e ∈ t, ∃ v, e = event.read4 RTSX_HAIMR v) :
    reg_writes t = [] := by
  induction t with
  | nil => rfl
  | cons e t ih =>
    obtain ⟨v, rfl⟩ := h e (List.mem_cons_self _ _)
    have := ih (fun e he => h e (List.mem_cons_of_mem _ he))
    unfold reg_writes at this ⊢
    rw [List.filterMap_cons, this]
    rfl

/-- The request word of `rtsx_write` is the descriptor packing with both top bits set. -/
theorem haimr_write_word (addr mask val : Nat) :
    (RTSX_HAIMR_BUSY ||| RTSX_HAIMR_WRITE |||
      ((((addr % 65536) &&& 0x3FFF) <<< 16) ||| ((mask % 256) <<< 8) ||| (val % 256))) % 2 ^ 32 =
      rtsx_cmd_word 3 addr mask val := by
  rw [rtsx_cmd_word_eq, show RTSX_HAIMR_BUSY ||| RTSX_HAIMR_WRITE = 3221225472 from rfl,
    land_3fff, Nat.shiftLeft_eq, Nat.shiftLeft_eq]
  have h1 : addr % 65536 % 16384 * 2 ^ 16 ||| mask % 256 * 2 ^ 8 =
      addr % 65536 % 16384 * 2 ^ 16 + mask % 256 * 2 ^ 8 :=
    lor_eq_add 16 _ _ (by omega) (by omega)
  rw [h1]
  have h2 : (addr % 65536 % 16384 * 2 ^ 16 + mask % 256 * 2 ^ 8) ||| val % 256 =
      addr % 65536 % 16384 * 2 ^ 16 + mask % 256 * 2 ^ 8 + val % 256 :=
    lor_eq_add 8 _ _ (by omega) (by omega)
  rw [h2]
  have h3 : 3221225472 ||| (addr % 65536 % 16384 * 2 ^ 16 + mask % 256 * 2 ^ 8 + val % 256) =
      3221225472 + (addr % 65536 % 16384 * 2 ^ 16 + mask % 256 * 2 ^ 8 + val % 256) :=
    lor_eq_add 30 _ _ (by decide) (by omega)
  rw [h3]
  omega

/-- The call `rtsx_write` makes one internal-register write: the 14-bit address, the mask
byte and the value byte of its arguments. -/
theorem rtsx_write_wrote {W : Type} (M : machine W) (sc : rtsx_softc W) (addr mask val : Nat) :
    wrote sc (rtsx_write M sc addr mask val).1 [(addr &&& 0x3FFF, mask % 256, val % 256)] := by
  obtain ⟨t, et, -, ha⟩ := rtsx_write_loop_trace M val 1024 (WRITE4 M sc RTSX_HAIMR
      (RTSX_HAIMR_BUSY ||| RTSX_HAIMR_WRITE |||
        ((((addr % 65536) &&& 0x3FFF) <<< 16) ||| ((mask % 256) <<< 8) ||| (val % 256))))
  obtain ⟨f1, f2, f3, f4⟩ := rtsx_cmd_word_fields 3 addr mask val
  have hbit : rtsx_cmd_word 3 addr mask val &&& RTSX_HAIMR_WRITE ≠ 0 := by
    intro h
    have ht : (rtsx_cmd_word 3 addr mask val &&& RTSX_HAIMR_WRITE).testBit 30 = false := by
      rw [h]
      exact Nat.zero_testBit 30
    rw [Nat.testBit_and, show RTSX_HAIMR_WRITE = 2 ^ 30 from rfl, Nat.testBit_two_pow_self,
      Bool.and_true, Nat.testBit_to_div_mod, ← Nat.shiftRight_eq_div_pow, f1] at ht
    revert ht
    decide
  refine ⟨event.write4 RTSX_HAIMR (rtsx_cmd_word 3 addr mask val) :: t, ?_, ?_⟩
  · unfold rtsx_write
    rw [et, ← haimr_write_word]
    simp only [WRITE4, List.append_assoc, List.singleton_append]
  · have hr := reg_writes_reads t ha
    unfold reg_writes at hr ⊢
    rw [List.filterMap_cons, hr]
    simp only [reg_write_of, hbit, ne_eq, not_false_eq_true, and_self, if_true, f2, f3, f4,
      land_3fff]

theorem wrote_refl {W : Type} (sc : rtsx_softc W) : wrote sc sc [] :=
  ⟨[], by simp, rfl⟩

theorem wrote_trans {W : Type} {a b c : rtsx_softc W} {l1 l2 : List (Nat × Nat × Nat)}
    (h1 : wrote a b l1) (h2 : wrote b c l2) : wrote a c (l1 ++ l2) := by
  obtain ⟨t1, e1, r1⟩ := h1
  obtain ⟨t2, e2, r2⟩ := h2
  exact ⟨t1 ++ t2, by rw [e2, e1, List.append_assoc], by rw [reg_writes_append, r1, r2]⟩

theorem RTSX_WRITE_eq {W β : Type} (M : machine W) (sc : rtsx_softc W) (reg val : Nat)
    (ret : rtsx_softc W → Nat → β) (k : rtsx_softc W → β) :
    RTSX_WRITE M sc reg val ret k = RTSX_BITOP M sc reg 0xff val ret k := rfl

theorem RTSX_CLR_eq {W β : Type} (M : machine W) (sc : rtsx_softc W) (reg bits : Nat)
    (ret : rtsx_softc W → Nat → β) (k : rtsx_softc W → β) :
    RTSX_CLR M sc reg bits ret k = RTSX_BITOP M sc reg bits 0 ret k := rfl

theorem RTSX_SET_eq {W β : Type} (M : machine W) (sc : rtsx_softc W) (reg bits : Nat)
    (ret : rtsx_softc W → Nat → β) (k : rtsx_softc W → β) :
    RTSX_SET M sc reg bits ret k = RTSX_BITOP M sc reg bits 0xff ret k := rfl

/-- A register write macro in front of the rest `k` of a function that returns 0: the
write was made and succeeded, and the rest ran. -/
theorem RTSX_BITOP_wrote {W : Type} (M : machine W) (sc : rtsx_softc W) (reg mask bits : Nat)
    (k : rtsx_softc W → rtsx_softc W × Nat) (l : List (Nat × Nat × Nat))
    (hk : ∀ s, (k s).2 = 0 → wrote s (k s).1 l)
    (h : (RTSX_BITOP M sc reg mask bits Prod.mk k).2 = 0) :
    wrote sc (RTSX_BITOP M sc reg mask bits Prod.mk k).1
      ((reg &&& 0x3FFF, mask % 256, bits % 256) :: l) := by
  unfold RTSX_BITOP at h ⊢
  by_cases he : (rtsx_write M sc reg mask bits).2 = 0
  · simp only [he, ne_eq, not_true_eq_false, if_false] at h ⊢
    exact wrote_trans (rtsx_write_wrote M sc reg mask bits) (hk _ h)
  · simp only [he, ne_eq, not_false_eq_true, if_true] at h

/-- When `rtsx_switch_sd_clock` returns 0 it has made its eleven register writes. -/
theorem rtsx_switch_sd_clock_wrote {W : Type} (M : machine W) (n div mcu : Nat) :
    ∀ sc : rtsx_softc W, (rtsx_switch_sd_clock M sc n div mcu).2 = 0 →
      wrote sc (rtsx_switch_sd_clock M sc n div mcu).1
        [ (RTSX_SD_CFG1 &&& 0x3FFF, RTSX_SD_MODE_MASK % 256, 0 % 256),
          (RTSX_CLK_CTL &&& 0x3FFF, RTSX_CLK_LOW_FREQ % 256, 0xff % 256),
          (RTSX_CARD_CLK_SOURCE &&& 0x3FFF, 0xff % 256,
            (RTSX_CRC_FIX_CLK ||| RTSX_SD30_VAR_CLK0 ||| RTSX_SAMPLE_VAR_CLK1) % 256),
          (RTSX_SD_SAMPLE_POINT_CTL &&& 0x3FFF, RTSX_SD20_RX_SEL_MASK % 256, 0 % 256),
          (RTSX_SD_PUSH_POINT_CTL &&& 0x3FFF, 0xff % 256, RTSX_SD20_TX_NEG_EDGE % 256),
          (RTSX_CLK_DIV &&& 0x3FFF, 0xff % 256, ((div <<< 4) ||| mcu) % 256),
          (RTSX_SSC_CTL1 &&& 0x3FFF, RTSX_RSTB % 256, 0 % 256),
          (RTSX_SSC_CTL2 &&& 0x3FFF, RTSX_SSC_DEPTH_MASK % 256, 0 % 256),
          (RTSX_SSC_DIV_N_0 &&& 0x3FFF, 0xff % 256, n % 256 % 256),
          (RTSX_SSC_CTL1 &&& 0x3FFF, RTSX_RSTB % 256, 0xff % 256),
          (RTSX_CLK_CTL &&& 0x3FFF, RTSX_CLK_LOW_FREQ % 256, 0 % 256) ] := by
  intro sc h
  unfold rtsx_switch_sd_clock at h ⊢
  simp only [RTSX_WRITE_eq, RTSX_CLR_eq, RTSX_SET_eq] at h ⊢
  refine RTSX_BITOP_wrote M _ _ _ _ _ _ (fun s1 h1 => ?_) h
  refine RTSX_BITOP_wrote M _ _ _ _ _ _ (fun s2 h2 => ?_) h1
  refine RTSX_BITOP_wrote M _ _ _ _ _ _ (fun s3 h3 => ?_) h2
  refine RTSX_BITOP_wrote M _ _ _ _ _ _ (fun s4 h4 => ?_) h3
  refine RTSX_BITOP_wrote M _ _ _ _ _ _ (fun s5 h5 => ?_) h4
  refine RTSX_BITOP_wrote M _ _ _ _ _ _ (fun s6 h6 => ?_) h5
  refine RTSX_BITOP_wrote M _ _ _ _ _ _ (fun s7 h7 => ?_) h6
  refine RTSX_BITOP_wrote M _ _ _ _ _ _ (fun s8 h8 => ?_) h7
  refine RTSX_BITOP_wrote M _ _ _ _ _ _ (fun s9 h9 => ?_) h8
  refine RTSX_BITOP_wrote M _ _ _ _ _ _ (fun s10 h10 => ?_) h9
  refine RTSX_BITOP_wrote M _ _ _ _ _ _ (fun s11 _ => ?_) h10
  exact wrote_refl s11

/-- When `rtsx_stop_sd_clock` returns 0 it has made its two register writes. -/
theorem rtsx_stop_sd_clock_wrote {W : Type} (M : machine W) (sc : rtsx_softc W)
    (h : (rtsx_stop_sd_clock M sc).2 = 0) :
    wrote sc (rtsx_stop_sd_clock M sc).1
      [ (RTSX_CARD_CLK_EN &&& 0x3FFF, RTSX_CARD_CLK_EN_ALL % 256, 0 % 256),
        (RTSX_SD_BUS_STAT &&& 0x3FFF, RTSX_SD_CLK_FORCE_STOP % 256, 0xff % 256) ] := by
  unfold rtsx_stop_sd_clock at h ⊢
  simp only [RTSX_CLR_eq, RTSX_SET_eq] at h ⊢
  refine RTSX_BITOP_wrote M _ _ _ _ _ _ (fun s1 h1 => ?_) h
  refine RTSX_BITOP_wrote M _ _ _ _ _ _ (fun s2 _ => ?_) h1
  exact wrote_refl s2

/-- The clock program of one of the three supported frequencies: the divide field of
`SD_CFG1` is cleared and the clock is switched. -/
theorem rtsx_clock_program_wrote {W : Type} (M : machine W) (sc : rtsx_softc W)
    (n div mcu : Nat)
    (h : (RTSX_CLR M sc RTSX_SD_CFG1 RTSX_CLK_DIVIDE_MASK Prod.mk fun sc1 =>
      rtsx_switch_sd_clock M sc1 n div mcu).2 = 0)
    (hl : clock_switch_writes n div mcu =
      [ (RTSX_SD_CFG1 &&& 0x3FFF, RTSX_SD_MODE_MASK % 256, 0 % 256),
          (RTSX_CLK_CTL &&& 0x3FFF, RTSX_CLK_LOW_FREQ % 256, 0xff % 256),
          (RTSX_CARD_CLK_SOURCE &&& 0x3FFF, 0xff % 256,
            (RTSX_CRC_FIX_CLK ||| RTSX_SD30_VAR_CLK0 ||| RTSX_SAMPLE_VAR_CLK1) % 256),
          (RTSX_SD_SAMPLE_POINT_CTL &&& 0x3FFF, RTSX_SD20_RX_SEL_MASK % 256, 0 % 256),
          (RTSX_SD_PUSH_POINT_CTL &&& 0x3FFF, 0xff % 256, RTSX_SD20_TX_NEG_EDGE % 256),
          (RTSX_CLK_DIV &&& 0x3FFF, 0xff % 256, ((div <<< 4) ||| mcu) % 256),
          (RTSX_SSC_CTL1 &&& 0x3FFF, RTSX_RSTB % 256, 0 % 256),
          (RTSX_SSC_CTL2 &&& 0x3FFF, RTSX_SSC_DEPTH_MASK % 256, 0 % 256),
          (RTSX_SSC_DIV_N_0 &&& 0x3FFF, 0xff % 256, n % 256 % 256),
          (RTSX_SSC_CTL1 &&& 0x3FFF, RTSX_RSTB % 256, 0xff % 256),
          (RTSX_CLK_CTL &&& 0x3FFF, RTSX_CLK_LOW_FREQ % 256, 0 % 256) ]) :
    wrote sc (RTSX_CLR M sc RTSX_SD_CFG1 RTSX_CLK_DIVIDE_MASK Prod.mk fun sc1 =>
      rtsx_switch_sd_clock M sc1 n div mcu).1
      ((RTSX_SD_CFG1 &&& 0x3FFF, RTSX_CLK_DIVIDE_MASK, 0) :: clock_switch_writes n div mcu) := by
  rw [hl]
  rw [RTSX_CLR_eq] at h ⊢
  exact RTSX_BITOP_wrote M _ _ _ _ _ _ (fun s hs => rtsx_switch_sd_clock_wrote M n div mcu s hs) h


/-- The requests at or above 50 MHz are rounded to 50 MHz. -/
theorem rtsx_sd_clock_round_high (f : Nat) (h : RTSX_SDCLK_50MHZ ≤ f) :
    rtsx_sd_clock_round f = RTSX_SDCLK_50MHZ := by
  unfold rtsx_sd_clock_round
  rw [if_pos h]

/-- The three clock programs of `rtsx_set_sd_clock`, by the rounded frequency. -/
theorem rtsx_set_sd_clock_rounded {W : Type} (M : machine W) (sc : rtsx_softc W) (f : Nat)
    (h0 : f ≠ RTSX_SDCLK_OFF) :
    (rtsx_sd_clock_round f = RTSX_SDCLK_400KHZ →
      rtsx_set_sd_clock M sc f =
        RTSX_CLR M sc RTSX_SD_CFG1 RTSX_CLK_DIVIDE_MASK Prod.mk fun sc1 =>
          rtsx_switch_sd_clock M sc1 80 RTSX_CLK_DIV_8 7) ∧
    (rtsx_sd_clock_round f = RTSX_SDCLK_25MHZ →
      rtsx_set_sd_clock M sc f =
        RTSX_CLR M sc RTSX_SD_CFG1 RTSX_CLK_DIVIDE_MASK Prod.mk fun sc1 =>
          rtsx_switch_sd_clock M sc1 100 RTSX_CLK_DIV_4 7) ∧
    (rtsx_sd_clock_round f = RTSX_SDCLK_50MHZ →
      rtsx_set_sd_clock M sc f =
        RTSX_CLR M sc RTSX_SD_CFG1 RTSX_CLK_DIVIDE_MASK Prod.mk fun sc1 =>
          rtsx_switch_sd_clock M sc1 100 RTSX_CLK_DIV_2 7) := by
  have d1 : (RTSX_SDCLK_25MHZ = RTSX_SDCLK_400KHZ) = False := by decide
  have d2 : (RTSX_SDCLK_50MHZ = RTSX_SDCLK_400KHZ) = False := by decide
  have d3 : (RTSX_SDCLK_50MHZ = RTSX_SDCLK_25MHZ) = False := by decide
  refine ⟨?_, ?_, ?_⟩
  · intro hr
    simp only [rtsx_set_sd_clock, h0, hr, if_true, if_false]
  · intro hr
    simp only [rtsx_set_sd_clock, h0, hr, if_true, if_false, d1]
  · intro hr
    simp only [rtsx_set_sd_clock, h0, hr, if_true, if_false, d2, d3]

/-- C14: `rtsx_set_sd_clock` follows the reference. A request of 400 kHz, 25 MHz or 50 MHz
clears the divide field of `SD_CFG1` and calls the clock switch with (N, divider, MCU
count) = (80, DIV_8, 7), (100, DIV_4, 7), (100, DIV_2, 7); a request at or above 50 MHz
does what a request of 50 MHz does; when all register writes succeed (the call returns 0)
the registers written are, in order, those of the reference for that triple; and a request
of 0 that returns 0 has made the two clock-stop writes only (card clock enable bits
cleared, clock force stop set), none of them to the divider or the N-value register. -/
theorem rtsx_set_sd_clock_reference {W : Type} (M : machine W) (sc : rtsx_softc W) :
    (rtsx_set_sd_clock M sc RTSX_SDCLK_400KHZ =
      RTSX_CLR M sc RTSX_SD_CFG1 RTSX_CLK_DIVIDE_MASK Prod.mk fun sc1 =>
        rtsx_switch_sd_clock M sc1 80 RTSX_CLK_DIV_8 7) ∧
    (rtsx_set_sd_clock M sc RTSX_SDCLK_25MHZ =
      RTSX_CLR M sc RTSX_SD_CFG1 RTSX_CLK_DIVIDE_MASK Prod.mk fun sc1 =>
        rtsx_switch_sd_clock M sc1 100 RTSX_CLK_DIV_4 7) ∧
    (rtsx_set_sd_clock M sc RTSX_SDCLK_50MHZ =
      RTSX_CLR M sc RTSX_SD_CFG1 RTSX_CLK_DIVIDE_MASK Prod.mk fun sc1 =>
        rtsx_switch_sd_clock M sc1 100 RTSX_CLK_DIV_2 7) ∧
    (∀ f, RTSX_SDCLK_50MHZ ≤ f →
      rtsx_set_sd_clock M sc f = rtsx_set_sd_clock M sc RTSX_SDCLK_50MHZ) ∧
    ((rtsx_set_sd_clock M sc RTSX_SDCLK_400KHZ).2 = 0 →
      wrote sc (rtsx_set_sd_clock M sc RTSX_SDCLK_400KHZ).1
        ((RTSX_SD_CFG1 &&& 0x3FFF, RTSX_CLK_DIVIDE_MASK, 0) ::
          clock_switch_writes 80 RTSX_CLK_DIV_8 7)) ∧
    ((rtsx_set_sd_clock M sc RTSX_SDCLK_25MHZ).2 = 0 →
      wrote sc (rtsx_set_sd_clock M sc RTSX_SDCLK_25MHZ).1
        ((RTSX_SD_CFG1 &&& 0x3FFF, RTSX_CLK_DIVIDE_MASK, 0) ::
          clock_switch_writes 100 RTSX_CLK_DIV_4 7)) ∧
    ((rtsx_set_sd_clock M sc RTSX_SDCLK_50MHZ).2 = 0 →
      wrote sc (rtsx_set_sd_clock M sc RTSX_SDCLK_50MHZ).1
        ((RTSX_SD_CFG1 &&& 0x3FFF, RTSX_CLK_DIVIDE_MASK, 0) ::
          clock_switch_writes 100 RTSX_CLK_DIV_2 7)) ∧
    ((rtsx_set_sd_clock M sc RTSX_SDCLK_OFF).2 = 0 →
      wrote sc (rtsx_set_sd_clock M sc RTSX_SDCLK_OFF).1
        [ (RTSX_CARD_CLK_EN &&& 0x3FFF, RTSX_CARD_CLK_EN_ALL, 0),
          (RTSX_SD_BUS_STAT &&& 0x3FFF, RTSX_SD_CLK_FORCE_STOP, 0xFF) ]) ∧
    (∀ w ∈ [ (RTSX_CARD_CLK_EN &&& 0x3FFF, RTSX_CARD_CLK_EN_ALL, 0),
          (RTSX_SD_BUS_STAT &&& 0x3FFF, RTSX_SD_CLK_FORCE_STOP, 0xFF) ],
      w.1 ≠ RTSX_CLK_DIV &&& 0x3FFF ∧ w.1 ≠ RTSX_SSC_DIV_N_0 &&& 0x3FFF) := by
  have e400 := (rtsx_set_sd_clock_rounded M sc RTSX_SDCLK_400KHZ (by decide)).1 (by decide)
  have e25 := (rtsx_set_sd_clock_rounded M sc RTSX_SDCLK_25MHZ (by decide)).2.1 (by decide)
  have e50 : ∀ f, RTSX_SDCLK_50MHZ ≤ f → rtsx_set_sd_clock M sc f =
      RTSX_CLR M sc RTSX_SD_CFG1 RTSX_CLK_DIVIDE_MASK Prod.mk fun sc1 =>
        rtsx_switch_sd_clock M sc1 100 RTSX_CLK_DIV_2 7 := by
    intro f hf
    have h0 : f ≠ RTSX_SDCLK_OFF := by
      intro h
      rw [h] at hf
      exact absurd hf (by decide)
    exact (rtsx_set_sd_clock_rounded M sc f h0).2.2 (rtsx_sd_clock_round_high f hf)
  have eoff : rtsx_set_sd_clock M sc RTSX_SDCLK_OFF = rtsx_stop_sd_clock M sc := by
    unfold rtsx_set_sd_clock
    rw [if_pos rfl]
  refine ⟨e400, e25, e50 _ (Nat.le_refl _), ?_, ?_, ?_, ?_, ?_, by decide⟩
  · intro f hf
    rw [e50 f hf, e50 _ (Nat.le_refl _)]
  · rw [e400]
    intro h
    exact rtsx_clock_program_wrote M sc _ _ _ h (by decide)
  · rw [e25]
    intro h
    exact rtsx_clock_program_wrote M sc _ _ _ h (by decide)
  · rw [e50 _ (Nat.le_refl _)]
    intro h
    exact rtsx_clock_program_wrote M sc _ _ _ h (by decide)
  · rw [eoff]
    intro h
    exact rtsx_stop_sd_clock_wrote M sc h

/-- From 400 kHz up the rounding of `rtsx_set_sd_clock` is a round-down: the selected
frequency is supported, is not above the request, and no supported frequency lies
between the two. -/
theorem rtsx_sd_clock_round_down (f : Nat) (h : RTSX_SDCLK_400KHZ ≤ f) :
    rtsx_sd_clock_round f ∈ [RTSX_SDCLK_400KHZ, RTSX_SDCLK_25MHZ, RTSX_SDCLK_50MHZ] ∧
    rtsx_sd_clock_round f ≤ f ∧
    ∀ g ∈ [RTSX_SDCLK_400KHZ, RTSX_SDCLK_25MHZ, RTSX_SDCLK_50MHZ], g ≤ f →
      g ≤ rtsx_sd_clock_round f := by
  simp only [rtsx_sd_clock_round, RTSX_SDCLK_400KHZ, RTSX_SDCLK_25MHZ, RTSX_SDCLK_50MHZ,
    List.mem_cons, List.mem_singleton, List.not_mem_nil, or_false] at h ⊢
  by_cases h50 : f ≥ 50000000
  · rw [if_pos h50]
    refine ⟨by simp, h50, ?_⟩
    rintro g (rfl | rfl | rfl) _ <;> omega
  · rw [if_neg h50]
    by_cases h25 : f ≥ 25000000
    · rw [if_pos h25]
      refine ⟨by simp, h25, ?_⟩
      rintro g (rfl | rfl | rfl) hg <;> omega
    · rw [if_neg h25]
      refine ⟨by simp, h, ?_⟩
      rintro g (rfl | rfl | rfl) hg <;> omega

/-- C15, the code at its failing input: the lowest clock the driver announces, 250 kHz,
is not zero and is rounded to 400 kHz, which is above the request, and is programmed as
400 kHz is. -/
theorem rtsx_sd_clock_round_up_250khz :
    RTSX_SDCLK_250KHZ ≠ RTSX_SDCLK_OFF ∧
    rtsx_sd_clock_round RTSX_SDCLK_250KHZ = RTSX_SDCLK_400KHZ ∧
    RTSX_SDCLK_250KHZ < rtsx_sd_clock_round RTSX_SDCLK_250KHZ ∧
    rtsx_set_sd_clock silent_machine (idle_softc ()) RTSX_SDCLK_250KHZ =
      rtsx_set_sd_clock silent_machine (idle_softc ()) RTSX_SDCLK_400KHZ := by
  refine ⟨by decide, by decide, by decide, ?_⟩
  rw [(rtsx_set_sd_clock_rounded silent_machine (idle_softc ()) RTSX_SDCLK_250KHZ
      (by decide)).1 (by decide),
    (rtsx_set_sd_clock_rounded silent_machine (idle_softc ()) RTSX_SDCLK_400KHZ
      (by decide)).1 (by decide)]


/-- Witness of C14: over a chip that completes every register write, the requests of
400 kHz and of 0 return 0 and have made the writes of the reference, and 208 MHz is
programmed as 50 MHz is. -/
theorem rtsx_set_sd_clock_reference_witness :
    ((rtsx_set_sd_clock busy_flag_machine (idle_softc 0) RTSX_SDCLK_400KHZ).2 = 0 ∧
      wrote (idle_softc 0) (rtsx_set_sd_clock busy_flag_machine (idle_softc 0)
        RTSX_SDCLK_400KHZ).1
        ((RTSX_SD_CFG1 &&& 0x3FFF, RTSX_CLK_DIVIDE_MASK, 0) ::
          clock_switch_writes 80 RTSX_CLK_DIV_8 7)) ∧
    ((rtsx_set_sd_clock busy_flag_machine (idle_softc 0) RTSX_SDCLK_OFF).2 = 0 ∧
      wrote (idle_softc 0) (rtsx_set_sd_clock busy_flag_machine (idle_softc 0)
        RTSX_SDCLK_OFF).1
        [ (RTSX_CARD_CLK_EN &&& 0x3FFF, RTSX_CARD_CLK_EN_ALL, 0),
          (RTSX_SD_BUS_STAT &&& 0x3FFF, RTSX_SD_CLK_FORCE_STOP, 0xFF) ]) ∧
    (RTSX_SDCLK_50MHZ ≤ RTSX_SDCLK_208MHZ ∧
      rtsx_set_sd_clock busy_flag_machine (idle_softc 0) RTSX_SDCLK_208MHZ =
        rtsx_set_sd_clock busy_flag_machine (idle_softc 0) RTSX_SDCLK_50MHZ) :=
  ⟨⟨by decide, (rtsx_set_sd_clock_reference busy_flag_machine (idle_softc 0)).2.2.2.2.1
      (by decide)⟩,
    ⟨by decide, (rtsx_set_sd_clock_reference busy_flag_machine (idle_softc 0)).2.2.2.2.2.2.2.1
      (by decide)⟩,
    ⟨by decide, (rtsx_set_sd_clock_reference busy_flag_machine (idle_softc 0)).2.2.2.1
      RTSX_SDCLK_208MHZ (by decide)⟩⟩

-- ---------------------------------------------------------------------------
-- C19: the result of rtsx_wait_intr
-- ---------------------------------------------------------------------------

/-- Clearing in a 32-bit word the bits it shares with a mask keeps exactly the bits
outside the mask. -/
theorem clear_consumed_testBit (x m i : Nat) (hx : x < 2 ^ 32) :
    (x &&& (0xFFFFFFFF ^^^ (x &&& m))).testBit i = (x.testBit i && !m.testBit i) := by
  rw [Nat.testBit_and, Nat.testBit_xor, Nat.testBit_and]
  by_cases hi : i < 32
  · rw [show (0xFFFFFFFF : Nat) = 2 ^ 32 - 1 from rfl, Nat.testBit_two_pow_sub_one]
    simp only [hi, decide_True]
    cases x.testBit i <;> cases m.testBit i <;> rfl
  · have : x.testBit i = false :=
      Nat.testBit_lt_two_pow (Nat.lt_of_lt_of_le hx (Nat.pow_le_pow_right (by decide) (by omega)))
    rw [this]
    rfl

/-- The second part of `rtsx_wait_intr` (lines 505-519) applied to the wake. -/
theorem rtsx_wait_intr_of_wake {W : Type} (M : machine W) (sc : rtsx_softc W) (mask : Nat) :
    (rtsx_wait_intr M sc mask).2 =
      (if (if ISSET (rtsx_wait_intr_wake M sc mask).1.rtsx_flags RTSX_F_CARD_PRESENT = true then
            (rtsx_wait_intr_wake M sc mask).2.2 else MMC_ERR_INVALID) = 0 ∧
          (rtsx_wait_intr_wake M sc mask).2.1 &&& RTSX_TRANS_FAIL_INT ≠ 0 then MMC_ERR_FAILED
        else if ISSET (rtsx_wait_intr_wake M sc mask).1.rtsx_flags RTSX_F_CARD_PRESENT = true then
          (rtsx_wait_intr_wake M sc mask).2.2 else MMC_ERR_INVALID) ∧
    (rtsx_wait_intr M sc mask).1.rtsx_intr_status =
      (rtsx_wait_intr_wake M sc mask).1.rtsx_intr_status &&&
        (0xFFFFFFFF ^^^ (rtsx_wait_intr_wake M sc mask).2.1) ∧
    (rtsx_wait_intr M sc mask).1.rtsx_flags = (rtsx_wait_intr_wake M sc mask).1.rtsx_flags ∧
    (rtsx_wait_intr M sc mask).1.rtsx_mtx = (rtsx_wait_intr_wake M sc mask).1.rtsx_mtx :=
  ⟨rfl, rfl, rfl, rfl⟩

/-- C19 refuted: when `msleep` returns `EWOULDBLOCK` while the transfer-complete bit has
been latched, `rtsx_wait_intr` returns `MMC_ERR_TIMEOUT` and the accumulated status still
holds the bit: it is not the value at wake with the bits of the mask cleared, which would
be 0. -/
theorem rtsx_wait_intr_timeout_keeps_bits :
    (rtsx_wait_intr_wake race_machine (idle_softc ()) RTSX_TRANS_OK_INT).1.rtsx_intr_status =
      RTSX_TRANS_OK_INT ∧
    (rtsx_wait_intr race_machine (idle_softc ()) RTSX_TRANS_OK_INT).2 = MMC_ERR_TIMEOUT ∧
    (rtsx_wait_intr race_machine (idle_softc ()) RTSX_TRANS_OK_INT).1.rtsx_intr_status =
      RTSX_TRANS_OK_INT ∧
    RTSX_TRANS_OK_INT &&& (0xFFFFFFFF ^^^
      (RTSX_TRANS_OK_INT &&& (RTSX_TRANS_OK_INT ||| RTSX_TRANS_FAIL_INT))) = 0 ∧
    RTSX_TRANS_OK_INT ≠ 0 := by
  decide

/-- A word that has no bit of `m` after gaining bits had none before. -/
theorem land_of_lor_land (a x m : Nat) (h : (a ||| x) &&& m = 0) : a &&& m = 0 := by
  apply Nat.eq_of_testBit_eq
  intro i
  have hi := congrArg (fun n => n.testBit i) h
  simp only [Nat.testBit_and, Nat.testBit_or, Nat.zero_testBit] at hi ⊢
  cases ha : a.testBit i <;> cases hm : m.testBit i <;> simp_all

/-- The accumulated status only gains bits over returns of `msleep`. -/
theorem msleep_foldl_status {W : Type} (m : Nat) (ws : List (wakeup W)) :
    ∀ sc : rtsx_softc W, (ws.foldl msleep sc).rtsx_intr_status &&& m = 0 →
      sc.rtsx_intr_status &&& m = 0 := by
  induction ws with
  | nil =>
    intro sc h
    exact h
  | cons wk ws ih =>
    intro sc h
    exact land_of_lor_land _ _ _ (ih (msleep sc wk) h)

/-- The accumulated status stays a 32-bit word over returns of `msleep`. -/
theorem msleep_foldl_lt {W : Type} (ws : List (wakeup W)) :
    ∀ sc : rtsx_softc W, sc.rtsx_intr_status < 2 ^ 32 →
      (ws.foldl msleep sc).rtsx_intr_status < 2 ^ 32 := by
  induction ws with
  | nil =>
    intro sc h
    exact h
  | cons wk ws ih =>
    intro sc h
    exact ih (msleep sc wk) (Nat.or_lt_two_pow h (Nat.mod_lt _ (by decide)))

/-- The loop of `rtsx_wait_intr` sleeps through returns of `msleep` that end no wait. -/
theorem rtsx_wait_intr_loop_through {W : Type} (m : Nat) (rest : List (wakeup W))
    (pre : List (wakeup W)) :
    ∀ sc : rtsx_softc W, sleeps_through m sc pre →
      rtsx_wait_intr_loop m (pre ++ rest) sc =
        rtsx_wait_intr_loop m rest (pre.foldl msleep sc) := by
  induction pre with
  | nil =>
    intro sc _
    rfl
  | cons wk pre ih =>
    intro sc h
    have hb : wk.ewouldblock = false := h.1 wk (List.mem_cons_self _ _)
    have hz : (msleep sc wk).rtsx_intr_status &&& m = 0 := msleep_foldl_status m pre _ h.2
    rw [List.cons_append, rtsx_wait_intr_loop]
    simp only [hb, Bool.false_eq_true, if_false, hz, if_true, List.foldl_cons]
    exact ih (msleep sc wk) ⟨fun p hp => h.1 p (List.mem_cons_of_mem _ hp), h.2⟩

/-- Every history of returns of `msleep` is slept through up to its end, or up to a first
return that is a timeout or leaves a bit of the mask accumulated. -/
theorem sleeps_through_cover {W : Type} (m : Nat) (ws : List (wakeup W)) :
    ∀ sc : rtsx_softc W, sc.rtsx_intr_status &&& m = 0 →
      ∃ pre, sleeps_through m sc pre ∧
        (ws = pre ∨ ∃ wk post, ws = pre ++ wk :: post ∧
          (wk.ewouldblock = true ∨
            (msleep (pre.foldl msleep sc) wk).rtsx_intr_status &&& m ≠ 0)) := by
  induction ws with
  | nil =>
    intro sc h
    exact ⟨[], ⟨fun p hp => absurd hp (List.not_mem_nil p), h⟩, Or.inl rfl⟩
  | cons wk ws ih =>
    intro sc h
    cases hb : wk.ewouldblock with
    | true =>
      exact ⟨[], ⟨fun p hp => absurd hp (List.not_mem_nil p), h⟩,
        Or.inr ⟨wk, ws, rfl, Or.inl hb⟩⟩
    | false =>
      by_cases hz : (msleep sc wk).rtsx_intr_status &&& m = 0
      · obtain ⟨pre, hp, hc⟩ := ih (msleep sc wk) hz
        refine ⟨wk :: pre, ⟨?_, hp.2⟩, ?_⟩
        · intro p hm
          rcases List.mem_cons.mp hm with e | e
          · rw [e]
            exact hb
          · exact hp.1 p e
        · rcases hc with e | ⟨wk1, post, e, hc⟩
          · exact Or.inl (by rw [e])
          · exact Or.inr ⟨wk1, post, by rw [e]; rfl, hc⟩
      · exact ⟨[], ⟨fun p hp => absurd hp (List.not_mem_nil p), h⟩,
          Or.inr ⟨wk, ws, rfl, Or.inr hz⟩⟩

/-- The end of `rtsx_wait_intr` after a wake that was no timeout, in the state `w`: the
result is the one of the claim, and the accumulated bits of (mask | transfer-failure) are
consumed. -/
theorem rtsx_wait_intr_woken {W : Type} (M : machine W) (sc w : rtsx_softc W) (mask : Nat)
    (hw : rtsx_wait_intr_wake M sc mask =
      (w, w.rtsx_intr_status &&& (mask ||| RTSX_TRANS_FAIL_INT), 0))
    (hlt : w.rtsx_intr_status < 2 ^ 32) :
    (rtsx_wait_intr M sc mask).2 = wait_result mask w false ∧
    ∀ i, (rtsx_wait_intr M sc mask).1.rtsx_intr_status.testBit i =
      (w.rtsx_intr_status.testBit i && !(mask ||| RTSX_TRANS_FAIL_INT).testBit i) := by
  obtain ⟨hr, hi, -, -⟩ := rtsx_wait_intr_of_wake M sc mask
  rw [hw] at hr hi
  simp only at hr hi
  refine ⟨?_, ?_⟩
  · rw [hr]
    unfold wait_result
    cases hc : ISSET w.rtsx_flags RTSX_F_CARD_PRESENT with
    | true =>
      simp only [if_true, true_and, Bool.true_eq_false, if_false, Bool.false_eq_true]
    | false =>
      have hinv : MMC_ERR_INVALID ≠ 0 := by decide
      simp only [Bool.false_eq_true, if_false, hinv, false_and, if_true]
  · intro i
    rw [hi]
    exact clear_consumed_testBit _ _ i hlt

/-- The end of `rtsx_wait_intr` after a timeout of `msleep` in a state with the flags and
the accumulated status of `w`: the result is the one of the claim, and nothing is
consumed. -/
theorem rtsx_wait_intr_timed_out {W : Type} (M : machine W) (sc w0 w : rtsx_softc W)
    (mask : Nat)
    (hw : rtsx_wait_intr_wake M sc mask = (w0, 0, MMC_ERR_TIMEOUT))
    (hf : w0.rtsx_flags = w.rtsx_flags) (hst : w0.rtsx_intr_status = w.rtsx_intr_status)
    (hlt : w.rtsx_intr_status < 2 ^ 32) :
    (rtsx_wait_intr M sc mask).2 = wait_result mask w true ∧
    (rtsx_wait_intr M sc mask).1.rtsx_intr_status = w.rtsx_intr_status := by
  obtain ⟨hr, hi, -, -⟩ := rtsx_wait_intr_of_wake M sc mask
  rw [hw] at hr hi
  simp only [hf, hst] at hr hi
  have hne : MMC_ERR_TIMEOUT ≠ 0 := by decide
  have hinv : MMC_ERR_INVALID ≠ 0 := by decide
  refine ⟨?_, ?_⟩
  · rw [hr]
    unfold wait_result
    cases hc : ISSET w.rtsx_flags RTSX_F_CARD_PRESENT with
    | true =>
      simp only [if_true, hne, false_and, if_false, Bool.true_eq_false]
    | false =>
      simp only [Bool.false_eq_true, if_false, hinv, false_and, if_true]
  · rw [hi]
    have hx : (0xFFFFFFFF : Nat) ^^^ 0 = 2 ^ 32 - 1 := by decide
    rw [hx, Nat.and_pow_two_sub_one_eq_mod, Nat.mod_eq_of_lt hlt]

/-- C19 amended: the result of `rtsx_wait_intr` against the history of wakes and timeouts,
for every mask and every 32-bit accumulated status. `wait_result` is `MMC_ERR_INVALID` if
the card-present flag is clear after the wait, otherwise `MMC_ERR_TIMEOUT` if `msleep`
timed out, otherwise `MMC_ERR_FAILED` if the transfer-failure bit is among the consumed
bits, otherwise 0. When the status at entry holds a bit of (mask | transfer-failure) the
thread does not sleep and the wait ends in the entry state, not timed out. Otherwise the
thread sleeps through the returns of `msleep` that are no timeout and leave no bit of
(mask | transfer-failure) accumulated, and the wait ends at the first other return: not
timed out at a return that is no timeout, timed out at a return that is one (also when
bits of the mask were latched together with it) or when no return is left. A wait that
did not time out consumes exactly the accumulated bits of (mask | transfer-failure):
afterwards a bit is set exactly if it was accumulated at wake and lies outside
(mask | transfer-failure). A wait that timed out consumes nothing: the accumulated status
is afterwards as it was at wake. Every history is one of these cases. -/
theorem rtsx_wait_intr_result {W : Type} (M : machine W) (sc : rtsx_softc W) (mask : Nat)
    (hs : sc.rtsx_intr_status < 2 ^ 32) :
    (sc.rtsx_intr_status &&& (mask ||| RTSX_TRANS_FAIL_INT) ≠ 0 →
      (rtsx_wait_intr M sc mask).2 = wait_result mask sc false ∧
      ∀ i, (rtsx_wait_intr M sc mask).1.rtsx_intr_status.testBit i =
        (sc.rtsx_intr_status.testBit i && !(mask ||| RTSX_TRANS_FAIL_INT).testBit i)) ∧
    (sc.rtsx_intr_status &&& (mask ||| RTSX_TRANS_FAIL_INT) = 0 →
      ∀ pre, sleeps_through (mask ||| RTSX_TRANS_FAIL_INT) sc pre →
        (∀ wk post,
          M.wakeups sc.rtsx_res sc.rtsx_cmd_dmamem sc.rtsx_data_dmamem = pre ++ wk :: post →
          wk.ewouldblock = false →
          (msleep (pre.foldl msleep sc) wk).rtsx_intr_status &&&
            (mask ||| RTSX_TRANS_FAIL_INT) ≠ 0 →
          (rtsx_wait_intr M sc mask).2 =
            wait_result mask (msleep (pre.foldl msleep sc) wk) false ∧
          ∀ i, (rtsx_wait_intr M sc mask).1.rtsx_intr_status.testBit i =
            ((msleep (pre.foldl msleep sc) wk).rtsx_intr_status.testBit i &&
              !(mask ||| RTSX_TRANS_FAIL_INT).testBit i)) ∧
        (∀ wk post,
          M.wakeups sc.rtsx_res sc.rtsx_cmd_dmamem sc.rtsx_data_dmamem = pre ++ wk :: post →
          wk.ewouldblock = true →
          (rtsx_wait_intr M sc mask).2 =
            wait_result mask (msleep (pre.foldl msleep sc) wk) true ∧
          (rtsx_wait_intr M sc mask).1.rtsx_intr_status =
            (msleep (pre.foldl msleep sc) wk).rtsx_intr_status) ∧
        (M.wakeups sc.rtsx_res sc.rtsx_cmd_dmamem sc.rtsx_data_dmamem = pre →
          (rtsx_wait_intr M sc mask).2 = wait_result mask (pre.foldl msleep sc) true ∧
          (rtsx_wait_intr M sc mask).1.rtsx_intr_status =
            (pre.foldl msleep sc).rtsx_intr_status)) ∧
    (sc.rtsx_intr_status &&& (mask ||| RTSX_TRANS_FAIL_INT) = 0 →
      ∃ pre, sleeps_through (mask ||| RTSX_TRANS_FAIL_INT) sc pre ∧
        (M.wakeups sc.rtsx_res sc.rtsx_cmd_dmamem sc.rtsx_data_dmamem = pre ∨
          ∃ wk post,
            M.wakeups sc.rtsx_res sc.rtsx_cmd_dmamem sc.rtsx_data_dmamem = pre ++ wk :: post ∧
            (wk.ewouldblock = true ∨
              (msleep (pre.foldl msleep sc) wk).rtsx_intr_status &&&
                (mask ||| RTSX_TRANS_FAIL_INT) ≠ 0))) := by
  refine ⟨?_, ?_, ?_⟩
  · intro h0
    apply rtsx_wait_intr_woken M sc sc mask _ hs
    unfold rtsx_wait_intr_wake
    simp only [h0, if_false]
  · intro h0 pre hpre
    have hlt := msleep_foldl_lt pre sc hs
    have hwake : ∀ rest,
        M.wakeups sc.rtsx_res sc.rtsx_cmd_dmamem sc.rtsx_data_dmamem = pre ++ rest →
        rtsx_wait_intr_wake M sc mask =
          rtsx_wait_intr_loop (mask ||| RTSX_TRANS_FAIL_INT) rest (pre.foldl msleep sc) := by
      intro rest e
      unfold rtsx_wait_intr_wake
      simp only [h0, if_true, e]
      exact rtsx_wait_intr_loop_through _ rest pre sc hpre
    refine ⟨?_, ?_, ?_⟩
    · intro wk post e hb hz
      apply rtsx_wait_intr_woken M sc _ mask _
        (Nat.or_lt_two_pow hlt (Nat.mod_lt _ (by decide)))
      rw [hwake _ e, rtsx_wait_intr_loop]
      simp only [hb, Bool.false_eq_true, if_false, hz]
    · intro wk post e hb
      apply rtsx_wait_intr_timed_out M sc (msleep (pre.foldl msleep sc) wk) _ mask _ rfl rfl
        (Nat.or_lt_two_pow hlt (Nat.mod_lt _ (by decide)))
      rw [hwake _ e, rtsx_wait_intr_loop]
      simp only [hb, if_true]
    · intro e
      apply rtsx_wait_intr_timed_out M sc
        { pre.foldl msleep sc with trace := (pre.foldl msleep sc).trace ++ [event.msleep] }
        _ mask _ rfl rfl hlt
      rw [hwake [] (by rw [e, List.append_nil])]
      rfl
  · intro h0
    exact sleeps_through_cover _ _ sc h0

/-- Witness of C19 amended, from the idle controller with a card present: over
`race_machine` the first `msleep` is a timeout with the transfer-complete bit latched, the
result is `MMC_ERR_TIMEOUT` and the bit stays accumulated; over `fail_machine` the first
`msleep` is a wake with the transfer-failure bit, the result is `MMC_ERR_FAILED` and the
bit is consumed; with the transfer-complete bit accumulated at entry the thread does not
sleep, the result is 0 and the bit is consumed. -/
theorem rtsx_wait_intr_result_witness :
    ((rtsx_wait_intr race_machine (idle_softc ()) RTSX_TRANS_OK_INT).2 = MMC_ERR_TIMEOUT ∧
      (rtsx_wait_intr race_machine (idle_softc ()) RTSX_TRANS_OK_INT).1.rtsx_intr_status =
        RTSX_TRANS_OK_INT) ∧
    ((rtsx_wait_intr fail_machine (idle_softc ()) RTSX_TRANS_OK_INT).2 = MMC_ERR_FAILED ∧
      ∀ i, (rtsx_wait_intr fail_machine (idle_softc ())
          RTSX_TRANS_OK_INT).1.rtsx_intr_status.testBit i =
        (RTSX_TRANS_FAIL_INT.testBit i &&
          !(RTSX_TRANS_OK_INT ||| RTSX_TRANS_FAIL_INT).testBit i)) ∧
    ((rtsx_wait_intr silent_machine
        { idle_softc () with rtsx_intr_status := RTSX_TRANS_OK_INT } RTSX_TRANS_OK_INT).2 = 0 ∧
      ∀ i, (rtsx_wait_intr silent_machine
          { idle_softc () with rtsx_intr_status := RTSX_TRANS_OK_INT }
          RTSX_TRANS_OK_INT).1.rtsx_intr_status.testBit i =
        (RTSX_TRANS_OK_INT.testBit i &&
          !(RTSX_TRANS_OK_INT ||| RTSX_TRANS_FAIL_INT).testBit i)) :=
  ⟨((rtsx_wait_intr_result race_machine (idle_softc ()) RTSX_TRANS_OK_INT (by decide)).2.1
      (by decide) [] ⟨fun p hp => absurd hp (List.not_mem_nil p), by decide⟩).2.1 _ [] rfl rfl,
    ((rtsx_wait_intr_result fail_machine (idle_softc ()) RTSX_TRANS_OK_INT (by decide)).2.1
      (by decide) [] ⟨fun p hp => absurd hp (List.not_mem_nil p), by decide⟩).1 _ [] rfl rfl
      (by decide),
    (rtsx_wait_intr_result silent_machine
      { idle_softc () with rtsx_intr_status := RTSX_TRANS_OK_INT } RTSX_TRANS_OK_INT
      (by decide)).1 (by decide)⟩

-- ---------------------------------------------------------------------------
-- C20: the soft reset after a failed stop command
-- ---------------------------------------------------------------------------

/-- C20, the code at its failing input: a long-path write whose command and data phase
succeed and whose stop command times out makes `rtsx_mmcbr_request` return
`MMC_ERR_TIMEOUT`; the error is recorded in the stop command only, the command's error
stays `MMC_ERR_NONE`, and the completion callback is called without a soft reset before
it: the events are the three batches, the DMA trigger and the read of `SD_STAT1`, and
`RTSX_STOP_CMD` is never written to `RTSX_HCBCTLR`. -/
theorem rtsx_mmcbr_request_stop_timeout_no_reset :
    (rtsx_mmcbr_request stop_timeout_machine (idle_softc 0) long_write_req).map
      (fun r => (r.2.2, r.2.1.cmd.error, r.2.1.stop.map mmc_command.error, r.1.trace)) =
      some (MMC_ERR_TIMEOUT, MMC_ERR_NONE, some MMC_ERR_TIMEOUT,
        [event.write4 RTSX_HCBAR 0x10000, event.write4 RTSX_HCBCTLR 0xC000003C, event.msleep,
         event.write4 RTSX_HCBAR 0x10000, event.write4 RTSX_HCBCTLR 0xC0000038,
         event.write4 RTSX_HDBAR 0x20000, event.write4 RTSX_HDBCTLR 0x80000400, event.msleep,
         event.write4 RTSX_HCBAR 0x10000, event.write4 RTSX_HCBCTLR 0xC000003C, event.msleep,
         event.write4 RTSX_HAIMR 0xBDA30000, event.read4 RTSX_HAIMR 0,
         event.done false MMC_ERR_NONE]) ∧
    event.write4 RTSX_HCBCTLR RTSX_STOP_CMD ∉
      [event.write4 RTSX_HCBAR 0x10000, event.write4 RTSX_HCBCTLR 0xC000003C, event.msleep,
       event.write4 RTSX_HCBAR 0x10000, event.write4 RTSX_HCBCTLR 0xC0000038,
       event.write4 RTSX_HDBAR 0x20000, event.write4 RTSX_HDBCTLR 0x80000400, event.msleep,
       event.write4 RTSX_HCBAR 0x10000, event.write4 RTSX_HCBCTLR 0xC000003C, event.msleep,
       event.write4 RTSX_HAIMR 0xBDA30000, event.read4 RTSX_HAIMR 0,
       event.done false MMC_ERR_NONE] := by
  decide

-- ---------------------------------------------------------------------------
-- C27: the function selector of rtsx_read_cfg
-- ---------------------------------------------------------------------------

/-- The control byte of `rtsx_read_cfg` (line 1150) is the busy bit alone for every
function selector below 16: `func & 0x03 << 4` is `func & 0x30`. -/
theorem rtsx_read_cfg_control_byte (func : Nat) (h : func < 16) :
    RTSX_CFG_BUSY ||| ((func % 256) &&& (0x03 <<< 4)) = RTSX_CFG_BUSY := by
  have h1 : ∀ f, f < 16 → RTSX_CFG_BUSY ||| ((f % 256) &&& (0x03 <<< 4)) = RTSX_CFG_BUSY := by
    decide
  exact h1 func h

/-- C27: `rtsx_read_cfg` does not carry the function selector into the control byte. For
every machine, state and address the calls with the selectors 1, 2 and 3 are the call with
the selector 0: same register accesses, same value, same error. On a chip that completes
every access at once the call with selector 1 and address 0x0102 writes the address bytes
0x02 and 0x01 and the control byte 0x80 (busy bit, selector bits clear), as the call with
selector 0 does. -/
theorem rtsx_read_cfg_selector_dropped :
    (∀ {W : Type} (M : machine W) (sc : rtsx_softc W) (addr : Nat),
      rtsx_read_cfg M sc 1 addr = rtsx_read_cfg M sc 0 addr ∧
      rtsx_read_cfg M sc 2 addr = rtsx_read_cfg M sc 0 addr ∧
      rtsx_read_cfg M sc 3 addr = rtsx_read_cfg M sc 0 addr) ∧
    reg_writes (rtsx_read_cfg ready_machine (idle_softc 0) 1 0x0102).1.trace =
      [(RTSX_CFGADDR0 &&& 0x3FFF, 0xFF, 0x02), (RTSX_CFGADDR1 &&& 0x3FFF, 0xFF, 0x01),
       (RTSX_CFGRWCTL &&& 0x3FFF, 0xFF, 0x80)] ∧
    reg_writes (rtsx_read_cfg ready_machine (idle_softc 0) 0 0x0102).1.trace =
      [(RTSX_CFGADDR0 &&& 0x3FFF, 0xFF, 0x02), (RTSX_CFGADDR1 &&& 0x3FFF, 0xFF, 0x01),
       (RTSX_CFGRWCTL &&& 0x3FFF, 0xFF, 0x80)] ∧
    (rtsx_read_cfg ready_machine (idle_softc 0) 1 0x0102).2 = (some 0, 0) := by
  refine ⟨?_, ?_, ?_, ?_⟩
  · intro W M sc addr
    have e : ∀ f, f < 16 → rtsx_read_cfg M sc f addr = rtsx_read_cfg M sc 0 addr := by
      intro f hf
      unfold rtsx_read_cfg
      rw [rtsx_read_cfg_control_byte f hf, rtsx_read_cfg_control_byte 0 (by decide)]
    exact ⟨e 1 (by decide), e 2 (by decide), e 3 (by decide)⟩
  · decide
  · decide
  · decide

-- ---------------------------------------------------------------------------
-- C28: the stop command of a long-path write
-- ---------------------------------------------------------------------------

/-- C28, the code at its failing input: `rtsx_xfer` takes the stop command from
`sc->rtsx_req->stop` without a test (line 2166), so after the data phase of a write the
end of `rtsx_xfer` faults whenever the request in flight carries no stop command. A write
of 1024 bytes (CMD25) submitted without a stop command on a chip that completes every
batch faults inside `rtsx_mmcbr_request`; the same request with a stop command (CMD12)
completes with result 0: command batch, data batch and DMA, stop batch, callback. -/
theorem rtsx_xfer_missing_stop_fault :
    (∀ {W : Type} (M : machine W) (sc : rtsx_softc W) (cmd : mmc_command) (d : mmc_data),
      ISSET d.flags MMC_DATA_READ = false → stop_set sc = false →
      rtsx_xfer_finish M sc cmd d = none) ∧
    (rtsx_mmcbr_request (echo_machine (fun _ => 0)) (idle_softc ())
      { long_write_req with stop := none }).isNone = true ∧
    (rtsx_mmcbr_request (echo_machine (fun _ => 0)) (idle_softc ()) long_write_req).map
      (fun r => (r.2.2, r.1.trace)) =
      some (0,
        [event.write4 RTSX_HCBAR 0x10000, event.write4 RTSX_HCBCTLR 0xC000003C, event.msleep,
         event.write4 RTSX_HCBAR 0x10000, event.write4 RTSX_HCBCTLR 0xC0000038,
         event.write4 RTSX_HDBAR 0x20000, event.write4 RTSX_HDBCTLR 0x80000400, event.msleep,
         event.write4 RTSX_HCBAR 0x10000, event.write4 RTSX_HCBCTLR 0xC000003C, event.msleep,
         event.done false MMC_ERR_NONE]) := by
  refine ⟨?_, by decide, by decide⟩
  intro W M sc cmd d hw hs
  unfold rtsx_xfer_finish
  rw [hw]
  simp only [Bool.false_eq_true, if_false]
  unfold stop_set at hs
  cases hreq : sc.rtsx_req with
  | none => rfl
  | some req =>
    rw [hreq] at hs
    simp only at hs
    cases hst : req.stop with
    | none => simp only [hst]
    | some stop =>
      rw [hst] at hs
      exact absurd hs (by simp)

-- ---------------------------------------------------------------------------
-- C29: the hold count of the mutex
-- ---------------------------------------------------------------------------

/-- The wait loop of `rtsx_wait_intr` leaves the hold count as it is: `msleep` gives the
mutex up while it sleeps and has it again when it returns. -/
theorem rtsx_wait_intr_loop_mtx {W : Type} (mask : Nat) (ws : List (wakeup W)) :
    ∀ sc : rtsx_softc W, (rtsx_wait_intr_loop mask ws sc).1.rtsx_mtx = sc.rtsx_mtx := by
  induction ws with
  | nil => intro sc; rfl
  | cons wk ws ih =>
    intro sc
    unfold rtsx_wait_intr_loop
    simp only
    split
    · rfl
    · split
      · rw [ih]
        rfl
      · rfl

theorem rtsx_wait_intr_wake_mtx {W : Type} (M : machine W) (sc : rtsx_softc W) (mask : Nat) :
    (rtsx_wait_intr_wake M sc mask).1.rtsx_mtx = sc.rtsx_mtx := by
  unfold rtsx_wait_intr_wake
  simp only
  split
  · exact rtsx_wait_intr_loop_mtx _ _ sc
  · rfl

/-- C29, the code at its failing input: `rtsx_wait_intr` takes the mutex at line 505 on
top of the hold of its caller. For every machine and state the hold count after line 505
is one more than at entry, and `rtsx_send_cmd` enters `rtsx_wait_intr` in the state
`rtsx_send_cmd_nowait` leaves. For the request CMD13 (R1, no data) with a card present on
a chip that completes the batch, `rtsx_mmcbr_request` holds the mutex once when it enters
`rtsx_wait_intr` (accepted at lines 2487-2495, batch queued and started), holds it twice
after line 505, and returns 0 with the hold count back at 0. -/
theorem rtsx_wait_intr_relocks :
    (∀ {W : Type} (M : machine W) (sc : rtsx_softc W) (mask : Nat),
      (RTSX_LOCK (rtsx_wait_intr_wake M sc mask).1).rtsx_mtx = sc.rtsx_mtx + 1 ∧
      (rtsx_wait_intr M sc mask).1.rtsx_mtx = sc.rtsx_mtx + 1 - 1) ∧
    (∀ {W : Type} (M : machine W) (sc : rtsx_softc W) (cmd : mmc_command),
      (rtsx_send_cmd M sc cmd).1 =
        (rtsx_wait_intr M (rtsx_send_cmd_nowait M sc) RTSX_TRANS_OK_INT).1) ∧
    ((rtsx_send_req_get_resp_queue
        { RTSX_LOCK (idle_softc ()) with
          rtsx_req := some { cmd := plain_cmd 13 0 MMC_RSP_R1, stop := none }
          rtsx_intr_status := 0 }
        (plain_cmd 13 0 MMC_RSP_R1)
        (rtsx_response_type (MMC_RSP_R1 &&& MMC_RSP_MASK))).map
      fun s1 =>
        ((rtsx_send_cmd_nowait (echo_machine (fun _ => 0)) s1).rtsx_mtx,
         (RTSX_LOCK (rtsx_wait_intr_wake (echo_machine (fun _ => 0))
            (rtsx_send_cmd_nowait (echo_machine (fun _ => 0)) s1) RTSX_TRANS_OK_INT).1).rtsx_mtx))
      = some (1, 2) ∧
    (rtsx_mmcbr_request (echo_machine (fun _ => 0)) (idle_softc ())
      { cmd := plain_cmd 13 0 MMC_RSP_R1, stop := none }).map
      (fun r => (r.2.2, r.1.rtsx_mtx, r.1.trace)) =
      some (0, 0,
        [event.write4 RTSX_HCBAR 0x10000, event.write4 RTSX_HCBCTLR 0xC000003C, event.msleep,
         event.done false MMC_ERR_NONE]) := by
  refine ⟨?_, ?_, by decide, by decide⟩
  · intro W M sc mask
    refine ⟨?_, ?_⟩
    · show (rtsx_wait_intr_wake M sc mask).1.rtsx_mtx + 1 = _
      rw [rtsx_wait_intr_wake_mtx]
    · rw [(rtsx_wait_intr_of_wake M sc mask).2.2.2, rtsx_wait_intr_wake_mtx]
      rfl
  · intro W M sc cmd
    unfold rtsx_send_cmd
    simp only
    split <;> rfl

-- ---------------------------------------------------------------------------
-- C30: the divisor of the block count
-- ---------------------------------------------------------------------------

/-- C30: for a command with a data descriptor `d`, as `rtsx_mmcbr_request` hands it to
`rtsx_xfer_short` (length at most 512) or to `rtsx_xfer` (length above 512), the block
count is never computed with a zero block size. A zero length is rejected by
`rtsx_xfer_short` before the block size is looked at. For a length of at least 1 the
block size both functions divide by, the one `rtsx_default_xfer_len` leaves, is
`min(len, 512)` when it was unset and the given one when it was set, and it is not zero,
so that the four count pushes (the two divisions among them) are defined whenever four
descriptor slots are free. Accordingly `rtsx_xfer_short` returns for every length up to
512, and `rtsx_xfer` returns for every greater length (for a write, when the request in
flight carries the stop command that line 2166 uses). -/
theorem rtsx_block_count_divisor {W : Type} (M : machine W) (sc : rtsx_softc W)
    (cmd : mmc_command) (d : mmc_data) (hd : cmd.data = some d) :
    (d.len = 0 →
      rtsx_xfer_short M sc cmd =
        some (sc, { cmd with error := MMC_ERR_INVALID }, MMC_ERR_INVALID)) ∧
    (1 ≤ d.len →
      (rtsx_default_xfer_len d).xfer_len =
        (if d.xfer_len = 0 then min d.len 512 else d.xfer_len) ∧
      (rtsx_default_xfer_len d).xfer_len ≠ 0 ∧
      (rtsx_default_xfer_len d).len = d.len ∧
      ∀ s : rtsx_softc W, s.rtsx_cmd_index + 4 ≤ 256 →
        ∃ s1, rtsx_push_counts s (rtsx_default_xfer_len d) = some s1) ∧
    (d.len ≤ 512 → ∃ r, rtsx_xfer_short M sc cmd = some r) ∧
    (512 < d.len → (ISSET d.flags MMC_DATA_READ = true ∨ stop_set sc = true) →
      ∃ r, rtsx_xfer M sc cmd = some r) := by
  refine ⟨?_, ?_, ?_, ?_⟩
  · intro h0
    simp only [rtsx_xfer_short, hd, h0, if_true]
  · intro h1
    obtain ⟨hl, -, -, hx⟩ := rtsx_default_xfer_len_spec d
    have hx := hx (by omega)
    refine ⟨?_, hx, hl, ?_⟩
    · rw [rtsx_default_xfer_len_eq]
    · intro s hs
      obtain ⟨s1, e1, -⟩ := rtsx_push_counts_spec s (rtsx_default_xfer_len d) hx hs
      exact ⟨s1, e1⟩
  · intro _
    obtain ⟨r, er, -⟩ := rtsx_xfer_short_runs M sc cmd
    exact ⟨r, er⟩
  · intro h512 hs
    obtain ⟨r, er, -⟩ := rtsx_xfer_runs M sc cmd d hd (by omega) (by
      intro hw
      rcases hs with hs | hs
      · rw [hw] at hs
        exact absurd hs (by simp)
      · exact hs)
    exact ⟨r, er⟩

/-- Witness of C30: a read of 64 bytes with the block size unset divides by 64 and
returns; a write of 1024 bytes with the block size 512 and a stop command returns. -/
theorem rtsx_block_count_divisor_witness :
    (rtsx_default_xfer_len
      { len := 64, xfer_len := 0, data := fun _ => 0, flags := MMC_DATA_READ }).xfer_len = 64 ∧
    (∃ r, rtsx_xfer_short silent_machine (idle_softc ())
      (data_cmd 17 MMC_RSP_R1 64 0 MMC_DATA_READ) = some r) ∧
    (∃ r, rtsx_xfer silent_machine
      { idle_softc () with rtsx_req := some long_write_req } long_write_req.cmd = some r) :=
  ⟨((rtsx_block_count_divisor silent_machine (idle_softc ())
      (data_cmd 17 MMC_RSP_R1 64 0 MMC_DATA_READ) _ rfl).2.1 (by decide)).1.trans (by decide),
    (rtsx_block_count_divisor silent_machine (idle_softc ())
      (data_cmd 17 MMC_RSP_R1 64 0 MMC_DATA_READ) _ rfl).2.2.1 (by decide),
    (rtsx_block_count_divisor silent_machine
      { idle_softc () with rtsx_req := some long_write_req } long_write_req.cmd _ rfl).2.2.2
      (by decide) (Or.inr (by decide))⟩

-- ---------------------------------------------------------------------------
-- C21, C22: the interrupt handler
-- ---------------------------------------------------------------------------

/-- The function `rtsx_handle_card_present` reads the pending register once and changes
nothing else of the controller; it calls nothing but the two task queue functions. -/
theorem rtsx_handle_card_present_frame {W : Type} (M : machine W) (sc : rtsx_softc W) :
    (rtsx_handle_card_present M sc).1 = (READ4 M sc RTSX_BIPR).1 ∧
    ∀ c ∈ (rtsx_handle_card_present M sc).2,
      c = kcall.taskqueue_enqueue_timeout ∨ c = kcall.taskqueue_enqueue := by
  unfold rtsx_handle_card_present rtsx_is_card_present
  simp only
  split
  · exact ⟨rfl, fun c hc => Or.inl (List.mem_singleton.mp hc)⟩
  · split
    · exact ⟨rfl, fun c hc => Or.inr (List.mem_singleton.mp hc)⟩
    · exact ⟨rfl, fun c hc => absurd hc (List.not_mem_nil c)⟩

/-- The card-change step of `rtsx_intr` (lines 467-470) keeps the read-only flag, the
request slot and the accumulated status, adds register reads to the trace, and wakes
nobody. -/
theorem rtsx_intr_card_step {W : Type} (M : machine W) (sc : rtsx_softc W) (status : Nat) :
    (if status &&& RTSX_SD_INT ≠ 0 then rtsx_handle_card_present M sc else (sc, [])).1.rtsx_read_only
      = sc.rtsx_read_only ∧
    (if status &&& RTSX_SD_INT ≠ 0 then rtsx_handle_card_present M sc else (sc, [])).1.rtsx_req
      = sc.rtsx_req ∧
    (if status &&& RTSX_SD_INT ≠ 0 then rtsx_handle_card_present M sc
      else (sc, [])).1.rtsx_intr_status = sc.rtsx_intr_status ∧
    (∃ t, (if status &&& RTSX_SD_INT ≠ 0 then rtsx_handle_card_present M sc
        else (sc, [])).1.trace = sc.trace ++ t ∧
      ∀ ev ∈ t, ∃ v, ev = event.read4 RTSX_BIPR v) ∧
    kcall.wakeup ∉
      (if status &&& RTSX_SD_INT ≠ 0 then rtsx_handle_card_present M sc else (sc, [])).2 := by
  split
  · obtain ⟨h1, h2⟩ := rtsx_handle_card_present_frame M sc
    rw [h1]
    refine ⟨rfl, rfl, rfl, ⟨[event.read4 RTSX_BIPR ((M.read4 sc.rtsx_res RTSX_BIPR).1 % 2 ^ 32)],
      rfl, fun ev hev => ⟨_, List.mem_singleton.mp hev⟩⟩, ?_⟩
    intro hc
    rcases h2 _ hc with h | h <;> exact absurd h (by decide)
  · exact ⟨rfl, rfl, rfl, ⟨[], by simp, fun ev hev => absurd hev (List.not_mem_nil ev)⟩,
      List.not_mem_nil _⟩

/-- The end of `rtsx_intr` keeps the read-only flag and the trace; it adds the status to
the accumulated status and calls `wakeup` exactly when a request is in flight and the
status carries a transfer-complete or transfer-failure bit. -/
theorem rtsx_intr_finish_spec {W : Type} (h : rtsx_softc W × List kcall) (status : Nat) :
    (rtsx_intr_finish h status).1.rtsx_read_only = h.1.rtsx_read_only ∧
    (rtsx_intr_finish h status).1.trace = h.1.trace ∧
    ((h.1.rtsx_req = none ∨ status &&& (RTSX_TRANS_OK_INT ||| RTSX_TRANS_FAIL_INT) = 0) →
      (rtsx_intr_finish h status).1.rtsx_intr_status = h.1.rtsx_intr_status ∧
      (rtsx_intr_finish h status).2 = h.2 ++ [kcall.mtx_unlock]) ∧
    (¬(h.1.rtsx_req = none ∨ status &&& (RTSX_TRANS_OK_INT ||| RTSX_TRANS_FAIL_INT) = 0) →
      (rtsx_intr_finish h status).1.rtsx_intr_status = h.1.rtsx_intr_status ||| status ∧
      (rtsx_intr_finish h status).2 = h.2 ++ [kcall.wakeup, kcall.mtx_unlock]) := by
  unfold rtsx_intr_finish
  by_cases hr : h.1.rtsx_req = none
  · have hn : h.1.rtsx_req.isNone = true := by rw [hr]; rfl
    rw [if_pos hn]
    exact ⟨rfl, rfl, fun _ => ⟨rfl, rfl⟩, fun hc => absurd (Or.inl hr) hc⟩
  · have hn : ¬ h.1.rtsx_req.isNone = true := by
      intro hc
      exact hr (Option.isNone_iff_eq_none.mp hc)
    rw [if_neg hn]
    by_cases hs : status &&& (RTSX_TRANS_OK_INT ||| RTSX_TRANS_FAIL_INT) = 0
    · rw [if_neg (by simpa using hs)]
      exact ⟨rfl, rfl, fun _ => ⟨rfl, rfl⟩, fun hc => absurd (Or.inr hs) hc⟩
    · rw [if_pos hs]
      refine ⟨rfl, rfl, fun hc => ?_, fun _ => ⟨rfl, rfl⟩⟩
      rcases hc with hc | hc
      · exact absurd hc hr
      · exact absurd hc hs

/-- The read-only flag after the decisions of `rtsx_intr`. -/
theorem rtsx_intr_body_read_only {W : Type} (M : machine W) (sc1 : rtsx_softc W)
    (enabled status : Nat) :
    (enabled &&& status = 0 ∨ status = 0xffffffff →
      (rtsx_intr_body M sc1 enabled status).1.rtsx_read_only = sc1.rtsx_read_only) ∧
    (¬(enabled &&& status = 0 ∨ status = 0xffffffff) →
      (rtsx_intr_body M sc1 enabled status).1.rtsx_read_only =
        if status &&& RTSX_SD_WRITE_PROTECT ≠ 0 then 1 else 0) := by
  unfold rtsx_intr_body
  constructor
  · intro h
    rw [if_pos h]
    rfl
  · intro h
    rw [if_neg h]
    simp only
    rw [(rtsx_intr_finish_spec _ status).1, (rtsx_intr_card_step M _ status).1]

/-- C21, counterexample: on a shared interrupt line the handler runs while no interrupt
of the chip is pending; the pending register shows the write-protect bit of the inserted
card, the interrupt is dismissed as spurious, and the read-only flag stays 0. -/
theorem rtsx_intr_spurious_keeps_read_only :
    rtsx_intr_regs shared_irq_machine (idle_softc ()) = (0x32000000, 0x90000) ∧
    0x90000 &&& RTSX_SD_WRITE_PROTECT ≠ 0 ∧
    (idle_softc () : rtsx_softc Unit).rtsx_read_only = 0 ∧
    (rtsx_intr shared_irq_machine (idle_softc ())).1.rtsx_read_only = 0 := by
  decide

/-- C21, amended: an interrupt dismissed as spurious (no enabled bit pending, or the
pending register reads all-ones) leaves the read-only flag as it was; on every other
invocation of `rtsx_intr`, whether or not a request is outstanding and whether or not the
card-change bit is set, the read-only flag afterwards is 1 if the write-protect bit is set
in the pending status read by that invocation and 0 otherwise. -/
theorem rtsx_intr_read_only {W : Type} (M : machine W) (sc : rtsx_softc W) :
    ((rtsx_intr_regs M sc).1 &&& (rtsx_intr_regs M sc).2 = 0 ∨
        (rtsx_intr_regs M sc).2 = 0xffffffff →
      (rtsx_intr M sc).1.rtsx_read_only = sc.rtsx_read_only) ∧
    (¬((rtsx_intr_regs M sc).1 &&& (rtsx_intr_regs M sc).2 = 0 ∨
        (rtsx_intr_regs M sc).2 = 0xffffffff) →
      (rtsx_intr M sc).1.rtsx_read_only =
        if (rtsx_intr_regs M sc).2 &&& RTSX_SD_WRITE_PROTECT ≠ 0 then 1 else 0) := by
  obtain ⟨h1, h2⟩ := rtsx_intr_body_read_only M
    (WRITE4 M (READ4 M (READ4 M (RTSX_LOCK sc) RTSX_BIER).1 RTSX_BIPR).1 RTSX_BIPR
      (READ4 M (READ4 M (RTSX_LOCK sc) RTSX_BIER).1 RTSX_BIPR).2)
    (READ4 M (RTSX_LOCK sc) RTSX_BIER).2
    (READ4 M (READ4 M (RTSX_LOCK sc) RTSX_BIER).1 RTSX_BIPR).2
  exact ⟨h1, h2⟩

/-- Witness of C21: a transfer-complete interrupt for a write-protected card sets the
read-only flag, with a request outstanding or not; the spurious interrupt of the shared
line keeps it. -/
theorem rtsx_intr_read_only_witness :
    (rtsx_intr trans_ok_machine (idle_softc ())).1.rtsx_read_only = 1 ∧
    (rtsx_intr trans_ok_machine (busy_softc ())).1.rtsx_read_only = 1 ∧
    (rtsx_intr shared_irq_machine (idle_softc ())).1.rtsx_read_only =
      (idle_softc () : rtsx_softc Unit).rtsx_read_only :=
  ⟨((rtsx_intr_read_only trans_ok_machine (idle_softc ())).2 (by decide)).trans (by decide),
    ((rtsx_intr_read_only trans_ok_machine (busy_softc ())).2 (by decide)).trans (by decide),
    (rtsx_intr_read_only shared_irq_machine (idle_softc ())).1 (by decide)⟩

/-- The accumulated status, the wake-up and the trace of the decisions of `rtsx_intr`. -/
theorem rtsx_intr_body_status {W : Type} (M : machine W) (sc1 : rtsx_softc W)
    (enabled status : Nat) :
    ((sc1.rtsx_req = none ∨ enabled &&& status = 0 ∨ status = 0xffffffff ∨
        status &&& (RTSX_TRANS_OK_INT ||| RTSX_TRANS_FAIL_INT) = 0) →
      (rtsx_intr_body M sc1 enabled status).1.rtsx_intr_status = sc1.rtsx_intr_status ∧
      kcall.wakeup ∉ (rtsx_intr_body M sc1 enabled status).2) ∧
    (¬(sc1.rtsx_req = none ∨ enabled &&& status = 0 ∨ status = 0xffffffff ∨
        status &&& (RTSX_TRANS_OK_INT ||| RTSX_TRANS_FAIL_INT) = 0) →
      (rtsx_intr_body M sc1 enabled status).1.rtsx_intr_status =
        sc1.rtsx_intr_status ||| status ∧
      (rtsx_intr_body M sc1 enabled status).2.count kcall.wakeup = 1) ∧
    (∃ t, (rtsx_intr_body M sc1 enabled status).1.trace = sc1.trace ++ t ∧
      ∀ ev ∈ t, ∃ v, ev = event.read4 RTSX_BIPR v) := by
  unfold rtsx_intr_body
  by_cases hsp : enabled &&& status = 0 ∨ status = 0xffffffff
  · rw [if_pos hsp]
    refine ⟨fun _ => ⟨rfl, fun hm => absurd (List.mem_singleton.mp hm) (by decide)⟩,
      fun hc => ?_, ⟨[], by simp [RTSX_UNLOCK],
      fun ev hev => absurd hev (List.not_mem_nil ev)⟩⟩
    exact absurd (by rcases hsp with h | h; exact Or.inr (Or.inl h); exact Or.inr (Or.inr (Or.inl h))) hc
  · rw [if_neg hsp]
    simp only
    obtain ⟨-, c2, c3, ⟨t, ct, cn⟩, c5⟩ := rtsx_intr_card_step M
      { sc1 with rtsx_read_only := if status &&& RTSX_SD_WRITE_PROTECT ≠ 0 then 1 else 0 } status
    obtain ⟨-, f2, f3, f4⟩ := rtsx_intr_finish_spec
      (if status &&& RTSX_SD_INT ≠ 0 then rtsx_handle_card_present M
          { sc1 with rtsx_read_only := if status &&& RTSX_SD_WRITE_PROTECT ≠ 0 then 1 else 0 }
        else ({ sc1 with rtsx_read_only :=
          if status &&& RTSX_SD_WRITE_PROTECT ≠ 0 then 1 else 0 }, [])) status
    rw [c2] at f3 f4
    rw [c3] at f3 f4
    refine ⟨fun hc => ?_, fun hc => ?_, ⟨t, by rw [f2, ct], cn⟩⟩
    · have hc1 : sc1.rtsx_req = none ∨
          status &&& (RTSX_TRANS_OK_INT ||| RTSX_TRANS_FAIL_INT) = 0 := by
        rcases hc with h | h | h | h
        · exact Or.inl h
        · exact absurd (Or.inl h) hsp
        · exact absurd (Or.inr h) hsp
        · exact Or.inr h
      obtain ⟨g1, g2⟩ := f3 hc1
      refine ⟨g1, ?_⟩
      rw [g2]
      intro hm
      rcases List.mem_append.mp hm with h | h
      · exact c5 h
      · exact absurd h (by decide)
    · have hc1 : ¬(sc1.rtsx_req = none ∨
          status &&& (RTSX_TRANS_OK_INT ||| RTSX_TRANS_FAIL_INT) = 0) := by
        intro h
        rcases h with h | h
        · exact hc (Or.inl h)
        · exact hc (Or.inr (Or.inr (Or.inr h)))
      obtain ⟨g1, g2⟩ := f4 hc1
      refine ⟨g1, ?_⟩
      rw [g2, List.count_append, List.count_eq_zero_of_not_mem c5]
      decide

/-- C22: for every invocation of `rtsx_intr`, with `enabled` and `status` the two
register values it reads: when no request is outstanding, or the interrupt is dismissed as
spurious, or `status` carries neither the transfer-complete nor the transfer-failure bit,
the accumulated interrupt status is unchanged and `wakeup` is not called; otherwise the
accumulated status becomes `old | status` and `wakeup` is called once. In every case the
reads of the enable and the pending register are followed at once by the write of
`status` to the pending register, and no other register is written. -/
theorem rtsx_intr_status_frame {W : Type} (M : machine W) (sc : rtsx_softc W) :
    ((sc.rtsx_req = none ∨ (rtsx_intr_regs M sc).1 &&& (rtsx_intr_regs M sc).2 = 0 ∨
        (rtsx_intr_regs M sc).2 = 0xffffffff ∨
        (rtsx_intr_regs M sc).2 &&& (RTSX_TRANS_OK_INT ||| RTSX_TRANS_FAIL_INT) = 0) →
      (rtsx_intr M sc).1.rtsx_intr_status = sc.rtsx_intr_status ∧
      kcall.wakeup ∉ (rtsx_intr M sc).2) ∧
    (¬(sc.rtsx_req = none ∨ (rtsx_intr_regs M sc).1 &&& (rtsx_intr_regs M sc).2 = 0 ∨
        (rtsx_intr_regs M sc).2 = 0xffffffff ∨
        (rtsx_intr_regs M sc).2 &&& (RTSX_TRANS_OK_INT ||| RTSX_TRANS_FAIL_INT) = 0) →
      (rtsx_intr M sc).1.rtsx_intr_status =
        sc.rtsx_intr_status ||| (rtsx_intr_regs M sc).2 ∧
      (rtsx_intr M sc).2.count kcall.wakeup = 1) ∧
    (∃ t, (rtsx_intr M sc).1.trace =
        sc.trace ++ [event.read4 RTSX_BIER (rtsx_intr_regs M sc).1,
          event.read4 RTSX_BIPR (rtsx_intr_regs M sc).2,
          event.write4 RTSX_BIPR (rtsx_intr_regs M sc).2] ++ t ∧
      ∀ ev ∈ t, ∃ v, ev = event.read4 RTSX_BIPR v) := by
  obtain ⟨h1, h2, ⟨t, ht, hn⟩⟩ := rtsx_intr_body_status M
    (WRITE4 M (READ4 M (READ4 M (RTSX_LOCK sc) RTSX_BIER).1 RTSX_BIPR).1 RTSX_BIPR
      (READ4 M (READ4 M (RTSX_LOCK sc) RTSX_BIER).1 RTSX_BIPR).2)
    (READ4 M (RTSX_LOCK sc) RTSX_BIER).2
    (READ4 M (READ4 M (RTSX_LOCK sc) RTSX_BIER).1 RTSX_BIPR).2
  refine ⟨fun hc => ?_, fun hc => ?_, ⟨t, ?_, hn⟩⟩
  · obtain ⟨g1, g2⟩ := h1 hc
    refine ⟨g1, ?_⟩
    intro hm
    rcases List.mem_cons.mp hm with h | h
    · exact absurd h (by decide)
    · exact g2 h
  · obtain ⟨g1, g2⟩ := h2 hc
    refine ⟨g1, ?_⟩
    show (kcall.mtx_lock :: _).count kcall.wakeup = 1
    rw [List.count_cons_of_ne (by decide)]
    exact g2
  · show (rtsx_intr_body M _ _ _).1.trace = _
    rw [ht]
    simp only [WRITE4, READ4, RTSX_LOCK, rtsx_intr_regs, Nat.mod_mod, List.append_assoc,
      List.singleton_append, List.cons_append, List.nil_append]

/-- Witness of C22: with a request in flight a transfer-complete interrupt adds its
status to the accumulated status and wakes the sleeper once; without a request, and on
the spurious interrupt of a shared line, nothing is accumulated and nobody is woken. -/
theorem rtsx_intr_status_frame_witness :
    ((rtsx_intr trans_ok_machine (busy_softc ())).1.rtsx_intr_status =
        (busy_softc () : rtsx_softc Unit).rtsx_intr_status |||
          (rtsx_intr_regs trans_ok_machine (busy_softc ())).2 ∧
      (rtsx_intr trans_ok_machine (busy_softc ())).2.count kcall.wakeup = 1) ∧
    ((rtsx_intr trans_ok_machine (idle_softc ())).1.rtsx_intr_status =
        (idle_softc () : rtsx_softc Unit).rtsx_intr_status ∧
      kcall.wakeup ∉ (rtsx_intr trans_ok_machine (idle_softc ())).2) ∧
    ((rtsx_intr shared_irq_machine (busy_softc ())).1.rtsx_intr_status =
        (busy_softc () : rtsx_softc Unit).rtsx_intr_status ∧
      kcall.wakeup ∉ (rtsx_intr shared_irq_machine (busy_softc ())).2) :=
  ⟨(rtsx_intr_status_frame trans_ok_machine (busy_softc ())).2.1 (by
      intro h
      rcases h with h | h | h | h
      · exact absurd h (by simp [busy_softc])
      · exact absurd h (by decide)
      · exact absurd h (by decide)
      · exact absurd h (by decide)),
    (rtsx_intr_status_frame trans_ok_machine (idle_softc ())).1 (Or.inl rfl),
    (rtsx_intr_status_frame shared_irq_machine (busy_softc ())).1 (Or.inr (Or.inl (by decide)))⟩

-- ---------------------------------------------------------------------------
-- C23, C24: the card task and the presence debounce
-- ---------------------------------------------------------------------------

/-- Setting the card-present bit: the bit is set and every other bit is as before. -/
theorem flags_set_card_present (f : Nat) :
    ISSET (f ||| RTSX_F_CARD_PRESENT) RTSX_F_CARD_PRESENT = true ∧
    ∀ i, i ≠ 0 → (f ||| RTSX_F_CARD_PRESENT).testBit i = f.testBit i := by
  have h1 : ∀ i, i ≠ 0 → (f ||| RTSX_F_CARD_PRESENT).testBit i = f.testBit i := by
    intro i hi
    rw [Nat.testBit_or, show RTSX_F_CARD_PRESENT = 2 ^ 0 from rfl, Nat.testBit_two_pow]
    simp [Ne.symm hi]
  refine ⟨?_, h1⟩
  unfold ISSET
  have h0 : ((f ||| RTSX_F_CARD_PRESENT) &&& RTSX_F_CARD_PRESENT).testBit 0 = true := by
    rw [Nat.testBit_and, Nat.testBit_or, show RTSX_F_CARD_PRESENT = 2 ^ 0 from rfl,
      Nat.testBit_two_pow]
    simp
  have hne : (f ||| RTSX_F_CARD_PRESENT) &&& RTSX_F_CARD_PRESENT ≠ 0 := by
    intro h
    rw [h, Nat.zero_testBit] at h0
    exact absurd h0 (by decide)
  simpa using hne

/-- Clearing the card-present bit of a 16-bit flag word: the bit is clear and every other
bit is as before. -/
theorem flags_clear_card_present (f : Nat) (hf : f < 65536) :
    ISSET (f &&& (0xFFFF ^^^ RTSX_F_CARD_PRESENT)) RTSX_F_CARD_PRESENT = false ∧
    ∀ i, i ≠ 0 → (f &&& (0xFFFF ^^^ RTSX_F_CARD_PRESENT)).testBit i = f.testBit i := by
  constructor
  · unfold ISSET
    rw [Nat.land_assoc, show (0xFFFF ^^^ RTSX_F_CARD_PRESENT) &&& RTSX_F_CARD_PRESENT = 0 from rfl]
    simp
  · intro i hi
    rw [Nat.testBit_and, Nat.testBit_xor, show RTSX_F_CARD_PRESENT = 2 ^ 0 from rfl,
      Nat.testBit_two_pow, show (0xFFFF : Nat) = 2 ^ 16 - 1 from rfl,
      Nat.testBit_two_pow_sub_one]
    by_cases h16 : i < 16
    · simp [h16, Ne.symm hi]
    · have : f.testBit i = false :=
        Nat.testBit_lt_two_pow (Nat.lt_of_lt_of_le hf
          (Nat.pow_le_pow_right (n := 2) (by decide) (show 16 ≤ i by omega)))
      rw [this]
      rfl

/-- C23: `rtsx_card_task` on a controller whose flags fit their 16-bit field, with `p` the
presence it reads from the pending register (under the lock) and child creation
succeeding. `p` and no child: the child is added after the lock is released, its ivars
are set and probe and attach is attempted, and the child slot is set. `p` and a child: no
device call, the child slot stays set. Not `p` and a child: the child is deleted after the
lock is released and the child slot is cleared. Not `p` and no child: no device call. In
all four cases the card-present flag afterwards is `p`, every other flag bit is
unchanged, the lock is taken once and released once, and the hold count is as before. -/
theorem rtsx_card_task_table {W : Type} (M : machine W) (sc : rtsx_softc W)
    (hf : sc.rtsx_flags < 65536) :
    ((rtsx_is_card_present M (RTSX_LOCK sc)).2 = true ∧ sc.rtsx_mmc_dev = false →
      (rtsx_card_task M true sc).1.rtsx_mmc_dev = true ∧
      (rtsx_card_task M true sc).2 =
        [kcall.mtx_lock, kcall.device_add_child, kcall.mtx_unlock, kcall.device_set_ivars,
          kcall.device_probe_and_attach]) ∧
    ((rtsx_is_card_present M (RTSX_LOCK sc)).2 = true ∧ sc.rtsx_mmc_dev = true →
      (rtsx_card_task M true sc).1.rtsx_mmc_dev = true ∧
      (rtsx_card_task M true sc).2 = [kcall.mtx_lock, kcall.mtx_unlock]) ∧
    ((rtsx_is_card_present M (RTSX_LOCK sc)).2 = false ∧ sc.rtsx_mmc_dev = true →
      (rtsx_card_task M true sc).1.rtsx_mmc_dev = false ∧
      (rtsx_card_task M true sc).2 =
        [kcall.mtx_lock, kcall.mtx_unlock, kcall.device_delete_child]) ∧
    ((rtsx_is_card_present M (RTSX_LOCK sc)).2 = false ∧ sc.rtsx_mmc_dev = false →
      (rtsx_card_task M true sc).1.rtsx_mmc_dev = false ∧
      (rtsx_card_task M true sc).2 = [kcall.mtx_lock, kcall.mtx_unlock]) ∧
    ISSET (rtsx_card_task M true sc).1.rtsx_flags RTSX_F_CARD_PRESENT =
      (rtsx_is_card_present M (RTSX_LOCK sc)).2 ∧
    (∀ i, i ≠ 0 →
      (rtsx_card_task M true sc).1.rtsx_flags.testBit i = sc.rtsx_flags.testBit i) ∧
    (rtsx_card_task M true sc).2.count kcall.mtx_lock = 1 ∧
    (rtsx_card_task M true sc).2.count kcall.mtx_unlock = 1 ∧
    (rtsx_card_task M true sc).1.rtsx_mtx = sc.rtsx_mtx := by
  obtain ⟨s1, s2⟩ := flags_set_card_present sc.rtsx_flags
  obtain ⟨c1, c2⟩ := flags_clear_card_present sc.rtsx_flags hf
  have hmtx : sc.rtsx_mtx + 1 - 1 = sc.rtsx_mtx := by omega
  cases hp : (rtsx_is_card_present M (RTSX_LOCK sc)).2 <;> cases hd : sc.rtsx_mmc_dev
  · have e : rtsx_card_task M true sc =
        (RTSX_UNLOCK { (rtsx_is_card_present M (RTSX_LOCK sc)).1 with
          rtsx_flags := sc.rtsx_flags &&& (0xFFFF ^^^ RTSX_F_CARD_PRESENT) },
          [kcall.mtx_lock, kcall.mtx_unlock]) := by
      unfold rtsx_card_task
      simp only [hp, Bool.false_eq_true, if_false]
      rw [if_neg (by
        show ¬ sc.rtsx_mmc_dev = true
        rw [hd]
        decide)]
      rfl
    rw [e]
    exact ⟨fun h => absurd h.1 (by decide), fun h => absurd h.1 (by decide),
      fun h => absurd h.2 (by decide), fun _ => ⟨hd, rfl⟩, c1, c2, rfl, rfl, hmtx⟩
  · have e : rtsx_card_task M true sc =
        ({ RTSX_UNLOCK { (rtsx_is_card_present M (RTSX_LOCK sc)).1 with
            rtsx_flags := sc.rtsx_flags &&& (0xFFFF ^^^ RTSX_F_CARD_PRESENT) } with
            rtsx_mmc_dev := false },
          [kcall.mtx_lock, kcall.mtx_unlock, kcall.device_delete_child]) := by
      unfold rtsx_card_task
      simp only [hp, Bool.false_eq_true, if_false]
      rw [if_pos (by
        show sc.rtsx_mmc_dev = true
        exact hd)]
      rfl
    rw [e]
    exact ⟨fun h => absurd h.1 (by decide), fun h => absurd h.1 (by decide),
      fun _ => ⟨rfl, rfl⟩, fun h => absurd h.2 (by decide), c1, c2, rfl, rfl, hmtx⟩
  · have e : rtsx_card_task M true sc =
        (RTSX_UNLOCK { (rtsx_is_card_present M (RTSX_LOCK sc)).1 with
            rtsx_flags := sc.rtsx_flags ||| RTSX_F_CARD_PRESENT, rtsx_mmc_dev := true },
          [kcall.mtx_lock, kcall.device_add_child, kcall.mtx_unlock, kcall.device_set_ivars,
            kcall.device_probe_and_attach]) := by
      unfold rtsx_card_task
      simp only [hp, if_true]
      rw [if_pos (by
        show sc.rtsx_mmc_dev = false
        exact hd)]
      rfl
    rw [e]
    exact ⟨fun _ => ⟨rfl, rfl⟩, fun h => absurd h.2 (by decide),
      fun h => absurd h.1 (by decide), fun h => absurd h.1 (by decide), s1, s2, rfl, rfl, hmtx⟩
  · have e : rtsx_card_task M true sc =
        (RTSX_UNLOCK { (rtsx_is_card_present M (RTSX_LOCK sc)).1 with
            rtsx_flags := sc.rtsx_flags ||| RTSX_F_CARD_PRESENT },
          [kcall.mtx_lock, kcall.mtx_unlock]) := by
      unfold rtsx_card_task
      simp only [hp, if_true]
      rw [if_neg (by
        show ¬ sc.rtsx_mmc_dev = false
        rw [hd]
        decide)]
      rfl
    rw [e]
    exact ⟨fun h => absurd h.2 (by decide), fun _ => ⟨hd, rfl⟩,
      fun h => absurd h.1 (by decide), fun h => absurd h.1 (by decide), s1, s2, rfl, rfl, hmtx⟩

/-- Witness of C23: on the chip that shows the card once and never again, the card task
of a controller without a child adds the child and sets the flag; run again on what it
left, it finds the card gone, deletes the child and clears the flag. -/
theorem rtsx_card_task_table_witness :
    ((rtsx_card_task bounce_machine true
        { idle_softc 0 with rtsx_flags := 0x0010, rtsx_mmc_dev := false }).1.rtsx_mmc_dev = true ∧
      (rtsx_card_task bounce_machine true
        { idle_softc 0 with rtsx_flags := 0x0010, rtsx_mmc_dev := false }).2 =
        [kcall.mtx_lock, kcall.device_add_child, kcall.mtx_unlock, kcall.device_set_ivars,
          kcall.device_probe_and_attach]) ∧
    ((rtsx_card_task bounce_machine true
        { idle_softc 1 with rtsx_flags := 0x0011 }).1.rtsx_mmc_dev = false ∧
      (rtsx_card_task bounce_machine true { idle_softc 1 with rtsx_flags := 0x0011 }).2 =
        [kcall.mtx_lock, kcall.mtx_unlock, kcall.device_delete_child]) ∧
    ISSET (rtsx_card_task bounce_machine true
      { idle_softc 1 with rtsx_flags := 0x0011 }).1.rtsx_flags RTSX_F_CARD_PRESENT = false :=
  ⟨(rtsx_card_task_table bounce_machine
      { idle_softc 0 with rtsx_flags := 0x0010, rtsx_mmc_dev := false } (by decide)).1
      ⟨by decide, rfl⟩,
    (rtsx_card_task_table bounce_machine { idle_softc 1 with rtsx_flags := 0x0011 }
      (by decide)).2.2.1 ⟨by decide, rfl⟩,
    (rtsx_card_task_table bounce_machine { idle_softc 1 with rtsx_flags := 0x0011 }
      (by decide)).2.2.2.2.1.trans (by decide)⟩

/-- C24: starting without a child device, on any chip: when the handler of the insertion
interrupt reads the card as present it enqueues the delayed card task and nothing else,
and creates no child; when the handler of the following removal interrupt reads the card
as absent it enqueues nothing; when the card task then runs and reads the card as absent
it makes no device call (whatever `device_add_child` would return), so that no child is
created at any point, the child slot is empty after each step, and the card-present flag
is clear at the end. -/
theorem rtsx_card_debounce {W : Type} (M : machine W) (sc : rtsx_softc W) (add_ok : Bool)
    (hdev : sc.rtsx_mmc_dev = false)
    (h1 : (rtsx_is_card_present M sc).2 = true)
    (h2 : (rtsx_is_card_present M (rtsx_handle_card_present M sc).1).2 = false)
    (h3 : (rtsx_is_card_present M
      (RTSX_LOCK (rtsx_handle_card_present M (rtsx_handle_card_present M sc).1).1)).2 = false) :
    (rtsx_handle_card_present M sc).2 = [kcall.taskqueue_enqueue_timeout] ∧
    (rtsx_handle_card_present M sc).1.rtsx_mmc_dev = false ∧
    (rtsx_handle_card_present M (rtsx_handle_card_present M sc).1).2 = [] ∧
    (rtsx_handle_card_present M (rtsx_handle_card_present M sc).1).1.rtsx_mmc_dev = false ∧
    (rtsx_card_task M add_ok
      (rtsx_handle_card_present M (rtsx_handle_card_present M sc).1).1).2 =
      [kcall.mtx_lock, kcall.mtx_unlock] ∧
    (rtsx_card_task M add_ok
      (rtsx_handle_card_present M (rtsx_handle_card_present M sc).1).1).1.rtsx_mmc_dev = false ∧
    ISSET (rtsx_card_task M add_ok
      (rtsx_handle_card_present M (rtsx_handle_card_present M sc).1).1).1.rtsx_flags
      RTSX_F_CARD_PRESENT = false := by
  have d1 : (rtsx_handle_card_present M sc).1.rtsx_mmc_dev = false := by
    rw [(rtsx_handle_card_present_frame M sc).1]
    exact hdev
  have d2 : (rtsx_handle_card_present M (rtsx_handle_card_present M sc).1).1.rtsx_mmc_dev =
      false := by
    rw [(rtsx_handle_card_present_frame M _).1]
    exact d1
  have e1 : (rtsx_handle_card_present M sc).2 = [kcall.taskqueue_enqueue_timeout] := by
    unfold rtsx_handle_card_present
    simp only [hdev, h1, Bool.not_false, Bool.and_self, if_true]
  have e2 : (rtsx_handle_card_present M (rtsx_handle_card_present M sc).1).2 = [] := by
    generalize rtsx_handle_card_present M sc = x at d1 h2
    unfold rtsx_handle_card_present
    simp only [d1, h2, Bool.not_false, Bool.and_false, Bool.false_eq_true, if_false,
      Bool.false_and]
  generalize rtsx_handle_card_present M (rtsx_handle_card_present M sc).1 = y at d2 h3 e2
  have e3 : rtsx_card_task M add_ok y.1 =
      (RTSX_UNLOCK { (rtsx_is_card_present M (RTSX_LOCK y.1)).1 with
        rtsx_flags := y.1.rtsx_flags &&& (0xFFFF ^^^ RTSX_F_CARD_PRESENT) },
        [kcall.mtx_lock, kcall.mtx_unlock]) := by
    unfold rtsx_card_task
    simp only [h3, Bool.false_eq_true, if_false]
    rw [if_neg (by
      show ¬ y.1.rtsx_mmc_dev = true
      rw [d2]
      decide)]
    rfl
  refine ⟨e1, d1, e2, d2, by rw [e3], by rw [e3]; exact d2, ?_⟩
  rw [e3]
  show ISSET (y.1.rtsx_flags &&& (0xFFFF ^^^ RTSX_F_CARD_PRESENT)) RTSX_F_CARD_PRESENT = false
  unfold ISSET
  rw [Nat.land_assoc, show (0xFFFF ^^^ RTSX_F_CARD_PRESENT) &&& RTSX_F_CARD_PRESENT = 0 from rfl]
  simp

/-- Witness of C24: the card that is pulled out right after it was pushed in, on a
controller without a child and with the flag clear. -/
theorem rtsx_card_debounce_witness :
    (rtsx_handle_card_present bounce_machine
      { idle_softc 0 with rtsx_flags := 0x0010, rtsx_mmc_dev := false }).2 =
      [kcall.taskqueue_enqueue_timeout] ∧
    (rtsx_handle_card_present bounce_machine (rtsx_handle_card_present bounce_machine
      { idle_softc 0 with rtsx_flags := 0x0010, rtsx_mmc_dev := false }).1).2 = [] ∧
    (rtsx_card_task bounce_machine true
      (rtsx_handle_card_present bounce_machine (rtsx_handle_card_present bounce_machine
        { idle_softc 0 with rtsx_flags := 0x0010, rtsx_mmc_dev := false }).1).1).2 =
      [kcall.mtx_lock, kcall.mtx_unlock] ∧
    ISSET (rtsx_card_task bounce_machine true
      (rtsx_handle_card_present bounce_machine (rtsx_handle_card_present bounce_machine
        { idle_softc 0 with rtsx_flags := 0x0010, rtsx_mmc_dev := false }).1).1).1.rtsx_flags
      RTSX_F_CARD_PRESENT = false :=
  ⟨(rtsx_card_debounce bounce_machine
      { idle_softc 0 with rtsx_flags := 0x0010, rtsx_mmc_dev := false } true rfl (by decide)
      (by decide) (by decide)).1,
    (rtsx_card_debounce bounce_machine
      { idle_softc 0 with rtsx_flags := 0x0010, rtsx_mmc_dev := false } true rfl (by decide)
      (by decide) (by decide)).2.2.1,
    (rtsx_card_debounce bounce_machine
      { idle_softc 0 with rtsx_flags := 0x0010, rtsx_mmc_dev := false } true rfl (by decide)
      (by decide) (by decide)).2.2.2.2.1,
    (rtsx_card_debounce bounce_machine
      { idle_softc 0 with rtsx_flags := 0x0010, rtsx_mmc_dev := false } true rfl (by decide)
      (by decide) (by decide)).2.2.2.2.2.2⟩

-- ---------------------------------------------------------------------------
-- What the request path keeps: chip identity and descriptor index range
-- ---------------------------------------------------------------------------

theorem steady_refl {W : Type} (sc : rtsx_softc W) : steady sc sc :=
  ⟨rfl, fun h => h⟩

theorem steady_trans {W : Type} {a b c : rtsx_softc W} (h1 : steady a b) (h2 : steady b c) :
    steady a c :=
  ⟨h2.1.trans h1.1, fun h => h2.2 (h1.2 h)⟩

/-- A step that keeps the flags and the descriptor index is steady. -/
theorem steady_of_eq {W : Type} {sc sc1 : rtsx_softc W} (hf : sc1.rtsx_flags = sc.rtsx_flags)
    (hi : sc1.rtsx_cmd_index = sc.rtsx_cmd_index) : steady sc sc1 :=
  ⟨by rw [hf], fun h => by rw [hi]; exact h⟩

/-- A step that only queues and ends with the index in range is steady. -/
theorem steady_of_same {W : Type} {sc sc1 : rtsx_softc W} (h : same_but_queue sc sc1)
    (hi : sc1.rtsx_cmd_index ≤ 256) : steady sc sc1 :=
  ⟨by rw [same_but_queue_flags h], fun _ => hi⟩

theorem steady_READ4 {W : Type} (M : machine W) (sc : rtsx_softc W) (reg : Nat) :
    steady sc (READ4 M sc reg).1 :=
  steady_of_eq rfl rfl

theorem steady_WRITE4 {W : Type} (M : machine W) (sc : rtsx_softc W) (reg val : Nat) :
    steady sc (WRITE4 M sc reg val) :=
  steady_of_eq rfl rfl

theorem steady_reset_index {W : Type} (sc : rtsx_softc W) :
    steady sc { sc with rtsx_cmd_index := 0 } :=
  ⟨rfl, fun _ => Nat.zero_le _⟩

/-- Setting or clearing the card-present bit keeps the flags outside that bit. -/
theorem flags_outside_card_present (f : Nat) :
    (f ||| RTSX_F_CARD_PRESENT) &&& 0xFFFE = f &&& 0xFFFE ∧
    (f &&& (0xFFFF ^^^ RTSX_F_CARD_PRESENT)) &&& 0xFFFE = f &&& 0xFFFE := by
  constructor
  · rw [Nat.land_comm, Nat.and_or_distrib_left,
      show 0xFFFE &&& RTSX_F_CARD_PRESENT = 0 from rfl, Nat.or_zero, Nat.land_comm]
  · rw [Nat.land_assoc, show (0xFFFF ^^^ RTSX_F_CARD_PRESENT) &&& 0xFFFE = 0xFFFE from rfl]

theorem steady_msleep {W : Type} (sc : rtsx_softc W) (wk : wakeup W) :
    steady sc (msleep sc wk) := by
  refine ⟨?_, fun h => h⟩
  unfold msleep
  simp only
  cases wk.card_task with
  | none => rfl
  | some b =>
    cases b
    · exact (flags_outside_card_present sc.rtsx_flags).2
    · exact (flags_outside_card_present sc.rtsx_flags).1

theorem steady_rtsx_wait_intr_loop {W : Type} (mask : Nat) (ws : List (wakeup W)) :
    ∀ (sc : rtsx_softc W), steady sc (rtsx_wait_intr_loop mask ws sc).1 := by
  induction ws with
  | nil =>
    intro sc
    exact steady_of_eq rfl rfl
  | cons wk ws ih =>
    intro sc
    unfold rtsx_wait_intr_loop
    simp only
    split
    · exact steady_msleep sc wk
    · split
      · exact steady_trans (steady_msleep sc wk) (ih _)
      · exact steady_msleep sc wk

theorem steady_rtsx_wait_intr {W : Type} (M : machine W) (sc : rtsx_softc W) (mask : Nat) :
    steady sc (rtsx_wait_intr M sc mask).1 := by
  unfold rtsx_wait_intr
  simp only
  refine steady_trans (b := (if sc.rtsx_intr_status &&& (mask ||| RTSX_TRANS_FAIL_INT) = 0 then
      rtsx_wait_intr_loop (mask ||| RTSX_TRANS_FAIL_INT)
        (M.wakeups sc.rtsx_res sc.rtsx_cmd_dmamem sc.rtsx_data_dmamem) sc
      else (sc, sc.rtsx_intr_status &&& (mask ||| RTSX_TRANS_FAIL_INT), 0)).1) ?_ ?_
  · split
    · exact steady_rtsx_wait_intr_loop _ _ sc
    · exact steady_refl sc
  · exact steady_of_eq rfl rfl

theorem steady_rtsx_read_loop {W : Type} (M : machine W) (n : Nat) :
    ∀ (sc : rtsx_softc W) (reg : Nat), steady sc (rtsx_read_loop M n sc reg).1 := by
  induction n with
  | zero => intro sc reg; exact steady_refl sc
  | succ n ih =>
    intro sc reg
    unfold rtsx_read_loop
    simp only
    split
    · exact steady_READ4 M sc RTSX_HAIMR
    · exact steady_trans (steady_READ4 M sc RTSX_HAIMR) (ih _ _)

theorem steady_rtsx_read {W : Type} (M : machine W) (sc : rtsx_softc W) (addr : Nat) :
    steady sc (rtsx_read M sc addr).1 :=
  steady_trans (steady_WRITE4 M sc _ _) (steady_rtsx_read_loop M 1024 _ _)

theorem steady_rtsx_write_loop {W : Type} (M : machine W) (val n : Nat) :
    ∀ (sc : rtsx_softc W), steady sc (rtsx_write_loop M val n sc).1 := by
  induction n with
  | zero => intro sc; exact steady_refl sc
  | succ n ih =>
    intro sc
    unfold rtsx_write_loop
    simp only
    split
    · split
      · exact steady_READ4 M sc RTSX_HAIMR
      · exact steady_READ4 M sc RTSX_HAIMR
    · exact steady_trans (steady_READ4 M sc RTSX_HAIMR) (ih _)

theorem steady_rtsx_write {W : Type} (M : machine W) (sc : rtsx_softc W) (addr mask val : Nat) :
    steady sc (rtsx_write M sc addr mask val).1 :=
  steady_trans (steady_WRITE4 M sc _ _) (steady_rtsx_write_loop M val 1024 _)

theorem steady_rtsx_soft_reset {W : Type} (M : machine W) (sc : rtsx_softc W) :
    steady sc (rtsx_soft_reset M sc) :=
  steady_trans (steady_WRITE4 M sc _ _) (steady_trans (steady_WRITE4 M _ _ _)
    (steady_trans (steady_rtsx_write M _ _ _ _) (steady_trans (steady_rtsx_write M _ _ _ _)
      (steady_rtsx_write M _ _ _ _))))

theorem steady_rtsx_send_cmd_nowait {W : Type} (M : machine W) (sc : rtsx_softc W) :
    steady sc (rtsx_send_cmd_nowait M sc) :=
  steady_of_eq rfl rfl

theorem steady_rtsx_send_cmd {W : Type} (M : machine W) (sc : rtsx_softc W) (cmd : mmc_command) :
    steady sc (rtsx_send_cmd M sc cmd).1 := by
  have h : (rtsx_send_cmd M sc cmd).1 =
      (rtsx_wait_intr M (rtsx_send_cmd_nowait M sc) RTSX_TRANS_OK_INT).1 := by
    unfold rtsx_send_cmd
    simp only
    split <;> rfl
  rw [h]
  exact steady_trans (steady_rtsx_send_cmd_nowait M sc) (steady_rtsx_wait_intr M _ _)

theorem steady_rtsx_send_req_get_resp_copy {W : Type} (sc : rtsx_softc W) (cmd : mmc_command)
    (rsp_type : Nat) : steady sc (rtsx_send_req_get_resp_copy sc cmd rsp_type).1 := by
  unfold rtsx_send_req_get_resp_copy
  split
  · split
    · exact steady_of_eq rfl rfl
    · exact steady_refl sc
  · exact steady_refl sc

theorem steady_rtsx_xfer_start {W : Type} (M : machine W) (sc : rtsx_softc W) (d : mmc_data) :
    steady sc (rtsx_xfer_start M sc d) := by
  unfold rtsx_xfer_start
  simp only
  refine steady_trans (steady_rtsx_send_cmd_nowait M sc) (steady_trans ?_
    (steady_trans (steady_WRITE4 M _ _ _) (steady_WRITE4 M _ _ _)))
  split
  · exact steady_of_eq rfl rfl
  · exact steady_of_eq rfl rfl

theorem steady_rtsx_mmcbr_request_crc {W : Type} (M : machine W)
    (r : rtsx_softc W × mmc_command × Nat) : steady r.1 (rtsx_mmcbr_request_crc M r).1 := by
  unfold rtsx_mmcbr_request_crc
  split
  · simp only
    split
    · exact steady_rtsx_read M r.1 RTSX_SD_STAT1
    · exact steady_rtsx_read M r.1 RTSX_SD_STAT1
  · exact steady_refl r.1

/-- A successful push is steady: the index it leaves is at most 256. -/
theorem rtsx_push_cmd_steady {W : Type} {sc s1 : rtsx_softc W} {cmd reg mask data : Nat}
    (h : rtsx_push_cmd sc cmd reg mask data = some s1) : steady sc s1 := by
  unfold rtsx_push_cmd at h
  split at h
  · rename_i hlt
    cases h
    exact ⟨rfl, fun _ => by
      simp only [RTSX_HOSTCMD_MAX] at hlt
      show sc.rtsx_cmd_index + 1 ≤ 256
      omega⟩
  · exact absurd h (by simp)

theorem rtsx_push_reads_steady {W : Type} (n : Nat) :
    ∀ (reg : Nat) (sc s1 : rtsx_softc W), rtsx_push_reads n reg sc = some s1 → steady sc s1 := by
  induction n with
  | zero =>
    intro reg sc s1 h
    cases h
    exact steady_refl sc
  | succ n ih =>
    intro reg sc s1 h
    unfold rtsx_push_reads at h
    obtain ⟨a, ha, hb⟩ := Option.bind_eq_some.mp h
    exact steady_trans (rtsx_push_cmd_steady ha) (ih _ _ _ hb)

theorem rtsx_push_writes_steady {W : Type} (buf : Nat → Nat) (n : Nat) :
    ∀ (reg ptr : Nat) (sc s1 : rtsx_softc W),
      rtsx_push_writes buf n reg ptr sc = some s1 → steady sc s1 := by
  induction n with
  | zero =>
    intro reg ptr sc s1 h
    cases h
    exact steady_refl sc
  | succ n ih =>
    intro reg ptr sc s1 h
    unfold rtsx_push_writes at h
    obtain ⟨a, ha, hb⟩ := Option.bind_eq_some.mp h
    exact steady_trans (rtsx_push_cmd_steady ha) (ih _ _ _ _ hb)

theorem rtsx_init_cmd_steady {W : Type} {sc s1 : rtsx_softc W} {cmd : mmc_command}
    (h : rtsx_init_cmd sc cmd = some s1) : steady sc s1 := by
  unfold rtsx_init_cmd at h
  simp only [Option.bind_eq_bind, Option.bind_eq_some] at h
  obtain ⟨a1, e1, a2, e2, a3, e3, a4, e4, e5⟩ := h
  exact steady_trans (steady_reset_index sc) (steady_trans (rtsx_push_cmd_steady e1)
    (steady_trans (rtsx_push_cmd_steady e2) (steady_trans (rtsx_push_cmd_steady e3)
      (steady_trans (rtsx_push_cmd_steady e4) (rtsx_push_cmd_steady e5)))))

theorem rtsx_push_counts_steady {W : Type} {sc s1 : rtsx_softc W} {d : mmc_data}
    (h : rtsx_push_counts sc d = some s1) : steady sc s1 := by
  unfold rtsx_push_counts at h
  split at h
  · exact absurd h (by simp)
  · simp only [Option.bind_eq_bind, Option.bind_eq_some] at h
    obtain ⟨a1, e1, a2, e2, a3, e3, e4⟩ := h
    exact steady_trans (rtsx_push_cmd_steady e1) (steady_trans (rtsx_push_cmd_steady e2)
      (steady_trans (rtsx_push_cmd_steady e3) (rtsx_push_cmd_steady e4)))


theorem rtsx_send_req_get_resp_queue_steady {W : Type} {sc s1 : rtsx_softc W}
    {cmd : mmc_command} {rsp_type : Nat}
    (h : rtsx_send_req_get_resp_queue sc cmd rsp_type = some s1) : steady sc s1 := by
  unfold rtsx_send_req_get_resp_queue at h
  simp only [Option.bind_eq_bind] at h
  obtain ⟨a0, e0, h⟩ := Option.bind_eq_some.mp h
  obtain ⟨a1, e1, h⟩ := Option.bind_eq_some.mp h
  obtain ⟨a2, e2, h⟩ := Option.bind_eq_some.mp h
  obtain ⟨a3, e3, h⟩ := Option.bind_eq_some.mp h
  obtain ⟨a4, e4, h⟩ := Option.bind_eq_some.mp h
  have h4 := steady_trans (rtsx_init_cmd_steady e0) (steady_trans (rtsx_push_cmd_steady e1)
    (steady_trans (rtsx_push_cmd_steady e2) (steady_trans (rtsx_push_cmd_steady e3)
      (rtsx_push_cmd_steady e4))))
  split at h
  · obtain ⟨a5, e5, e6⟩ := Option.bind_eq_some.mp h
    exact steady_trans h4 (steady_trans (rtsx_push_reads_steady _ _ _ _ e5)
      (rtsx_push_cmd_steady e6))
  · split at h
    · obtain ⟨a5, e5, e6⟩ := Option.bind_eq_some.mp h
      exact steady_trans h4 (steady_trans (rtsx_push_reads_steady _ _ _ _ e5)
        (rtsx_push_cmd_steady e6))
    · exact steady_trans h4 (rtsx_push_cmd_steady h)

theorem rtsx_send_req_get_resp_steady {W : Type} (M : machine W) {sc : rtsx_softc W}
    {cmd : mmc_command} {r : rtsx_softc W × mmc_command × Nat}
    (h : rtsx_send_req_get_resp M sc cmd = some r) : steady sc r.1 := by
  unfold rtsx_send_req_get_resp at h
  simp only at h
  split at h
  · cases h
    exact steady_refl sc
  · obtain ⟨s1, e1, h2⟩ := Option.bind_eq_some.mp h
    have hq := steady_trans (rtsx_send_req_get_resp_queue_steady e1)
      (steady_rtsx_send_cmd M s1 cmd)
    split at h2
    · cases h2
      exact hq
    · cases h2
      exact steady_trans hq (steady_rtsx_send_req_get_resp_copy _ _ _)

theorem rtsx_read_ppbuf_loop_steady {W : Type} (M : machine W) (k : Nat) :
    ∀ v v1 : ppbuf_vars W, rtsx_read_ppbuf_loop M k v = some v1 → steady v.sc v1.sc := by
  induction k with
  | zero =>
    intro v v1 h
    cases h
    exact steady_refl _
  | succ k ih =>
    intro v v1 h
    rw [rtsx_read_ppbuf_loop] at h
    obtain ⟨s1, e1, h2⟩ := Option.bind_eq_some.mp h
    have hq := steady_trans (steady_reset_index v.sc)
      (steady_trans (rtsx_push_reads_steady _ _ _ _ e1) (steady_rtsx_send_cmd M s1 v.cmd))
    simp only at h2
    split at h2
    · have e := Option.some.inj h2
      subst e
      exact hq
    · exact steady_trans hq (ih _ _ h2)

theorem rtsx_write_ppbuf_loop_steady {W : Type} (M : machine W) (k : Nat) :
    ∀ v v1 : ppbuf_vars W, rtsx_write_ppbuf_loop M k v = some v1 → steady v.sc v1.sc := by
  induction k with
  | zero =>
    intro v v1 h
    cases h
    exact steady_refl _
  | succ k ih =>
    intro v v1 h
    rw [rtsx_write_ppbuf_loop] at h
    obtain ⟨s1, e1, h2⟩ := Option.bind_eq_some.mp h
    have hq := steady_trans (steady_reset_index v.sc)
      (steady_trans (rtsx_push_writes_steady _ _ _ _ _ _ e1) (steady_rtsx_send_cmd M s1 v.cmd))
    simp only at h2
    split at h2
    · have e := Option.some.inj h2
      subst e
      exact hq
    · exact steady_trans hq (ih _ _ h2)

theorem rtsx_read_ppbuf_steady {W : Type} (M : machine W) {sc : rtsx_softc W}
    {cmd : mmc_command} {r : rtsx_softc W × mmc_command × Nat}
    (h : rtsx_read_ppbuf M sc cmd = some r) : steady sc r.1 := by
  unfold rtsx_read_ppbuf at h
  cases hd : cmd.data with
  | none =>
    rw [hd] at h
    exact absurd h (by simp)
  | some d =>
    rw [hd] at h
    obtain ⟨v, ev, h2⟩ := Option.bind_eq_some.mp h
    have hv := rtsx_read_ppbuf_loop_steady M _ _ _ ev
    simp only at hv
    split at h2
    · cases h2
      exact hv
    · split at h2
      · obtain ⟨s1, e1, h3⟩ := Option.bind_eq_some.mp h2
        have hq := steady_trans hv (steady_trans (steady_reset_index v.sc)
          (steady_trans (rtsx_push_reads_steady _ _ _ _ e1) (steady_rtsx_send_cmd M s1 v.cmd)))
        simp only at h3
        split at h3
        · cases h3
          exact hq
        · cases h3
          exact hq
      · cases h2
        exact hv

theorem rtsx_write_ppbuf_steady {W : Type} (M : machine W) {sc : rtsx_softc W}
    {cmd : mmc_command} {r : rtsx_softc W × mmc_command × Nat}
    (h : rtsx_write_ppbuf M sc cmd = some r) : steady sc r.1 := by
  unfold rtsx_write_ppbuf at h
  cases hd : cmd.data with
  | none =>
    rw [hd] at h
    exact absurd h (by simp)
  | some d =>
    rw [hd] at h
    obtain ⟨v, ev, h2⟩ := Option.bind_eq_some.mp h
    have hv := rtsx_write_ppbuf_loop_steady M _ _ _ ev
    simp only at hv
    split at h2
    · cases h2
      exact hv
    · split at h2
      · obtain ⟨s1, e1, h3⟩ := Option.bind_eq_some.mp h2
        have hq := steady_trans hv (steady_trans (steady_reset_index v.sc)
          (steady_trans (rtsx_push_writes_steady _ _ _ _ _ _ e1)
            (steady_rtsx_send_cmd M s1 v.cmd)))
        simp only at h3
        split at h3
        · cases h3
          exact hq
        · cases h3
          exact hq
      · cases h2
        exact hv

theorem rtsx_xfer_short_steady {W : Type} (M : machine W) {sc : rtsx_softc W}
    {cmd : mmc_command} {r : rtsx_softc W × mmc_command × Nat}
    (h : rtsx_xfer_short M sc cmd = some r) : steady sc r.1 := by
  unfold rtsx_xfer_short at h
  cases hd : cmd.data with
  | none =>
    rw [hd] at h
    cases h
    exact steady_refl sc
  | some d0 =>
    rw [hd] at h
    simp only at h
    split at h
    · cases h
      exact steady_refl sc
    · split at h
      · cases h
        exact steady_refl sc
      · split at h
        · cases h
          exact steady_refl sc
        · split at h
          · simp only [Option.bind_eq_bind, Option.bind_eq_some] at h
            obtain ⟨a0, e0, a1, e1, a2, e2, a3, e3, a4, e4, a5, e5, h2⟩ := h
            have hq : ∀ c, steady sc (rtsx_send_cmd M a5 c).1 := fun c =>
              steady_trans (rtsx_init_cmd_steady e0)
              (steady_trans (rtsx_push_counts_steady e1) (steady_trans (rtsx_push_cmd_steady e2)
                (steady_trans (rtsx_push_cmd_steady e3) (steady_trans (rtsx_push_cmd_steady e4)
                  (steady_trans (rtsx_push_cmd_steady e5) (steady_rtsx_send_cmd M a5 c))))))
            split at h2
            · have e := Option.some.inj h2
              subst e
              exact hq _
            · exact steady_trans (hq _) (rtsx_read_ppbuf_steady M h2)
          · simp only [Option.bind_eq_bind] at h
            obtain ⟨g, eg, h2⟩ := Option.bind_eq_some.mp h
            have hg := rtsx_send_req_get_resp_steady M eg
            split at h2
            · cases h2
              exact hg
            · obtain ⟨w, ew, h3⟩ := Option.bind_eq_some.mp h2
              have hw := steady_trans hg (rtsx_write_ppbuf_steady M ew)
              split at h3
              · cases h3
                exact hw
              · simp only [Option.bind_eq_some] at h3
                obtain ⟨a1, e1, a2, e2, a3, e3, a4, e4, h4⟩ := h3
                cases h4
                exact steady_trans hw (steady_trans (steady_reset_index w.1)
                  (steady_trans (rtsx_push_counts_steady e1)
                    (steady_trans (rtsx_push_cmd_steady e2)
                      (steady_trans (rtsx_push_cmd_steady e3)
                        (steady_trans (rtsx_push_cmd_steady e4)
                          (steady_rtsx_send_cmd M a4 _))))))

theorem rtsx_xfer_queue_steady {W : Type} {sc s1 : rtsx_softc W} {cmd : mmc_command}
    {d : mmc_data} (h : rtsx_xfer_queue sc cmd d = some s1) : steady sc s1 := by
  unfold rtsx_xfer_queue at h
  simp only at h
  split at h
  · obtain ⟨a0, e0, h⟩ := Option.bind_eq_some.mp h
    obtain ⟨a1, e1, h⟩ := Option.bind_eq_some.mp h
    obtain ⟨a2, e2, h⟩ := Option.bind_eq_some.mp h
    obtain ⟨a3, e3, h⟩ := Option.bind_eq_some.mp h
    obtain ⟨a4, e4, h⟩ := Option.bind_eq_some.mp h
    obtain ⟨a5, e5, h⟩ := Option.bind_eq_some.mp h
    obtain ⟨a6, e6, h⟩ := Option.bind_eq_some.mp h
    obtain ⟨a7, e7, h⟩ := Option.bind_eq_some.mp h
    obtain ⟨a8, e8, h⟩ := Option.bind_eq_some.mp h
    obtain ⟨a9, e9, h⟩ := Option.bind_eq_some.mp h
    obtain ⟨a10, e10, e11⟩ := Option.bind_eq_some.mp h
    exact steady_trans (rtsx_init_cmd_steady e0) (steady_trans (rtsx_push_counts_steady e1)
      (steady_trans (rtsx_push_cmd_steady e2) (steady_trans (rtsx_push_cmd_steady e3)
        (steady_trans (rtsx_push_cmd_steady e4) (steady_trans (rtsx_push_cmd_steady e5)
          (steady_trans (rtsx_push_cmd_steady e6) (steady_trans (rtsx_push_cmd_steady e7)
            (steady_trans (rtsx_push_cmd_steady e8) (steady_trans (rtsx_push_cmd_steady e9)
              (steady_trans (rtsx_push_cmd_steady e10) (rtsx_push_cmd_steady e11)))))))))))
  · obtain ⟨a0, e0, h⟩ := Option.bind_eq_some.mp h
    have e := Option.some.inj e0
    subst e
    obtain ⟨a1, e1, h⟩ := Option.bind_eq_some.mp h
    obtain ⟨a2, e2, h⟩ := Option.bind_eq_some.mp h
    obtain ⟨a3, e3, h⟩ := Option.bind_eq_some.mp h
    obtain ⟨a4, e4, h⟩ := Option.bind_eq_some.mp h
    obtain ⟨a5, e5, h⟩ := Option.bind_eq_some.mp h
    obtain ⟨a6, e6, h⟩ := Option.bind_eq_some.mp h
    obtain ⟨a7, e7, h⟩ := Option.bind_eq_some.mp h
    obtain ⟨a8, e8, h⟩ := Option.bind_eq_some.mp h
    obtain ⟨a9, e9, h⟩ := Option.bind_eq_some.mp h
    obtain ⟨a10, e10, e11⟩ := Option.bind_eq_some.mp h
    exact steady_trans (steady_reset_index sc) (steady_trans (rtsx_push_counts_steady e1)
      (steady_trans (rtsx_push_cmd_steady e2) (steady_trans (rtsx_push_cmd_steady e3)
        (steady_trans (rtsx_push_cmd_steady e4) (steady_trans (rtsx_push_cmd_steady e5)
          (steady_trans (rtsx_push_cmd_steady e6) (steady_trans (rtsx_push_cmd_steady e7)
            (steady_trans (rtsx_push_cmd_steady e8) (steady_trans (rtsx_push_cmd_steady e9)
              (steady_trans (rtsx_push_cmd_steady e10) (rtsx_push_cmd_steady e11)))))))))))

theorem rtsx_xfer_finish_steady {W : Type} (M : machine W) {sc : rtsx_softc W}
    {cmd : mmc_command} {d : mmc_data} {r : rtsx_softc W × mmc_command × Nat}
    (h : rtsx_xfer_finish M sc cmd d = some r) : steady sc r.1 := by
  unfold rtsx_xfer_finish at h
  split at h
  · cases h
    exact steady_refl sc
  · cases hreq : sc.rtsx_req with
    | none =>
      rw [hreq] at h
      exact absurd h (by simp)
    | some req =>
      rw [hreq] at h
      simp only at h
      cases hst : req.stop with
      | none =>
        rw [hst] at h
        exact absurd h (by simp)
      | some stop =>
        rw [hst] at h
        simp only at h
        obtain ⟨g, eg, h2⟩ := Option.bind_eq_some.mp h
        cases h2
        exact steady_trans (rtsx_send_req_get_resp_steady M eg) (steady_of_eq rfl rfl)

theorem rtsx_xfer_steady {W : Type} (M : machine W) {sc : rtsx_softc W}
    {cmd : mmc_command} {r : rtsx_softc W × mmc_command × Nat}
    (h : rtsx_xfer M sc cmd = some r) : steady sc r.1 := by
  unfold rtsx_xfer at h
  cases hd : cmd.data with
  | none =>
    rw [hd] at h
    exact absurd h (by simp)
  | some d0 =>
    rw [hd] at h
    simp only at h
    split at h
    · cases h
      exact steady_refl sc
    · obtain ⟨g, eg, h2⟩ := Option.bind_eq_some.mp h
      have hg : steady sc g.1 := by
        split at eg
        · cases eg
          exact steady_refl sc
        · exact rtsx_send_req_get_resp_steady M eg
      split at h2
      · cases h2
        exact hg
      · obtain ⟨s1, e1, h3⟩ := Option.bind_eq_some.mp h2
        have hw := steady_trans hg (steady_trans (rtsx_xfer_queue_steady e1)
          (steady_trans (steady_rtsx_xfer_start M s1 (rtsx_default_xfer_len d0))
            (steady_rtsx_wait_intr M _ RTSX_TRANS_OK_INT)))
        split at h3
        · cases h3
          exact hw
        · exact steady_trans hw (rtsx_xfer_finish_steady M h3)

theorem rtsx_mmcbr_request_body_steady {W : Type} (M : machine W) {sc : rtsx_softc W}
    {cmd : mmc_command} {r : rtsx_softc W × mmc_command × Nat}
    (h : rtsx_mmcbr_request_body M sc cmd = some r) : steady sc r.1 := by
  unfold rtsx_mmcbr_request_body at h
  split at h
  · cases h
    exact steady_refl sc
  · split at h
    · cases h
      exact steady_refl sc
    · cases hd : cmd.data with
      | none =>
        rw [hd] at h
        exact rtsx_send_req_get_resp_steady M h
      | some d =>
        rw [hd] at h
        simp only at h
        split at h
        · obtain ⟨x, ex, h2⟩ := Option.map_eq_some'.mp h
          cases h2
          exact steady_trans (rtsx_xfer_short_steady M ex) (steady_rtsx_mmcbr_request_crc M x)
        · obtain ⟨x, ex, h2⟩ := Option.map_eq_some'.mp h
          cases h2
          exact steady_trans (rtsx_xfer_steady M ex) (steady_rtsx_mmcbr_request_crc M x)

theorem rtsx_req_done_steady {W : Type} (M : machine W) {sc : rtsx_softc W}
    {r : rtsx_softc W × mmc_request} (h : rtsx_req_done M sc = some r) : steady sc r.1 := by
  unfold rtsx_req_done at h
  cases hreq : sc.rtsx_req with
  | none =>
    rw [hreq] at h
    exact absurd h (by simp)
  | some req =>
    rw [hreq] at h
    simp only at h
    cases h
    refine steady_trans (b := if req.cmd.error ≠ MMC_ERR_NONE then rtsx_soft_reset M sc else sc)
      ?_ (steady_of_eq rfl rfl)
    split
    · exact steady_rtsx_soft_reset M sc
    · exact steady_refl sc

/-- A request that returns keeps the chip identity and the descriptor index range. -/
theorem rtsx_mmcbr_request_steady {W : Type} (M : machine W) {sc : rtsx_softc W}
    {req : mmc_request} {r : rtsx_softc W × mmc_request × Nat}
    (h : rtsx_mmcbr_request M sc req = some r) : steady sc r.1 := by
  unfold rtsx_mmcbr_request at h
  simp only at h
  split at h
  · cases h
    exact steady_of_eq rfl rfl
  · obtain ⟨b, eb, h2⟩ := Option.bind_eq_some.mp h
    obtain ⟨dn, ed, h3⟩ := Option.bind_eq_some.mp h2
    cases h3
    have h1 : steady sc { RTSX_LOCK sc with
        rtsx_req := some { req with cmd := { req.cmd with error := MMC_ERR_NONE } }
        rtsx_intr_status := 0 } := steady_of_eq rfl rfl
    exact steady_trans h1 (steady_trans (rtsx_mmcbr_request_body_steady M eb)
      (steady_trans (b := rtsx_req_cmd_alias b.1 b.2.1) (steady_of_eq rfl rfl)
        (steady_trans (rtsx_req_done_steady M ed) (steady_of_eq rfl rfl))))


-- ---------------------------------------------------------------------------
-- C25: exactly one chip variant
-- ---------------------------------------------------------------------------

theorem steady_RTSX_READ {W β : Type} (g : β → rtsx_softc W) (M : machine W)
    (sc0 sc : rtsx_softc W) (reg : Nat) (ret k : rtsx_softc W → Nat → β)
    (h0 : steady sc0 sc) (hret : ∀ s e, steady sc0 s → steady sc0 (g (ret s e)))
    (hk : ∀ s v, steady sc0 s → steady sc0 (g (k s v))) :
    steady sc0 (g (RTSX_READ M sc reg ret k)) := by
  unfold RTSX_READ
  simp only
  split
  · exact hret _ _ (steady_trans h0 (steady_rtsx_read M sc reg))
  · exact hk _ _ (steady_trans h0 (steady_rtsx_read M sc reg))

theorem steady_RTSX_WRITE {W β : Type} (g : β → rtsx_softc W) (M : machine W)
    (sc0 sc : rtsx_softc W) (reg val : Nat) (ret : rtsx_softc W → Nat → β)
    (k : rtsx_softc W → β)
    (h0 : steady sc0 sc) (hret : ∀ s e, steady sc0 s → steady sc0 (g (ret s e)))
    (hk : ∀ s, steady sc0 s → steady sc0 (g (k s))) :
    steady sc0 (g (RTSX_WRITE M sc reg val ret k)) := by
  unfold RTSX_WRITE
  simp only
  split
  · exact hret _ _ (steady_trans h0 (steady_rtsx_write M sc reg 0xff val))
  · exact hk _ (steady_trans h0 (steady_rtsx_write M sc reg 0xff val))

theorem steady_rtsx_poll_loop {W : Type} (M : machine W) (reg busy n : Nat) :
    ∀ sc : rtsx_softc W, steady sc (rtsx_poll_loop M reg busy n sc).1 := by
  induction n with
  | zero => intro sc; exact steady_refl sc
  | succ n ih =>
    intro sc
    unfold rtsx_poll_loop
    simp only
    split
    · exact steady_rtsx_read M sc reg
    · split
      · exact steady_rtsx_read M sc reg
      · exact steady_trans (steady_rtsx_read M sc reg) (ih _)

theorem steady_rtsx_read_cfg {W : Type} (M : machine W) (sc : rtsx_softc W) (func addr : Nat) :
    steady sc (rtsx_read_cfg M sc func addr).1 := by
  unfold rtsx_read_cfg
  refine steady_RTSX_WRITE Prod.fst M sc sc _ _ _ _ (steady_refl sc) (fun s e h => h)
    (fun s1 h1 => ?_)
  refine steady_RTSX_WRITE Prod.fst M sc s1 _ _ _ _ h1 (fun s e h => h) (fun s2 h2 => ?_)
  refine steady_RTSX_WRITE Prod.fst M sc s2 _ _ _ _ h2 (fun s e h => h) (fun s3 h3 => ?_)
  have hl := steady_trans h3 (steady_rtsx_poll_loop M RTSX_CFGRWCTL RTSX_CFG_BUSY 1024 s3)
  simp only
  split
  · exact hl
  · split
    · exact hl
    · refine steady_RTSX_READ Prod.fst M sc _ _ _ _ hl (fun s e h => h) (fun s4 v4 h4 => ?_)
      refine steady_RTSX_READ Prod.fst M sc _ _ _ _ h4 (fun s e h => h) (fun s5 v5 h5 => ?_)
      refine steady_RTSX_READ Prod.fst M sc _ _ _ _ h5 (fun s e h => h) (fun s6 v6 h6 => ?_)
      exact steady_RTSX_READ Prod.fst M sc _ _ _ _ h6 (fun s e h => h) (fun s7 v7 h7 => h7)

/-- A bit inside a mask is read off the masked word. -/
theorem land_inside (f k b : Nat) (h : k &&& b = b) : f &&& b = (f &&& k) &&& b := by
  rw [Nat.land_assoc, h]

/-- Setting bits outside a mask keeps the masked word. -/
theorem lor_outside (f k b : Nat) (h : k &&& b = 0) : (f ||| b) &&& k = f &&& k := by
  rw [Nat.land_comm, Nat.and_or_distrib_left, h, Nat.or_zero, Nat.land_comm]

/-- Setting bits inside a mask sets them in the masked word. -/
theorem lor_inside (f k b : Nat) (h : k &&& b = b) : (f ||| b) &&& k = (f &&& k) ||| b := by
  rw [Nat.land_comm, Nat.and_or_distrib_left, h, Nat.land_comm]

/-- The chip identity bits lie outside the card-present bit. -/
theorem chip_bits_of_steady {W : Type} {sc sc1 : rtsx_softc W} (h : steady sc sc1) :
    sc1.rtsx_flags &&& 0x7FFC = sc.rtsx_flags &&& 0x7FFC := by
  rw [land_inside sc1.rtsx_flags 0xFFFE 0x7FFC rfl, land_inside sc.rtsx_flags 0xFFFE 0x7FFC rfl,
    h.1]

/-- A flag word whose identity bits are one of `chip_ids` has exactly one chip-variant bit,
and its sub-flags go with their own variant. -/
theorem chip_ids_spec (f : Nat) (h : f &&& 0x7FFC ∈ chip_ids) :
    variant_count f = 1 ∧ sub_flags_own f := by
  have hv : variant_count f = variant_count (f &&& 0x7FFC) := by
    unfold variant_count
    congr 1
    apply List.filter_congr
    intro b hb
    have hk : ∀ b ∈ chip_variants, 0x7FFC &&& b = b := by decide
    rw [land_inside f 0x7FFC b (hk b hb)]
  have hall : ∀ a ∈ chip_ids, variant_count a = 1 ∧
      ((a &&& RTSX_F_5229_TYPE_C ≠ 0 → a &&& RTSX_F_5229 ≠ 0) ∧
       (a &&& RTSX_F_522A_TYPE_A ≠ 0 → a &&& RTSX_F_522A ≠ 0) ∧
       (a &&& RTSX_F_525A_TYPE_A ≠ 0 → a &&& RTSX_F_525A ≠ 0) ∧
       (a &&& RTSX_F_8411B_QFN48 ≠ 0 → a &&& RTSX_F_8411B ≠ 0)) := by
    decide
  obtain ⟨h1, h2⟩ := hall _ h
  refine ⟨hv.trans h1, ?_⟩
  unfold sub_flags_own
  rw [land_inside f 0x7FFC RTSX_F_5229_TYPE_C rfl, land_inside f 0x7FFC RTSX_F_5229 rfl,
    land_inside f 0x7FFC RTSX_F_522A_TYPE_A rfl, land_inside f 0x7FFC RTSX_F_522A rfl,
    land_inside f 0x7FFC RTSX_F_525A_TYPE_A rfl, land_inside f 0x7FFC RTSX_F_525A rfl,
    land_inside f 0x7FFC RTSX_F_8411B_QFN48 rfl, land_inside f 0x7FFC RTSX_F_8411B rfl]
  exact h2

/-- A sub-flag set under the test of its own variant bit keeps the identity bits among
`chip_ids`. -/
theorem chip_ids_sub_flag (f variant sub : Nat) (h : f &&& 0x7FFC ∈ chip_ids)
    (hv : f &&& variant ≠ 0)
    (hp : (variant, sub) ∈ [(RTSX_F_5229, RTSX_F_5229_TYPE_C), (RTSX_F_522A, RTSX_F_522A_TYPE_A),
      (RTSX_F_525A, RTSX_F_525A_TYPE_A), (RTSX_F_8411B, RTSX_F_8411B_QFN48)]) :
    (f ||| sub) &&& 0x7FFC ∈ chip_ids := by
  have hall : ∀ p ∈ [(RTSX_F_5229, RTSX_F_5229_TYPE_C), (RTSX_F_522A, RTSX_F_522A_TYPE_A),
      (RTSX_F_525A, RTSX_F_525A_TYPE_A), (RTSX_F_8411B, RTSX_F_8411B_QFN48)],
      0x7FFC &&& p.1 = p.1 ∧ 0x7FFC &&& p.2 = p.2 ∧
      ∀ a ∈ chip_ids, a &&& p.1 ≠ 0 → a ||| p.2 ∈ chip_ids := by
    decide
  obtain ⟨k1, k2, k3⟩ := hall _ hp
  rw [lor_inside f 0x7FFC sub k2]
  apply k3 _ h
  rw [← land_inside f 0x7FFC variant k1]
  exact hv

theorem rtsx_probe_loop_chip {W : Type} (vendor device : Nat) (l : List (Nat × Nat × Nat))
    (hl : ∀ row ∈ l, row.1 ≠ 0 → (row.2.2 % 65536) &&& 0x7FFC ∈ chip_ids) :
    ∀ sc : rtsx_softc W, (rtsx_probe_loop vendor device l sc).2 = BUS_PROBE_DEFAULT →
      (rtsx_probe_loop vendor device l sc).1.rtsx_flags &&& 0x7FFC ∈ chip_ids := by
  induction l with
  | nil =>
    intro sc h
    exact absurd (show (( ENXIO : Nat) : Int) = BUS_PROBE_DEFAULT from h) (by decide)
  | cons row rest ih =>
    intro sc h
    unfold rtsx_probe_loop at h ⊢
    by_cases h0 : row.1 = 0
    · rw [if_pos h0] at h
      exact absurd (show (( ENXIO : Nat) : Int) = BUS_PROBE_DEFAULT from h) (by decide)
    · rw [if_neg h0] at h ⊢
      by_cases hm : row.1 = vendor ∧ row.2.1 = device
      · rw [if_pos hm]
        exact hl row (List.mem_cons_self _ _) h0
      · rw [if_neg hm] at h ⊢
        exact ih (fun r hr => hl r (List.mem_cons_of_mem _ hr)) sc h

theorem rtsx_probe_chip {W : Type} (vendor device : Nat) (sc : rtsx_softc W)
    (h : (rtsx_probe vendor device sc).2 = BUS_PROBE_DEFAULT) :
    (rtsx_probe vendor device sc).1.rtsx_flags &&& 0x7FFC ∈ chip_ids :=
  rtsx_probe_loop_chip _ _ rtsx_devices (by decide) sc h

theorem rtsx_attach_sdio_chip {W : Type} (M : machine W) (sc : rtsx_softc W) :
    (rtsx_attach_sdio M sc).rtsx_flags &&& 0x7FFC = sc.rtsx_flags &&& 0x7FFC := by
  have hr := chip_bits_of_steady (steady_rtsx_read_cfg M sc 0 RTSX_SDIOCFG_REG)
  unfold rtsx_attach_sdio
  simp only
  split
  · split
    · split
      · exact (lor_outside _ 0x7FFC RTSX_F_SDIO_SUPPORT rfl).trans hr
      · exact hr
    · exact hr
  · exact hr

theorem rtsx_init_version_chip {W : Type} (M : machine W) (sc : rtsx_softc W)
    (h : sc.rtsx_flags &&& 0x7FFC ∈ chip_ids) :
    (rtsx_init_version M sc).1.rtsx_flags &&& 0x7FFC ∈ chip_ids := by
  have key : ∀ (variant sub reg : Nat) (test : Nat → Prop) [DecidablePred test],
      sc.rtsx_flags &&& variant ≠ 0 →
      (variant, sub) ∈ [(RTSX_F_5229, RTSX_F_5229_TYPE_C), (RTSX_F_522A, RTSX_F_522A_TYPE_A),
        (RTSX_F_525A, RTSX_F_525A_TYPE_A), (RTSX_F_8411B, RTSX_F_8411B_QFN48)] →
      (RTSX_READ M sc reg Prod.mk fun sc1 version =>
        (if test version then { sc1 with rtsx_flags := sc1.rtsx_flags ||| sub } else sc1,
          0)).1.rtsx_flags &&& 0x7FFC ∈ chip_ids := by
    intro variant sub reg test _ hv hp
    have hk := chip_bits_of_steady (steady_rtsx_read M sc reg)
    have h1 : (rtsx_read M sc reg).1.rtsx_flags &&& 0x7FFC ∈ chip_ids := by
      rw [hk]
      exact h
    have hin : 0x7FFC &&& variant = variant := by
      have hall : ∀ p ∈ [(RTSX_F_5229, RTSX_F_5229_TYPE_C), (RTSX_F_522A, RTSX_F_522A_TYPE_A),
          (RTSX_F_525A, RTSX_F_525A_TYPE_A), (RTSX_F_8411B, RTSX_F_8411B_QFN48)],
          0x7FFC &&& p.1 = p.1 := by
        decide
      exact hall _ hp
    have hv1 : (rtsx_read M sc reg).1.rtsx_flags &&& variant ≠ 0 := by
      rw [land_inside _ 0x7FFC variant hin, hk, ← land_inside _ 0x7FFC variant hin]
      exact hv
    unfold RTSX_READ
    simp only
    split
    · exact h1
    · split
      · exact chip_ids_sub_flag _ variant sub h1 hv1 hp
      · exact h1
  unfold rtsx_init_version
  split
  · rename_i hv
    exact key RTSX_F_5229 RTSX_F_5229_TYPE_C _ (fun v => v &&& 0x0F = RTSX_IC_VERSION_C) hv
      (by decide)
  · split
    · rename_i hv
      exact key RTSX_F_522A RTSX_F_522A_TYPE_A _ (fun v => v &&& 0x0F = RTSX_IC_VERSION_A) hv
        (by decide)
    · split
      · rename_i hv
        exact key RTSX_F_525A RTSX_F_525A_TYPE_A _ (fun v => v &&& 0x0F = RTSX_IC_VERSION_A) hv
          (by decide)
      · split
        · rename_i hv
          exact key RTSX_F_8411B RTSX_F_8411B_QFN48 _ (fun v => v &&& RTSX_RTL8411B_QFN48 ≠ 0)
            hv (by decide)
        · exact h

theorem rtsx_init_vendor_chip {W : Type} (pci : Nat → Nat) (sc : rtsx_softc W) :
    (rtsx_init_vendor pci sc).rtsx_flags &&& 0x7FFC = sc.rtsx_flags &&& 0x7FFC := by
  unfold rtsx_init_vendor
  split
  · rfl
  · split
    · split
      · split
        · exact lor_outside _ 0x7FFC RTSX_REVERSE_SOCKET rfl
        · rfl
      · rfl
    · split
      · rfl
      · split
        · split
          · split
            · exact lor_outside _ 0x7FFC RTSX_REVERSE_SOCKET rfl
            · rfl
          · rfl
        · rfl

theorem rtsx_init_flags_chip {W : Type} (M : machine W) (pci : Nat → Nat) (sc : rtsx_softc W)
    (h : sc.rtsx_flags &&& 0x7FFC ∈ chip_ids) :
    (rtsx_init_flags M pci sc).1.rtsx_flags &&& 0x7FFC ∈ chip_ids := by
  unfold rtsx_init_flags
  simp only
  split
  · exact rtsx_init_version_chip M sc h
  · show (rtsx_init_vendor pci (rtsx_init_version M sc).1).rtsx_flags &&& 0x7FFC ∈ chip_ids
    rw [rtsx_init_vendor_chip]
    exact rtsx_init_version_chip M sc h

theorem rtsx_card_task_chip {W : Type} (M : machine W) (add_ok : Bool) (sc : rtsx_softc W) :
    (rtsx_card_task M add_ok sc).1.rtsx_flags &&& 0x7FFC = sc.rtsx_flags &&& 0x7FFC := by
  have hs : (rtsx_card_task M add_ok sc).1.rtsx_flags = sc.rtsx_flags ||| RTSX_F_CARD_PRESENT ∨
      (rtsx_card_task M add_ok sc).1.rtsx_flags =
        sc.rtsx_flags &&& (0xFFFF ^^^ RTSX_F_CARD_PRESENT) := by
    unfold rtsx_card_task
    simp only
    split
    · split
      · split
        · exact Or.inl rfl
        · exact Or.inl rfl
      · exact Or.inl rfl
    · split
      · exact Or.inr rfl
      · exact Or.inr rfl
  rcases hs with hs | hs
  · rw [hs]
    exact lor_outside _ 0x7FFC RTSX_F_CARD_PRESENT rfl
  · rw [hs, Nat.land_assoc]
    rfl

theorem rtsx_intr_flags {W : Type} (M : machine W) (sc : rtsx_softc W) :
    (rtsx_intr M sc).1.rtsx_flags = sc.rtsx_flags := by
  have hc : ∀ (s : rtsx_softc W) (status : Nat),
      (if status &&& RTSX_SD_INT ≠ 0 then rtsx_handle_card_present M s
        else (s, [])).1.rtsx_flags = s.rtsx_flags := by
    intro s status
    split
    · rw [(rtsx_handle_card_present_frame M s).1]
      rfl
    · rfl
  have hf : ∀ (h : rtsx_softc W × List kcall) (status : Nat),
      (rtsx_intr_finish h status).1.rtsx_flags = h.1.rtsx_flags := by
    intro h status
    unfold rtsx_intr_finish
    split
    · rfl
    · split <;> rfl
  show (rtsx_intr_body M _ _ _).1.rtsx_flags = _
  unfold rtsx_intr_body
  split
  · rfl
  · simp only
    rw [hf, hc]
    rfl

/-- Every state reachable after a successful probe has its identity bits among
`chip_ids`. -/
theorem reachable_chip_ids {W : Type} (M : machine W) (sc : rtsx_softc W)
    (h : reachable M sc) : sc.rtsx_flags &&& 0x7FFC ∈ chip_ids := by
  induction h with
  | probe sc vendor device hp => exact rtsx_probe_chip vendor device sc hp
  | sdio sc _ ih =>
    rw [rtsx_attach_sdio_chip]
    exact ih
  | init sc pci _ ih => exact rtsx_init_flags_chip M pci sc ih
  | card_task sc add_ok _ ih =>
    rw [rtsx_card_task_chip]
    exact ih
  | intr sc _ ih =>
    rw [rtsx_intr_flags]
    exact ih
  | request sc req r _ hr ih =>
    rw [chip_bits_of_steady (rtsx_mmcbr_request_steady M hr)]
    exact ih
  | other sc sc1 _ he ih =>
    rw [he]
    exact ih

/-- C25: in every controller state reachable after a successful probe (through the SDIO
detection of attach, the flag part of `rtsx_init` for any register and configuration space
contents, the card task, interrupts, requests, and any other step, which keeps the flags)
exactly one of the nine chip-variant bits is set in `rtsx_flags`, and each revision or
package sub-flag (5229 type C, 522A type A, 525A type A, 8411B QFN48) is set only when the
bit of its own variant is set. -/
theorem rtsx_flags_one_variant {W : Type} (M : machine W) (sc : rtsx_softc W)
    (h : reachable M sc) : variant_count sc.rtsx_flags = 1 ∧ sub_flags_own sc.rtsx_flags :=
  chip_ids_spec _ (reachable_chip_ids M sc h)


/-- An RTS5229 (vendor 0x10ec, device 0x5229) after probe, SDIO detection, the flag part of
`rtsx_init` and one run of the card task is a reachable state with one variant bit. -/
theorem rtsx_flags_one_variant_witness :
    reachable ready_machine
      (rtsx_card_task ready_machine true
        (rtsx_init_flags ready_machine (fun _ => 0)
          (rtsx_attach_sdio ready_machine (rtsx_probe 0x10ec 0x5229 (idle_softc 0)).1)).1).1 ∧
    variant_count
      (rtsx_card_task ready_machine true
        (rtsx_init_flags ready_machine (fun _ => 0)
          (rtsx_attach_sdio ready_machine
            (rtsx_probe 0x10ec 0x5229 (idle_softc 0)).1)).1).1.rtsx_flags = 1 ∧
    sub_flags_own
      (rtsx_card_task ready_machine true
        (rtsx_init_flags ready_machine (fun _ => 0)
          (rtsx_attach_sdio ready_machine
            (rtsx_probe 0x10ec 0x5229 (idle_softc 0)).1)).1).1.rtsx_flags :=
  ⟨reachable.card_task _ true (reachable.init _ (fun _ => 0) (reachable.sdio _
      (reachable.probe (idle_softc 0) 0x10ec 0x5229 (by decide)))),
    rtsx_flags_one_variant ready_machine _
      (reachable.card_task _ true (reachable.init _ (fun _ => 0) (reachable.sdio _
        (reachable.probe (idle_softc 0) 0x10ec 0x5229 (by decide)))))⟩

-- ---------------------------------------------------------------------------
-- C26: the descriptor batches
-- ---------------------------------------------------------------------------

/-- On the recording chip a batch of at most 256 descriptors sent with a card present
succeeds, and the chip's log grows by the descriptor words of the batch. -/
theorem batch_recorder_send (sc : rtsx_softc batch_log) (cmd : mmc_command)
    (hcard : ISSET sc.rtsx_flags RTSX_F_CARD_PRESENT = true) (hidx : sc.rtsx_cmd_index ≤ 256) :
    (rtsx_send_cmd batch_recorder sc cmd).2.2 = 0 ∧
    (rtsx_send_cmd batch_recorder sc cmd).2.1 = cmd ∧
    (rtsx_send_cmd batch_recorder sc cmd).1.rtsx_flags = sc.rtsx_flags ∧
    (rtsx_send_cmd batch_recorder sc cmd).1.rtsx_res.log =
      sc.rtsx_res.log ++ [(List.range sc.rtsx_cmd_index).map (load32 sc.rtsx_cmd_dmamem)] := by
  obtain ⟨t1, t2, t3⟩ := trigger_word sc.rtsx_cmd_index hidx
  have hres : (rtsx_send_cmd_nowait batch_recorder sc).rtsx_res =
      { batch := sc.rtsx_cmd_index, log := sc.rtsx_res.log } := by
    have hw1 : ∀ (w : batch_log) (v : Nat), batch_recorder.write4 w RTSX_HCBAR v = w := by
      intro w v
      simp [batch_recorder, RTSX_HCBAR, RTSX_HCBCTLR]
    have hw2 : ∀ w : batch_log,
        batch_recorder.write4 w RTSX_HCBCTLR (3221225472 + 4 * sc.rtsx_cmd_index) =
          { w with batch := sc.rtsx_cmd_index } := by
      intro w
      simp only [batch_recorder]
      rw [if_pos ⟨trivial, t2⟩, t3]
    show batch_recorder.write4 (batch_recorder.write4 sc.rtsx_res RTSX_HCBAR
        (sc.rtsx_cmd_buffer % 2 ^ 32)) RTSX_HCBCTLR
        ((((sc.rtsx_cmd_index * 4) &&& 0x00ffffff) ||| RTSX_START_CMD ||| RTSX_HW_AUTO_RSP)
          % 2 ^ 32) = _
    rw [t1, hw1, hw2]
  have hfl : (rtsx_send_cmd_nowait batch_recorder sc).rtsx_flags = sc.rtsx_flags := rfl
  rw [rtsx_send_cmd_ok batch_recorder sc cmd
    { ewouldblock := false
      hw := { batch := 0
              log := sc.rtsx_res.log ++
                [(List.range sc.rtsx_cmd_index).map (load32 sc.rtsx_cmd_dmamem)] }
      intr_status := RTSX_TRANS_OK_INT
      card_task := none
      cmd_dmamem := sc.rtsx_cmd_dmamem
      data_dmamem := sc.rtsx_data_dmamem } [] hcard (by rw [hres]; rfl) rfl rfl rfl]
  exact ⟨rfl, rfl, rfl, rfl⟩

/-- One batch of `rtsx_read_ppbuf` on the recording chip: the log grows by the `n` read
micro-ops for the registers `reg`, `reg + 1`, ... -/
theorem recorder_read_send (sc : rtsx_softc batch_log) (cmd : mmc_command)
    (n reg : Nat) (hcard : ISSET sc.rtsx_flags RTSX_F_CARD_PRESENT = true) (hn : n ≤ 256) :
    ∃ s1 r, rtsx_push_reads n reg { sc with rtsx_cmd_index := 0 } = some s1 ∧
      rtsx_send_cmd batch_recorder s1 cmd = r ∧ r.2.2 = 0 ∧ r.2.1 = cmd ∧
      r.1.rtsx_flags = sc.rtsx_flags ∧
      r.1.rtsx_res.log = sc.rtsx_res.log ++
        [(List.range n).map fun k => rtsx_cmd_word RTSX_READ_REG_CMD (reg + k) 0 0] := by
  obtain ⟨s1, e1, p1, w1⟩ := rtsx_push_reads_spec n reg
    { sc with rtsx_cmd_index := 0 } (by simp only; omega)
  have i1 : s1.rtsx_cmd_index = n := by rw [pushed_index p1]; simp
  have q1 := pushed_same p1
  have f1 : s1.rtsx_flags = sc.rtsx_flags := same_but_queue_flags q1
  have r1 : s1.rtsx_res = sc.rtsx_res := same_but_queue_res q1
  obtain ⟨h1, h2, h3, h4⟩ := batch_recorder_send s1 cmd (by rw [f1]; exact hcard) (by omega)
  refine ⟨s1, _, e1, rfl, h1, h2, h3.trans f1, ?_⟩
  rw [h4, i1, r1]
  congr 2
  apply List.map_congr_left
  intro k hk
  have := w1 k (List.mem_range.mp hk)
  simp only [Nat.zero_add] at this
  exact this

/-- One batch of `rtsx_write_ppbuf` on the recording chip: the log grows by the `n` write
micro-ops for the registers `reg`, `reg + 1`, ... with the bytes of `buf` from `ptr` on. -/
theorem recorder_write_send (sc : rtsx_softc batch_log) (cmd : mmc_command) (buf : Nat → Nat)
    (n reg ptr : Nat) (hcard : ISSET sc.rtsx_flags RTSX_F_CARD_PRESENT = true) (hn : n ≤ 256) :
    ∃ s1 r, rtsx_push_writes buf n reg ptr { sc with rtsx_cmd_index := 0 } = some s1 ∧
      rtsx_send_cmd batch_recorder s1 cmd = r ∧ r.2.2 = 0 ∧ r.2.1 = cmd ∧
      r.1.rtsx_flags = sc.rtsx_flags ∧
      r.1.rtsx_res.log = sc.rtsx_res.log ++
        [(List.range n).map fun k =>
          rtsx_cmd_word RTSX_WRITE_REG_CMD (reg + k) 0xff (buf (ptr + k))] := by
  obtain ⟨s1, e1, p1, w1⟩ := rtsx_push_writes_spec buf n reg ptr
    { sc with rtsx_cmd_index := 0 } (by simp only; omega)
  have i1 : s1.rtsx_cmd_index = n := by rw [pushed_index p1]; simp
  have q1 := pushed_same p1
  have f1 : s1.rtsx_flags = sc.rtsx_flags := same_but_queue_flags q1
  have r1 : s1.rtsx_res = sc.rtsx_res := same_but_queue_res q1
  obtain ⟨h1, h2, h3, h4⟩ := batch_recorder_send s1 cmd (by rw [f1]; exact hcard) (by omega)
  refine ⟨s1, _, e1, rfl, h1, h2, h3.trans f1, ?_⟩
  rw [h4, i1, r1]
  congr 2
  apply List.map_congr_left
  intro k hk
  have := w1 k (List.mem_range.mp hk)
  simp only [Nat.zero_add] at this
  exact this


theorem map_range_add (f : Nat → Nat) (a b : Nat) :
    (List.range (a + b)).map f =
      (List.range a).map f ++ (List.range b).map fun i => f (a + i) := by
  rw [List.range_add, List.map_append, List.map_map]
  rfl

/-- The full batches of `rtsx_read_ppbuf` on the recording chip: `k` batches starting at
batch `j0` are logged, each of 256 read micro-ops, together those for the bytes
`256 j0 .. 256 (j0 + k) - 1` in increasing order. -/
theorem recorder_read_loop (k : Nat) :
    ∀ (v : ppbuf_vars batch_log) (j0 : Nat), v.reg = RTSX_PPBUF_BASE2 + 256 * j0 →
      j0 + k ≤ 2 → ISSET v.sc.rtsx_flags RTSX_F_CARD_PRESENT = true →
      ∃ v1 bs, rtsx_read_ppbuf_loop batch_recorder k v = some v1 ∧
        (v.error = 0 → v1.error = 0) ∧
        v1.reg = RTSX_PPBUF_BASE2 + 256 * (j0 + k) ∧ v1.cmd = v.cmd ∧
        v1.remain = v.remain - 256 * (k : Int) ∧
        ISSET v1.sc.rtsx_flags RTSX_F_CARD_PRESENT = true ∧
        v1.sc.rtsx_res.log = v.sc.rtsx_res.log ++ bs ∧ bs.length = k ∧
        (∀ b ∈ bs, b.length = 256) ∧
        bs.flatten = (List.range (256 * k)).map fun i =>
          rtsx_cmd_word RTSX_READ_REG_CMD (RTSX_PPBUF_BASE2 + 256 * j0 + i) 0 0 := by
  induction k with
  | zero =>
    intro v j0 hr _ hc
    exact ⟨v, [], rfl, fun h => h, hr, rfl, by simp, hc, by simp, rfl,
      fun b hb => absurd hb (List.not_mem_nil b), rfl⟩
  | succ k ih =>
    intro v j0 hr hj hc
    obtain ⟨s1, r, e1, hq, h1, h2, h3, h4⟩ :=
      recorder_read_send v.sc v.cmd RTSX_HOSTCMD_MAX v.reg hc (by decide)
    have es := rtsx_read_ppbuf_loop_step batch_recorder k v s1 r e1 hq h1
    obtain ⟨v1, bs, ev, g0, g1, g2, g3, g4, g5, g6, g7, g8⟩ := ih
      { sc := r.1, cmd := r.2.1, error := 0
        buf := memcpy v.buf v.ptr r.1.rtsx_cmd_dmamem RTSX_HOSTCMD_MAX
        reg := (v.reg + RTSX_HOSTCMD_MAX) % 65536
        ptr := v.ptr + RTSX_HOSTCMD_MAX
        remain := v.remain - RTSX_HOSTCMD_MAX } (j0 + 1)
      (by simp only [hr, RTSX_PPBUF_BASE2, RTSX_HOSTCMD_MAX]; omega) (by omega)
      (by simp only; rw [h3]; exact hc)
    simp only at g1 g2 g3 g4 g5
    refine ⟨v1, ((List.range RTSX_HOSTCMD_MAX).map fun i =>
      rtsx_cmd_word RTSX_READ_REG_CMD (v.reg + i) 0 0) :: bs, es.trans ev, fun _ => g0 rfl,
      by rw [g1]; omega, g2.trans h2, ?_, g4, ?_, by rw [List.length_cons, g6], ?_, ?_⟩
    · rw [g3]
      simp only [RTSX_HOSTCMD_MAX]
      push_cast
      omega
    · rw [g5, h4, List.append_assoc]
      rfl
    · intro b hb
      rcases List.mem_cons.mp hb with hb | hb
      · rw [hb, List.length_map, List.length_range]
        rfl
      · exact g7 b hb
    · rw [List.flatten_cons, g8, show 256 * (k + 1) = 256 + 256 * k by omega, map_range_add, hr]
      simp only [RTSX_HOSTCMD_MAX]
      have e : (fun i => rtsx_cmd_word RTSX_READ_REG_CMD
            (RTSX_PPBUF_BASE2 + 256 * (j0 + 1) + i) 0 0) =
          fun i => rtsx_cmd_word RTSX_READ_REG_CMD
            (RTSX_PPBUF_BASE2 + 256 * j0 + (256 + i)) 0 0 := by
        funext i
        rw [show RTSX_PPBUF_BASE2 + 256 * (j0 + 1) + i =
          RTSX_PPBUF_BASE2 + 256 * j0 + (256 + i) by omega]
      rw [e]

/-- The full batches of `rtsx_write_ppbuf` on the recording chip: `k` batches starting at
batch `j0` are logged, each of 256 write micro-ops, together those for the bytes
`256 j0 .. 256 (j0 + k) - 1` of the buffer in increasing order. -/
theorem recorder_write_loop (k : Nat) :
    ∀ (v : ppbuf_vars batch_log) (j0 : Nat), v.reg = RTSX_PPBUF_BASE2 + 256 * j0 →
      v.ptr = 256 * j0 → j0 + k ≤ 2 → ISSET v.sc.rtsx_flags RTSX_F_CARD_PRESENT = true →
      ∃ v1 bs, rtsx_write_ppbuf_loop batch_recorder k v = some v1 ∧
        (v.error = 0 → v1.error = 0) ∧
        v1.reg = RTSX_PPBUF_BASE2 + 256 * (j0 + k) ∧ v1.ptr = 256 * (j0 + k) ∧
        v1.buf = v.buf ∧ v1.cmd = v.cmd ∧
        v1.remain = v.remain - 256 * (k : Int) ∧
        ISSET v1.sc.rtsx_flags RTSX_F_CARD_PRESENT = true ∧
        v1.sc.rtsx_res.log = v.sc.rtsx_res.log ++ bs ∧ bs.length = k ∧
        (∀ b ∈ bs, b.length = 256) ∧
        bs.flatten = (List.range (256 * k)).map fun i =>
          rtsx_cmd_word RTSX_WRITE_REG_CMD (RTSX_PPBUF_BASE2 + 256 * j0 + i) 0xff
            (v.buf (256 * j0 + i)) := by
  induction k with
  | zero =>
    intro v j0 hr hp _ hc
    exact ⟨v, [], rfl, fun h => h, hr, hp, rfl, rfl, by simp, hc, by simp, rfl,
      fun b hb => absurd hb (List.not_mem_nil b), rfl⟩
  | succ k ih =>
    intro v j0 hr hp hj hc
    obtain ⟨s1, r, e1, hq, h1, h2, h3, h4⟩ :=
      recorder_write_send v.sc v.cmd v.buf RTSX_HOSTCMD_MAX v.reg v.ptr hc (by decide)
    have es := rtsx_write_ppbuf_loop_step batch_recorder k v s1 r e1 hq h1
    obtain ⟨v1, bs, ev, g0, g1, gp, gb, g2, g3, g4, g5, g6, g7, g8⟩ := ih
      { sc := r.1, cmd := r.2.1, error := 0, buf := v.buf
        reg := (v.reg + RTSX_HOSTCMD_MAX) % 65536
        ptr := v.ptr + RTSX_HOSTCMD_MAX
        remain := v.remain - RTSX_HOSTCMD_MAX } (j0 + 1)
      (by simp only [hr, RTSX_PPBUF_BASE2, RTSX_HOSTCMD_MAX]; omega)
      (by simp only [hp, RTSX_HOSTCMD_MAX]; omega) (by omega)
      (by simp only; rw [h3]; exact hc)
    simp only at g1 gp gb g2 g3 g4 g5 g8
    refine ⟨v1, ((List.range RTSX_HOSTCMD_MAX).map fun i =>
      rtsx_cmd_word RTSX_WRITE_REG_CMD (v.reg + i) 0xff (v.buf (v.ptr + i))) :: bs,
      es.trans ev, fun _ => g0 rfl, by rw [g1]; omega, by rw [gp]; omega, gb, g2.trans h2, ?_,
      g4, ?_, by rw [List.length_cons, g6], ?_, ?_⟩
    · rw [g3]
      simp only [RTSX_HOSTCMD_MAX]
      push_cast
      omega
    · rw [g5, h4, List.append_assoc]
      rfl
    · intro b hb
      rcases List.mem_cons.mp hb with hb | hb
      · rw [hb, List.length_map, List.length_range]
        rfl
      · exact g7 b hb
    · rw [List.flatten_cons, g8, show 256 * (k + 1) = 256 + 256 * k by omega, map_range_add, hr, hp]
      simp only [RTSX_HOSTCMD_MAX]
      have e : (fun i => rtsx_cmd_word RTSX_WRITE_REG_CMD
            (RTSX_PPBUF_BASE2 + 256 * (j0 + 1) + i) 0xff (v.buf (256 * (j0 + 1) + i))) =
          fun i => rtsx_cmd_word RTSX_WRITE_REG_CMD
            (RTSX_PPBUF_BASE2 + 256 * j0 + (256 + i)) 0xff (v.buf (256 * j0 + (256 + i))) := by
        funext i
        rw [show RTSX_PPBUF_BASE2 + 256 * (j0 + 1) + i =
          RTSX_PPBUF_BASE2 + 256 * j0 + (256 + i) by omega,
          show 256 * (j0 + 1) + i = 256 * j0 + (256 + i) by omega]
      rw [e]


/-- The function `rtsx_read_ppbuf` on the recording chip, for 1 to 512 bytes and a card
present: it succeeds, and the batches it has the chip run number `⌈len / 256⌉`, hold at
most 256 micro-ops each, and together are the read micro-ops for the bytes `0 .. len - 1`
in increasing order. -/
theorem recorder_read_all (sc : rtsx_softc batch_log) (cmd : mmc_command) (d : mmc_data)
    (hd : cmd.data = some d) (h1 : 1 ≤ d.len) (h512 : d.len ≤ 512)
    (hc : ISSET sc.rtsx_flags RTSX_F_CARD_PRESENT = true) :
    ∃ r bs, rtsx_read_ppbuf batch_recorder sc cmd = some r ∧ r.2.2 = 0 ∧
      r.1.rtsx_res.log = sc.rtsx_res.log ++ bs ∧ bs.length = (d.len + 255) / 256 ∧
      (∀ b ∈ bs, b.length ≤ 256) ∧ bs.flatten = ppbuf_read_ops d.len := by
  have hk : d.len / RTSX_HOSTCMD_MAX ≤ 2 := by
    simp only [RTSX_HOSTCMD_MAX]
    omega
  obtain ⟨v, bs, ev, g0, g1, g2, g3, g4, g5, g6, g7, g8⟩ :=
    recorder_read_loop (d.len / RTSX_HOSTCMD_MAX)
      { sc := sc, cmd := cmd, buf := d.data, reg := RTSX_PPBUF_BASE2, ptr := 0,
        remain := int_of_size_t d.len, error := 0 } 0 rfl (by omega) hc
  have he : v.error = 0 := g0 rfl
  have hrem : v.remain = ((d.len % 256 : Nat) : Int) := by
    rw [g3]
    exact remain_after_batches d.len (by omega)
  have hdiv : 256 * (d.len / RTSX_HOSTCMD_MAX) + d.len % 256 = d.len := by
    simp only [RTSX_HOSTCMD_MAX]
    omega
  have hq256 : d.len / RTSX_HOSTCMD_MAX = d.len / 256 := rfl
  generalize hqe : d.len / RTSX_HOSTCMD_MAX = q at *
  simp only at g2 g5
  by_cases hp : v.remain > 0
  · have hpos : 0 < d.len % 256 := by
      rw [hrem] at hp
      omega
    obtain ⟨s1, r, e1, hq, r1, r2, r3, r4⟩ := recorder_read_send v.sc v.cmd v.remain.toNat
      v.reg g4 (by rw [hrem]; simp only [Int.toNat_ofNat]; omega)
    refine ⟨_, bs ++ [(List.range v.remain.toNat).map fun k =>
        rtsx_cmd_word RTSX_READ_REG_CMD (v.reg + k) 0 0],
      rtsx_read_ppbuf_tail batch_recorder sc cmd d v s1 r hd (by rw [hqe]; exact ev) he hp e1
        hq r1, rfl, ?_, ?_, ?_, ?_⟩
    · rw [r4, g5, List.append_assoc]
    · rw [List.length_append, g6, List.length_singleton]
      omega
    · intro b hb
      rcases List.mem_append.mp hb with hb | hb
      · exact Nat.le_of_eq (g7 b hb)
      · rw [List.mem_singleton.mp hb, List.length_map, List.length_range, hrem]
        simp only [Int.toNat_ofNat]
        omega
    · rw [List.flatten_append, g8, List.flatten_singleton, g1, hrem]
      simp only [Int.toNat_ofNat]
      unfold ppbuf_read_ops
      rw [show List.range d.len = List.range (256 * q + d.len % 256) by rw [hdiv],
        map_range_add]
      have e : (fun k => rtsx_cmd_word RTSX_READ_REG_CMD
            (RTSX_PPBUF_BASE2 + 256 * (0 + q) + k) 0 0) =
          fun i => rtsx_cmd_word RTSX_READ_REG_CMD (RTSX_PPBUF_BASE2 + (256 * q + i)) 0 0 := by
        funext i
        rw [show RTSX_PPBUF_BASE2 + 256 * (0 + q) + i = RTSX_PPBUF_BASE2 + (256 * q + i) by
          omega]
      have e0 : (fun i => rtsx_cmd_word RTSX_READ_REG_CMD
            (RTSX_PPBUF_BASE2 + 256 * 0 + i) 0 0) =
          fun k => rtsx_cmd_word RTSX_READ_REG_CMD (RTSX_PPBUF_BASE2 + k) 0 0 := by
        funext i
        rw [show RTSX_PPBUF_BASE2 + 256 * 0 + i = RTSX_PPBUF_BASE2 + i by omega]
      rw [e, e0]
  · have h0 : d.len % 256 = 0 := by
      rw [hrem] at hp
      omega
    refine ⟨_, bs,
      rtsx_read_ppbuf_notail batch_recorder sc cmd d v hd (by rw [hqe]; exact ev) he hp,
      rfl, g5, ?_, fun b hb => Nat.le_of_eq (g7 b hb), ?_⟩
    · rw [g6]
      omega
    · rw [g8]
      unfold ppbuf_read_ops
      rw [show 256 * q = d.len by omega]
      have e0 : (fun i => rtsx_cmd_word RTSX_READ_REG_CMD
            (RTSX_PPBUF_BASE2 + 256 * 0 + i) 0 0) =
          fun k => rtsx_cmd_word RTSX_READ_REG_CMD (RTSX_PPBUF_BASE2 + k) 0 0 := by
        funext i
        rw [show RTSX_PPBUF_BASE2 + 256 * 0 + i = RTSX_PPBUF_BASE2 + i by omega]
      rw [e0]

/-- The function `rtsx_write_ppbuf` on the recording chip, for 1 to 512 bytes and a card
present: it succeeds, and the batches it has the chip run number `⌈len / 256⌉`, hold at
most 256 micro-ops each, and together are the write micro-ops for the bytes `0 .. len - 1`
of the payload in increasing order. -/
theorem recorder_write_all (sc : rtsx_softc batch_log) (cmd : mmc_command) (d : mmc_data)
    (hd : cmd.data = some d) (h1 : 1 ≤ d.len) (h512 : d.len ≤ 512)
    (hc : ISSET sc.rtsx_flags RTSX_F_CARD_PRESENT = true) :
    ∃ r bs, rtsx_write_ppbuf batch_recorder sc cmd = some r ∧ r.2.2 = 0 ∧
      r.1.rtsx_res.log = sc.rtsx_res.log ++ bs ∧ bs.length = (d.len + 255) / 256 ∧
      (∀ b ∈ bs, b.length ≤ 256) ∧ bs.flatten = ppbuf_write_ops d.data d.len := by
  have hk : d.len / RTSX_HOSTCMD_MAX ≤ 2 := by
    simp only [RTSX_HOSTCMD_MAX]
    omega
  obtain ⟨v, bs, ev, g0, g1, gp, gb, g2, g3, g4, g5, g6, g7, g8⟩ :=
    recorder_write_loop (d.len / RTSX_HOSTCMD_MAX)
      { sc := sc, cmd := cmd, buf := d.data, reg := RTSX_PPBUF_BASE2, ptr := 0,
        remain := int_of_size_t d.len, error := 0 } 0 rfl rfl (by omega) hc
  have he : v.error = 0 := g0 rfl
  have hrem : v.remain = ((d.len % 256 : Nat) : Int) := by
    rw [g3]
    exact remain_after_batches d.len (by omega)
  have hdiv : 256 * (d.len / RTSX_HOSTCMD_MAX) + d.len % 256 = d.len := by
    simp only [RTSX_HOSTCMD_MAX]
    omega
  have hq256 : d.len / RTSX_HOSTCMD_MAX = d.len / 256 := rfl
  generalize hqe : d.len / RTSX_HOSTCMD_MAX = q at *
  simp only at gb g2 g5 g8
  by_cases hp : v.remain > 0
  · have hpos : 0 < d.len % 256 := by
      rw [hrem] at hp
      omega
    obtain ⟨s1, r, e1, hq, r1, r2, r3, r4⟩ := recorder_write_send v.sc v.cmd v.buf
      v.remain.toNat v.reg v.ptr g4 (by rw [hrem]; simp only [Int.toNat_ofNat]; omega)
    refine ⟨_, bs ++ [(List.range v.remain.toNat).map fun k =>
        rtsx_cmd_word RTSX_WRITE_REG_CMD (v.reg + k) 0xff (v.buf (v.ptr + k))],
      rtsx_write_ppbuf_tail batch_recorder sc cmd d v s1 r hd (by rw [hqe]; exact ev) he hp e1
        hq r1, rfl, ?_, ?_, ?_, ?_⟩
    · rw [r4, g5, List.append_assoc]
    · rw [List.length_append, g6, List.length_singleton]
      omega
    · intro b hb
      rcases List.mem_append.mp hb with hb | hb
      · exact Nat.le_of_eq (g7 b hb)
      · rw [List.mem_singleton.mp hb, List.length_map, List.length_range, hrem]
        simp only [Int.toNat_ofNat]
        omega
    · rw [List.flatten_append, g8, List.flatten_singleton, g1, gp, gb, hrem]
      simp only [Int.toNat_ofNat]
      unfold ppbuf_write_ops
      rw [show List.range d.len = List.range (256 * q + d.len % 256) by rw [hdiv],
        map_range_add]
      have e : (fun k => rtsx_cmd_word RTSX_WRITE_REG_CMD
            (RTSX_PPBUF_BASE2 + 256 * (0 + q) + k) 0xff (d.data (256 * (0 + q) + k))) =
          fun i => rtsx_cmd_word RTSX_WRITE_REG_CMD (RTSX_PPBUF_BASE2 + (256 * q + i)) 0xff
            (d.data (256 * q + i)) := by
        funext i
        rw [show RTSX_PPBUF_BASE2 + 256 * (0 + q) + i = RTSX_PPBUF_BASE2 + (256 * q + i) by
          omega, show 256 * (0 + q) + i = 256 * q + i by omega]
      have e0 : (fun i => rtsx_cmd_word RTSX_WRITE_REG_CMD
            (RTSX_PPBUF_BASE2 + 256 * 0 + i) 0xff (d.data (256 * 0 + i))) =
          fun k => rtsx_cmd_word RTSX_WRITE_REG_CMD (RTSX_PPBUF_BASE2 + k) 0xff (d.data k) := by
        funext i
        rw [show RTSX_PPBUF_BASE2 + 256 * 0 + i = RTSX_PPBUF_BASE2 + i by omega,
          show 256 * 0 + i = i by omega]
      rw [e, e0]
  · have h0 : d.len % 256 = 0 := by
      rw [hrem] at hp
      omega
    refine ⟨_, bs,
      rtsx_write_ppbuf_notail batch_recorder sc cmd d v hd (by rw [hqe]; exact ev) he hp,
      rfl, g5, ?_, fun b hb => Nat.le_of_eq (g7 b hb), ?_⟩
    · rw [g6]
      omega
    · rw [g8]
      unfold ppbuf_write_ops
      rw [show 256 * q = d.len by omega]
      have e0 : (fun i => rtsx_cmd_word RTSX_WRITE_REG_CMD
            (RTSX_PPBUF_BASE2 + 256 * 0 + i) 0xff (d.data (256 * 0 + i))) =
          fun k => rtsx_cmd_word RTSX_WRITE_REG_CMD (RTSX_PPBUF_BASE2 + k) 0xff (d.data k) := by
        funext i
        rw [show RTSX_PPBUF_BASE2 + 256 * 0 + i = RTSX_PPBUF_BASE2 + i by omega,
          show 256 * 0 + i = i by omega]
      rw [e0]


/-- C26: `rtsx_push_cmd` succeeds exactly when the descriptor index is below 256 (its
assertion), and from a state whose index is at most 256, on every machine:
`rtsx_send_req_get_resp` (any command) and `rtsx_xfer_short` (any command, both batches)
return, that is no push of theirs fails the assertion, with an index of at most 256
afterwards; so does `rtsx_xfer` for a command with data of non-zero length (and, for a
write, a stop command in the request); so do `rtsx_read_ppbuf` and `rtsx_write_ppbuf` for
any data length `L` with `1 ≤ L ≤ 512`. On the chip that records the batches it is told to
run, with a card present so that every batch succeeds, the two ping-pong helpers return
without error, the batches they add to the record number `⌈L / 256⌉`, each holds at most
256 micro-ops, and together they are exactly the `L` micro-ops addressed
`RTSX_PPBUF_BASE2 + k` for `k = 0 .. L - 1` in increasing order (read micro-ops, or write
micro-ops with mask 0xff and byte `k` of the payload). -/
theorem rtsx_descriptor_batches {W : Type} (M : machine W) (sc : rtsx_softc W)
    (cmd : mmc_command) (d : mmc_data) (hi : sc.rtsx_cmd_index ≤ 256)
    (hd : cmd.data = some d) (h1 : 1 ≤ d.len) (h512 : d.len ≤ 512) :
    (∀ (s : rtsx_softc W) (c reg mask data : Nat),
      (rtsx_push_cmd s c reg mask data).isSome = true ↔ s.rtsx_cmd_index < 256) ∧
    (∀ c : mmc_command, ∃ r, rtsx_send_req_get_resp M sc c = some r ∧
      r.1.rtsx_cmd_index ≤ 256) ∧
    (∀ c : mmc_command, ∃ r, rtsx_xfer_short M sc c = some r ∧ r.1.rtsx_cmd_index ≤ 256) ∧
    (∀ (c : mmc_command) (d0 : mmc_data), c.data = some d0 → d0.len ≠ 0 →
      (ISSET d0.flags MMC_DATA_READ = false → stop_set sc = true) →
      ∃ r, rtsx_xfer M sc c = some r ∧ r.1.rtsx_cmd_index ≤ 256) ∧
    (∃ r, rtsx_read_ppbuf M sc cmd = some r ∧ r.1.rtsx_cmd_index ≤ 256) ∧
    (∃ r, rtsx_write_ppbuf M sc cmd = some r ∧ r.1.rtsx_cmd_index ≤ 256) ∧
    (∀ s : rtsx_softc batch_log, ISSET s.rtsx_flags RTSX_F_CARD_PRESENT = true →
      (∃ r bs, rtsx_read_ppbuf batch_recorder s cmd = some r ∧ r.2.2 = 0 ∧
        r.1.rtsx_res.log = s.rtsx_res.log ++ bs ∧ bs.length = (d.len + 255) / 256 ∧
        (∀ b ∈ bs, b.length ≤ 256) ∧ bs.flatten = ppbuf_read_ops d.len) ∧
      (∃ r bs, rtsx_write_ppbuf batch_recorder s cmd = some r ∧ r.2.2 = 0 ∧
        r.1.rtsx_res.log = s.rtsx_res.log ++ bs ∧ bs.length = (d.len + 255) / 256 ∧
        (∀ b ∈ bs, b.length ≤ 256) ∧ bs.flatten = ppbuf_write_ops d.data d.len)) := by
  refine ⟨?_, ?_, ?_, ?_, ?_, ?_, ?_⟩
  · intro s c reg mask data
    unfold rtsx_push_cmd
    by_cases h : s.rtsx_cmd_index < RTSX_HOSTCMD_MAX
    · rw [if_pos h]
      exact ⟨fun _ => h, fun _ => rfl⟩
    · rw [if_neg h]
      exact ⟨fun e => absurd e (by simp), fun e => absurd e h⟩
  · intro c
    obtain ⟨r, e, -⟩ := rtsx_send_req_get_resp_runs M sc c
    exact ⟨r, e, (rtsx_send_req_get_resp_steady M e).2 hi⟩
  · intro c
    obtain ⟨r, e, -⟩ := rtsx_xfer_short_runs M sc c
    exact ⟨r, e, (rtsx_xfer_short_steady M e).2 hi⟩
  · intro c d0 hc hl hs
    obtain ⟨r, e, -⟩ := rtsx_xfer_runs M sc c d0 hc hl hs
    exact ⟨r, e, (rtsx_xfer_steady M e).2 hi⟩
  · obtain ⟨r, e, -⟩ := rtsx_read_ppbuf_runs M sc cmd d hd (by omega)
    exact ⟨r, e, (rtsx_read_ppbuf_steady M e).2 hi⟩
  · obtain ⟨r, e, -⟩ := rtsx_write_ppbuf_runs M sc cmd d hd (by omega)
    exact ⟨r, e, (rtsx_write_ppbuf_steady M e).2 hi⟩
  · intro s hc
    exact ⟨recorder_read_all s cmd d hd h1 h512 hc, recorder_write_all s cmd d hd h1 h512 hc⟩

/-- Witness of C26: a transfer of 300 bytes from the idle controller. On the recording chip
the read helper runs two batches with the read micro-ops for the bytes 0 .. 299, the write
helper two batches with the write micro-ops for the 300 bytes of the payload. -/
theorem rtsx_descriptor_batches_witness :
    ((idle_softc ()).rtsx_cmd_index ≤ 256 ∧
      (write_cmd 300 ppbuf_payload).data =
        some { len := 300, xfer_len := 0, data := ppbuf_payload, flags := 0 } ∧
      1 ≤ 300 ∧ 300 ≤ 512 ∧
      ISSET (idle_softc batch_log0).rtsx_flags RTSX_F_CARD_PRESENT = true) ∧
    (∃ r bs, rtsx_read_ppbuf batch_recorder (idle_softc batch_log0)
        (write_cmd 300 ppbuf_payload) = some r ∧ r.2.2 = 0 ∧
      r.1.rtsx_res.log = (idle_softc batch_log0).rtsx_res.log ++ bs ∧
      bs.length = (300 + 255) / 256 ∧
      (∀ b ∈ bs, b.length ≤ 256) ∧ bs.flatten = ppbuf_read_ops 300) ∧
    (∃ r bs, rtsx_write_ppbuf batch_recorder (idle_softc batch_log0)
        (write_cmd 300 ppbuf_payload) = some r ∧ r.2.2 = 0 ∧
      r.1.rtsx_res.log = (idle_softc batch_log0).rtsx_res.log ++ bs ∧
      bs.length = (300 + 255) / 256 ∧
      (∀ b ∈ bs, b.length ≤ 256) ∧ bs.flatten = ppbuf_write_ops ppbuf_payload 300) :=
  ⟨⟨by decide, rfl, by decide, by decide, by decide⟩,
    (rtsx_descriptor_batches silent_machine (idle_softc ()) (write_cmd 300 ppbuf_payload)
      { len := 300, xfer_len := 0, data := ppbuf_payload, flags := 0 }
      (by decide) rfl (by decide) (by decide)).2.2.2.2.2.2 (idle_softc batch_log0) (by decide)⟩

-- ---------------------------------------------------------------------------
-- C5, amended: the register accesses of a request rejected as InvalidArgument
-- ---------------------------------------------------------------------------

/-- The poll loop of `rtsx_write` adds reads of `RTSX_HAIMR` to the trace, at least one
when it is entered with tries left and at most as many as there are tries, and keeps the
request slot. -/
theorem rtsx_write_loop_access {W : Type} (M : machine W) (val n : Nat) :
    ∀ sc : rtsx_softc W, ∃ p, (rtsx_write_loop M val n sc).1.trace = sc.trace ++ p ∧
      (0 < n → 1 ≤ p.length) ∧ p.length ≤ n ∧
      (∀ e ∈ p, ∃ v, e = event.read4 RTSX_HAIMR v) ∧
      (rtsx_write_loop M val n sc).1.rtsx_req = sc.rtsx_req := by
  induction n with
  | zero =>
    intro sc
    exact ⟨[], by simp [rtsx_write_loop], fun h => absurd h (by decide), Nat.le_refl _,
      fun e he => absurd he (List.not_mem_nil e), rfl⟩
  | succ n ih =>
    intro sc
    have hone : ∀ s : rtsx_softc W, s = (READ4 M sc RTSX_HAIMR).1 →
        ∃ p, s.trace = sc.trace ++ p ∧ (0 < n + 1 → 1 ≤ p.length) ∧ p.length ≤ n + 1 ∧
          (∀ e ∈ p, ∃ v, e = event.read4 RTSX_HAIMR v) ∧ s.rtsx_req = sc.rtsx_req := by
      intro s hs
      subst hs
      refine ⟨[event.read4 RTSX_HAIMR ((M.read4 sc.rtsx_res RTSX_HAIMR).1 % 2 ^ 32)], rfl,
        fun _ => Nat.le_refl _, by simp, ?_, rfl⟩
      intro e he
      exact ⟨_, List.mem_singleton.mp he⟩
    rw [rtsx_write_loop]
    split
    · split
      · exact hone _ rfl
      · exact hone _ rfl
    · obtain ⟨p, e1, -, e3, e4, e5⟩ := ih (READ4 M sc RTSX_HAIMR).1
      refine ⟨event.read4 RTSX_HAIMR ((M.read4 sc.rtsx_res RTSX_HAIMR).1 % 2 ^ 32) :: p, ?_,
        fun _ => by simp, by simp only [List.length_cons]; omega, ?_, e5⟩
      · rw [e1]
        simp [READ4]
      · intro e he
        rcases List.mem_cons.mp he with h | h
        · exact ⟨_, h⟩
        · exact e4 e h

/-- The poll loop of `rtsx_read` adds reads of `RTSX_HAIMR` to the trace, at least one
when it is entered with tries left and at most as many as there are tries, and keeps the
request slot. -/
theorem rtsx_read_loop_access {W : Type} (M : machine W) (n : Nat) :
    ∀ (sc : rtsx_softc W) (reg : Nat),
      ∃ p, (rtsx_read_loop M n sc reg).1.trace = sc.trace ++ p ∧
        (0 < n → 1 ≤ p.length) ∧ p.length ≤ n ∧
        (∀ e ∈ p, ∃ v, e = event.read4 RTSX_HAIMR v) ∧
        (rtsx_read_loop M n sc reg).1.rtsx_req = sc.rtsx_req := by
  induction n with
  | zero =>
    intro sc reg
    exact ⟨[], by simp [rtsx_read_loop], fun h => absurd h (by decide), Nat.le_refl _,
      fun e he => absurd he (List.not_mem_nil e), rfl⟩
  | succ n ih =>
    intro sc reg
    rw [rtsx_read_loop]
    split
    · refine ⟨[event.read4 RTSX_HAIMR ((M.read4 sc.rtsx_res RTSX_HAIMR).1 % 2 ^ 32)], rfl,
        fun _ => Nat.le_refl _, by simp, ?_, rfl⟩
      intro e he
      exact ⟨_, List.mem_singleton.mp he⟩
    · obtain ⟨p, e1, -, e3, e4, e5⟩ := ih (READ4 M sc RTSX_HAIMR).1 (READ4 M sc RTSX_HAIMR).2
      refine ⟨event.read4 RTSX_HAIMR ((M.read4 sc.rtsx_res RTSX_HAIMR).1 % 2 ^ 32) :: p, ?_,
        fun _ => by simp, by simp only [List.length_cons]; omega, ?_, e5⟩
      · rw [e1]
        simp [READ4]
      · intro e he
        rcases List.mem_cons.mp he with h | h
        · exact ⟨_, h⟩
        · exact e4 e h

/-- The call `rtsx_write` is one write access through `RTSX_HAIMR`. -/
theorem rtsx_write_access {W : Type} (M : machine W) (sc : rtsx_softc W) (addr mask val : Nat) :
    ∃ a, (rtsx_write M sc addr mask val).1.trace = sc.trace ++ a ∧
      haimr_access (rtsx_cmd_word 3 addr mask val) a ∧
      (rtsx_write M sc addr mask val).1.rtsx_req = sc.rtsx_req := by
  obtain ⟨p, e1, e2, e3, e4, e5⟩ := rtsx_write_loop_access M val 1024
    (WRITE4 M sc RTSX_HAIMR
      (RTSX_HAIMR_BUSY ||| RTSX_HAIMR_WRITE |||
        ((((addr % 65536) &&& 0x3FFF) <<< 16) ||| ((mask % 256) <<< 8) ||| (val % 256))))
  refine ⟨event.write4 RTSX_HAIMR (rtsx_cmd_word 3 addr mask val) :: p, ?_,
    ⟨p, rfl, e2 (by decide), e3, e4⟩, e5⟩
  show (rtsx_write_loop M val 1024 _).1.trace = _
  rw [e1, ← haimr_write_word]
  simp [WRITE4]

/-- The call `rtsx_read` is one read access through `RTSX_HAIMR`: the request word holds
the busy bit and the 14-bit register address. -/
theorem rtsx_read_access {W : Type} (M : machine W) (sc : rtsx_softc W) (addr : Nat) :
    ∃ a, (rtsx_read M sc addr).1.trace = sc.trace ++ a ∧
      haimr_access ((RTSX_HAIMR_BUSY ||| (((addr % 65536) &&& 0x3FFF) <<< 16)) % 2 ^ 32) a ∧
      (rtsx_read M sc addr).1.rtsx_req = sc.rtsx_req := by
  obtain ⟨p, e1, e2, e3, e4, e5⟩ := rtsx_read_loop_access M 1024
    (WRITE4 M sc RTSX_HAIMR (RTSX_HAIMR_BUSY ||| (((addr % 65536) &&& 0x3FFF) <<< 16))) 0
  refine ⟨event.write4 RTSX_HAIMR
    ((RTSX_HAIMR_BUSY ||| (((addr % 65536) &&& 0x3FFF) <<< 16)) % 2 ^ 32) :: p, ?_,
    ⟨p, rfl, e2 (by decide), e3, e4⟩, e5⟩
  show (rtsx_read_loop M 1024 _ 0).1.trace = _
  rw [e1]
  simp [WRITE4]

/-- The events of `rtsx_soft_reset` are the two stop writes and the three write accesses of
`soft_reset_events`; the request slot is kept. -/
theorem rtsx_soft_reset_access {W : Type} (M : machine W) (sc : rtsx_softc W) :
    ∃ r, (rtsx_soft_reset M sc).trace = sc.trace ++ r ∧ soft_reset_events r := by
  obtain ⟨a1, e1, h1, -⟩ := rtsx_write_access M
    (WRITE4 M (WRITE4 M sc RTSX_HCBCTLR RTSX_STOP_CMD) RTSX_HDBCTLR RTSX_STOP_DMA)
    RTSX_DMACTL RTSX_DMA_RST RTSX_DMA_RST
  obtain ⟨a2, e2, h2, -⟩ := rtsx_write_access M
    (rtsx_write M (WRITE4 M (WRITE4 M sc RTSX_HCBCTLR RTSX_STOP_CMD) RTSX_HDBCTLR RTSX_STOP_DMA)
      RTSX_DMACTL RTSX_DMA_RST RTSX_DMA_RST).1 RTSX_RBCTL RTSX_RB_FLUSH RTSX_RB_FLUSH
  obtain ⟨a3, e3, h3, -⟩ := rtsx_write_access M
    (rtsx_write M (rtsx_write M (WRITE4 M (WRITE4 M sc RTSX_HCBCTLR RTSX_STOP_CMD)
      RTSX_HDBCTLR RTSX_STOP_DMA) RTSX_DMACTL RTSX_DMA_RST RTSX_DMA_RST).1
      RTSX_RBCTL RTSX_RB_FLUSH RTSX_RB_FLUSH).1
    RTSX_CARD_STOP (RTSX_SD_STOP ||| RTSX_SD_CLR_ERR) (RTSX_SD_STOP ||| RTSX_SD_CLR_ERR)
  refine ⟨_, ?_, a1, a2, a3, rfl, h1, h2, h3⟩
  show (rtsx_write M _ RTSX_CARD_STOP _ _).1.trace = _
  rw [e3, e2, e1]
  have hw : (WRITE4 M (WRITE4 M sc RTSX_HCBCTLR RTSX_STOP_CMD) RTSX_HDBCTLR
      RTSX_STOP_DMA).trace =
      sc.trace ++ [event.write4 RTSX_HCBCTLR RTSX_STOP_CMD,
        event.write4 RTSX_HDBCTLR RTSX_STOP_DMA] := by
    simp [WRITE4]
    decide
  rw [hw]
  simp only [List.append_assoc]

/-- A command with data of at most 512 bytes and a response shape that is no row of the
table is rejected by `rtsx_xfer_short` (line 1842 for a zero length, else lines
1864-1869), with the controller state as it was. -/
theorem rtsx_xfer_short_reject_shape {W : Type} (M : machine W) (sc : rtsx_softc W)
    (cmd : mmc_command) (d : mmc_data) (hd : cmd.data = some d) (hl : d.len ≤ 512)
    (hr : rtsx_response_type (cmd.flags &&& MMC_RSP_MASK) = 0) :
    ∃ c, rtsx_xfer_short M sc cmd = some (sc, c, MMC_ERR_INVALID) ∧
      c.error = MMC_ERR_INVALID := by
  unfold rtsx_xfer_short
  rw [hd]
  simp only
  by_cases h0 : d.len = 0
  · rw [if_pos h0]
    exact ⟨_, rfl, rfl⟩
  · have hlen : ¬ (rtsx_default_xfer_len d).len > 512 := by
      rw [(rtsx_default_xfer_len_spec d).1]
      omega
    rw [if_neg h0, if_neg hlen, if_pos hr]
    exact ⟨_, rfl, rfl⟩

/-- A write command with data that fits the bulk buffer and a response shape that is no row
of the table is rejected by `rtsx_xfer` through `rtsx_send_req_get_resp` (lines
2062-2065), with the controller state as it was. -/
theorem rtsx_xfer_reject_shape {W : Type} (M : machine W) (sc : rtsx_softc W)
    (cmd : mmc_command) (d : mmc_data) (hd : cmd.data = some d)
    (hl : ¬ RTSX_DMA_DATA_BUFSIZE M < d.len) (hw : ISSET d.flags MMC_DATA_READ = false)
    (hr : rtsx_response_type (cmd.flags &&& MMC_RSP_MASK) = 0) :
    ∃ c, rtsx_xfer M sc cmd = some (sc, c, MMC_ERR_INVALID) ∧ c.error = MMC_ERR_INVALID := by
  have hlen : ¬ (rtsx_default_xfer_len d).len > RTSX_DMA_DATA_BUFSIZE M := by
    rw [(rtsx_default_xfer_len_spec d).1]
    exact hl
  have hrej := rtsx_send_req_get_resp_reject M sc
    { cmd with data := some (rtsx_default_xfer_len d) } hr
  unfold rtsx_xfer
  rw [hd]
  simp only [hlen, if_false, hw, Bool.false_eq_true, hrej, Option.some_bind]
  have hne : MMC_ERR_INVALID ≠ 0 := by decide
  simp only [ne_eq, hne, not_false_eq_true, if_true]
  exact ⟨_, rfl, rfl⟩

/-- After a transfer rejected as `MMC_ERR_INVALID` the check of lines 2523-2539 reads
`RTSX_SD_STAT1` once; the return value stays `MMC_ERR_INVALID`, and the error of the
command stays or becomes `MMC_ERR_BADCRC`. -/
theorem rtsx_mmcbr_request_crc_invalid {W : Type} (M : machine W) (sc : rtsx_softc W)
    (c : mmc_command) (hc : c.error = MMC_ERR_INVALID) :
    (rtsx_mmcbr_request_crc M (sc, c, MMC_ERR_INVALID)).1 = (rtsx_read M sc RTSX_SD_STAT1).1 ∧
    (rtsx_mmcbr_request_crc M (sc, c, MMC_ERR_INVALID)).2.2 = MMC_ERR_INVALID ∧
    ((rtsx_mmcbr_request_crc M (sc, c, MMC_ERR_INVALID)).2.1.error = MMC_ERR_INVALID ∨
      (rtsx_mmcbr_request_crc M (sc, c, MMC_ERR_INVALID)).2.1.error = MMC_ERR_BADCRC) := by
  unfold rtsx_mmcbr_request_crc
  simp only
  rw [if_pos (by decide)]
  split
  · exact ⟨rfl, rfl, Or.inr rfl⟩
  · exact ⟨rfl, rfl, Or.inl hc⟩

/-- The completion of a request whose body returned with an error in the command: the
events after the body are those of a soft reset and then the callback, with the error of
the command. -/
theorem rtsx_req_done_reset {W : Type} (M : machine W) (s : rtsx_softc W) (c : mmc_command)
    (rq : mmc_request) (hrq : s.rtsx_req = some rq) (he : c.error ≠ MMC_ERR_NONE) :
    ∃ sd r, rtsx_req_done M (rtsx_req_cmd_alias s c) = some (sd, { rq with cmd := c }) ∧
      sd.trace = s.trace ++ r ++ [event.done false c.error] ∧ soft_reset_events r := by
  have hal : (rtsx_req_cmd_alias s c).rtsx_req = some { rq with cmd := c } := by
    simp [rtsx_req_cmd_alias, hrq]
  obtain ⟨sd, t, ed, -, etd, -, -, hsr⟩ := rtsx_req_done_spec M _ _ hal
  obtain ⟨r, er, hr⟩ := rtsx_soft_reset_access M (rtsx_req_cmd_alias s c)
  have ht : t = r := List.append_cancel_left ((hsr he).trans er)
  have hs : (rtsx_req_cmd_alias s c).trace = s.trace := rfl
  refine ⟨sd, r, ed, ?_, hr⟩
  rw [etd, ht, hs]

/-- C5 amended: a request submitted with a card present and no request outstanding that
ends as `MMC_ERR_INVALID` is rejected without any register access, but its completion
accesses the hardware before the callback. The rejected requests are: CMD5 on a chip
without SDIO support, whatever its shape and length (lines 2511-2516); a request without
data whose response shape is no row of the table; a request with data of at most 512 bytes
whose shape is no row of the table; a request with data longer than 512 bytes and than
the bulk buffer; a write request with data longer than 512 bytes whose shape is no row of
the table. For the first two the events of the call are those of a soft reset (the writes
of `RTSX_STOP_CMD` to `RTSX_HCBCTLR` and of `RTSX_STOP_DMA` to `RTSX_HDBCTLR`, then three
write accesses through `RTSX_HAIMR`, each the write of the request followed by 1 to 1024
polls) and then the callback with `MMC_ERR_INVALID`. For the other three, rejected on the
data path, they are one read access of `RTSX_SD_STAT1` through `RTSX_HAIMR` (the write of
the request followed by 1 to 1024 polls), then the same soft reset, then the callback,
with `MMC_ERR_INVALID` or, when the status read shows a CRC error, `MMC_ERR_BADCRC`. -/
theorem rtsx_mmcbr_request_invalid_trace {W : Type} (M : machine W) (sc : rtsx_softc W)
    (req : mmc_request) (hidle : sc.rtsx_req = none)
    (hcard : ISSET sc.rtsx_flags RTSX_F_CARD_PRESENT = true) :
    ((req.cmd.opcode = IO_SEND_OP_COND ∧ ISSET sc.rtsx_flags RTSX_F_SDIO_SUPPORT = false) ∨
      (req.cmd.data = none ∧ ∀ row ∈ rsp_types, req.cmd.flags &&& MMC_RSP_MASK ≠ row.1) →
      ∃ sc1 req1 r, rtsx_mmcbr_request M sc req = some (sc1, req1, MMC_ERR_INVALID) ∧
        req1.cmd.error = MMC_ERR_INVALID ∧
        sc1.trace = sc.trace ++ r ++ [event.done false MMC_ERR_INVALID] ∧
        soft_reset_events r) ∧
    (¬(req.cmd.opcode = IO_SEND_OP_COND ∧ ISSET sc.rtsx_flags RTSX_F_SDIO_SUPPORT = false) →
      ∀ d, req.cmd.data = some d →
        (d.len ≤ 512 ∧ ∀ row ∈ rsp_types, req.cmd.flags &&& MMC_RSP_MASK ≠ row.1) ∨
        (512 < d.len ∧ RTSX_DMA_DATA_BUFSIZE M < d.len) ∨
        (512 < d.len ∧ ISSET d.flags MMC_DATA_READ = false ∧
          ∀ row ∈ rsp_types, req.cmd.flags &&& MMC_RSP_MASK ≠ row.1) →
      ∃ sc1 req1 a r e, rtsx_mmcbr_request M sc req = some (sc1, req1, MMC_ERR_INVALID) ∧
        req1.cmd.error = e ∧ (e = MMC_ERR_INVALID ∨ e = MMC_ERR_BADCRC) ∧
        sc1.trace = sc.trace ++ a ++ r ++ [event.done false e] ∧
        haimr_access (RTSX_HAIMR_BUSY ||| (RTSX_SD_STAT1 % 16384 * 65536)) a ∧
        soft_reset_events r) := by
  generalize hc0 : ({ req.cmd with error := MMC_ERR_NONE } : mmc_command) = c0
  have hc0d : c0.data = req.cmd.data := by rw [← hc0]
  have hc0f : c0.flags = req.cmd.flags := by rw [← hc0]
  have hc0o : c0.opcode = req.cmd.opcode := by rw [← hc0]
  generalize hacc : ({ RTSX_LOCK sc with
      rtsx_req := some { req with cmd := c0 }
      rtsx_intr_status := 0 } : rtsx_softc W) = sa
  have hat : sa.trace = sc.trace := by rw [← hacc]; rfl
  have har : sa.rtsx_req = some { req with cmd := c0 } := by rw [← hacc]
  have haf : sa.rtsx_flags = sc.rtsx_flags := by rw [← hacc]; rfl
  have hi : (RTSX_LOCK sc).rtsx_req.isSome = false := by simp [RTSX_LOCK, hidle]
  have hreq : rtsx_mmcbr_request M sc req =
      (rtsx_mmcbr_request_body M sa c0).bind fun r =>
        (rtsx_req_done M (rtsx_req_cmd_alias r.1 r.2.1)).bind fun dn =>
          some (RTSX_UNLOCK dn.1, dn.2, r.2.2) := by
    simp only [rtsx_mmcbr_request, hi, Bool.false_eq_true, if_false, hc0, hacc]
  have hshape : (∀ row ∈ rsp_types, req.cmd.flags &&& MMC_RSP_MASK ≠ row.1) →
      rtsx_response_type (c0.flags &&& MMC_RSP_MASK) = 0 := fun h =>
    rtsx_response_type_unknown _ (rsp_mask_lt c0.flags) (by rw [hc0f]; exact h)
  have hinv : MMC_ERR_INVALID ≠ MMC_ERR_NONE := by decide
  constructor
  · intro hcase
    have hbody : rtsx_mmcbr_request_body M sa c0 =
        some (sa, { c0 with error := MMC_ERR_INVALID }, MMC_ERR_INVALID) := by
      by_cases hsd : c0.opcode = IO_SEND_OP_COND ∧
          (!ISSET sc.rtsx_flags RTSX_F_SDIO_SUPPORT) = true
      · simp only [rtsx_mmcbr_request_body, haf, hcard, Bool.not_true, Bool.false_eq_true,
          if_false, hsd, and_self, if_true]
      · rcases hcase with href | ⟨hnone, hun⟩
        · exact absurd ⟨hc0o.trans href.1, by rw [href.2]; rfl⟩ hsd
        · have := rtsx_send_req_get_resp_reject M sa c0 (hshape hun)
          have hd0 : c0.data = none := by rw [hc0d, hnone]
          simp only [rtsx_mmcbr_request_body, haf, hcard, Bool.not_true, Bool.false_eq_true,
            if_false, hsd]
          rw [hd0] at this ⊢
          exact this
    obtain ⟨sd, r, ed, etd, hr⟩ := rtsx_req_done_reset M sa { c0 with error := MMC_ERR_INVALID }
      _ har hinv
    refine ⟨RTSX_UNLOCK sd, { cmd := { c0 with error := MMC_ERR_INVALID }, stop := req.stop },
      r, ?_, ?_, ?_, hr⟩
    · rw [hreq, hbody]
      simp only [Option.some_bind, ed]
    · rfl
    · show sd.trace = _
      rw [etd, hat]
  · intro hnr d hd hcase
    have hsd : ¬(c0.opcode = IO_SEND_OP_COND ∧
        (!ISSET sc.rtsx_flags RTSX_F_SDIO_SUPPORT) = true) := by
      rw [hc0o]
      simpa using hnr
    have hd0 : c0.data = some d := by rw [hc0d, hd]
    have hx : ∃ c, c.error = MMC_ERR_INVALID ∧
        rtsx_mmcbr_request_body M sa c0 =
          some (rtsx_mmcbr_request_crc M (sa, c, MMC_ERR_INVALID)) := by
      by_cases hl : d.len ≤ 512
      · have hun : ∀ row ∈ rsp_types, req.cmd.flags &&& MMC_RSP_MASK ≠ row.1 := by
          rcases hcase with h | h | h
          · exact h.2
          · omega
          · omega
        obtain ⟨c, ec, hce⟩ := rtsx_xfer_short_reject_shape M sa c0 d hd0 hl (hshape hun)
        refine ⟨c, hce, ?_⟩
        simp only [rtsx_mmcbr_request_body, haf, hcard, Bool.not_true, Bool.false_eq_true,
          if_false, hsd]
        rw [hd0]
        simp only [hl, if_true, ec, Option.map_some']
      · have hxf : ∃ c, rtsx_xfer M sa c0 = some (sa, c, MMC_ERR_INVALID) ∧
            c.error = MMC_ERR_INVALID := by
          by_cases hbig : RTSX_DMA_DATA_BUFSIZE M < d.len
          · exact ⟨_, rtsx_xfer_reject_bulk M sa c0 d hd0 hbig, rfl⟩
          · rcases hcase with h | h | h
            · omega
            · exact absurd h.2 hbig
            · exact rtsx_xfer_reject_shape M sa c0 d hd0 hbig h.2.1 (hshape h.2.2)
        obtain ⟨c, ec, hce⟩ := hxf
        refine ⟨c, hce, ?_⟩
        simp only [rtsx_mmcbr_request_body, haf, hcard, Bool.not_true, Bool.false_eq_true,
          if_false, hsd]
        rw [hd0]
        simp only [hl, if_false, ec, Option.map_some']
    obtain ⟨c, hce, hbody⟩ := hx
    obtain ⟨k1, k2, k3⟩ := rtsx_mmcbr_request_crc_invalid M sa c hce
    generalize rtsx_mmcbr_request_crc M (sa, c, MMC_ERR_INVALID) = rc at hbody k1 k2 k3
    obtain ⟨a, ea, ha, hrq⟩ := rtsx_read_access M sa RTSX_SD_STAT1
    have hv : (RTSX_HAIMR_BUSY ||| (((RTSX_SD_STAT1 % 65536) &&& 0x3FFF) <<< 16)) % 2 ^ 32 =
        RTSX_HAIMR_BUSY ||| (RTSX_SD_STAT1 % 16384 * 65536) := by decide
    rw [hv] at ha
    have hne : rc.2.1.error ≠ MMC_ERR_NONE := by
      rcases k3 with h | h
      · rw [h]
        decide
      · rw [h]
        decide
    obtain ⟨sd, r, ed, etd, hr⟩ := rtsx_req_done_reset M rc.1 rc.2.1 { req with cmd := c0 }
      (by rw [k1, hrq, har]) hne
    refine ⟨RTSX_UNLOCK sd, { cmd := rc.2.1, stop := req.stop }, a, r, rc.2.1.error, ?_, ?_,
      k3, ?_, ha, hr⟩
    · rw [hreq, hbody]
      simp only [Option.some_bind, ed, k2]
    · rfl
    · show sd.trace = _
      rw [etd, k1, ea, hat]

/-- Witness of C5 amended, on the idle controller with a card present and no SDIO support:
CMD5, CMD2 with the unknown response flags 0x03 and no data, a read of 64 bytes with the
unknown response flags 0x03, and a write of capacity + 1 bytes. -/
theorem rtsx_mmcbr_request_invalid_trace_witness :
    (∃ sc1 req1 r,
      rtsx_mmcbr_request silent_machine (idle_softc ())
        { cmd := plain_cmd 5 0 MMC_RSP_R4, stop := none } = some (sc1, req1, MMC_ERR_INVALID) ∧
      req1.cmd.error = MMC_ERR_INVALID ∧
      sc1.trace = (idle_softc ()).trace ++ r ++ [event.done false MMC_ERR_INVALID] ∧
      soft_reset_events r) ∧
    (∃ sc1 req1 r,
      rtsx_mmcbr_request silent_machine (idle_softc ())
        { cmd := plain_cmd 2 0 0x03, stop := none } = some (sc1, req1, MMC_ERR_INVALID) ∧
      req1.cmd.error = MMC_ERR_INVALID ∧
      sc1.trace = (idle_softc ()).trace ++ r ++ [event.done false MMC_ERR_INVALID] ∧
      soft_reset_events r) ∧
    (∃ sc1 req1 a r e,
      rtsx_mmcbr_request silent_machine (idle_softc ())
        { cmd := data_cmd 17 0x03 64 0 MMC_DATA_READ, stop := none } =
        some (sc1, req1, MMC_ERR_INVALID) ∧
      req1.cmd.error = e ∧ (e = MMC_ERR_INVALID ∨ e = MMC_ERR_BADCRC) ∧
      sc1.trace = (idle_softc ()).trace ++ a ++ r ++ [event.done false e] ∧
      haimr_access (RTSX_HAIMR_BUSY ||| (RTSX_SD_STAT1 % 16384 * 65536)) a ∧
      soft_reset_events r) ∧
    (∃ sc1 req1 a r e,
      rtsx_mmcbr_request silent_machine (idle_softc ())
        { cmd := data_cmd 25 MMC_RSP_R1 131073 0 0, stop := none } =
        some (sc1, req1, MMC_ERR_INVALID) ∧
      req1.cmd.error = e ∧ (e = MMC_ERR_INVALID ∨ e = MMC_ERR_BADCRC) ∧
      sc1.trace = (idle_softc ()).trace ++ a ++ r ++ [event.done false e] ∧
      haimr_access (RTSX_HAIMR_BUSY ||| (RTSX_SD_STAT1 % 16384 * 65536)) a ∧
      soft_reset_events r) :=
  ⟨(rtsx_mmcbr_request_invalid_trace silent_machine (idle_softc ())
      { cmd := plain_cmd 5 0 MMC_RSP_R4, stop := none } rfl (by decide)).1
      (Or.inl (by decide)),
    (rtsx_mmcbr_request_invalid_trace silent_machine (idle_softc ())
      { cmd := plain_cmd 2 0 0x03, stop := none } rfl (by decide)).1
      (Or.inr ⟨rfl, by decide⟩),
    (rtsx_mmcbr_request_invalid_trace silent_machine (idle_softc ())
      { cmd := data_cmd 17 0x03 64 0 MMC_DATA_READ, stop := none } rfl (by decide)).2
      (by decide) { len := 64, xfer_len := 0, data := fun _ => 0, flags := MMC_DATA_READ } rfl
      (Or.inl ⟨by decide, by decide⟩),
    (rtsx_mmcbr_request_invalid_trace silent_machine (idle_softc ())
      { cmd := data_cmd 25 MMC_RSP_R1 131073 0 0, stop := none } rfl (by decide)).2
      (by decide) { len := 131073, xfer_len := 0, data := fun _ => 0, flags := 0 } rfl
      (Or.inr (Or.inl ⟨by decide, by decide⟩))⟩

end Rtsx
